import Mathlib

/-! # Gaze behaviour engine: embedding and verification

Shallow embedding of `gcs/js/gaze-mechanics.js`, `gcs/js/gaze-behaviors.js`,
`gcs/js/gaze-controller.js`, the message handlers of `gcs/js/messaging.js`, and
`parseCsvLine`, `shuffleArray` and `prepareRoundQuestions` of `sortingGame/js`.

Conventions of the embedding.

* JavaScript numbers are exact rationals (`ℚ`); `null` coordinates are `none`.
* A handler (one `updateGaze` tick, one `apply`, one constructor, one key event)
  runs to completion; the value of `Date.now()` during that run is the parameter
  `now` of the corresponding definition.
* `Math.random()` is a stream of draws `Rng`; every call consumes the head.
* The DOM is reduced to what the code reads from it: the presence of the two pupil
  elements and the state of the toggles (`none` when the element is missing).
* `console.log` output and the status text written by `updateGazeStatus` are not
  part of the state.
-/

namespace Gaze

/-! ## Environment -/

/-- Stream of `Math.random()` results, each in `[0,1)`. -/
abbrev Rng := ℕ → ℚ

/-- Stream left after one `Math.random()` call. -/
def Rng.next (r : Rng) : Rng := fun k => r (k + 1)

/-- The global `context` object of gaze-controller.js (lines 15-22). -/
structure Context where
  userInFront : Bool
  faceX : Option ℚ
  faceY : Option ℚ
  secondFaceX : Option ℚ
  secondFaceY : Option ℚ
  headDirection : String

/-- Numeric value of a coordinate in arithmetic: `null` converts to `0`. -/
def jsNum (v : Option ℚ) : ℚ :=
  match v with
  | some x => x
  | none => 0

/-- The expression `v || 0.5` for a number-or-undefined `v`: `undefined` and `0` are falsy. -/
def orHalf (v : Option ℚ) : ℚ :=
  match v with
  | some x => if x = 0 then 0.5 else x
  | none => 0.5

/-! ## gaze-mechanics.js -/

/-- Module state of gaze-mechanics.js together with `window.currentGazeX/Y`, the transform
last written to the pupil elements (pixel offsets and scale, before `toFixed`), and the
list `sent` of the arguments of every `setPupilTransform` call, newest first.
`pupilsPresent` says whether both pupil elements exist in the document. -/
structure Sink where
  pupilsPresent : Bool
  pupilsFound : Bool
  currentGazeX : Option ℚ
  currentGazeY : Option ℚ
  lastSetX : ℚ
  lastSetY : ℚ
  transform : Option (ℚ × ℚ × ℚ)
  sent : List (ℚ × ℚ × ℚ)

/-- `findPupils` (gaze-mechanics.js 142-158). -/
def findPupils (s : Sink) : Bool × Sink :=
  if !s.pupilsFound then
    if s.pupilsPresent then (true, { s with pupilsFound := true })
    else (false, s)
  else (true, s)

/-- `setPupilTransform` (gaze-mechanics.js 161-201). -/
def setPupilTransform (targetX targetY scaleFactor : ℚ) (s0 : Sink) : Sink :=
  let s1 : Sink := { s0 with sent := (targetX, targetY, scaleFactor) :: s0.sent }
  let r := if s1.pupilsFound then (true, s1) else findPupils s1
  if !r.1 then r.2
  else
    let s2 := r.2
    let clampedX := max 0.05 (min 0.95 targetX)
    let clampedY := max 0.2 (min 0.8 targetY)
    let maxHorizontalOffset : ℚ := 45
    let maxVerticalOffset : ℚ := 25
    let offsetX := ((clampedX - 0.05) / (0.95 - 0.05)) * (2 * maxHorizontalOffset) - maxHorizontalOffset
    let offsetY := ((clampedY - 0.2) / (0.8 - 0.2)) * (2 * maxVerticalOffset) - maxVerticalOffset
    let s3 : Sink := { s2 with currentGazeX := some clampedX, currentGazeY := some clampedY }
    if s3.pupilsPresent then
      { s3 with transform := some (offsetX, offsetY, scaleFactor),
                lastSetX := clampedX, lastSetY := clampedY }
    else s3

/-- Result of advancing a behaviour or primitive once: the boolean it returns, its new
state and the new sink state. -/
structure Step (β : Type) where
  active : Bool
  beh : β
  sink : Sink

/-- Class `Fixation` (gaze-mechanics.js 10-32). -/
structure Fixation where
  targetX : ℚ
  targetY : ℚ
  duration : ℚ
  startTime : ℚ
  currentX : ℚ
  currentY : ℚ

/-- Constructor of `Fixation`. -/
def Fixation.new (targetX targetY duration now : ℚ) : Fixation :=
  { targetX := targetX, targetY := targetY, duration := duration, startTime := now,
    currentX := targetX, currentY := targetY }

/-- `Fixation.apply`. -/
def Fixation.apply (f : Fixation) (now : ℚ) (s : Sink) : Step Fixation :=
  let elapsed := now - f.startTime
  if elapsed < f.duration then
    { active := true,
      beh := { f with currentX := f.targetX, currentY := f.targetY },
      sink := setPupilTransform f.targetX f.targetY 1 s }
  else { active := false, beh := f, sink := s }

/-- Class `Saccade` (gaze-mechanics.js 34-63). -/
structure Saccade where
  startX : ℚ
  startY : ℚ
  endX : ℚ
  endY : ℚ
  speed : ℚ
  progress : ℚ
  currentX : ℚ
  currentY : ℚ

/-- Constructor of `Saccade`. -/
def Saccade.new (startX startY endX endY speed : ℚ) : Saccade :=
  { startX := startX, startY := startY, endX := endX, endY := endY,
    speed := max 0.01 speed, progress := 0, currentX := startX, currentY := startY }

/-- `Saccade.apply`. -/
def Saccade.apply (c : Saccade) (s : Sink) : Step Saccade :=
  if c.progress < 1 then
    let progress := min 1 (c.progress + c.speed)
    let x := c.startX + (c.endX - c.startX) * progress
    let y := c.startY + (c.endY - c.startY) * progress
    { active := true,
      beh := { c with progress := progress, currentX := x, currentY := y },
      sink := setPupilTransform x y 1 s }
  else
    { active := false,
      beh := { c with currentX := c.endX, currentY := c.endY },
      sink := setPupilTransform c.endX c.endY 1 s }

/-- Class `SmoothPursuit` (gaze-mechanics.js 65-96). -/
structure SmoothPursuit where
  targetX : ℚ
  targetY : ℚ
  smoothness : ℚ
  currentX : ℚ
  currentY : ℚ

/-- Constructor of `SmoothPursuit`: starts from `window.currentGazeX || 0.5`. -/
def SmoothPursuit.new (targetX targetY smoothness : ℚ) (s : Sink) : SmoothPursuit :=
  { targetX := targetX, targetY := targetY, smoothness := smoothness,
    currentX := orHalf s.currentGazeX, currentY := orHalf s.currentGazeY }

/-- `SmoothPursuit.updateTarget`. -/
def SmoothPursuit.updateTarget (p : SmoothPursuit) (newTargetX newTargetY : ℚ) : SmoothPursuit :=
  { p with targetX := newTargetX, targetY := newTargetY }

/-- `SmoothPursuit.apply`. -/
def SmoothPursuit.apply (p : SmoothPursuit) (s : Sink) : Step SmoothPursuit :=
  let x := p.currentX + (p.targetX - p.currentX) * p.smoothness
  let y := p.currentY + (p.targetY - p.currentY) * p.smoothness
  { active := true,
    beh := { p with currentX := x, currentY := y },
    sink := setPupilTransform x y 1 s }

/-! ## gaze-behaviors.js -/

/-- Class `GazeAversion` (gaze-behaviors.js 12-79). -/
structure GazeAversion where
  aversionDuration : ℚ
  intervalMin : ℚ
  intervalMax : ℚ
  nextAversionTime : ℚ
  aversionFixation : Option Fixation
  currentX : ℚ
  currentY : ℚ

/-- `GazeAversion.scheduleNextAversion`: one random draw. -/
def GazeAversion.scheduleNextAversion (g : GazeAversion) (now : ℚ) (rng : Rng) :
    GazeAversion × Rng :=
  let interval := g.intervalMin + rng 0 * (g.intervalMax - g.intervalMin)
  ({ g with nextAversionTime := now + interval }, rng.next)

/-- Constructor of `GazeAversion`. -/
def GazeAversion.new (aversionDuration intervalMin intervalMax now : ℚ) (rng : Rng) :
    GazeAversion × Rng :=
  GazeAversion.scheduleNextAversion
    { aversionDuration := aversionDuration, intervalMin := intervalMin,
      intervalMax := intervalMax, nextAversionTime := 0, aversionFixation := none,
      currentX := 0.5, currentY := 0.5 } now rng

/-- `GazeAversion.update`. -/
def GazeAversion.update (g : GazeAversion) (now : ℚ) (rng : Rng) (s : Sink) :
    Step GazeAversion × Rng :=
  match g.aversionFixation with
  | some f =>
    let r := f.apply now s
    if r.active then
      ({ active := true,
         beh := { g with aversionFixation := some r.beh,
                         currentX := r.beh.currentX, currentY := r.beh.currentY },
         sink := r.sink }, rng)
    else
      let q := GazeAversion.scheduleNextAversion { g with aversionFixation := none } now rng
      ({ active := false, beh := q.1, sink := r.sink }, q.2)
  | none =>
    if now ≥ g.nextAversionTime then
      let randomOffsetX := (rng 0 - 0.5) * 0.8
      let randomOffsetY := (rng 1 - 0.5) * 0.6
      let aversionTargetX :=
        0.5 + (if randomOffsetX > 0 then max 0.2 randomOffsetX else min (-0.2) randomOffsetX)
      let aversionTargetY := 0.5 + randomOffsetY
      let rng2 := rng.next.next
      let r := (Fixation.new aversionTargetX aversionTargetY g.aversionDuration now).apply now s
      if r.active then
        ({ active := true,
           beh := { g with aversionFixation := some r.beh,
                           currentX := r.beh.currentX, currentY := r.beh.currentY },
           sink := r.sink }, rng2)
      else
        let q := GazeAversion.scheduleNextAversion { g with aversionFixation := none } now rng2
        ({ active := false, beh := q.1, sink := r.sink }, q.2)
    else
      ({ active := false, beh := g, sink := s }, rng)

/-- Class `MutualGaze` (gaze-behaviors.js 83-123). -/
structure MutualGaze where
  pursuit : SmoothPursuit
  gazeAversion : GazeAversion
  currentX : ℚ
  currentY : ℚ

/-- Constructor of `MutualGaze`. -/
def MutualGaze.new (smoothness now : ℚ) (rng : Rng) (s : Sink) : MutualGaze × Rng :=
  let q := GazeAversion.new 300 1000 3000 now rng
  ({ pursuit := SmoothPursuit.new 0.5 0.5 smoothness s, gazeAversion := q.1,
     currentX := 0.5, currentY := 0.5 }, q.2)

/-- `MutualGaze.apply`. -/
def MutualGaze.apply (m : MutualGaze) (now : ℚ) (ctx : Context) (rng : Rng) (s : Sink) :
    Step MutualGaze × Rng :=
  let a := m.gazeAversion.update now rng s
  if a.1.active then
    ({ active := true,
       beh := { m with gazeAversion := a.1.beh,
                       currentX := a.1.beh.currentX, currentY := a.1.beh.currentY },
       sink := a.1.sink }, a.2)
  else
    let p :=
      if ctx.userInFront then m.pursuit.updateTarget (1 - jsNum ctx.faceX) (jsNum ctx.faceY)
      else m.pursuit.updateTarget 0.5 0.5
    let r := p.apply a.1.sink
    ({ active := true,
       beh := { pursuit := r.beh, gazeAversion := a.1.beh,
                currentX := r.beh.currentX, currentY := r.beh.currentY },
       sink := r.sink }, a.2)

/-- The two values of `dynamicGaze.state`. -/
inductive GazeState where
  | dwelling
  | saccading
  deriving DecidableEq, Repr

/-- Class `dynamicGaze` (gaze-behaviors.js 127-237). -/
structure dynamicGaze where
  activeFace : ℕ
  dwellDuration : ℚ
  saccadeSpeed : ℚ
  state : GazeState
  stateStartTime : ℚ
  saccade : Option Saccade
  currentX : ℚ
  currentY : ℚ

/-- Constructor of `dynamicGaze`. -/
def dynamicGaze.new (dwellDuration saccadeSpeed now : ℚ) : dynamicGaze :=
  { activeFace := 1, dwellDuration := dwellDuration, saccadeSpeed := saccadeSpeed,
    state := GazeState.dwelling, stateStartTime := now, saccade := none,
    currentX := 0.5, currentY := 0.5 }

/-- `dynamicGaze.getTargetCoords` for the face index `face`. -/
def dynamicGaze.getTargetCoords (face : ℕ) (ctx : Context) : Option (ℚ × ℚ) :=
  if face = 1 ∧ ctx.faceX.isSome ∧ ctx.faceY.isSome then
    some (1 - jsNum ctx.faceX, jsNum ctx.faceY)
  else if face = 2 ∧ ctx.secondFaceX.isSome ∧ ctx.secondFaceY.isSome then
    some (1 - jsNum ctx.secondFaceX, jsNum ctx.secondFaceY)
  else none

/-- The expression `this.activeFace === 1 ? 2 : 1`. -/
def otherFace (face : ℕ) : ℕ := if face = 1 then 2 else 1

/-- The branch of `dynamicGaze.apply` taken when the saccade has finished (lines 213-231);
`s` is the sink after the saccade was advanced. -/
def dynamicGaze.finishSaccade (d : dynamicGaze) (now : ℚ) (ctx : Context) (s : Sink) :
    Step dynamicGaze :=
  let d1 : dynamicGaze :=
    { d with activeFace := otherFace d.activeFace, state := GazeState.dwelling,
             stateStartTime := now, saccade := none }
  match dynamicGaze.getTargetCoords d1.activeFace ctx with
  | some t =>
    { active := true, beh := { d1 with currentX := t.1, currentY := t.2 },
      sink := setPupilTransform t.1 t.2 1 s }
  | none =>
    { active := false, beh := { d1 with currentX := 0.5, currentY := 0.5 },
      sink := setPupilTransform 0.5 0.5 1 s }

/-- `dynamicGaze.apply`. -/
def dynamicGaze.apply (d : dynamicGaze) (now : ℚ) (ctx : Context) (s : Sink) :
    Step dynamicGaze :=
  match dynamicGaze.getTargetCoords d.activeFace ctx with
  | none =>
    let d1 : dynamicGaze :=
      { d with saccade := none, state := GazeState.dwelling,
               activeFace := otherFace d.activeFace }
    match dynamicGaze.getTargetCoords d1.activeFace ctx with
    | none =>
      { active := false, beh := { d1 with currentX := 0.5, currentY := 0.5 },
        sink := setPupilTransform 0.5 0.5 1 s }
    | some newTarget =>
      { active := true,
        beh := { d1 with stateStartTime := now, currentX := newTarget.1,
                         currentY := newTarget.2 },
        sink := setPupilTransform newTarget.1 newTarget.2 1 s }
  | some target =>
    match d.state with
    | GazeState.dwelling =>
      let s1 := setPupilTransform target.1 target.2 1 s
      let d1 : dynamicGaze := { d with currentX := target.1, currentY := target.2 }
      if now - d1.stateStartTime ≥ d1.dwellDuration then
        match dynamicGaze.getTargetCoords (otherFace d1.activeFace) ctx with
        | some nextTarget =>
          { active := true,
            beh := { d1 with
              saccade := some (Saccade.new d1.currentX d1.currentY nextTarget.1 nextTarget.2
                                d1.saccadeSpeed),
              state := GazeState.saccading },
            sink := s1 }
        | none => { active := true, beh := { d1 with stateStartTime := now }, sink := s1 }
      else { active := true, beh := d1, sink := s1 }
    | GazeState.saccading =>
      match d.saccade with
      | some c =>
        let r := c.apply s
        if r.active then
          { active := true,
            beh := { d with saccade := some r.beh, currentX := r.beh.currentX,
                            currentY := r.beh.currentY },
            sink := r.sink }
        else dynamicGaze.finishSaccade { d with saccade := some r.beh } now ctx r.sink
      | none => dynamicGaze.finishSaccade d now ctx s

/-- The four values of the `phase` field of the joint-attention behaviours. -/
inductive Phase where
  | transitionToSide
  | hold
  | returnToUser
  | done
  deriving DecidableEq, Repr

/-- Where the robot would look for mutual gaze: `userTargetX`, `userTargetY`
(gaze-behaviors.js 269-270 and 342-343). A `null` face coordinate counts as `0`, its value
in the arithmetic and clamping that follow. -/
def userTarget (ctx : Context) : ℚ × ℚ :=
  (if ctx.userInFront then 1 - jsNum ctx.faceX else 0.5,
   if ctx.userInFront then jsNum ctx.faceY else 0.5)

/-- Class `RespondingJointAttention` (gaze-behaviors.js 240-312). `holdStartTime` and
`returnStartTime` are `none` until assigned (`undefined` in the source). -/
structure RespondingJointAttention where
  userLookDirection : String
  phase : Phase
  startTime : ℚ
  transitionDuration : ℚ
  holdDuration : ℚ
  returnDuration : ℚ
  initialX : ℚ
  initialY : ℚ
  targetX : ℚ
  targetY : ℚ
  completed : Bool
  currentX : ℚ
  currentY : ℚ
  holdStartTime : Option ℚ
  returnStartTime : Option ℚ

/-- Constructor of `RespondingJointAttention`. -/
def RespondingJointAttention.new (direction : String) (now : ℚ) (s : Sink) :
    RespondingJointAttention :=
  { userLookDirection := direction, phase := Phase.transitionToSide, startTime := now,
    transitionDuration := 300, holdDuration := 2000, returnDuration := 300,
    initialX := orHalf s.currentGazeX, initialY := orHalf s.currentGazeY,
    targetX := if direction = "left" then 0.8 else 0.2, targetY := 0.5,
    completed := false,
    currentX := orHalf s.currentGazeX, currentY := orHalf s.currentGazeY,
    holdStartTime := none, returnStartTime := none }

/-- The test `now - start >= duration` against a start time that may be unset: with
`undefined` the difference is `NaN` and the comparison is false. -/
def elapsedAtLeast (now : ℚ) (start : Option ℚ) (duration : ℚ) : Bool :=
  match start with
  | some t => decide (now - t ≥ duration)
  | none => false

/-- The factor `Math.min((now - start) / duration, 1)` against a start time that may be
unset. With `undefined` the source value is `NaN`; no behaviour built by a constructor
reaches that case (the return phase is entered only together with its start time), and the
embedding then uses `0`. -/
def progressSince (now : ℚ) (start : Option ℚ) (duration : ℚ) : ℚ :=
  match start with
  | some t => min ((now - t) / duration) 1
  | none => 0

/-- `RespondingJointAttention.apply`. -/
def RespondingJointAttention.apply (b : RespondingJointAttention) (now : ℚ) (ctx : Context)
    (s : Sink) : Step RespondingJointAttention :=
  let userTargetX := (userTarget ctx).1
  let userTargetY := (userTarget ctx).2
  match b.phase with
  | Phase.transitionToSide =>
    let t := min ((now - b.startTime) / b.transitionDuration) 1
    let x := b.initialX + (b.targetX - b.initialX) * t
    let y := b.initialY + (b.targetY - b.initialY) * t
    let b1 : RespondingJointAttention := { b with currentX := x, currentY := y }
    { active := true,
      beh := if t ≥ 1 then { b1 with phase := Phase.hold, holdStartTime := some now } else b1,
      sink := setPupilTransform x y 1 s }
  | Phase.hold =>
    let b1 : RespondingJointAttention := { b with currentX := b.targetX, currentY := b.targetY }
    { active := true,
      beh :=
        if elapsedAtLeast now b.holdStartTime b.holdDuration then
          { b1 with phase := Phase.returnToUser, returnStartTime := some now,
                    initialX := b1.currentX, initialY := b1.currentY }
        else b1,
      sink := setPupilTransform b1.currentX b1.currentY 1 s }
  | Phase.returnToUser =>
    let t := progressSince now b.returnStartTime b.returnDuration
    let x := b.initialX + (userTargetX - b.initialX) * t
    let y := b.initialY + (userTargetY - b.initialY) * t
    let b1 : RespondingJointAttention := { b with currentX := x, currentY := y }
    { active := true,
      beh := if t ≥ 1 then { b1 with phase := Phase.done } else b1,
      sink := setPupilTransform x y 1 s }
  | Phase.done =>
    { active := false,
      beh := { b with completed := true, currentX := userTargetX, currentY := userTargetY },
      sink := setPupilTransform userTargetX userTargetY 1 s }

/-- Class `InitiatingJointAttention` (gaze-behaviors.js 316-384). -/
structure InitiatingJointAttention where
  robotLookDirection : String
  phase : Phase
  startTime : ℚ
  transitionDuration : ℚ
  holdDuration : ℚ
  returnDuration : ℚ
  initialX : ℚ
  initialY : ℚ
  targetX : ℚ
  targetY : ℚ
  completed : Bool
  currentX : ℚ
  currentY : ℚ
  holdStartTime : Option ℚ
  returnStartTime : Option ℚ

/-- Constructor of `InitiatingJointAttention`. -/
def InitiatingJointAttention.new (direction : String) (now : ℚ) (s : Sink) :
    InitiatingJointAttention :=
  { robotLookDirection := direction, phase := Phase.transitionToSide, startTime := now,
    transitionDuration := 300, holdDuration := 2000, returnDuration := 300,
    initialX := orHalf s.currentGazeX, initialY := orHalf s.currentGazeY,
    targetX := if direction = "left" then 0.2 else 0.8, targetY := 0.5,
    completed := false,
    currentX := orHalf s.currentGazeX, currentY := orHalf s.currentGazeY,
    holdStartTime := none, returnStartTime := none }

/-- `InitiatingJointAttention.apply`. -/
def InitiatingJointAttention.apply (b : InitiatingJointAttention) (now : ℚ) (ctx : Context)
    (s : Sink) : Step InitiatingJointAttention :=
  let userTargetX := (userTarget ctx).1
  let userTargetY := (userTarget ctx).2
  match b.phase with
  | Phase.transitionToSide =>
    let t := min ((now - b.startTime) / b.transitionDuration) 1
    let x := b.initialX + (b.targetX - b.initialX) * t
    let y := b.initialY + (b.targetY - b.initialY) * t
    let b1 : InitiatingJointAttention := { b with currentX := x, currentY := y }
    { active := true,
      beh := if t ≥ 1 then { b1 with phase := Phase.hold, holdStartTime := some now } else b1,
      sink := setPupilTransform x y 1 s }
  | Phase.hold =>
    let b1 : InitiatingJointAttention := { b with currentX := b.targetX, currentY := b.targetY }
    { active := true,
      beh :=
        if elapsedAtLeast now b.holdStartTime b.holdDuration then
          { b1 with phase := Phase.returnToUser, returnStartTime := some now,
                    initialX := b1.currentX, initialY := b1.currentY }
        else b1,
      sink := setPupilTransform b1.currentX b1.currentY 1 s }
  | Phase.returnToUser =>
    let t := progressSince now b.returnStartTime b.returnDuration
    let x := b.initialX + (userTargetX - b.initialX) * t
    let y := b.initialY + (userTargetY - b.initialY) * t
    let b1 : InitiatingJointAttention := { b with currentX := x, currentY := y }
    { active := true,
      beh := if t ≥ 1 then { b1 with phase := Phase.done } else b1,
      sink := setPupilTransform x y 1 s }
  | Phase.done =>
    { active := false,
      beh := { b with completed := true, currentX := userTargetX, currentY := userTargetY },
      sink := setPupilTransform userTargetX userTargetY 1 s }

/-! ## gaze-controller.js -/

/-- A behaviour instance that `currentBehavior` can hold. -/
inductive Behavior where
  | mutualGaze (m : MutualGaze)
  | dynamic (d : dynamicGaze)
  | responding (b : RespondingJointAttention)
  | initiating (b : InitiatingJointAttention)

/-- The `name` field of a behaviour. -/
def Behavior.name : Behavior → String
  | Behavior.mutualGaze _ => "MutualGaze"
  | Behavior.dynamic _ => "dynamicGaze"
  | Behavior.responding _ => "RespondingJointAttention"
  | Behavior.initiating _ => "InitiatingJointAttention"

/-- The test `currentBehavior instanceof InitiatingJointAttention ||
currentBehavior instanceof RespondingJointAttention` (also false for `null`). -/
def isJointAttention : Option Behavior → Bool
  | some (Behavior.responding _) => true
  | some (Behavior.initiating _) => true
  | _ => false

/-- `currentBehavior.apply()` by dynamic dispatch. -/
def Behavior.apply (b : Behavior) (now : ℚ) (ctx : Context) (rng : Rng) (s : Sink) :
    Step Behavior × Rng :=
  match b with
  | Behavior.mutualGaze m =>
    let r := m.apply now ctx rng s
    ({ active := r.1.active, beh := Behavior.mutualGaze r.1.beh, sink := r.1.sink }, r.2)
  | Behavior.dynamic d =>
    let r := d.apply now ctx s
    ({ active := r.active, beh := Behavior.dynamic r.beh, sink := r.sink }, rng)
  | Behavior.responding j =>
    let r := j.apply now ctx s
    ({ active := r.active, beh := Behavior.responding r.beh, sink := r.sink }, rng)
  | Behavior.initiating j =>
    let r := j.apply now ctx s
    ({ active := r.active, beh := Behavior.initiating r.beh, sink := r.sink }, rng)

/-- State of the toggle checkboxes read through `document.getElementById`: `none` when the
element does not exist, otherwise its `checked` flag. -/
structure Toggles where
  ryanConditionToggle : Option Bool
  ivanConditionToggle : Option Bool
  carlConditionToggle : Option Bool
  jointAttentionToggle : Option Bool
  respondingJointAttentionToggle : Option Bool
  knowledge80Toggle : Option Bool
  knowledge20Toggle : Option Bool

/-- Truthiness of `toggle && toggle.checked`. -/
def isChecked (toggle : Option Bool) : Bool :=
  match toggle with
  | some c => c
  | none => false

/-- The mutable globals of gaze-controller.js together with the sink state. -/
structure World where
  currentBehavior : Option Behavior
  lastHandledCardId : Option String
  lastRespondingJointAttentionTime : ℚ
  sink : Sink

/-- The constant `respondingCooldown`. -/
def respondingCooldown : ℚ := 7000

/-- Pieces of a list of characters between occurrences of `sep`; `acc` holds the current
piece reversed. -/
def splitChars (sep : Char) : List Char → List Char → List (List Char)
  | [], acc => [acc.reverse]
  | c :: cs, acc =>
    if c = sep then acc.reverse :: splitChars sep cs [] else splitChars sep cs (c :: acc)

/-- `s.split(sep)` for a one-character separator. -/
def jsSplit (s : String) (sep : Char) : List String :=
  (splitChars sep s.data []).map String.mk

/-- `s.toLowerCase()` on ASCII text. -/
def jsToLowerCase (s : String) : String := String.mk (s.data.map Char.toLower)

/-- The expression `context.headDirection.split(" ")[1].toLowerCase()` (line 102). -/
def headDirectionWord (headDirection : String) : String :=
  jsToLowerCase ((jsSplit headDirection ' ').getD 1 "")

/-- What the selection block of a tick did (lines 95-121), as reported by its log lines:
which constructor it called, or `idle` when no user is in front. -/
inductive Selection where
  | responding (dir : String)
  | dynamicGaze
  | mutualGaze
  | idle
  deriving DecidableEq, Repr

/-- The guard of the responding branch (lines 98-100). -/
def respondingEligible (now : ℚ) (tg : Toggles) (ctx : Context) (w : World) : Bool :=
  !isChecked tg.carlConditionToggle && isChecked tg.respondingJointAttentionToggle &&
    (ctx.headDirection == "Looking Left" || ctx.headDirection == "Looking Right") &&
    decide (now - w.lastRespondingJointAttentionTime ≥ respondingCooldown)

/-- The branch taken by the selection block when no behaviour is active (lines 96-120). -/
def chooseBehavior (now : ℚ) (tg : Toggles) (ctx : Context) (w : World) : Selection :=
  if ctx.userInFront then
    if respondingEligible now tg ctx w then
      Selection.responding (headDirectionWord ctx.headDirection)
    else if ctx.secondFaceX.isSome && ctx.secondFaceY.isSome then Selection.dynamicGaze
    else Selection.mutualGaze
  else Selection.idle

/-- The effect of the chosen branch (lines 102-105, 110, 115, 119). -/
def installSelection (sel : Selection) (now : ℚ) (rng : Rng) (w : World) : World × Rng :=
  match sel with
  | Selection.responding dir =>
    ({ w with
        currentBehavior :=
          some (Behavior.responding (RespondingJointAttention.new dir now w.sink)),
        lastRespondingJointAttentionTime := now }, rng)
  | Selection.dynamicGaze =>
    ({ w with currentBehavior := some (Behavior.dynamic (dynamicGaze.new 2000 0.15 now)) },
      rng)
  | Selection.mutualGaze =>
    let q := MutualGaze.new 0.1 now rng w.sink
    ({ w with currentBehavior := some (Behavior.mutualGaze q.1) }, q.2)
  | Selection.idle => ({ w with sink := setPupilTransform 0.5 0.5 1 w.sink }, rng)

/-- The last block of a tick (lines 124-126): apply the current behaviour, if any, and
ignore what it returns. -/
def applyCurrent (now : ℚ) (ctx : Context) (rng : Rng) (w : World) : World × Rng :=
  match w.currentBehavior with
  | some b =>
    let r := b.apply now ctx rng w.sink
    ({ w with currentBehavior := some r.1.beh, sink := r.1.sink }, r.2)
  | none => (w, rng)

/-- Result of one tick: the new state, the remaining random stream, and the selection the
tick made (`none` when it returned at line 86 because the behaviour is still active). -/
structure TickResult where
  world : World
  rng : Rng
  selected : Option Selection

/-- Selection and first application (lines 95-126), run when no behaviour is active. -/
def selectAndApply (now : ℚ) (tg : Toggles) (ctx : Context) (rng : Rng) (w : World) :
    TickResult :=
  let sel := chooseBehavior now tg ctx w
  let q := installSelection sel now rng w
  let r := applyCurrent now ctx q.2 q.1
  { world := r.1, rng := r.2, selected := some sel }

/-- `updateGaze` (lines 57-129). -/
def updateGaze (now : ℚ) (tg : Toggles) (ctx : Context) (rng : Rng) (w : World) :
    TickResult :=
  match w.currentBehavior with
  | some b =>
    let r := b.apply now ctx rng w.sink
    if r.1.active then
      { world := { w with currentBehavior := some r.1.beh, sink := r.1.sink }, rng := r.2,
        selected := none }
    else
      selectAndApply now tg ctx r.2 { w with currentBehavior := none, sink := r.1.sink }
  | none => selectAndApply now tg ctx rng w

/-- The keydown listener (lines 296-316). -/
def onKeydown (key : String) (tg : Toggles) (now : ℚ) (w : World) : World :=
  if tg.jointAttentionToggle.isNone || !isChecked tg.jointAttentionToggle ||
      isChecked tg.carlConditionToggle then w
  else if isJointAttention w.currentBehavior then w
  else
    let direction : Option String :=
      if key = "ArrowLeft" then some "left"
      else if key = "ArrowRight" then some "right"
      else none
    match direction with
    | some dir =>
      { w with
        currentBehavior :=
          some (Behavior.initiating (InitiatingJointAttention.new dir now w.sink)) }
    | none => w

/-- The callback that `handleCardRevealed` schedules with `setTimeout` (lines 206-214),
run at time `now` with the `direction` captured when it was scheduled. -/
def scheduledInitiatingJA (direction : String) (now : ℚ) (w : World) : World :=
  if isJointAttention w.currentBehavior then w
  else
    { w with
      currentBehavior :=
        some (Behavior.initiating (InitiatingJointAttention.new direction now w.sink)) }

/-- One handler run of the controller. -/
inductive Event where
  | tick (now : ℚ) (tg : Toggles) (ctx : Context) (rng : Rng)
  | keydown (now : ℚ) (key : String) (tg : Toggles)
  | cardTimeout (now : ℚ) (direction : String)

/-- Clock value at which an event runs. -/
def Event.time : Event → ℚ
  | Event.tick now _ _ _ => now
  | Event.keydown now _ _ => now
  | Event.cardTimeout now _ => now

/-- State after one event. -/
def stepEvent (w : World) (e : Event) : World :=
  match e with
  | Event.tick now tg ctx rng => (updateGaze now tg ctx rng w).world
  | Event.keydown now key tg => onKeydown key tg now w
  | Event.cardTimeout now direction => scheduledInitiatingJA direction now w

/-- Selection made by an event: that of the tick, `none` for the other handlers. -/
def eventSelection (w : World) (e : Event) : Option Selection :=
  match e with
  | Event.tick now tg ctx rng => (updateGaze now tg ctx rng w).selected
  | _ => none

/-- Whether an event is a tick that installs a RespondingJointAttention. -/
def installsResponding (w : World) (e : Event) : Bool :=
  match eventSelection w e with
  | some (Selection.responding _) => true
  | _ => false

/-- Clock values of the ticks of a run that install a RespondingJointAttention, in order. -/
def respondingInstallTimes : World → List Event → List ℚ
  | _, [] => []
  | w, e :: es =>
    if installsResponding w e then e.time :: respondingInstallTimes (stepEvent w e) es
    else respondingInstallTimes (stepEvent w e) es

/-- The state when the scripts have loaded: no behaviour, nothing handled, cooldown timer 0,
and the sink as initialised by gaze-mechanics.js. -/
def World.initial (pupilsPresent : Bool) : World :=
  { currentBehavior := none, lastHandledCardId := none,
    lastRespondingJointAttentionTime := 0,
    sink := { pupilsPresent := pupilsPresent, pupilsFound := false, currentGazeX := none,
              currentGazeY := none, lastSetX := 0.5, lastSetY := 0.5, transform := none,
              sent := [] } }


/-- Name of the behaviour held in `currentBehavior`, if any. -/
def World.behaviorName (w : World) : Option String := w.currentBehavior.map Behavior.name

/-- State and sink after a sequence of `apply` calls, one per (clock value, context) pair. -/
def RespondingJointAttention.applyAll (b : RespondingJointAttention) (s : Sink)
    (calls : List (ℚ × Context)) : RespondingJointAttention × Sink :=
  calls.foldl (fun q c => ((q.1.apply c.1 c.2 q.2).beh, (q.1.apply c.1 c.2 q.2).sink)) (b, s)

/-- State and sink after a sequence of `apply` calls, one per (clock value, context) pair. -/
def InitiatingJointAttention.applyAll (b : InitiatingJointAttention) (s : Sink)
    (calls : List (ℚ × Context)) : InitiatingJointAttention × Sink :=
  calls.foldl (fun q c => ((q.1.apply c.1 c.2 q.2).beh, (q.1.apply c.1 c.2 q.2).sink)) (b, s)

/-- The calls made by a tick of period `period` starting at `t0`: call `k` happens at
`t0 + period * k` with context `ctxs k`, for `k < n`. -/
def tickCalls (t0 period : ℚ) (ctxs : ℕ → Context) (n : ℕ) : List (ℚ × Context) :=
  (List.range n).map (fun (k : ℕ) => (t0 + period * (k : ℚ), ctxs k))

/-! ## Sample inputs -/

/-- Toggles with both joint-attention switches on and no condition selected. -/
def sampleToggles : Toggles :=
  { ryanConditionToggle := some false, ivanConditionToggle := some false,
    carlConditionToggle := some false, jointAttentionToggle := some true,
    respondingJointAttentionToggle := some true, knowledge80Toggle := some false,
    knowledge20Toggle := some false }

/-- A user in front who has turned the head left, with a second face in view. -/
def sampleContext : Context :=
  { userInFront := true, faceX := some 0.3, faceY := some 0.4, secondFaceX := some 0.7,
    secondFaceY := some 0.6, headDirection := "Looking Left" }

/-- A single user in front, head not turned. -/
def sampleContextOneFace : Context :=
  { userInFront := true, faceX := some 0.3, faceY := some 0.4, secondFaceX := none,
    secondFaceY := none, headDirection := "none" }

/-- A constant stream of random draws. -/
def sampleRng : Rng := fun _ => 1 / 2

/-- A state in which a RespondingJointAttention built at time 10000 is held. -/
def sampleHeldWorld : World :=
  { World.initial true with
    currentBehavior :=
      some (Behavior.responding
        (RespondingJointAttention.new "left" 10000 (World.initial true).sink)),
    lastRespondingJointAttentionTime := 10000 }

/-- The state after the first tick of a session with a single user in front. -/
def sampleMutualWorld : World :=
  (updateGaze 10000 sampleToggles sampleContextOneFace sampleRng (World.initial true)).world

/-- A RespondingJointAttention built at time `t0` on sink `s0` and then applied on a 50 ms
tick starting at `t0`: state and sink after the first `n` calls, that is before the call at
`t0 + 50 * n`. -/
def respondingAfterTicks (d : String) (t0 : ℚ) (s0 : Sink) (ctxs : ℕ → Context) (n : ℕ) :
    RespondingJointAttention × Sink :=
  (RespondingJointAttention.new d t0 s0).applyAll s0 (tickCalls t0 50 ctxs n)

/-- What holds of every RespondingJointAttention reached from its constructor: the return
lasts 300 ms, the target height is 0.5, and the return phase is only entered together
with its start time and with the interpolation origin at the side target. -/
def RespondingJointAttention.Reached (b : RespondingJointAttention) : Prop :=
  b.returnDuration = 300 ∧ b.targetY = 0.5 ∧
    (b.phase = Phase.returnToUser →
      b.returnStartTime.isSome = true ∧ b.initialX = b.targetX ∧ b.initialY = b.targetY)

/-- What holds of every InitiatingJointAttention reached from its constructor. -/
def InitiatingJointAttention.Reached (b : InitiatingJointAttention) : Prop :=
  b.returnDuration = 300 ∧ b.targetY = 0.5 ∧
    (b.phase = Phase.returnToUser →
      b.returnStartTime.isSome = true ∧ b.initialX = b.targetX ∧ b.initialY = b.targetY)

/-- The InitiatingJointAttention state with the same field values as a
RespondingJointAttention state and look direction `dir`. -/
def RespondingJointAttention.toInitiating (b : RespondingJointAttention) (dir : String) :
    InitiatingJointAttention :=
  { robotLookDirection := dir, phase := b.phase, startTime := b.startTime,
    transitionDuration := b.transitionDuration, holdDuration := b.holdDuration,
    returnDuration := b.returnDuration, initialX := b.initialX, initialY := b.initialY,
    targetX := b.targetX, targetY := b.targetY, completed := b.completed,
    currentX := b.currentX, currentY := b.currentY, holdStartTime := b.holdStartTime,
    returnStartTime := b.returnStartTime }

/-- The direction held by the current behaviour when it is a RespondingJointAttention
(its `userLookDirection`, the constructor argument). -/
def World.respondingDirection (w : World) : Option String :=
  match w.currentBehavior with
  | some (Behavior.responding b) => some b.userLookDirection
  | _ => none

/-- State and sink after a sequence of `Fixation.apply` calls at the given clock values. -/
def Fixation.applyAll (f : Fixation) (s : Sink) (times : List ℚ) : Fixation × Sink :=
  times.foldl (fun q t => ((q.1.apply t q.2).beh, (q.1.apply t q.2).sink)) (f, s)

/-- State and sink after `n` calls of `Saccade.apply`. -/
def Saccade.applyN (c : Saccade) (s : Sink) : ℕ → Saccade × Sink
  | 0 => (c, s)
  | n + 1 =>
    (((Saccade.applyN c s n).1.apply (Saccade.applyN c s n).2).beh,
      ((Saccade.applyN c s n).1.apply (Saccade.applyN c s n).2).sink)

/-- The value `aversionTargetX` computed from the first random draw `r`
(gaze-behaviors.js 51 and 54) in exact arithmetic; `aversionTargetXDouble` is the value in
binary64. -/
def aversionTargetX (r : ℚ) : ℚ :=
  0.5 + (if (r - 0.5) * 0.8 > 0 then max 0.2 ((r - 0.5) * 0.8) else min (-0.2) ((r - 0.5) * 0.8))

/-- The value `aversionTargetY` computed from the second random draw `r`
(gaze-behaviors.js 52 and 55) in exact arithmetic; `aversionTargetYDouble` is the value in
binary64. -/
def aversionTargetY (r : ℚ) : ℚ := 0.5 + (r - 0.5) * 0.6

/-- A GazeAversion with no aversion in progress whose next aversion was due at 11000. -/
def sampleAversionDue : GazeAversion :=
  { aversionDuration := 300, intervalMin := 1000, intervalMax := 3000,
    nextAversionTime := 11000, aversionFixation := none, currentX := 0.5, currentY := 0.5 }

/-- A GazeAversion whose aversion Fixation started at 11000. -/
def sampleAversionRunning : GazeAversion :=
  { aversionDuration := 300, intervalMin := 1000, intervalMax := 3000,
    nextAversionTime := 11000, aversionFixation := some (Fixation.new 0.7 0.5 300 11000),
    currentX := 0.7, currentY := 0.5 }

/-- A MutualGaze whose next aversion is due at 11000. -/
def sampleMutualGaze : MutualGaze :=
  { pursuit := SmoothPursuit.new 0.5 0.5 0.1 (World.initial true).sink,
    gazeAversion := sampleAversionDue, currentX := 0.5, currentY := 0.5 }

/-- A dynamicGaze dwelling on face slot 2 since 10000. -/
def sampleDwellingOnTwo : dynamicGaze :=
  { dynamicGaze.new 2000 0.15 10000 with activeFace := 2 }

/-- State and sink after a sequence of `apply` calls, one per (clock value, context) pair. -/
def dynamicGaze.applyAll (d : dynamicGaze) (s : Sink) (calls : List (ℚ × Context)) :
    dynamicGaze × Sink :=
  calls.foldl (fun q c => ((q.1.apply c.1 c.2 q.2).beh, (q.1.apply c.1 c.2 q.2).sink)) (d, s)

/-- A dynamicGaze built at time `t0` with the defaults of the scheduler (dwell 2000 ms,
saccade speed 0.15) and then applied on a 50 ms tick starting at `t0`: state and sink after
the first `n` calls, that is before the call at `t0 + 50 * n`. -/
def dynamicAfterTicks (t0 : ℚ) (s0 : Sink) (ctxs : ℕ → Context) (n : ℕ) : dynamicGaze × Sink :=
  (dynamicGaze.new 2000 0.15 t0).applyAll s0 (tickCalls t0 50 ctxs n)

/-- Whether an `update` call at clock value `now` starts a new aversion, that is reaches
the construction of a Fixation at gaze-behaviors.js line 57: no aversion is in progress
(line 36) and the next one is due (line 50). -/
def GazeAversion.startsAversion (g : GazeAversion) (now : ℚ) : Bool :=
  g.aversionFixation.isNone && decide (now ≥ g.nextAversionTime)

/-- A GazeAversion built at time `t0` (its constructor drawing from `rng0`) and then
updated on a 50 ms tick starting at `t0`: its state after the first `n` calls, that is
before the call at `t0 + 50 * n`. Call `k` runs with the random stream `rngs k` and the
sink state `sinks k`. -/
def aversionAfterTicks (aversionDuration intervalMin intervalMax t0 : ℚ) (rng0 : Rng)
    (rngs : ℕ → Rng) (sinks : ℕ → Sink) : ℕ → GazeAversion
  | 0 => (GazeAversion.new aversionDuration intervalMin intervalMax t0 rng0).1
  | n + 1 =>
    ((aversionAfterTicks aversionDuration intervalMin intervalMax t0 rng0 rngs sinks n).update
      (t0 + 50 * (n : ℚ)) (rngs n) (sinks n)).1.beh

/-- State and sink after `n` calls of `SmoothPursuit.apply` with no retargeting in between. -/
def SmoothPursuit.applyN (p : SmoothPursuit) (s : Sink) : ℕ → SmoothPursuit × Sink
  | 0 => (p, s)
  | n + 1 =>
    (((SmoothPursuit.applyN p s n).1.apply (SmoothPursuit.applyN p s n).2).beh,
      ((SmoothPursuit.applyN p s n).1.apply (SmoothPursuit.applyN p s n).2).sink)

/-- The part of the sink state that the page shows or that other code reads: the found
flag, the recorded gaze point `window.currentGazeX/Y`, the last-set point and the transform
written to the pupils. The list `sent` of past calls is not part of it. -/
def Sink.observable (s : Sink) : Bool × Option ℚ × Option ℚ × ℚ × ℚ × Option (ℚ × ℚ × ℚ) :=
  (s.pupilsFound, s.currentGazeX, s.currentGazeY, s.lastSetX, s.lastSetY, s.transform)

/-- A pursuit at the centre aiming at (0.9, 0.3) with smoothness 0.1. -/
def samplePursuit : SmoothPursuit :=
  { targetX := 0.9, targetY := 0.3, smoothness := 0.1, currentX := 0.5, currentY := 0.5 }

/-- The position `(currentX, currentY)` of a behaviour. -/
def Behavior.position : Behavior → ℚ × ℚ
  | Behavior.mutualGaze m => (m.currentX, m.currentY)
  | Behavior.dynamic d => (d.currentX, d.currentY)
  | Behavior.responding b => (b.currentX, b.currentY)
  | Behavior.initiating b => (b.currentX, b.currentY)

/-- Total sensor loss: nobody in front and every coordinate null. -/
def sampleContextLost : Context :=
  { userInFront := false, faceX := none, faceY := none, secondFaceX := none,
    secondFaceY := none, headDirection := "none" }

/-! ## gaze-controller.js: card reveal events -/

/-- The fields of a `cardReveal` event that `handleCardRevealed` reads; `none` stands for a
missing or null field. -/
structure CardReveal where
  cardId : Option String
  side : Option String

/-- Truthiness of a string-or-missing value: missing, null and the empty string are falsy. -/
def isTruthy (v : Option String) : Bool :=
  match v with
  | some t => t != ""
  | none => false

/-- The `RobotsMove` message built at gaze-controller.js 219-228. -/
structure RobotsMove where
  action : String
  event : String
  cardId : String
  gazeDecision : String
  Robot : String
  reason : String
  timestamp : ℚ

/-- Result of one `handleCardRevealed` run: the new state, the remaining random stream, the
messages passed to `sendGCSLogMessage` (defined by messaging.js), and the direction captured
by the callback registered with `setTimeout(..., 2000)`, if one was registered. -/
structure CardResult where
  world : World
  rng : Rng
  logs : List RobotsMove
  scheduled : Option String

/-- `handleCardRevealed` (gaze-controller.js 134-244). -/
def handleCardRevealed (data : Option CardReveal) (tg : Toggles) (now : ℚ) (rng : Rng)
    (w : World) : CardResult :=
  match data with
  | none => { world := w, rng := rng, logs := [], scheduled := none }
  | some d =>
    if !isTruthy d.cardId || !isTruthy d.side then
      { world := w, rng := rng, logs := [], scheduled := none }
    else if w.lastHandledCardId = d.cardId then
      { world := w, rng := rng, logs := [], scheduled := none }
    else
      let w1 : World := { w with lastHandledCardId := d.cardId }
      let cardId := d.cardId.getD ""
      let side := d.side.getD ""
      let isCarlActive := isChecked tg.carlConditionToggle
      let isInitiatingJAEnabled := isChecked tg.jointAttentionToggle
      let isKnowledge80Active := isChecked tg.knowledge80Toggle
      let isKnowledge20Active := isChecked tg.knowledge20Toggle
      let isRyanActive := isChecked tg.ryanConditionToggle
      let isIvanActive := isChecked tg.ivanConditionToggle
      let robotCondition :=
        if isRyanActive then "Ryan condition"
        else if isIvanActive then "Ivan condition"
        else "default"
      let gazeTriggered := !isCarlActive && isInitiatingJAEnabled
      let knowledgeFactor : ℚ :=
        if gazeTriggered then
          if isKnowledge80Active then 0.8 else if isKnowledge20Active then 0.2 else 1
        else 1
      let drawn := gazeTriggered && decide (knowledgeFactor < 1)
      let flipped := drawn && decide (rng 0 > knowledgeFactor)
      let direction := if flipped then (if side = "left" then "right" else "left") else side
      let gazeDecisionForLog := if gazeTriggered then direction else "none"
      let reasonForNoGaze :=
        if isCarlActive then "Carl condition active"
        else if !isInitiatingJAEnabled then "Initiating JA toggle off"
        else ""
      let robotMoveMessage : RobotsMove :=
        { action := "logEvent", event := "RobotsMove", cardId := cardId,
          gazeDecision := gazeDecisionForLog,
          Robot := if isCarlActive then "Carl condition" else robotCondition,
          reason := if gazeTriggered then "" else reasonForNoGaze,
          timestamp := now }
      { world := w1, rng := if drawn then rng.next else rng, logs := [robotMoveMessage],
        scheduled := if gazeTriggered then some direction else none }

/-- A card-reveal event for the card `id` lying on the left. -/
def sampleCard (id : String) : CardReveal := { cardId := some id, side := some "left" }

/-! ## messaging.js: perception messages -/

/-- A parsed message of the perception socket, reduced to the fields read at
messaging.js 36-42; `none` stands for a missing (undefined) or null field, and
`userInFront` is the truthiness of that field. -/
structure PerceptionMessage where
  event : String
  userInFront : Bool
  faceX : Option ℚ
  faceY : Option ℚ
  secondFaceX : Option ℚ
  secondFaceY : Option ℚ
  headDirection : Option String

/-- The handler `perceptionWs.onmessage` applied to the shared context
(messaging.js 29-49). -/
def onPerceptionMessage (data : PerceptionMessage) (ctx : Context) : Context :=
  if data.event = "faceDetection" then
    { userInFront := data.userInFront,
      faceX := some (match data.faceX with | some v => v | none => 0.5),
      faceY := some (match data.faceY with | some v => v | none => 0.5),
      secondFaceX := (match data.secondFaceX with | some v => some v | none => none),
      secondFaceY := (match data.secondFaceY with | some v => some v | none => none),
      headDirection := (match data.headDirection with | some v => v | none => "none") }
  else ctx

/-- The initial value of `context` (gaze-controller.js 15-22). -/
def Context.initial : Context :=
  { userInFront := false, faceX := some 0.5, faceY := some 0.5, secondFaceX := none,
    secondFaceY := none, headDirection := "none" }

/-- The context after a sequence of perception messages. -/
def applyPerceptionMessages (ctx : Context) (msgs : List PerceptionMessage) : Context :=
  msgs.foldl (fun c m => onPerceptionMessage m c) ctx

/-- A faceDetection message with a user in front and no coordinates. -/
def samplePerception : PerceptionMessage :=
  { event := "faceDetection", userInFront := true, faceX := none, faceY := none,
    secondFaceX := none, secondFaceY := none, headDirection := none }

/-- The hold target `(targetX, targetY)` of the current behaviour when it is a
RespondingJointAttention. -/
def World.respondingTarget (w : World) : Option (ℚ × ℚ) :=
  match w.currentBehavior with
  | some (Behavior.responding b) => some (b.targetX, b.targetY)
  | _ => none

/-- A user in front who has turned the head right. -/
def sampleContextRight : Context :=
  { userInFront := true, faceX := some 0.3, faceY := some 0.4, secondFaceX := none,
    secondFaceY := none, headDirection := "Looking Right" }

/-- The state invariant of `dynamicGaze`: the active slot is 1 or 2, and the state is
"saccading" exactly when the `saccade` field is non-null. -/
def dynamicGaze.Invariant (d : dynamicGaze) : Prop :=
  (d.activeFace = 1 ∨ d.activeFace = 2) ∧
    (d.state = GazeState.saccading ↔ d.saccade.isSome = true)

/-- A dynamicGaze built at 10000 and applied once at 12000, when its dwell time is over,
with two faces in view. -/
def sampleSaccadeStarted : dynamicGaze :=
  ((dynamicGaze.new 2000 0.15 10000).applyAll (World.initial true).sink
    [(12000, sampleContext)]).1

/-- A dynamicGaze saccading from slot 1 whose saccade has arrived (progress 1). -/
def sampleSaccadeArrived : dynamicGaze :=
  { dynamicGaze.new 2000 0.15 10000 with
    state := GazeState.saccading,
    saccade := some { Saccade.new 0.7 0.4 0.3 0.6 0.15 with progress := 1 } }

/-- The calls made under a clock `ts`: call `k` happens at clock value `ts k` with context
`ctxs k`, for `k < n`. -/
def clockCalls (ts : ℕ → ℚ) (ctxs : ℕ → Context) (n : ℕ) : List (ℚ × Context) :=
  (List.range n).map (fun (k : ℕ) => (ts k, ctxs k))

/-- A RespondingJointAttention built at time `t0` on sink `s0` and then applied under the
clock `ts`: state and sink after the first `n` calls, that is before the call at `ts n`. -/
def respondingAfterCalls (d : String) (t0 : ℚ) (s0 : Sink) (ts : ℕ → ℚ) (ctxs : ℕ → Context)
    (n : ℕ) : RespondingJointAttention × Sink :=
  (RespondingJointAttention.new d t0 s0).applyAll s0 (clockCalls ts ctxs n)

/-- An InitiatingJointAttention built at time `t0` on sink `s0` and then applied under the
clock `ts`: state and sink after the first `n` calls, that is before the call at `ts n`. -/
def initiatingAfterCalls (d : String) (t0 : ℚ) (s0 : Sink) (ts : ℕ → ℚ) (ctxs : ℕ → Context)
    (n : ℕ) : InitiatingJointAttention × Sink :=
  (InitiatingJointAttention.new d t0 s0).applyAll s0 (clockCalls ts ctxs n)

/-- Position of a phase in the order transitionToSide, hold, returnToUser, done. -/
def Phase.rank : Phase → ℕ
  | Phase.transitionToSide => 0
  | Phase.hold => 1
  | Phase.returnToUser => 2
  | Phase.done => 3

/-- Timing facts about a RespondingJointAttention built at `t0` whose last call so far
happened at `last`: the durations are those of the constructor, a hold began no earlier
than `t0 + 300`, a return no earlier than `t0 + 2300`, and the phase is done only if the
last call happened no earlier than `t0 + 2600`. -/
def RespondingJointAttention.Timing (b : RespondingJointAttention) (t0 last : ℚ) : Prop :=
  b.startTime = t0 ∧ b.transitionDuration = 300 ∧ b.holdDuration = 2000 ∧
    b.returnDuration = 300 ∧
    (b.phase = Phase.hold → ∃ h, b.holdStartTime = some h ∧ t0 + 300 ≤ h) ∧
    (b.phase = Phase.returnToUser → ∃ r, b.returnStartTime = some r ∧ t0 + 2300 ≤ r) ∧
    (b.phase = Phase.done → t0 + 2600 ≤ last)

/-- A clock whose first calls fall exactly on the phase boundaries of a joint-attention
behaviour built at 10000: 10300, 12300, and 12600 from then on. -/
def sampleClock : ℕ → ℚ
  | 0 => 10300
  | 1 => 12300
  | _ => 12600

/-- A GazeAversion built at time `t0` (its constructor drawing from `rng0`) and then updated
under the clock `ts`: its state after the first `n` calls, that is before the call at
`ts n`. Call `k` runs with the random stream `rngs k` and the sink state `sinks k`. -/
def aversionAfterCalls (aversionDuration intervalMin intervalMax t0 : ℚ) (rng0 : Rng)
    (ts : ℕ → ℚ) (rngs : ℕ → Rng) (sinks : ℕ → Sink) : ℕ → GazeAversion
  | 0 => (GazeAversion.new aversionDuration intervalMin intervalMax t0 rng0).1
  | n + 1 =>
    ((aversionAfterCalls aversionDuration intervalMin intervalMax t0 rng0 ts rngs sinks n).update
      (ts n) (rngs n) (sinks n)).1.beh

/-- A clock that advances by 2000 ms per call from 10000. -/
def sampleSlowClock : ℕ → ℚ := fun k => 10000 + 2000 * (k : ℚ)

/-! ## messaging.js: condition sequencing on startRound -/

/-- The globals `initialCondition`, `secondCondition` and `conditionSequence` of
gaze-controller.js (lines 30-32); `none` stands for `null`. -/
structure ConditionState where
  initialCondition : Option String
  secondCondition : Option String
  conditionSequence : List String

/-- Result of handling one `startRound` message: the new condition state, the remaining
random stream, and the value of `nextCondition` with which the handler reaches the block
that activates a toggle (`none` when it returned before, or reached it with `null`). -/
structure RoundResult where
  state : ConditionState
  rng : Rng
  nextCondition : Option String

/-- The array `conditions` (messaging.js 113). -/
def conditions : List String := ["ryan", "ivan", "carl"]

/-- The element `remainingConditions[Math.floor(Math.random() * 2)]` for the draw `r`. For a
draw in [0,1) the index is 0 or 1; for an index outside the array the source yields
`undefined`, which is `none` here. -/
def pickRemaining (remaining : List String) (r : ℚ) : Option String :=
  if 0 ≤ ⌊r * 2⌋ then remaining.get? (⌊r * 2⌋).toNat else none

/-- The `startRound` branch of `loggingWs.onmessage` (messaging.js 98-150) on the condition
state, for the round number `startingRound`. -/
def onStartRound (startingRound : ℚ) (rng : Rng) (st : ConditionState) : RoundResult :=
  if st.initialCondition = none then { state := st, rng := rng, nextCondition := none }
  else if startingRound = 2 ∧ st.secondCondition = none then
    let remainingConditions := conditions.filter (fun c => some c != st.initialCondition)
    if remainingConditions.length = 2 then
      let nextCondition := pickRemaining remainingConditions (rng 0)
      { state :=
          { st with secondCondition := nextCondition,
                    conditionSequence := st.conditionSequence ++ nextCondition.toList },
        rng := rng.next, nextCondition := nextCondition }
    else { state := st, rng := rng, nextCondition := none }
  else if startingRound = 3 then
    if st.initialCondition ≠ none ∧ st.secondCondition ≠ none then
      let remainingConditions :=
        conditions.filter
          (fun c => some c != st.initialCondition && some c != st.secondCondition)
      if remainingConditions.length = 1 then
        let nextCondition := remainingConditions.get? 0
        { state := { st with conditionSequence := st.conditionSequence ++ nextCondition.toList },
          rng := rng, nextCondition := nextCondition }
      else { state := st, rng := rng, nextCondition := none }
    else { state := st, rng := rng, nextCondition := none }
  else { state := st, rng := rng, nextCondition := none }

/-- The condition state after the user has chosen Ivan for round 1. -/
def sampleConditionState : ConditionState :=
  { initialCondition := some "ivan", secondCondition := none, conditionSequence := ["ivan"] }

/-! ## sortingGame/js/utils.js

A JavaScript string is the list of its UTF-16 code units, here a `String` with one `Char` per
code unit. -/

/-- The double-quote character. -/
def quoteChar : Char := Char.ofNat 34

/-- The comma character. -/
def commaChar : Char := ','

/-- The characters removed by `String.prototype.trim`: white space and line terminators. -/
def isJsWhitespace (c : Char) : Bool :=
  c.toNat = 9 || c.toNat = 10 || c.toNat = 11 || c.toNat = 12 || c.toNat = 13 ||
    c.toNat = 32 || c.toNat = 160 || c.toNat = 5760 ||
    (8192 ≤ c.toNat && c.toNat ≤ 8202) || c.toNat = 8232 || c.toNat = 8233 ||
    c.toNat = 8239 || c.toNat = 8287 || c.toNat = 12288 || c.toNat = 65279

/-- `trim()` on a list of code units. -/
def jsTrimChars (l : List Char) : List Char :=
  ((l.dropWhile isJsWhitespace).reverse.dropWhile isJsWhitespace).reverse

/-- `s.trim()`. -/
def jsTrim (s : String) : String := String.mk (jsTrimChars s.data)

/-- The loop of `parseCsvLine` (utils.js 15-32) over the rest of the line, with the
variables `columns`, `currentColumn` and `inQuotes`; the first character is `char` and the
second, if any, `nextChar`. -/
def parseCsvChars : List Char → List (List Char) → List Char → Bool → List (List Char)
  | [], columns, currentColumn, _ => columns ++ [jsTrimChars currentColumn]
  | [char], columns, currentColumn, inQuotes =>
    if char = quoteChar then parseCsvChars [] columns currentColumn (!inQuotes)
    else if char = commaChar ∧ inQuotes = false then
      parseCsvChars [] (columns ++ [jsTrimChars currentColumn]) [] inQuotes
    else parseCsvChars [] columns (currentColumn ++ [char]) inQuotes
  | char :: nextChar :: rest, columns, currentColumn, inQuotes =>
    if char = quoteChar ∧ inQuotes = true ∧ nextChar = quoteChar then
      parseCsvChars rest columns (currentColumn ++ [quoteChar]) inQuotes
    else if char = quoteChar then
      parseCsvChars (nextChar :: rest) columns currentColumn (!inQuotes)
    else if char = commaChar ∧ inQuotes = false then
      parseCsvChars (nextChar :: rest) (columns ++ [jsTrimChars currentColumn]) [] inQuotes
    else parseCsvChars (nextChar :: rest) columns (currentColumn ++ [char]) inQuotes

/-- `parseCsvLine` (utils.js 10-33). -/
def parseCsvLine (line : String) : List String :=
  (parseCsvChars line.data [] [] false).map String.mk

/-- A field with every double quote doubled. -/
def csvEscape : List Char → List Char
  | [] => []
  | c :: cs => if c = quoteChar then quoteChar :: quoteChar :: csvEscape cs else c :: csvEscape cs

/-- A field encoded for a CSV line: its double quotes doubled, wrapped in double quotes. -/
def csvQuote (field : List Char) : List Char := quoteChar :: (csvEscape field ++ [quoteChar])

/-- The encoded fields joined with commas. -/
def csvJoin : List (List Char) → List Char
  | [] => []
  | [f] => csvQuote f
  | f :: g :: fs => csvQuote f ++ commaChar :: csvJoin (g :: fs)

/-- The CSV line that encodes a list of fields. -/
def csvEncodeLine (fields : List String) : String :=
  String.mk (csvJoin (fields.map String.data))

/-- The assignment `[array[i], array[j]] = [array[j], array[i]]` for indices inside the
array, the only case the loop of `shuffleArray` reaches for draws in [0,1). For an index
outside the array the source reads `undefined`; the embedding then leaves the array as it
is. -/
def swapAt {α : Type} (array : List α) (i j : ℕ) : List α :=
  match array[i]?, array[j]? with
  | some x, some y => (array.set i y).set j x
  | _, _ => array

/-- The index `Math.floor(Math.random() * (i + 1))` for the draw `r`. -/
def shuffleIndex (r : ℚ) (i : ℕ) : ℤ := ⌊r * ((i : ℚ) + 1)⌋

/-- The loop of `shuffleArray` (utils.js 40-43) from `i` down to 1. -/
def shuffleLoop {α : Type} : ℕ → Rng → List α → List α × Rng
  | 0, rng, array => (array, rng)
  | i + 1, rng, array =>
    shuffleLoop i rng.next (swapAt array (i + 1) (shuffleIndex (rng 0) (i + 1)).toNat)

/-- `shuffleArray` (utils.js 39-44, and the copy at gameFlow.js 180-185): the shuffled array
and the remaining random stream. -/
def shuffleArray {α : Type} (array : List α) (rng : Rng) : List α × Rng :=
  shuffleLoop (array.length - 1) rng array

/-- The pairs `(i, j)` of indices swapped by the loop from `i` down to 1, in order. -/
def shuffleSwaps : ℕ → Rng → List (ℕ × ℤ)
  | 0, _ => []
  | i + 1, rng => (i + 1, shuffleIndex (rng 0) (i + 1)) :: shuffleSwaps i rng.next

/-! ## sortingGame/js/gameFlow.js: preparing the questions of a round -/

/-- The constant `QUESTIONS_PER_ROUND` (config.js 5). -/
def QUESTIONS_PER_ROUND : ℕ := 20

/-- A question object as built by csvLoader.js (lines 83-87); `difficulty` is `none` when the
property is undefined or null. -/
structure Question where
  question : String
  correct_answer : String
  difficulty : Option String

/-- The part of the game state (state.js) that `prepareRoundQuestions` reads and writes;
`questionsByRound r` is `none` when `questionsByRound[r]` is undefined. -/
structure GameState where
  questionsByRound : ℕ → Option (List Question)
  questionsThisRound : List Question
  questionIndexThisRound : ℕ

/-- The expression `(q.difficulty || 'N/A').trim().toLowerCase()` (gameFlow.js 118). -/
def difficultyOf (q : Question) : String :=
  jsToLowerCase (jsTrim (match q.difficulty with
    | some d => if d = "" then "N/A" else d
    | none => "N/A"))

/-- Whether a question is pushed to `easyQuestions`. -/
def isEasy (q : Question) : Bool := difficultyOf q == "easy"

/-- The callback of the `forEach` at lines 116-129 applied to one question; `acc` holds
`easyQuestions` and `hardQuestions`. -/
def pushByDifficulty (acc : List Question × List Question) (q : Question) :
    List Question × List Question :=
  if difficultyOf q = "easy" then (acc.1 ++ [q], acc.2)
  else if difficultyOf q = "hard" then (acc.1, acc.2 ++ [q])
  else (acc.1, acc.2 ++ [q])

/-- The `forEach` of lines 116-129: `easyQuestions` and `hardQuestions`. -/
def splitByDifficulty (availableQuestions : List Question) : List Question × List Question :=
  availableQuestions.foldl pushByDifficulty ([], [])

/-- The variables of the interleaving loop (lines 136-139). -/
structure InterleaveState where
  easyIdx : ℕ
  hardIdx : ℕ
  addedCount : ℕ
  questionsThisRound : List Question

/-- The condition of the `while` loop (line 141). -/
def interleaveCond (easy hard : List Question) (st : InterleaveState) : Bool :=
  decide (st.addedCount < QUESTIONS_PER_ROUND) &&
    (decide (st.easyIdx < easy.length) || decide (st.hardIdx < hard.length))

/-- The two pushes of one iteration (lines 143-153). Each index is inside its array when it
is read. -/
def interleaveBody (easy hard : List Question) (st : InterleaveState) : InterleaveState :=
  let st1 : InterleaveState :=
    if st.easyIdx < easy.length ∧ st.addedCount < QUESTIONS_PER_ROUND then
      { easyIdx := st.easyIdx + 1, hardIdx := st.hardIdx, addedCount := st.addedCount + 1,
        questionsThisRound := st.questionsThisRound ++ (easy.get? st.easyIdx).toList }
    else st
  if st1.hardIdx < hard.length ∧ st1.addedCount < QUESTIONS_PER_ROUND then
    { easyIdx := st1.easyIdx, hardIdx := st1.hardIdx + 1, addedCount := st1.addedCount + 1,
      questionsThisRound := st1.questionsThisRound ++ (hard.get? st1.hardIdx).toList }
  else st1

/-- The `while` loop (lines 141-158) run for at most `fuel` iterations; `none` when the
loop has not ended by then. -/
def interleaveLoop (easy hard : List Question) : ℕ → InterleaveState → Option InterleaveState
  | 0, st => if interleaveCond easy hard st then none else some st
  | fuel + 1, st =>
    if interleaveCond easy hard st then
      if (interleaveBody easy hard st).easyIdx ≥ easy.length ∧
          (interleaveBody easy hard st).hardIdx ≥ hard.length then
        some (interleaveBody easy hard st)
      else interleaveLoop easy hard fuel (interleaveBody easy hard st)
    else some st

/-- What `prepareRoundQuestions` returns and leaves behind. -/
structure PrepareResult where
  returned : Bool
  state : GameState
  rng : Rng

/-- `prepareRoundQuestions` (gameFlow.js 102-176). The loop is given `QUESTIONS_PER_ROUND`
iterations, each of which adds at least one question; the result is `none` only if that
were not enough. The modal shown on failure is not part of the state. -/
def prepareRoundQuestions (roundNumber : ℕ) (rng : Rng) (g : GameState) :
    Option PrepareResult :=
  match g.questionsByRound roundNumber with
  | none => some { returned := false, state := g, rng := rng }
  | some questions =>
    if questions.length = 0 then some { returned := false, state := g, rng := rng }
    else
      let split := splitByDifficulty questions
      let easyQuestions := shuffleArray split.1 rng
      let hardQuestions := shuffleArray split.2 easyQuestions.2
      match interleaveLoop easyQuestions.1 hardQuestions.1 QUESTIONS_PER_ROUND
          { easyIdx := 0, hardIdx := 0, addedCount := 0, questionsThisRound := [] } with
      | none => none
      | some st =>
        if st.questionsThisRound.length = 0 then
          some { returned := false,
                 state := { g with questionsThisRound := st.questionsThisRound },
                 rng := hardQuestions.2 }
        else
          some { returned := true,
                 state := { g with questionsThisRound := st.questionsThisRound,
                                   questionIndexThisRound := 0 },
                 rng := hardQuestions.2 }

/-- Two lists taken in turn, the first list first; when one runs out the rest of the other
follows. -/
def alternate {α : Type} : List α → List α → List α
  | [], hs => hs
  | e :: es, [] => e :: es
  | e :: es, h :: hs => e :: h :: alternate es hs

/-- A game state with two easy questions and one hard question loaded for round 1. -/
def sampleGameState : GameState :=
  { questionsByRound := fun r =>
      if r = 1 then
        some [{ question := "q1", correct_answer := "a", difficulty := some "Easy" },
              { question := "q2", correct_answer := "b", difficulty := some "hard" },
              { question := "q3", correct_answer := "a", difficulty := some " easy" }]
      else if r = 2 then some []
      else none,
    questionsThisRound := [], questionIndexThisRound := 7 }

/-- The invariant of the interleaving loop: the questions added so far are a prefix of the
two arrays taken in turn, `addedCount` is their number and does not exceed the limit, and
while the limit is not reached what remains is the rest of the two arrays taken in turn. -/
def InterleaveState.Good (easy hard : List Question) (st : InterleaveState) : Prop :=
  st.addedCount = st.questionsThisRound.length ∧ st.addedCount ≤ QUESTIONS_PER_ROUND ∧
    st.easyIdx ≤ easy.length ∧ st.hardIdx ≤ hard.length ∧
    ∃ rest, st.questionsThisRound ++ rest = alternate easy hard ∧
      (st.addedCount < QUESTIONS_PER_ROUND →
        rest = alternate (easy.drop st.easyIdx) (hard.drop st.hardIdx))

/-! ## Double-precision arithmetic

The value of an arithmetic operation on JavaScript numbers is the exact result rounded to
IEEE binary64. The definitions below give that rounding on rationals for the normal range
(53 significant bits, round to nearest, ties to even); overflow and subnormal numbers are
not covered. -/

/-- Nearest integer, a tie going to the even one. -/
def roundHalfEven (q : ℚ) : ℤ :=
  if q - ⌊q⌋ < 1 / 2 then ⌊q⌋
  else if 1 / 2 < q - ⌊q⌋ then ⌊q⌋ + 1
  else if ⌊q⌋ % 2 = 0 then ⌊q⌋ else ⌊q⌋ + 1

/-- The exponent `e` with `2 ^ e ≤ |x| < 2 ^ (e + 1)`, for `x ≠ 0`. -/
def binade (x : ℚ) : ℤ := Int.log 2 |x|

/-- The number `x` rounded to binary64: the nearest multiple of `2 ^ (e - 52)`, where `e`
is the exponent of `x`. -/
def roundDouble (x : ℚ) : ℚ :=
  if x = 0 then 0
  else (roundHalfEven (x / 2 ^ (binade x - 52)) : ℚ) * 2 ^ (binade x - 52)

/-- Whether a rational is a binary64 number: rounding leaves it unchanged. -/
def isDouble (a : ℚ) : Prop := roundDouble a = a

instance isDouble.decidable (a : ℚ) : Decidable (isDouble a) :=
  inferInstanceAs (Decidable (roundDouble a = a))

/-- The value `aversionTargetX` computed in binary64 from the first random draw `r`
(gaze-behaviors.js 51 and 54): each literal and each operation is rounded. -/
def aversionTargetXDouble (r : ℚ) : ℚ :=
  let randomOffsetX := roundDouble (roundDouble (r - 0.5) * roundDouble 0.8)
  roundDouble (0.5 +
    (if randomOffsetX > 0 then max (roundDouble 0.2) randomOffsetX
     else min (-roundDouble 0.2) randomOffsetX))

/-- The value `aversionTargetY` computed in binary64 from the second random draw `r`
(gaze-behaviors.js 52 and 55). -/
def aversionTargetYDouble (r : ℚ) : ℚ :=
  roundDouble (0.5 + roundDouble (roundDouble (r - 0.5) * roundDouble 0.6))

/-- `GazeAversion.update` with the aversion target (gaze-behaviors.js 51-55) computed in
binary64: the literals 0.8, 0.6 and 0.2 and every operation on the offsets are rounded.
Clock values and intervals are as in `GazeAversion.update`. -/
def GazeAversion.updateDouble (g : GazeAversion) (now : ℚ) (rng : Rng) (s : Sink) :
    Step GazeAversion × Rng :=
  match g.aversionFixation with
  | some f =>
    let r := f.apply now s
    if r.active then
      ({ active := true,
         beh := { g with aversionFixation := some r.beh,
                         currentX := r.beh.currentX, currentY := r.beh.currentY },
         sink := r.sink }, rng)
    else
      let q := GazeAversion.scheduleNextAversion { g with aversionFixation := none } now rng
      ({ active := false, beh := q.1, sink := r.sink }, q.2)
  | none =>
    if now ≥ g.nextAversionTime then
      let randomOffsetX := roundDouble (roundDouble (rng 0 - 0.5) * roundDouble 0.8)
      let randomOffsetY := roundDouble (roundDouble (rng 1 - 0.5) * roundDouble 0.6)
      let aversionTargetX :=
        roundDouble (0.5 +
          (if randomOffsetX > 0 then max (roundDouble 0.2) randomOffsetX
           else min (-roundDouble 0.2) randomOffsetX))
      let aversionTargetY := roundDouble (0.5 + randomOffsetY)
      let rng2 := rng.next.next
      let r := (Fixation.new aversionTargetX aversionTargetY g.aversionDuration now).apply now s
      if r.active then
        ({ active := true,
           beh := { g with aversionFixation := some r.beh,
                           currentX := r.beh.currentX, currentY := r.beh.currentY },
           sink := r.sink }, rng2)
      else
        let q := GazeAversion.scheduleNextAversion { g with aversionFixation := none } now rng2
        ({ active := false, beh := q.1, sink := r.sink }, q.2)
    else
      ({ active := false, beh := g, sink := s }, rng)

/-- The binary64 number written `0.6`. -/
def sampleDraw : ℚ := 5404319552844595 / 9007199254740992

/-- A random stream whose first draw is the binary64 number 0.6 and whose later draws are
1/2. -/
def sampleDoubleRng : Rng := fun k => if k = 0 then sampleDraw else 1 / 2

/-- A 50 ms tick from 10000 whose calls from the 27th on come 1 ms late. -/
def lateClock : ℕ → ℚ := fun k => if k < 26 then 10000 + 50 * (k : ℚ) else 10001 + 50 * (k : ℚ)

/-! # Theorems -/

/-! ## Auxiliary facts -/

theorem Behavior.apply_name (b : Behavior) (now : ℚ) (ctx : Context) (rng : Rng) (s : Sink) :
    (b.apply now ctx rng s).1.beh.name = b.name := by
  cases b <;> rfl

theorem applyCurrent_behaviorName (now : ℚ) (ctx : Context) (rng : Rng) (w : World) :
    (applyCurrent now ctx rng w).1.behaviorName = w.behaviorName := by
  unfold applyCurrent World.behaviorName
  cases h : w.currentBehavior with
  | none => simp [h]
  | some b => simp [Behavior.apply_name]

theorem applyCurrent_last (now : ℚ) (ctx : Context) (rng : Rng) (w : World) :
    (applyCurrent now ctx rng w).1.lastRespondingJointAttentionTime
      = w.lastRespondingJointAttentionTime := by
  unfold applyCurrent
  cases h : w.currentBehavior <;> simp

theorem respondingEligible_iff (now : ℚ) (tg : Toggles) (ctx : Context) (w : World) :
    respondingEligible now tg ctx w = true ↔
      (tg.respondingJointAttentionToggle = some true ∧ tg.carlConditionToggle ≠ some true ∧
        (ctx.headDirection = "Looking Left" ∨ ctx.headDirection = "Looking Right") ∧
        now - w.lastRespondingJointAttentionTime ≥ 7000) := by
  unfold respondingEligible respondingCooldown isChecked
  rcases hc : tg.carlConditionToggle with _ | _ | _ <;>
    rcases hr : tg.respondingJointAttentionToggle with _ | _ | _ <;>
    simp

/-! ## Scheduler: selection -/

theorem selectAndApply_behaviorName (now : ℚ) (tg : Toggles) (ctx : Context) (rng : Rng)
    (w : World) (hnone : w.currentBehavior = none) :
    (selectAndApply now tg ctx rng w).world.behaviorName =
      match chooseBehavior now tg ctx w with
      | Selection.responding _ => some "RespondingJointAttention"
      | Selection.dynamicGaze => some "dynamicGaze"
      | Selection.mutualGaze => some "MutualGaze"
      | Selection.idle => none := by
  unfold selectAndApply
  simp only [applyCurrent_behaviorName]
  cases chooseBehavior now tg ctx w <;>
    simp [installSelection, World.behaviorName, Behavior.name, hnone]

/-- Priority order of the selection block, for a tick that reaches it. -/
theorem updateGaze_priority (now : ℚ) (tg : Toggles) (ctx : Context) (rng : Rng) (w : World)
    (hidle : w.currentBehavior = none ∨
      ∃ b, w.currentBehavior = some b ∧ (b.apply now ctx rng w.sink).1.active = false)
    (huser : ctx.userInFront = true) :
    ((tg.respondingJointAttentionToggle = some true ∧ tg.carlConditionToggle ≠ some true ∧
        (ctx.headDirection = "Looking Left" ∨ ctx.headDirection = "Looking Right") ∧
        now - w.lastRespondingJointAttentionTime ≥ 7000) →
      (updateGaze now tg ctx rng w).world.behaviorName = some "RespondingJointAttention") ∧
    (¬ (tg.respondingJointAttentionToggle = some true ∧ tg.carlConditionToggle ≠ some true ∧
        (ctx.headDirection = "Looking Left" ∨ ctx.headDirection = "Looking Right") ∧
        now - w.lastRespondingJointAttentionTime ≥ 7000) →
      ((updateGaze now tg ctx rng w).world.behaviorName = some "dynamicGaze" ↔
        (ctx.secondFaceX ≠ none ∧ ctx.secondFaceY ≠ none)) ∧
      (¬ (ctx.secondFaceX ≠ none ∧ ctx.secondFaceY ≠ none) →
        (updateGaze now tg ctx rng w).world.behaviorName = some "MutualGaze")) := by
  have key : ∃ w1 rng1, w1.currentBehavior = none ∧
      w1.lastRespondingJointAttentionTime = w.lastRespondingJointAttentionTime ∧
      updateGaze now tg ctx rng w = selectAndApply now tg ctx rng1 w1 := by
    rcases hidle with h | ⟨b, hb, hfalse⟩
    · exact ⟨w, rng, h, rfl, by simp [updateGaze, h]⟩
    · exact ⟨{ w with currentBehavior := none, sink := (b.apply now ctx rng w.sink).1.sink },
        (b.apply now ctx rng w.sink).2, rfl, rfl, by simp [updateGaze, hb, hfalse]⟩
  obtain ⟨w1, rng1, hnone, hlast, heq⟩ := key
  rw [heq, selectAndApply_behaviorName now tg ctx rng1 w1 hnone]
  have hel := respondingEligible_iff now tg ctx w1
  rw [hlast] at hel
  unfold chooseBehavior
  simp only [huser, if_true]
  constructor
  · intro h
    rw [if_pos (hel.mpr h)]
  · intro h
    have hne : ¬ respondingEligible now tg ctx w1 = true := fun hc => h (hel.mp hc)
    rw [if_neg hne]
    rcases hx : ctx.secondFaceX with _ | x <;> rcases hy : ctx.secondFaceY with _ | y <;> simp

/-- C1. On a tick with no active behaviour (none held, or the held one reports inactive on
this tick) and a user in front: when RespondingJointAttention is eligible it is the
installed behaviour, whatever the second-face coordinates are; otherwise the installed
behaviour is dynamicGaze exactly when both second-face coordinates are non-null, and
MutualGaze when they are not. -/
theorem C1_selection_priority (now : ℚ) (tg : Toggles) (ctx : Context) (rng : Rng) (w : World)
    (hidle : w.currentBehavior = none ∨
      ∃ b, w.currentBehavior = some b ∧ (b.apply now ctx rng w.sink).1.active = false)
    (huser : ctx.userInFront = true) :
    ((tg.respondingJointAttentionToggle = some true ∧ tg.carlConditionToggle ≠ some true ∧
        (ctx.headDirection = "Looking Left" ∨ ctx.headDirection = "Looking Right") ∧
        now - w.lastRespondingJointAttentionTime ≥ 7000) →
      (updateGaze now tg ctx rng w).world.behaviorName = some "RespondingJointAttention") ∧
    (¬ (tg.respondingJointAttentionToggle = some true ∧ tg.carlConditionToggle ≠ some true ∧
        (ctx.headDirection = "Looking Left" ∨ ctx.headDirection = "Looking Right") ∧
        now - w.lastRespondingJointAttentionTime ≥ 7000) →
      ((updateGaze now tg ctx rng w).world.behaviorName = some "dynamicGaze" ↔
        (ctx.secondFaceX ≠ none ∧ ctx.secondFaceY ≠ none)) ∧
      (¬ (ctx.secondFaceX ≠ none ∧ ctx.secondFaceY ≠ none) →
        (updateGaze now tg ctx rng w).world.behaviorName = some "MutualGaze")) :=
  updateGaze_priority now tg ctx rng w hidle huser

/-- C1 at a concrete tick: user in front with the head turned left, a second face in view,
cooldown elapsed. -/
theorem C1_selection_priority_witness :
    (updateGaze 10000 sampleToggles sampleContext sampleRng
      (World.initial true)).world.behaviorName = some "RespondingJointAttention" :=
  (C1_selection_priority 10000 sampleToggles sampleContext sampleRng (World.initial true)
    (Or.inl rfl) rfl).1
    ⟨rfl, by decide, Or.inl rfl, by norm_num [World.initial]⟩

/-! ## Scheduler: cooldown -/

theorem installSelection_last (sel : Selection) (now : ℚ) (rng : Rng) (w : World) :
    (installSelection sel now rng w).1.lastRespondingJointAttentionTime =
      match sel with
      | Selection.responding _ => now
      | _ => w.lastRespondingJointAttentionTime := by
  cases sel <;> rfl

theorem chooseBehavior_responding (now : ℚ) (tg : Toggles) (ctx : Context) (w : World)
    (d : String) (h : chooseBehavior now tg ctx w = Selection.responding d) :
    ctx.userInFront = true ∧ respondingEligible now tg ctx w = true ∧
      d = headDirectionWord ctx.headDirection := by
  unfold chooseBehavior at h
  split_ifs at h with h1 h2 h3
  · simp only [Selection.responding.injEq] at h
    exact ⟨h1, h2, h.symm⟩

/-- What a tick does, in terms of the state `w1` in which its selection block runs. -/
theorem updateGaze_selected (now : ℚ) (tg : Toggles) (ctx : Context) (rng : Rng) (w : World)
    (sel : Selection) (h : (updateGaze now tg ctx rng w).selected = some sel) :
    ∃ w1 rng1, w1.currentBehavior = none ∧
      w1.lastRespondingJointAttentionTime = w.lastRespondingJointAttentionTime ∧
      w1.lastHandledCardId = w.lastHandledCardId ∧
      (w.currentBehavior = none ∨
        ∃ b, w.currentBehavior = some b ∧ (b.apply now ctx rng w.sink).1.active = false) ∧
      sel = chooseBehavior now tg ctx w1 ∧
      updateGaze now tg ctx rng w = selectAndApply now tg ctx rng1 w1 := by
  cases hb : w.currentBehavior with
  | none =>
    have heq : updateGaze now tg ctx rng w = selectAndApply now tg ctx rng w := by
      simp [updateGaze, hb]
    rw [heq] at h
    refine ⟨w, rng, hb, rfl, rfl, Or.inl rfl, ?_, heq⟩
    simpa [selectAndApply] using h.symm
  | some b =>
    cases ha : (b.apply now ctx rng w.sink).1.active with
    | true => simp [updateGaze, hb, ha] at h
    | false =>
      have heq : updateGaze now tg ctx rng w =
          selectAndApply now tg ctx (b.apply now ctx rng w.sink).2
            { w with currentBehavior := none, sink := (b.apply now ctx rng w.sink).1.sink } := by
        simp [updateGaze, hb, ha]
      rw [heq] at h
      refine ⟨{ w with currentBehavior := none, sink := (b.apply now ctx rng w.sink).1.sink },
        (b.apply now ctx rng w.sink).2, rfl, rfl, rfl, Or.inr ⟨b, rfl, ha⟩, ?_, heq⟩
      simpa [selectAndApply] using h.symm

theorem updateGaze_last (now : ℚ) (tg : Toggles) (ctx : Context) (rng : Rng) (w : World) :
    (updateGaze now tg ctx rng w).world.lastRespondingJointAttentionTime =
      match (updateGaze now tg ctx rng w).selected with
      | some (Selection.responding _) => now
      | _ => w.lastRespondingJointAttentionTime := by
  cases hs : (updateGaze now tg ctx rng w).selected with
  | none =>
    unfold updateGaze at hs ⊢
    cases hb : w.currentBehavior with
    | none => simp [hb, selectAndApply] at hs
    | some b =>
      simp only [hb] at hs ⊢
      cases ha : (b.apply now ctx rng w.sink).1.active with
      | true => simp
      | false => simp [ha, selectAndApply] at hs
  | some sel =>
    obtain ⟨w1, rng1, _, hlast, _, _, hsel, heq⟩ := updateGaze_selected now tg ctx rng w sel hs
    rw [heq]
    unfold selectAndApply
    simp only [applyCurrent_last, installSelection_last, ← hsel, hlast]
    cases sel <;> rfl

theorem updateGaze_responding (now : ℚ) (tg : Toggles) (ctx : Context) (rng : Rng) (w : World)
    (d : String) (h : (updateGaze now tg ctx rng w).selected = some (Selection.responding d)) :
    ctx.userInFront = true ∧
      (tg.respondingJointAttentionToggle = some true ∧ tg.carlConditionToggle ≠ some true ∧
        (ctx.headDirection = "Looking Left" ∨ ctx.headDirection = "Looking Right") ∧
        now - w.lastRespondingJointAttentionTime ≥ 7000) ∧
      d = headDirectionWord ctx.headDirection ∧
      (updateGaze now tg ctx rng w).world.lastRespondingJointAttentionTime = now ∧
      (updateGaze now tg ctx rng w).world.behaviorName = some "RespondingJointAttention" := by
  have hl := updateGaze_last now tg ctx rng w
  rw [h] at hl
  obtain ⟨w1, rng1, hnone, hlast, _, _, hsel, heq⟩ :=
    updateGaze_selected now tg ctx rng w _ h
  obtain ⟨hu, he, hd⟩ := chooseBehavior_responding now tg ctx w1 d hsel.symm
  have hel := (respondingEligible_iff now tg ctx w1).mp he
  rw [hlast] at hel
  refine ⟨hu, hel, hd, hl, ?_⟩
  rw [heq, selectAndApply_behaviorName now tg ctx rng1 w1 hnone, ← hsel]

theorem onKeydown_last (key : String) (tg : Toggles) (now : ℚ) (w : World) :
    (onKeydown key tg now w).lastRespondingJointAttentionTime =
      w.lastRespondingJointAttentionTime := by
  unfold onKeydown
  split_ifs <;> rfl

theorem scheduledInitiatingJA_last (direction : String) (now : ℚ) (w : World) :
    (scheduledInitiatingJA direction now w).lastRespondingJointAttentionTime =
      w.lastRespondingJointAttentionTime := by
  unfold scheduledInitiatingJA
  split_ifs <;> rfl

/-- An event that installs a RespondingJointAttention runs at least the cooldown after the
recorded time and records its own time; any other event leaves the recorded time alone. -/
theorem stepEvent_last (w : World) (e : Event) :
    (installsResponding w e = true →
      e.time - w.lastRespondingJointAttentionTime ≥ 7000 ∧
      (stepEvent w e).lastRespondingJointAttentionTime = e.time) ∧
    (installsResponding w e = false →
      (stepEvent w e).lastRespondingJointAttentionTime = w.lastRespondingJointAttentionTime) := by
  cases e with
  | tick now tg ctx rng =>
    have hl := updateGaze_last now tg ctx rng w
    simp only [installsResponding, eventSelection, stepEvent, Event.time]
    cases hs : (updateGaze now tg ctx rng w).selected with
    | none => simp [hs] at hl ⊢; exact hl
    | some sel =>
      cases sel with
      | responding d =>
        obtain ⟨_, hel, _, hnow, _⟩ := updateGaze_responding now tg ctx rng w d hs
        simp only [true_implies]
        exact ⟨⟨hel.2.2.2, hnow⟩, by simp⟩
      | dynamicGaze => simp [hs] at hl ⊢; exact hl
      | mutualGaze => simp [hs] at hl ⊢; exact hl
      | idle => simp [hs] at hl ⊢; exact hl
  | keydown now key tg =>
    simp [installsResponding, eventSelection, stepEvent, onKeydown_last]
  | cardTimeout now direction =>
    simp [installsResponding, eventSelection, stepEvent, scheduledInitiatingJA_last]

theorem respondingInstallTimes_ge (es : List Event) :
    ∀ w : World, ∀ t ∈ respondingInstallTimes w es,
      t - w.lastRespondingJointAttentionTime ≥ 7000 := by
  induction es with
  | nil => intro w t ht; simp [respondingInstallTimes] at ht
  | cons e es ih =>
    intro w t ht
    have hstep := stepEvent_last w e
    unfold respondingInstallTimes at ht
    cases hi : installsResponding w e with
    | true =>
      obtain ⟨hge, hset⟩ := hstep.1 hi
      simp only [hi, if_true, List.mem_cons] at ht
      rcases ht with rfl | ht
      · exact hge
      · have := ih (stepEvent w e) t ht
        rw [hset] at this
        linarith
    | false =>
      simp only [hi] at ht
      have := ih (stepEvent w e) t ht
      rw [hstep.2 hi] at this
      simpa using this

theorem respondingInstallTimes_pairwise (es : List Event) :
    ∀ w : World, List.Pairwise (fun t1 t2 => t2 - t1 ≥ 7000) (respondingInstallTimes w es) := by
  induction es with
  | nil => intro w; simp [respondingInstallTimes]
  | cons e es ih =>
    intro w
    unfold respondingInstallTimes
    cases hi : installsResponding w e with
    | true =>
      simp only [if_true, List.pairwise_cons]
      refine ⟨fun t ht => ?_, ih _⟩
      have := respondingInstallTimes_ge es (stepEvent w e) t ht
      rw [((stepEvent_last w e).1 hi).2] at this
      exact this
    | false => simpa using ih _

/-- C2. A tick installs RespondingJointAttention only when at least 7000 ms have passed since
the recorded time, with the responding toggle checked and the Carl toggle not checked, and
it then records its own clock value; hence in every run of ticks, key events and delayed
card callbacks, any two ticks that install it are at least 7000 ms apart. -/
theorem C2_responding_cooldown (w : World) :
    (∀ now tg ctx rng d,
      (updateGaze now tg ctx rng w).selected = some (Selection.responding d) →
        now - w.lastRespondingJointAttentionTime ≥ 7000 ∧
        (updateGaze now tg ctx rng w).world.lastRespondingJointAttentionTime = now ∧
        (updateGaze now tg ctx rng w).world.behaviorName = some "RespondingJointAttention" ∧
        tg.carlConditionToggle ≠ some true ∧
        tg.respondingJointAttentionToggle = some true) ∧
    (∀ es : List Event,
      List.Pairwise (fun t1 t2 => t2 - t1 ≥ 7000) (respondingInstallTimes w es)) := by
  refine ⟨fun now tg ctx rng d h => ?_, fun es => respondingInstallTimes_pairwise es w⟩
  obtain ⟨_, hel, _, hnow, hname⟩ := updateGaze_responding now tg ctx rng w d h
  exact ⟨hel.2.2.2, hnow, hname, hel.2.1, hel.1⟩

theorem sample_tick_selected :
    (updateGaze 10000 sampleToggles sampleContext sampleRng (World.initial true)).selected =
      some (Selection.responding "left") := by
  have hw : headDirectionWord "Looking Left" = "left" := by decide
  simp [updateGaze, World.initial, selectAndApply, chooseBehavior, sampleContext,
    respondingEligible, sampleToggles, isChecked, respondingCooldown, hw]
  norm_num

/-- C2 at the first tick of a session with the head turned left: the cooldown test passes
against the initial recorded time 0 and the tick records 10000. -/
theorem C2_responding_cooldown_witness :
    (10000 : ℚ) - (World.initial true).lastRespondingJointAttentionTime ≥ 7000 ∧
      (updateGaze 10000 sampleToggles sampleContext sampleRng
        (World.initial true)).world.lastRespondingJointAttentionTime = 10000 ∧
      (updateGaze 10000 sampleToggles sampleContext sampleRng
        (World.initial true)).world.behaviorName = some "RespondingJointAttention" ∧
      sampleToggles.carlConditionToggle ≠ some true ∧
      sampleToggles.respondingJointAttentionToggle = some true :=
  (C2_responding_cooldown (World.initial true)).1 10000 sampleToggles sampleContext sampleRng
    "left" sample_tick_selected

/-! ## Scheduler: advancing the held behaviour -/

/-- C3. When the held behaviour's apply returns true the tick makes no selection: the slot
holds the same behaviour (advanced by that one apply), and the recorded responding time and
handled card id are unchanged, for every context and toggle state. When apply returns false
the behaviour is dropped and the selection block runs in the same tick, from the state
with an empty slot. -/
theorem C3_active_behaviour_frame (now : ℚ) (tg : Toggles) (ctx : Context) (rng : Rng)
    (w : World) (b : Behavior) (hb : w.currentBehavior = some b) :
    ((b.apply now ctx rng w.sink).1.active = true →
      (updateGaze now tg ctx rng w).selected = none ∧
      (updateGaze now tg ctx rng w).world.currentBehavior =
        some (b.apply now ctx rng w.sink).1.beh ∧
      (updateGaze now tg ctx rng w).world.behaviorName = w.behaviorName ∧
      (updateGaze now tg ctx rng w).world.lastRespondingJointAttentionTime =
        w.lastRespondingJointAttentionTime ∧
      (updateGaze now tg ctx rng w).world.lastHandledCardId = w.lastHandledCardId ∧
      (updateGaze now tg ctx rng w).world.sink = (b.apply now ctx rng w.sink).1.sink) ∧
    ((b.apply now ctx rng w.sink).1.active = false →
      updateGaze now tg ctx rng w =
        selectAndApply now tg ctx (b.apply now ctx rng w.sink).2
          { w with currentBehavior := none, sink := (b.apply now ctx rng w.sink).1.sink } ∧
      (updateGaze now tg ctx rng w).selected =
        some (chooseBehavior now tg ctx
          { w with currentBehavior := none, sink := (b.apply now ctx rng w.sink).1.sink })) := by
  constructor
  · intro ha
    simp [updateGaze, hb, ha, World.behaviorName, Behavior.apply_name]
  · intro ha
    have heq : updateGaze now tg ctx rng w =
        selectAndApply now tg ctx (b.apply now ctx rng w.sink).2
          { w with currentBehavior := none, sink := (b.apply now ctx rng w.sink).1.sink } := by
      simp [updateGaze, hb, ha]
    exact ⟨heq, by rw [heq]; rfl⟩

/-- C3 on a held RespondingJointAttention in its transition phase, seven seconds later with
the head turned again: the tick keeps it and records nothing. -/
theorem C3_active_behaviour_frame_witness :
    (updateGaze 17000 sampleToggles sampleContext sampleRng sampleHeldWorld).selected = none ∧
      (updateGaze 17000 sampleToggles sampleContext sampleRng
        sampleHeldWorld).world.lastRespondingJointAttentionTime = 10000 :=
  have h := (C3_active_behaviour_frame 17000 sampleToggles sampleContext sampleRng
    sampleHeldWorld _ rfl).1 rfl
  ⟨h.1, h.2.2.2.1⟩

/-! ## Scheduler: who may replace the held behaviour -/

theorem MutualGaze.apply_active (m : MutualGaze) (now : ℚ) (ctx : Context) (rng : Rng)
    (s : Sink) : (m.apply now ctx rng s).1.active = true := by
  unfold MutualGaze.apply
  simp only
  split_ifs <;> rfl

theorem behaviorName_mutualGaze (w : World) (h : w.behaviorName = some "MutualGaze") :
    ∃ m, w.currentBehavior = some (Behavior.mutualGaze m) := by
  unfold World.behaviorName at h
  cases hb : w.currentBehavior with
  | none => simp [hb] at h
  | some b =>
    cases b with
    | mutualGaze m => exact ⟨m, rfl⟩
    | dynamic d => simp [hb, Behavior.name] at h
    | responding j => simp [hb, Behavior.name] at h
    | initiating j => simp [hb, Behavior.name] at h

theorem sampleMutualWorld_name : sampleMutualWorld.behaviorName = some "MutualGaze" := by
  have h := (updateGaze_priority 10000 sampleToggles sampleContextOneFace sampleRng
    (World.initial true) (Or.inl rfl) rfl).2
  have hne : ¬ (sampleToggles.respondingJointAttentionToggle = some true ∧
      sampleToggles.carlConditionToggle ≠ some true ∧
      (sampleContextOneFace.headDirection = "Looking Left" ∨
        sampleContextOneFace.headDirection = "Looking Right") ∧
      (10000 : ℚ) - (World.initial true).lastRespondingJointAttentionTime ≥ 7000) := by
    intro hc
    rcases hc.2.2.1 with h1 | h1 <;> exact absurd h1 (by decide)
  exact (h hne).2 (fun hc => hc.1 rfl)

theorem isJointAttention_of_mutualGaze (w : World) (m : MutualGaze)
    (h : w.currentBehavior = some (Behavior.mutualGaze m)) :
    isJointAttention w.currentBehavior = false := by
  rw [h]; rfl

theorem onKeydown_arrowLeft (tg : Toggles) (now : ℚ) (w : World)
    (ht : tg.jointAttentionToggle = some true) (hc : isChecked tg.carlConditionToggle = false)
    (hj : isJointAttention w.currentBehavior = false) :
    (onKeydown "ArrowLeft" tg now w).behaviorName = some "InitiatingJointAttention" := by
  have ht2 : isChecked (some true) = true := rfl
  simp [onKeydown, ht, ht2, hc, hj, World.behaviorName, Behavior.name]

/-- C4, counterexample. After the first tick of a session with a single user the slot holds
MutualGaze; on the next tick its apply returns true (the tick makes no selection and keeps
it), and a following ArrowLeft key event nevertheless installs InitiatingJointAttention in
its place. -/
theorem C4_counterexample :
    (updateGaze 10050 sampleToggles sampleContextOneFace sampleRng sampleMutualWorld).selected
        = none ∧
      (updateGaze 10050 sampleToggles sampleContextOneFace sampleRng
        sampleMutualWorld).world.behaviorName = some "MutualGaze" ∧
      (onKeydown "ArrowLeft" sampleToggles 10060
        (updateGaze 10050 sampleToggles sampleContextOneFace sampleRng
          sampleMutualWorld).world).behaviorName = some "InitiatingJointAttention" := by
  obtain ⟨m, hm⟩ := behaviorName_mutualGaze _ sampleMutualWorld_name
  have hact : ((Behavior.mutualGaze m).apply 10050 sampleContextOneFace sampleRng
      sampleMutualWorld.sink).1.active = true :=
    MutualGaze.apply_active m _ _ _ _
  have hsel : (updateGaze 10050 sampleToggles sampleContextOneFace sampleRng
      sampleMutualWorld).selected = none := by
    simp [updateGaze, hm, hact]
  have hcur : (updateGaze 10050 sampleToggles sampleContextOneFace sampleRng
      sampleMutualWorld).world.currentBehavior =
        some ((Behavior.mutualGaze m).apply 10050 sampleContextOneFace sampleRng
          sampleMutualWorld.sink).1.beh := by
    simp [updateGaze, hm, hact]
  have hname : (updateGaze 10050 sampleToggles sampleContextOneFace sampleRng
      sampleMutualWorld).world.behaviorName = some "MutualGaze" := by
    unfold World.behaviorName
    rw [hcur, Option.map_some', Behavior.apply_name]
    rfl
  obtain ⟨m2, hm2⟩ := behaviorName_mutualGaze _ hname
  refine ⟨hsel, hname, ?_⟩
  exact onKeydown_arrowLeft sampleToggles 10060 _ rfl rfl
    (isJointAttention_of_mutualGaze _ m2 hm2)

/-- C4, amended. The tick makes a selection only when the slot is empty or the held
behaviour's apply has returned false on that tick, and keeps a behaviour whose apply
returned true. The key handler and the delayed card callback leave the slot alone when it
holds a joint-attention behaviour; otherwise, whatever else it holds, the only behaviour
they put there is a fresh InitiatingJointAttention. -/
theorem C4_install_discipline (w : World) :
    (∀ now tg ctx rng sel, (updateGaze now tg ctx rng w).selected = some sel →
      (w.currentBehavior = none ∨
        ∃ b, w.currentBehavior = some b ∧ (b.apply now ctx rng w.sink).1.active = false)) ∧
    (∀ now tg ctx rng b, w.currentBehavior = some b →
      (b.apply now ctx rng w.sink).1.active = true →
      (updateGaze now tg ctx rng w).world.currentBehavior =
        some (b.apply now ctx rng w.sink).1.beh) ∧
    (∀ key tg now,
      (isJointAttention w.currentBehavior = true → onKeydown key tg now w = w) ∧
      ((onKeydown key tg now w).currentBehavior = w.currentBehavior ∨
        ∃ d, (onKeydown key tg now w).currentBehavior =
          some (Behavior.initiating (InitiatingJointAttention.new d now w.sink)))) ∧
    (∀ direction now,
      (isJointAttention w.currentBehavior = true →
        scheduledInitiatingJA direction now w = w) ∧
      (isJointAttention w.currentBehavior = false →
        (scheduledInitiatingJA direction now w).currentBehavior =
          some (Behavior.initiating (InitiatingJointAttention.new direction now w.sink)))) := by
  refine ⟨?_, ?_, ?_, ?_⟩
  · intro now tg ctx rng sel h
    obtain ⟨_, _, _, _, _, hidle, _, _⟩ := updateGaze_selected now tg ctx rng w sel h
    exact hidle
  · intro now tg ctx rng b hb ha
    simp [updateGaze, hb, ha]
  · intro key tg now
    constructor
    · intro hj
      unfold onKeydown
      split_ifs <;> rfl
    · unfold onKeydown
      split_ifs
      · exact Or.inl rfl
      · exact Or.inl rfl
      · exact Or.inr ⟨"left", rfl⟩
      · exact Or.inr ⟨"right", rfl⟩
      · exact Or.inl rfl
  · intro direction now
    constructor
    · intro hj
      simp [scheduledInitiatingJA, hj]
    · intro hj
      simp [scheduledInitiatingJA, hj]

/-- C4 amended, at the first tick of a session: the tick selects, and the slot was empty. -/
theorem C4_install_discipline_witness :
    (World.initial true).currentBehavior = none ∨
      ∃ b, (World.initial true).currentBehavior = some b ∧
        (b.apply 10000 sampleContext sampleRng (World.initial true).sink).1.active = false :=
  (C4_install_discipline (World.initial true)).1 10000 sampleToggles sampleContext sampleRng
    (Selection.responding "left") sample_tick_selected

/-! ## Joint attention: hold target -/

theorem setPupilTransform_sent (x y k : ℚ) (s : Sink) :
    (setPupilTransform x y k s).sent = (x, y, k) :: s.sent := by
  unfold setPupilTransform findPupils
  simp only
  split_ifs <;> rfl

/-- The fields that `RespondingJointAttention.apply` never writes. -/
theorem responding_apply_const (b : RespondingJointAttention) (now : ℚ)
    (ctx : Context) (s : Sink) :
    (b.apply now ctx s).beh.targetX = b.targetX ∧ (b.apply now ctx s).beh.targetY = b.targetY ∧
      (b.apply now ctx s).beh.userLookDirection = b.userLookDirection ∧
      (b.apply now ctx s).beh.startTime = b.startTime ∧
      (b.apply now ctx s).beh.transitionDuration = b.transitionDuration ∧
      (b.apply now ctx s).beh.holdDuration = b.holdDuration ∧
      (b.apply now ctx s).beh.returnDuration = b.returnDuration := by
  unfold RespondingJointAttention.apply
  cases b.phase <;> simp only <;> (try split_ifs) <;> simp

/-- The fields that `InitiatingJointAttention.apply` never writes. -/
theorem initiating_apply_const (b : InitiatingJointAttention) (now : ℚ)
    (ctx : Context) (s : Sink) :
    (b.apply now ctx s).beh.targetX = b.targetX ∧ (b.apply now ctx s).beh.targetY = b.targetY ∧
      (b.apply now ctx s).beh.robotLookDirection = b.robotLookDirection ∧
      (b.apply now ctx s).beh.startTime = b.startTime ∧
      (b.apply now ctx s).beh.transitionDuration = b.transitionDuration ∧
      (b.apply now ctx s).beh.holdDuration = b.holdDuration ∧
      (b.apply now ctx s).beh.returnDuration = b.returnDuration := by
  unfold InitiatingJointAttention.apply
  cases b.phase <;> simp only <;> (try split_ifs) <;> simp

theorem responding_applyAll_nil (b : RespondingJointAttention) (s : Sink) :
    b.applyAll s [] = (b, s) := rfl

theorem responding_applyAll_cons (b : RespondingJointAttention) (s : Sink)
    (c : ℚ × Context) (calls : List (ℚ × Context)) :
    b.applyAll s (c :: calls) = (b.apply c.1 c.2 s).beh.applyAll (b.apply c.1 c.2 s).sink calls :=
  rfl

theorem responding_applyAll_append (b : RespondingJointAttention) (s : Sink)
    (xs ys : List (ℚ × Context)) :
    b.applyAll s (xs ++ ys) = (b.applyAll s xs).1.applyAll (b.applyAll s xs).2 ys := by
  unfold RespondingJointAttention.applyAll
  rw [List.foldl_append]

theorem initiating_applyAll_nil (b : InitiatingJointAttention) (s : Sink) :
    b.applyAll s [] = (b, s) := rfl

theorem initiating_applyAll_cons (b : InitiatingJointAttention) (s : Sink)
    (c : ℚ × Context) (calls : List (ℚ × Context)) :
    b.applyAll s (c :: calls) = (b.apply c.1 c.2 s).beh.applyAll (b.apply c.1 c.2 s).sink calls :=
  rfl

theorem responding_applyAll_target (calls : List (ℚ × Context)) :
    ∀ (b : RespondingJointAttention) (s : Sink),
      (b.applyAll s calls).1.targetX = b.targetX ∧ (b.applyAll s calls).1.targetY = b.targetY := by
  induction calls with
  | nil => intro b s; exact ⟨rfl, rfl⟩
  | cons c calls ih =>
    intro b s
    rw [responding_applyAll_cons]
    have h := ih (b.apply c.1 c.2 s).beh (b.apply c.1 c.2 s).sink
    have hc := responding_apply_const b c.1 c.2 s
    exact ⟨h.1.trans hc.1, h.2.trans hc.2.1⟩

theorem initiating_applyAll_target (calls : List (ℚ × Context)) :
    ∀ (b : InitiatingJointAttention) (s : Sink),
      (b.applyAll s calls).1.targetX = b.targetX ∧ (b.applyAll s calls).1.targetY = b.targetY := by
  induction calls with
  | nil => intro b s; exact ⟨rfl, rfl⟩
  | cons c calls ih =>
    intro b s
    rw [initiating_applyAll_cons]
    have h := ih (b.apply c.1 c.2 s).beh (b.apply c.1 c.2 s).sink
    have hc := initiating_apply_const b c.1 c.2 s
    exact ⟨h.1.trans hc.1, h.2.trans hc.2.1⟩

/-- An apply entered in the hold phase puts the behaviour at its side target and sends
that point. -/
theorem responding_apply_hold (b : RespondingJointAttention) (now : ℚ)
    (ctx : Context) (s : Sink) (h : b.phase = Phase.hold) :
    (b.apply now ctx s).active = true ∧
      (b.apply now ctx s).beh.currentX = b.targetX ∧
      (b.apply now ctx s).beh.currentY = b.targetY ∧
      (b.apply now ctx s).sink.sent.head? = some (b.targetX, b.targetY, 1) := by
  unfold RespondingJointAttention.apply
  simp only [h, setPupilTransform_sent, List.head?_cons]
  split_ifs <;> simp

/-- An apply entered in the hold phase puts the behaviour at its side target and sends
that point. -/
theorem initiating_apply_hold (b : InitiatingJointAttention) (now : ℚ)
    (ctx : Context) (s : Sink) (h : b.phase = Phase.hold) :
    (b.apply now ctx s).active = true ∧
      (b.apply now ctx s).beh.currentX = b.targetX ∧
      (b.apply now ctx s).beh.currentY = b.targetY ∧
      (b.apply now ctx s).sink.sent.head? = some (b.targetX, b.targetY, 1) := by
  unfold InitiatingJointAttention.apply
  simp only [h, setPupilTransform_sent, List.head?_cons]
  split_ifs <;> simp

/-- C5. Side targets: RespondingJointAttention("left") aims at (0.8, 0.5) and ("right") at
(0.2, 0.5); InitiatingJointAttention("left") aims at (0.2, 0.5) and ("right") at (0.8, 0.5).
After any sequence of apply calls, an apply entered in the hold phase leaves the behaviour
exactly at the side target of its constructor and sends exactly that point to the sink. -/
theorem C5_hold_target (now0 : ℚ) (s0 : Sink) :
    ((RespondingJointAttention.new "left" now0 s0).targetX = 0.8 ∧
      (RespondingJointAttention.new "left" now0 s0).targetY = 0.5 ∧
      (RespondingJointAttention.new "right" now0 s0).targetX = 0.2 ∧
      (RespondingJointAttention.new "right" now0 s0).targetY = 0.5 ∧
      (InitiatingJointAttention.new "left" now0 s0).targetX = 0.2 ∧
      (InitiatingJointAttention.new "left" now0 s0).targetY = 0.5 ∧
      (InitiatingJointAttention.new "right" now0 s0).targetX = 0.8 ∧
      (InitiatingJointAttention.new "right" now0 s0).targetY = 0.5) ∧
    (∀ (d : String) (s1 : Sink) (calls : List (ℚ × Context)) (now : ℚ) (ctx : Context),
      ((RespondingJointAttention.new d now0 s0).applyAll s1 calls).1.phase = Phase.hold →
      ((((RespondingJointAttention.new d now0 s0).applyAll s1 calls).1.apply now ctx
          ((RespondingJointAttention.new d now0 s0).applyAll s1 calls).2).beh.currentX =
          (RespondingJointAttention.new d now0 s0).targetX ∧
        (((RespondingJointAttention.new d now0 s0).applyAll s1 calls).1.apply now ctx
          ((RespondingJointAttention.new d now0 s0).applyAll s1 calls).2).beh.currentY = 0.5 ∧
        (((RespondingJointAttention.new d now0 s0).applyAll s1 calls).1.apply now ctx
          ((RespondingJointAttention.new d now0 s0).applyAll s1 calls).2).sink.sent.head? =
          some ((RespondingJointAttention.new d now0 s0).targetX, 0.5, 1))) ∧
    (∀ (d : String) (s1 : Sink) (calls : List (ℚ × Context)) (now : ℚ) (ctx : Context),
      ((InitiatingJointAttention.new d now0 s0).applyAll s1 calls).1.phase = Phase.hold →
      ((((InitiatingJointAttention.new d now0 s0).applyAll s1 calls).1.apply now ctx
          ((InitiatingJointAttention.new d now0 s0).applyAll s1 calls).2).beh.currentX =
          (InitiatingJointAttention.new d now0 s0).targetX ∧
        (((InitiatingJointAttention.new d now0 s0).applyAll s1 calls).1.apply now ctx
          ((InitiatingJointAttention.new d now0 s0).applyAll s1 calls).2).beh.currentY = 0.5 ∧
        (((InitiatingJointAttention.new d now0 s0).applyAll s1 calls).1.apply now ctx
          ((InitiatingJointAttention.new d now0 s0).applyAll s1 calls).2).sink.sent.head? =
          some ((InitiatingJointAttention.new d now0 s0).targetX, 0.5, 1))) := by
  refine ⟨?_, ?_, ?_⟩
  · simp [RespondingJointAttention.new, InitiatingJointAttention.new]
  · intro d s1 calls now ctx hph
    have ht := responding_applyAll_target calls
      (RespondingJointAttention.new d now0 s0) s1
    have hh := responding_apply_hold _ now ctx
      ((RespondingJointAttention.new d now0 s0).applyAll s1 calls).2 hph
    have hy : (RespondingJointAttention.new d now0 s0).targetY = 0.5 := rfl
    rw [ht.1, ht.2, hy] at hh
    exact ⟨hh.2.1, hh.2.2.1, hh.2.2.2⟩
  · intro d s1 calls now ctx hph
    have ht := initiating_applyAll_target calls
      (InitiatingJointAttention.new d now0 s0) s1
    have hh := initiating_apply_hold _ now ctx
      ((InitiatingJointAttention.new d now0 s0).applyAll s1 calls).2 hph
    have hy : (InitiatingJointAttention.new d now0 s0).targetY = 0.5 := rfl
    rw [ht.1, ht.2, hy] at hh
    exact ⟨hh.2.1, hh.2.2.1, hh.2.2.2⟩

/-! ## Joint attention: phase timing -/

theorem min_div_ge_one_iff (a d : ℚ) (hd : 0 < d) : min (a / d) 1 ≥ 1 ↔ d ≤ a := by
  rw [ge_iff_le, le_min_iff, le_div_iff₀ hd]
  simp

/-- One apply in the transition phase. -/
theorem responding_apply_transitionToSide (b : RespondingJointAttention)
    (now : ℚ) (ctx : Context) (s : Sink) (h : b.phase = Phase.transitionToSide)
    (hd : 0 < b.transitionDuration) :
    (b.apply now ctx s).active = true ∧
    (now - b.startTime < b.transitionDuration →
      (b.apply now ctx s).beh.phase = Phase.transitionToSide ∧
      (b.apply now ctx s).beh.holdStartTime = b.holdStartTime ∧
      (b.apply now ctx s).beh.returnStartTime = b.returnStartTime) ∧
    (b.transitionDuration ≤ now - b.startTime →
      (b.apply now ctx s).beh.phase = Phase.hold ∧
      (b.apply now ctx s).beh.holdStartTime = some now ∧
      (b.apply now ctx s).beh.returnStartTime = b.returnStartTime) := by
  have hiff := min_div_ge_one_iff (now - b.startTime) b.transitionDuration hd
  unfold RespondingJointAttention.apply
  simp only [h]
  refine ⟨by simp, fun hlt => ?_, fun hge => ?_⟩
  · rw [if_neg (fun hc => absurd (hiff.mp hc) (not_le.mpr hlt))]
    simp
  · rw [if_pos (hiff.mpr hge)]
    simp

/-- One apply in the hold phase. -/
theorem responding_apply_holdPhase (b : RespondingJointAttention)
    (now : ℚ) (ctx : Context) (s : Sink) (h : b.phase = Phase.hold) (t : ℚ)
    (ht : b.holdStartTime = some t) :
    (b.apply now ctx s).active = true ∧
    (now - t < b.holdDuration →
      (b.apply now ctx s).beh.phase = Phase.hold ∧
      (b.apply now ctx s).beh.holdStartTime = some t ∧
      (b.apply now ctx s).beh.returnStartTime = b.returnStartTime) ∧
    (b.holdDuration ≤ now - t →
      (b.apply now ctx s).beh.phase = Phase.returnToUser ∧
      (b.apply now ctx s).beh.returnStartTime = some now ∧
      (b.apply now ctx s).beh.initialX = b.targetX ∧
      (b.apply now ctx s).beh.initialY = b.targetY) := by
  unfold RespondingJointAttention.apply
  simp only [h, ht, elapsedAtLeast]
  refine ⟨by simp, fun hlt => ?_, fun hge => ?_⟩
  · have : ¬ (now - t ≥ b.holdDuration) := not_le.mpr hlt
    simp [this]
  · have : now - t ≥ b.holdDuration := hge
    simp [this]

/-- One apply in the return phase. -/
theorem responding_apply_returnToUser (b : RespondingJointAttention)
    (now : ℚ) (ctx : Context) (s : Sink) (h : b.phase = Phase.returnToUser) (t : ℚ)
    (ht : b.returnStartTime = some t) (hd : 0 < b.returnDuration) :
    (b.apply now ctx s).active = true ∧
    (b.apply now ctx s).beh.currentX =
      b.initialX + ((userTarget ctx).1 - b.initialX) * min ((now - t) / b.returnDuration) 1 ∧
    (b.apply now ctx s).beh.currentY =
      b.initialY + ((userTarget ctx).2 - b.initialY) * min ((now - t) / b.returnDuration) 1 ∧
    (b.apply now ctx s).beh.initialX = b.initialX ∧
    (b.apply now ctx s).beh.initialY = b.initialY ∧
    (now - t < b.returnDuration →
      (b.apply now ctx s).beh.phase = Phase.returnToUser ∧
      (b.apply now ctx s).beh.returnStartTime = some t) ∧
    (b.returnDuration ≤ now - t →
      (b.apply now ctx s).beh.phase = Phase.done ∧
      (b.apply now ctx s).beh.currentX = (userTarget ctx).1 ∧
      (b.apply now ctx s).beh.currentY = (userTarget ctx).2) := by
  have hiff := min_div_ge_one_iff (now - t) b.returnDuration hd
  unfold RespondingJointAttention.apply
  simp only [h, ht, progressSince]
  refine ⟨by simp, ?_, ?_, ?_, ?_, fun hlt => ?_, fun hge => ?_⟩
  · split_ifs <;> rfl
  · split_ifs <;> rfl
  · split_ifs <;> rfl
  · split_ifs <;> rfl
  · rw [if_neg (fun hc => absurd (hiff.mp hc) (not_le.mpr hlt))]
    simp
  · rw [if_pos (hiff.mpr hge)]
    have hmin : min ((now - t) / b.returnDuration) 1 = 1 :=
      min_eq_right ((le_div_iff₀ hd).mpr (by simpa using hge))
    simp only [hmin]
    refine ⟨trivial, ?_, ?_⟩ <;> ring

/-- One apply in the done phase. -/
theorem responding_apply_done (b : RespondingJointAttention)
    (now : ℚ) (ctx : Context) (s : Sink) (h : b.phase = Phase.done) :
    (b.apply now ctx s).active = false ∧
    (b.apply now ctx s).beh.phase = Phase.done ∧
    (b.apply now ctx s).beh.currentX = (userTarget ctx).1 ∧
    (b.apply now ctx s).beh.currentY = (userTarget ctx).2 ∧
    (b.apply now ctx s).sink.sent.head? = some ((userTarget ctx).1, (userTarget ctx).2, 1) := by
  unfold RespondingJointAttention.apply
  simp [h, setPupilTransform_sent]

theorem responding_apply_active_iff (b : RespondingJointAttention) (now : ℚ)
    (ctx : Context) (s : Sink) : (b.apply now ctx s).active = false ↔ b.phase = Phase.done := by
  unfold RespondingJointAttention.apply
  cases h : b.phase <;> simp

theorem initiating_apply_active_iff (b : InitiatingJointAttention) (now : ℚ)
    (ctx : Context) (s : Sink) : (b.apply now ctx s).active = false ↔ b.phase = Phase.done := by
  unfold InitiatingJointAttention.apply
  cases h : b.phase <;> simp

theorem tickCalls_succ (t0 period : ℚ) (ctxs : ℕ → Context) (n : ℕ) :
    tickCalls t0 period ctxs (n + 1) =
      tickCalls t0 period ctxs n ++ [(t0 + period * (n : ℚ), ctxs n)] := by
  simp [tickCalls, List.range_succ]

theorem respondingAfterTicks_zero (d : String) (t0 : ℚ) (s0 : Sink) (ctxs : ℕ → Context) :
    respondingAfterTicks d t0 s0 ctxs 0 = (RespondingJointAttention.new d t0 s0, s0) := rfl

theorem respondingAfterTicks_succ (d : String) (t0 : ℚ) (s0 : Sink) (ctxs : ℕ → Context)
    (n : ℕ) :
    respondingAfterTicks d t0 s0 ctxs (n + 1) =
      (((respondingAfterTicks d t0 s0 ctxs n).1.apply (t0 + 50 * (n : ℚ)) (ctxs n)
          (respondingAfterTicks d t0 s0 ctxs n).2).beh,
        ((respondingAfterTicks d t0 s0 ctxs n).1.apply (t0 + 50 * (n : ℚ)) (ctxs n)
          (respondingAfterTicks d t0 s0 ctxs n).2).sink) := by
  unfold respondingAfterTicks
  rw [tickCalls_succ, responding_applyAll_append,
    responding_applyAll_cons, responding_applyAll_nil]

/-- Phase of a tick-driven RespondingJointAttention after `n` calls. -/
theorem respondingAfterTicks_phase (d : String) (t0 : ℚ) (s0 : Sink) (ctxs : ℕ → Context)
    (n : ℕ) :
    (respondingAfterTicks d t0 s0 ctxs n).1.startTime = t0 ∧
    (respondingAfterTicks d t0 s0 ctxs n).1.transitionDuration = 300 ∧
    (respondingAfterTicks d t0 s0 ctxs n).1.holdDuration = 2000 ∧
    (respondingAfterTicks d t0 s0 ctxs n).1.returnDuration = 300 ∧
    (n ≤ 6 → (respondingAfterTicks d t0 s0 ctxs n).1.phase = Phase.transitionToSide) ∧
    (7 ≤ n → n ≤ 46 → (respondingAfterTicks d t0 s0 ctxs n).1.phase = Phase.hold ∧
      (respondingAfterTicks d t0 s0 ctxs n).1.holdStartTime = some (t0 + 300)) ∧
    (47 ≤ n → n ≤ 52 → (respondingAfterTicks d t0 s0 ctxs n).1.phase = Phase.returnToUser ∧
      (respondingAfterTicks d t0 s0 ctxs n).1.returnStartTime = some (t0 + 2300)) ∧
    (53 ≤ n → (respondingAfterTicks d t0 s0 ctxs n).1.phase = Phase.done) := by
  induction n with
  | zero =>
    rw [respondingAfterTicks_zero]
    refine ⟨rfl, rfl, rfl, rfl, fun _ => rfl, ?_, ?_, ?_⟩ <;> intros <;> omega
  | succ n ih =>
    obtain ⟨hst, hT, hH, hR, h1, h2, h3, h4⟩ := ih
    rw [respondingAfterTicks_succ]
    have hc := responding_apply_const (respondingAfterTicks d t0 s0 ctxs n).1
      (t0 + 50 * (n : ℚ)) (ctxs n) (respondingAfterTicks d t0 s0 ctxs n).2
    refine ⟨hc.2.2.2.1.trans hst, hc.2.2.2.2.1.trans hT, hc.2.2.2.2.2.1.trans hH,
      hc.2.2.2.2.2.2.trans hR, ?_, ?_, ?_, ?_⟩
    · intro hn
      have hlt : (n : ℚ) < 6 := by exact_mod_cast (by omega : n < 6)
      have ht := (responding_apply_transitionToSide _ (t0 + 50 * (n : ℚ)) (ctxs n)
        (respondingAfterTicks d t0 s0 ctxs n).2 (h1 (by omega)) (by rw [hT]; norm_num)).2.1
      exact (ht (by rw [hst, hT]; linarith)).1
    · intro hn1 hn2
      rcases Nat.eq_or_lt_of_le hn1 with heq | hgt
      · have hn6 : n = 6 := by omega
        have ht := (responding_apply_transitionToSide _ (t0 + 50 * (n : ℚ)) (ctxs n)
          (respondingAfterTicks d t0 s0 ctxs n).2 (h1 (by omega)) (by rw [hT]; norm_num)).2.2
        have hge : (respondingAfterTicks d t0 s0 ctxs n).1.transitionDuration ≤
            t0 + 50 * (n : ℚ) - (respondingAfterTicks d t0 s0 ctxs n).1.startTime := by
          rw [hst, hT, hn6]; norm_num
        obtain ⟨hp, hs, _⟩ := ht hge
        refine ⟨hp, ?_⟩
        rw [hs, hn6]; norm_num
      · obtain ⟨hp, hs⟩ := h2 (by omega) (by omega)
        have hlt : (n : ℚ) < 46 := by exact_mod_cast (by omega : n < 46)
        have ht := (responding_apply_holdPhase _ (t0 + 50 * (n : ℚ)) (ctxs n)
          (respondingAfterTicks d t0 s0 ctxs n).2 hp _ hs).2.1
        obtain ⟨hp2, hs2, _⟩ := ht (by rw [hH]; linarith)
        exact ⟨hp2, hs2⟩
    · intro hn1 hn2
      rcases Nat.eq_or_lt_of_le hn1 with heq | hgt
      · have hn46 : n = 46 := by omega
        obtain ⟨hp, hs⟩ := h2 (by omega) (by omega)
        have ht := (responding_apply_holdPhase _ (t0 + 50 * (n : ℚ)) (ctxs n)
          (respondingAfterTicks d t0 s0 ctxs n).2 hp _ hs).2.2
        obtain ⟨hp2, hs2, _⟩ := ht (by rw [hH, hn46]; norm_num)
        refine ⟨hp2, ?_⟩
        rw [hs2, hn46]; norm_num
      · obtain ⟨hp, hs⟩ := h3 (by omega) (by omega)
        have hlt : (n : ℚ) < 52 := by exact_mod_cast (by omega : n < 52)
        have ht := (responding_apply_returnToUser _ (t0 + 50 * (n : ℚ)) (ctxs n)
          (respondingAfterTicks d t0 s0 ctxs n).2 hp _ hs (by rw [hR]; norm_num)).2.2.2.2.2.1
        exact ht (by rw [hR]; linarith)
    · intro hn1
      rcases Nat.eq_or_lt_of_le hn1 with heq | hgt
      · have hn52 : n = 52 := by omega
        obtain ⟨hp, hs⟩ := h3 (by omega) (by omega)
        have ht := (responding_apply_returnToUser _ (t0 + 50 * (n : ℚ)) (ctxs n)
          (respondingAfterTicks d t0 s0 ctxs n).2 hp _ hs (by rw [hR]; norm_num)).2.2.2.2.2.2
        exact (ht (by rw [hR, hn52]; norm_num)).1
      · exact (responding_apply_done _ (t0 + 50 * (n : ℚ)) (ctxs n)
          (respondingAfterTicks d t0 s0 ctxs n).2 (h4 (by omega))).2.1

/-- On a 50 ms tick starting at construction, the calls numbered 0 to 52 (the last one
2600 ms after construction) return true, and call 53 returns false. -/
theorem respondingAfterTicks_active (d : String) (t0 : ℚ) (s0 : Sink) (ctxs : ℕ → Context) :
    (∀ k : ℕ, k ≤ 52 →
      ((respondingAfterTicks d t0 s0 ctxs k).1.apply (t0 + 50 * (k : ℚ)) (ctxs k)
        (respondingAfterTicks d t0 s0 ctxs k).2).active = true) ∧
    (∀ k : ℕ, 53 ≤ k → ∀ now ctx,
      ((respondingAfterTicks d t0 s0 ctxs k).1.apply now ctx
        (respondingAfterTicks d t0 s0 ctxs k).2).active = false) := by
  constructor
  · intro k hk
    have hph := respondingAfterTicks_phase d t0 s0 ctxs k
    have hne : (respondingAfterTicks d t0 s0 ctxs k).1.phase ≠ Phase.done := by
      obtain ⟨_, _, _, _, h1, h2, h3, _⟩ := hph
      by_cases c1 : k ≤ 6
      · rw [h1 c1]; decide
      · by_cases c2 : k ≤ 46
        · rw [(h2 (by omega) c2).1]; decide
        · rw [(h3 (by omega) hk).1]; decide
    have hiff := responding_apply_active_iff
      (respondingAfterTicks d t0 s0 ctxs k).1 (t0 + 50 * (k : ℚ)) (ctxs k)
      (respondingAfterTicks d t0 s0 ctxs k).2
    cases ha : ((respondingAfterTicks d t0 s0 ctxs k).1.apply (t0 + 50 * (k : ℚ)) (ctxs k)
        (respondingAfterTicks d t0 s0 ctxs k).2).active with
    | true => rfl
    | false => exact absurd (hiff.mp ha) hne
  · intro k hk now ctx
    exact (responding_apply_active_iff _ now ctx _).mpr
      ((respondingAfterTicks_phase d t0 s0 ctxs k).2.2.2.2.2.2.2 hk)

/-- C6, counterexample. A RespondingJointAttention built at time 10000 and applied every
50 ms from then on: the apply made 2600 ms after construction returns true, and the first
apply that returns false is the next one, 2650 ms after construction. -/
theorem C6_counterexample :
    ((respondingAfterTicks "left" 10000 (World.initial true).sink (fun _ => sampleContext)
        52).1.apply 12600 sampleContext
      (respondingAfterTicks "left" 10000 (World.initial true).sink (fun _ => sampleContext)
        52).2).active = true ∧
    ((respondingAfterTicks "left" 10000 (World.initial true).sink (fun _ => sampleContext)
        53).1.apply 12650 sampleContext
      (respondingAfterTicks "left" 10000 (World.initial true).sink (fun _ => sampleContext)
        53).2).active = false := by
  have h := respondingAfterTicks_active "left" 10000 (World.initial true).sink
    (fun _ => sampleContext)
  have h52 := h.1 52 (le_refl 52)
  have e : (10000 : ℚ) + 50 * ((52 : ℕ) : ℚ) = 12600 := by norm_num
  rw [e] at h52
  exact ⟨h52, h.2 53 (le_refl 53) 12650 sampleContext⟩

/-- C6, amended. For a RespondingJointAttention with the default durations whose apply is
called every 50 ms starting at its construction time, whatever the contexts: every call up
to and including the one 2600 ms after construction returns true, that call completes the
return phase and enters done, and the first apply that returns false is the next call,
2650 ms after construction. -/
theorem C6_first_inactive_apply (d : String) (t0 : ℚ) (s0 : Sink) (ctxs : ℕ → Context) :
    (∀ k : ℕ, k ≤ 52 →
      ((respondingAfterTicks d t0 s0 ctxs k).1.apply (t0 + 50 * (k : ℚ)) (ctxs k)
        (respondingAfterTicks d t0 s0 ctxs k).2).active = true) ∧
    (respondingAfterTicks d t0 s0 ctxs 52).1.phase = Phase.returnToUser ∧
    ((respondingAfterTicks d t0 s0 ctxs 52).1.apply (t0 + 2600) (ctxs 52)
        (respondingAfterTicks d t0 s0 ctxs 52).2).beh.phase = Phase.done ∧
    ((respondingAfterTicks d t0 s0 ctxs 53).1.apply (t0 + 2650) (ctxs 53)
        (respondingAfterTicks d t0 s0 ctxs 53).2).active = false := by
  have h := respondingAfterTicks_active d t0 s0 ctxs
  have hph := respondingAfterTicks_phase d t0 s0 ctxs
  refine ⟨h.1, ((hph 52).2.2.2.2.2.2.1 (by norm_num) (by norm_num)).1, ?_,
    h.2 53 (le_refl 53) _ _⟩
  have h53 := (hph (52 + 1)).2.2.2.2.2.2.2 (le_refl 53)
  rw [respondingAfterTicks_succ d t0 s0 ctxs 52] at h53
  have e : t0 + 50 * ((52 : ℕ) : ℚ) = t0 + 2600 := by norm_num
  rw [e] at h53
  simpa only using h53

/-- C6 amended, at a behaviour built at time 10000: the call at 12600 returns true. -/
theorem C6_first_inactive_apply_witness :
    ((respondingAfterTicks "left" 10000 (World.initial true).sink (fun _ => sampleContext)
        52).1.apply (10000 + 50 * ((52 : ℕ) : ℚ)) sampleContext
      (respondingAfterTicks "left" 10000 (World.initial true).sink (fun _ => sampleContext)
        52).2).active = true :=
  (C6_first_inactive_apply "left" 10000 (World.initial true).sink
    (fun _ => sampleContext)).1 52 (le_refl 52)

/-- C5 at a behaviour built at time 10000 and applied on the 50 ms tick: after seven calls
it is in the hold phase, and the call at 10350 leaves it at its side target. -/
theorem C5_hold_target_witness :
    (((RespondingJointAttention.new "left" 10000 (World.initial true).sink).applyAll
        (World.initial true).sink (tickCalls 10000 50 (fun _ => sampleContext) 7)).1.apply
        10350 sampleContext
        ((RespondingJointAttention.new "left" 10000 (World.initial true).sink).applyAll
          (World.initial true).sink (tickCalls 10000 50 (fun _ => sampleContext) 7)).2
      ).beh.currentX = (RespondingJointAttention.new "left" 10000 (World.initial true).sink).targetX ∧
    (RespondingJointAttention.new "left" 10000 (World.initial true).sink).targetX = 0.8 :=
  ⟨((C5_hold_target 10000 (World.initial true).sink).2.1 "left" (World.initial true).sink
      (tickCalls 10000 50 (fun _ => sampleContext) 7) 10350 sampleContext
      ((respondingAfterTicks_phase "left" 10000 (World.initial true).sink
        (fun _ => sampleContext) 7).2.2.2.2.2.1 (by norm_num) (by norm_num)).1).1,
    (C5_hold_target 10000 (World.initial true).sink).1.1⟩

/-! ## Joint attention: phase order -/

/-- One apply in the done phase. -/
theorem initiating_apply_done (b : InitiatingJointAttention)
    (now : ℚ) (ctx : Context) (s : Sink) (h : b.phase = Phase.done) :
    (b.apply now ctx s).active = false ∧
    (b.apply now ctx s).beh.phase = Phase.done ∧
    (b.apply now ctx s).beh.currentX = (userTarget ctx).1 ∧
    (b.apply now ctx s).beh.currentY = (userTarget ctx).2 ∧
    (b.apply now ctx s).sink.sent.head? = some ((userTarget ctx).1, (userTarget ctx).2, 1) := by
  unfold InitiatingJointAttention.apply
  simp [h, setPupilTransform_sent]

theorem responding_apply_phase_step (b : RespondingJointAttention) (now : ℚ)
    (ctx : Context) (s : Sink) :
    (b.apply now ctx s).beh.phase = b.phase ∨
      (b.phase = Phase.transitionToSide ∧ (b.apply now ctx s).beh.phase = Phase.hold) ∨
      (b.phase = Phase.hold ∧ (b.apply now ctx s).beh.phase = Phase.returnToUser) ∨
      (b.phase = Phase.returnToUser ∧ (b.apply now ctx s).beh.phase = Phase.done) := by
  unfold RespondingJointAttention.apply
  cases h : b.phase <;> simp only <;> (try split_ifs) <;> simp [h]

theorem initiating_apply_phase_step (b : InitiatingJointAttention) (now : ℚ)
    (ctx : Context) (s : Sink) :
    (b.apply now ctx s).beh.phase = b.phase ∨
      (b.phase = Phase.transitionToSide ∧ (b.apply now ctx s).beh.phase = Phase.hold) ∨
      (b.phase = Phase.hold ∧ (b.apply now ctx s).beh.phase = Phase.returnToUser) ∨
      (b.phase = Phase.returnToUser ∧ (b.apply now ctx s).beh.phase = Phase.done) := by
  unfold InitiatingJointAttention.apply
  cases h : b.phase <;> simp only <;> (try split_ifs) <;> simp [h]

theorem responding_applyAll_done (calls : List (ℚ × Context)) :
    ∀ (b : RespondingJointAttention) (s : Sink), b.phase = Phase.done →
      (b.applyAll s calls).1.phase = Phase.done := by
  induction calls with
  | nil => intro b s h; exact h
  | cons c calls ih =>
    intro b s h
    rw [responding_applyAll_cons]
    exact ih _ _ (responding_apply_done b c.1 c.2 s h).2.1

theorem initiating_applyAll_done (calls : List (ℚ × Context)) :
    ∀ (b : InitiatingJointAttention) (s : Sink), b.phase = Phase.done →
      (b.applyAll s calls).1.phase = Phase.done := by
  induction calls with
  | nil => intro b s h; exact h
  | cons c calls ih =>
    intro b s h
    rw [initiating_applyAll_cons]
    exact ih _ _ (initiating_apply_done b c.1 c.2 s h).2.1

/-- C7. For both joint-attention behaviours, in any state: one apply keeps the phase or
moves it to the next one in the order transitionToSide, hold, returnToUser, done; it
returns false exactly when entered in done, and then stays in done with the position set to
the mirrored user position of that call (the centre when no user is in front); so after an
apply has returned false, every later apply, after any calls in between, returns false and
sets the position in the same way. -/
theorem C7_phase_order :
    (∀ (b : RespondingJointAttention) (now : ℚ) (ctx : Context) (s : Sink),
      ((b.apply now ctx s).beh.phase = b.phase ∨
        (b.phase = Phase.transitionToSide ∧ (b.apply now ctx s).beh.phase = Phase.hold) ∨
        (b.phase = Phase.hold ∧ (b.apply now ctx s).beh.phase = Phase.returnToUser) ∨
        (b.phase = Phase.returnToUser ∧ (b.apply now ctx s).beh.phase = Phase.done)) ∧
      ((b.apply now ctx s).active = false ↔ b.phase = Phase.done) ∧
      ((b.apply now ctx s).active = false →
        ∀ (calls : List (ℚ × Context)) (now2 : ℚ) (ctx2 : Context),
          (((b.apply now ctx s).beh.applyAll (b.apply now ctx s).sink calls).1.apply now2 ctx2
            ((b.apply now ctx s).beh.applyAll (b.apply now ctx s).sink calls).2).active = false ∧
          (((b.apply now ctx s).beh.applyAll (b.apply now ctx s).sink calls).1.apply now2 ctx2
            ((b.apply now ctx s).beh.applyAll (b.apply now ctx s).sink calls).2).beh.currentX =
            (if ctx2.userInFront then 1 - jsNum ctx2.faceX else 0.5) ∧
          (((b.apply now ctx s).beh.applyAll (b.apply now ctx s).sink calls).1.apply now2 ctx2
            ((b.apply now ctx s).beh.applyAll (b.apply now ctx s).sink calls).2).beh.currentY =
            (if ctx2.userInFront then jsNum ctx2.faceY else 0.5)) ∧
      (b.phase = Phase.done →
        (b.apply now ctx s).beh.phase = Phase.done ∧
        (b.apply now ctx s).beh.currentX = (if ctx.userInFront then 1 - jsNum ctx.faceX else 0.5) ∧
        (b.apply now ctx s).beh.currentY = (if ctx.userInFront then jsNum ctx.faceY else 0.5))) ∧
    (∀ (b : InitiatingJointAttention) (now : ℚ) (ctx : Context) (s : Sink),
      ((b.apply now ctx s).beh.phase = b.phase ∨
        (b.phase = Phase.transitionToSide ∧ (b.apply now ctx s).beh.phase = Phase.hold) ∨
        (b.phase = Phase.hold ∧ (b.apply now ctx s).beh.phase = Phase.returnToUser) ∨
        (b.phase = Phase.returnToUser ∧ (b.apply now ctx s).beh.phase = Phase.done)) ∧
      ((b.apply now ctx s).active = false ↔ b.phase = Phase.done) ∧
      ((b.apply now ctx s).active = false →
        ∀ (calls : List (ℚ × Context)) (now2 : ℚ) (ctx2 : Context),
          (((b.apply now ctx s).beh.applyAll (b.apply now ctx s).sink calls).1.apply now2 ctx2
            ((b.apply now ctx s).beh.applyAll (b.apply now ctx s).sink calls).2).active = false ∧
          (((b.apply now ctx s).beh.applyAll (b.apply now ctx s).sink calls).1.apply now2 ctx2
            ((b.apply now ctx s).beh.applyAll (b.apply now ctx s).sink calls).2).beh.currentX =
            (if ctx2.userInFront then 1 - jsNum ctx2.faceX else 0.5) ∧
          (((b.apply now ctx s).beh.applyAll (b.apply now ctx s).sink calls).1.apply now2 ctx2
            ((b.apply now ctx s).beh.applyAll (b.apply now ctx s).sink calls).2).beh.currentY =
            (if ctx2.userInFront then jsNum ctx2.faceY else 0.5)) ∧
      (b.phase = Phase.done →
        (b.apply now ctx s).beh.phase = Phase.done ∧
        (b.apply now ctx s).beh.currentX = (if ctx.userInFront then 1 - jsNum ctx.faceX else 0.5) ∧
        (b.apply now ctx s).beh.currentY =
          (if ctx.userInFront then jsNum ctx.faceY else 0.5))) := by
  constructor
  · intro b now ctx s
    refine ⟨responding_apply_phase_step b now ctx s,
      responding_apply_active_iff b now ctx s, ?_, ?_⟩
    · intro hf calls now2 ctx2
      have hd := (responding_apply_active_iff b now ctx s).mp hf
      have hd1 := (responding_apply_done b now ctx s hd).2.1
      have hd2 := responding_applyAll_done calls _ (b.apply now ctx s).sink hd1
      have h := responding_apply_done _ now2 ctx2
        ((b.apply now ctx s).beh.applyAll (b.apply now ctx s).sink calls).2 hd2
      exact ⟨h.1, h.2.2.1, h.2.2.2.1⟩
    · intro hd
      have h := responding_apply_done b now ctx s hd
      exact ⟨h.2.1, h.2.2.1, h.2.2.2.1⟩
  · intro b now ctx s
    refine ⟨initiating_apply_phase_step b now ctx s,
      initiating_apply_active_iff b now ctx s, ?_, ?_⟩
    · intro hf calls now2 ctx2
      have hd := (initiating_apply_active_iff b now ctx s).mp hf
      have hd1 := (initiating_apply_done b now ctx s hd).2.1
      have hd2 := initiating_applyAll_done calls _ (b.apply now ctx s).sink hd1
      have h := initiating_apply_done _ now2 ctx2
        ((b.apply now ctx s).beh.applyAll (b.apply now ctx s).sink calls).2 hd2
      exact ⟨h.1, h.2.2.1, h.2.2.2.1⟩
    · intro hd
      have h := initiating_apply_done b now ctx s hd
      exact ⟨h.2.1, h.2.2.1, h.2.2.2.1⟩

/-- C7 on a tick-driven behaviour that has reached done: its next apply returns false, and
so does an apply after two further calls. -/
theorem C7_phase_order_witness :
    (((respondingAfterTicks "left" 10000 (World.initial true).sink (fun _ => sampleContext)
        53).1.apply 12650 sampleContext
      (respondingAfterTicks "left" 10000 (World.initial true).sink (fun _ => sampleContext)
        53).2).beh.phase = Phase.done) ∧
    (((respondingAfterTicks "left" 10000 (World.initial true).sink (fun _ => sampleContext)
        53).1.apply 12650 sampleContext
      (respondingAfterTicks "left" 10000 (World.initial true).sink (fun _ => sampleContext)
        53).2).active = false) :=
  have hd := (respondingAfterTicks_phase "left" 10000 (World.initial true).sink
    (fun _ => sampleContext) 53).2.2.2.2.2.2.2 (le_refl 53)
  ⟨((C7_phase_order.1 _ 12650 sampleContext _).2.2.2 hd).1,
    (C7_phase_order.1 _ 12650 sampleContext _).2.1.mpr hd⟩

/-! ## Joint attention: return to the user -/

theorem responding_reached_new (d : String) (now : ℚ) (s : Sink) :
    (RespondingJointAttention.new d now s).Reached := by
  refine ⟨rfl, rfl, fun h => ?_⟩
  simp [RespondingJointAttention.new] at h

theorem responding_reached_apply (b : RespondingJointAttention) (now : ℚ)
    (ctx : Context) (s : Sink) (h : b.Reached) : (b.apply now ctx s).beh.Reached := by
  obtain ⟨h1, h2, h3⟩ := h
  have hc := responding_apply_const b now ctx s
  refine ⟨hc.2.2.2.2.2.2.trans h1, hc.2.1.trans h2, ?_⟩
  rw [hc.1, hc.2.1]
  unfold RespondingJointAttention.apply
  cases hp : b.phase <;> simp only <;> (try split_ifs) <;> simp
  exact h3 hp

theorem responding_reached_applyAll (calls : List (ℚ × Context)) :
    ∀ (b : RespondingJointAttention) (s : Sink), b.Reached → (b.applyAll s calls).1.Reached := by
  induction calls with
  | nil => intro b s h; exact h
  | cons c calls ih =>
    intro b s h
    rw [responding_applyAll_cons]
    exact ih _ _ (responding_reached_apply b c.1 c.2 s h)

theorem initiating_reached_new (d : String) (now : ℚ) (s : Sink) :
    (InitiatingJointAttention.new d now s).Reached := by
  refine ⟨rfl, rfl, fun h => ?_⟩
  simp [InitiatingJointAttention.new] at h

theorem initiating_reached_apply (b : InitiatingJointAttention) (now : ℚ)
    (ctx : Context) (s : Sink) (h : b.Reached) : (b.apply now ctx s).beh.Reached := by
  obtain ⟨h1, h2, h3⟩ := h
  have hc := initiating_apply_const b now ctx s
  refine ⟨hc.2.2.2.2.2.2.trans h1, hc.2.1.trans h2, ?_⟩
  rw [hc.1, hc.2.1]
  unfold InitiatingJointAttention.apply
  cases hp : b.phase <;> simp only <;> (try split_ifs) <;> simp
  exact h3 hp

theorem initiating_reached_applyAll (calls : List (ℚ × Context)) :
    ∀ (b : InitiatingJointAttention) (s : Sink), b.Reached → (b.applyAll s calls).1.Reached := by
  induction calls with
  | nil => intro b s h; exact h
  | cons c calls ih =>
    intro b s h
    rw [initiating_applyAll_cons]
    exact ih _ _ (initiating_reached_apply b c.1 c.2 s h)

/-- One apply in the return phase. -/
theorem initiating_apply_returnToUser (b : InitiatingJointAttention)
    (now : ℚ) (ctx : Context) (s : Sink) (h : b.phase = Phase.returnToUser) (t : ℚ)
    (ht : b.returnStartTime = some t) (hd : 0 < b.returnDuration) :
    (b.apply now ctx s).active = true ∧
    (b.apply now ctx s).beh.currentX =
      b.initialX + ((userTarget ctx).1 - b.initialX) * min ((now - t) / b.returnDuration) 1 ∧
    (b.apply now ctx s).beh.currentY =
      b.initialY + ((userTarget ctx).2 - b.initialY) * min ((now - t) / b.returnDuration) 1 ∧
    (b.apply now ctx s).beh.initialX = b.initialX ∧
    (b.apply now ctx s).beh.initialY = b.initialY ∧
    (now - t < b.returnDuration →
      (b.apply now ctx s).beh.phase = Phase.returnToUser ∧
      (b.apply now ctx s).beh.returnStartTime = some t) ∧
    (b.returnDuration ≤ now - t →
      (b.apply now ctx s).beh.phase = Phase.done ∧
      (b.apply now ctx s).beh.currentX = (userTarget ctx).1 ∧
      (b.apply now ctx s).beh.currentY = (userTarget ctx).2) := by
  have hiff := min_div_ge_one_iff (now - t) b.returnDuration hd
  unfold InitiatingJointAttention.apply
  simp only [h, ht, progressSince]
  refine ⟨by simp, ?_, ?_, ?_, ?_, fun hlt => ?_, fun hge => ?_⟩
  · split_ifs <;> rfl
  · split_ifs <;> rfl
  · split_ifs <;> rfl
  · split_ifs <;> rfl
  · rw [if_neg (fun hc => absurd (hiff.mp hc) (not_le.mpr hlt))]
    simp
  · rw [if_pos (hiff.mpr hge)]
    have hmin : min ((now - t) / b.returnDuration) 1 = 1 :=
      min_eq_right ((le_div_iff₀ hd).mpr (by simpa using hge))
    simp only [hmin]
    refine ⟨trivial, ?_, ?_⟩ <;> ring

/-- Every apply sends the position it leaves the behaviour at. -/
theorem responding_apply_sent (b : RespondingJointAttention) (now : ℚ)
    (ctx : Context) (s : Sink) :
    (b.apply now ctx s).sink.sent.head? =
      some ((b.apply now ctx s).beh.currentX, (b.apply now ctx s).beh.currentY, 1) := by
  unfold RespondingJointAttention.apply
  cases hp : b.phase <;> simp only [setPupilTransform_sent, List.head?_cons] <;>
    (try split_ifs) <;> rfl

/-- Every apply sends the position it leaves the behaviour at. -/
theorem initiating_apply_sent (b : InitiatingJointAttention) (now : ℚ)
    (ctx : Context) (s : Sink) :
    (b.apply now ctx s).sink.sent.head? =
      some ((b.apply now ctx s).beh.currentX, (b.apply now ctx s).beh.currentY, 1) := by
  unfold InitiatingJointAttention.apply
  cases hp : b.phase <;> simp only [setPupilTransform_sent, List.head?_cons] <;>
    (try split_ifs) <;> rfl

/-- C8. For both joint-attention behaviours, after any calls since construction: an apply
entered in the return phase, started at r, sets the position to
held + (userTarget - held) * min((now - r) / 300, 1), where held is the side target and
userTarget is (1 - faceX, faceY) of the context passed to this call, or (0.5, 0.5) when no
user is in front; the point is sent to the sink; and when now - r >= 300 the position is
that call's user target and the phase becomes done. -/
theorem C8_return_tracks_current_user (d : String) (now0 : ℚ) (s0 s1 : Sink)
    (calls : List (ℚ × Context)) (now : ℚ) (ctx : Context) :
    (((RespondingJointAttention.new d now0 s0).applyAll s1 calls).1.phase = Phase.returnToUser →
      ∃ r, ((RespondingJointAttention.new d now0 s0).applyAll s1 calls).1.returnStartTime = some r ∧
        (((RespondingJointAttention.new d now0 s0).applyAll s1 calls).1.apply now ctx
          ((RespondingJointAttention.new d now0 s0).applyAll s1 calls).2).beh.currentX =
          (RespondingJointAttention.new d now0 s0).targetX +
            ((if ctx.userInFront then 1 - jsNum ctx.faceX else 0.5) -
              (RespondingJointAttention.new d now0 s0).targetX) * min ((now - r) / 300) 1 ∧
        (((RespondingJointAttention.new d now0 s0).applyAll s1 calls).1.apply now ctx
          ((RespondingJointAttention.new d now0 s0).applyAll s1 calls).2).beh.currentY =
          0.5 + ((if ctx.userInFront then jsNum ctx.faceY else 0.5) - 0.5) *
            min ((now - r) / 300) 1 ∧
        (((RespondingJointAttention.new d now0 s0).applyAll s1 calls).1.apply now ctx
          ((RespondingJointAttention.new d now0 s0).applyAll s1 calls).2).sink.sent.head? =
          some ((((RespondingJointAttention.new d now0 s0).applyAll s1 calls).1.apply now ctx
              ((RespondingJointAttention.new d now0 s0).applyAll s1 calls).2).beh.currentX,
            (((RespondingJointAttention.new d now0 s0).applyAll s1 calls).1.apply now ctx
              ((RespondingJointAttention.new d now0 s0).applyAll s1 calls).2).beh.currentY, 1) ∧
        (300 ≤ now - r →
          (((RespondingJointAttention.new d now0 s0).applyAll s1 calls).1.apply now ctx
            ((RespondingJointAttention.new d now0 s0).applyAll s1 calls).2).beh.phase =
            Phase.done ∧
          (((RespondingJointAttention.new d now0 s0).applyAll s1 calls).1.apply now ctx
            ((RespondingJointAttention.new d now0 s0).applyAll s1 calls).2).beh.currentX =
            (if ctx.userInFront then 1 - jsNum ctx.faceX else 0.5) ∧
          (((RespondingJointAttention.new d now0 s0).applyAll s1 calls).1.apply now ctx
            ((RespondingJointAttention.new d now0 s0).applyAll s1 calls).2).beh.currentY =
            (if ctx.userInFront then jsNum ctx.faceY else 0.5))) ∧
    (((InitiatingJointAttention.new d now0 s0).applyAll s1 calls).1.phase = Phase.returnToUser →
      ∃ r, ((InitiatingJointAttention.new d now0 s0).applyAll s1 calls).1.returnStartTime = some r ∧
        (((InitiatingJointAttention.new d now0 s0).applyAll s1 calls).1.apply now ctx
          ((InitiatingJointAttention.new d now0 s0).applyAll s1 calls).2).beh.currentX =
          (InitiatingJointAttention.new d now0 s0).targetX +
            ((if ctx.userInFront then 1 - jsNum ctx.faceX else 0.5) -
              (InitiatingJointAttention.new d now0 s0).targetX) * min ((now - r) / 300) 1 ∧
        (((InitiatingJointAttention.new d now0 s0).applyAll s1 calls).1.apply now ctx
          ((InitiatingJointAttention.new d now0 s0).applyAll s1 calls).2).beh.currentY =
          0.5 + ((if ctx.userInFront then jsNum ctx.faceY else 0.5) - 0.5) *
            min ((now - r) / 300) 1 ∧
        (((InitiatingJointAttention.new d now0 s0).applyAll s1 calls).1.apply now ctx
          ((InitiatingJointAttention.new d now0 s0).applyAll s1 calls).2).sink.sent.head? =
          some ((((InitiatingJointAttention.new d now0 s0).applyAll s1 calls).1.apply now ctx
              ((InitiatingJointAttention.new d now0 s0).applyAll s1 calls).2).beh.currentX,
            (((InitiatingJointAttention.new d now0 s0).applyAll s1 calls).1.apply now ctx
              ((InitiatingJointAttention.new d now0 s0).applyAll s1 calls).2).beh.currentY, 1) ∧
        (300 ≤ now - r →
          (((InitiatingJointAttention.new d now0 s0).applyAll s1 calls).1.apply now ctx
            ((InitiatingJointAttention.new d now0 s0).applyAll s1 calls).2).beh.phase =
            Phase.done ∧
          (((InitiatingJointAttention.new d now0 s0).applyAll s1 calls).1.apply now ctx
            ((InitiatingJointAttention.new d now0 s0).applyAll s1 calls).2).beh.currentX =
            (if ctx.userInFront then 1 - jsNum ctx.faceX else 0.5) ∧
          (((InitiatingJointAttention.new d now0 s0).applyAll s1 calls).1.apply now ctx
            ((InitiatingJointAttention.new d now0 s0).applyAll s1 calls).2).beh.currentY =
            (if ctx.userInFront then jsNum ctx.faceY else 0.5))) := by
  constructor
  · intro hp
    obtain ⟨hR, hY, hinv⟩ := responding_reached_applyAll calls _ s1
      (responding_reached_new d now0 s0)
    obtain ⟨hsome, hix, hiy⟩ := hinv hp
    obtain ⟨r, hr⟩ := Option.isSome_iff_exists.mp hsome
    have ht := responding_applyAll_target calls
      (RespondingJointAttention.new d now0 s0) s1
    have h := responding_apply_returnToUser _ now ctx
      ((RespondingJointAttention.new d now0 s0).applyAll s1 calls).2 hp r hr
      (by rw [hR]; norm_num)
    rw [hix, hiy, hR, ht.1, hY] at h
    exact ⟨r, hr, h.2.1, h.2.2.1, responding_apply_sent _ _ _ _,
      fun hge => h.2.2.2.2.2.2 hge⟩
  · intro hp
    obtain ⟨hR, hY, hinv⟩ := initiating_reached_applyAll calls _ s1
      (initiating_reached_new d now0 s0)
    obtain ⟨hsome, hix, hiy⟩ := hinv hp
    obtain ⟨r, hr⟩ := Option.isSome_iff_exists.mp hsome
    have ht := initiating_applyAll_target calls
      (InitiatingJointAttention.new d now0 s0) s1
    have h := initiating_apply_returnToUser _ now ctx
      ((InitiatingJointAttention.new d now0 s0).applyAll s1 calls).2 hp r hr
      (by rw [hR]; norm_num)
    rw [hix, hiy, hR, ht.1, hY] at h
    exact ⟨r, hr, h.2.1, h.2.2.1, initiating_apply_sent _ _ _ _,
      fun hge => h.2.2.2.2.2.2 hge⟩

/-- C8 on a tick-driven behaviour built at time 10000: its return phase starts at 12300,
and the call at 12600 leaves it at the user target of the context passed to that call. -/
theorem C8_return_tracks_current_user_witness :
    (((RespondingJointAttention.new "left" 10000 (World.initial true).sink).applyAll
        (World.initial true).sink (tickCalls 10000 50 (fun _ => sampleContext) 52)).1.apply
        12600 sampleContextOneFace
        ((RespondingJointAttention.new "left" 10000 (World.initial true).sink).applyAll
          (World.initial true).sink (tickCalls 10000 50 (fun _ => sampleContext) 52)).2
      ).beh.currentX =
      (if sampleContextOneFace.userInFront then 1 - jsNum sampleContextOneFace.faceX
        else 0.5) := by
  have hph := (respondingAfterTicks_phase "left" 10000 (World.initial true).sink
    (fun _ => sampleContext) 52).2.2.2.2.2.2.1 (by norm_num) (by norm_num)
  obtain ⟨r, hr, _, _, _, hfin⟩ :=
    (C8_return_tracks_current_user "left" 10000 (World.initial true).sink
      (World.initial true).sink (tickCalls 10000 50 (fun _ => sampleContext) 52) 12600
      sampleContextOneFace).1 hph.1
  have hr2 : r = 10000 + 2300 := Option.some.inj (hr.symm.trans hph.2)
  exact (hfin (by rw [hr2]; norm_num)).2.1

/-! ## Joint attention: the two behaviours are one machine -/

theorem responding_toInitiating_apply (b : RespondingJointAttention)
    (dir : String) (now : ℚ) (ctx : Context) (s : Sink) :
    (b.toInitiating dir).apply now ctx s =
      { active := (b.apply now ctx s).active,
        beh := (b.apply now ctx s).beh.toInitiating dir,
        sink := (b.apply now ctx s).sink } := by
  unfold InitiatingJointAttention.apply RespondingJointAttention.apply
    RespondingJointAttention.toInitiating
  cases hp : b.phase <;> simp only <;> (try split_ifs) <;> rfl

theorem responding_toInitiating_applyAll (dir : String)
    (calls : List (ℚ × Context)) :
    ∀ (b : RespondingJointAttention) (s : Sink),
      (b.toInitiating dir).applyAll s calls =
        ((b.applyAll s calls).1.toInitiating dir, (b.applyAll s calls).2) := by
  induction calls with
  | nil => intro b s; rfl
  | cons c calls ih =>
    intro b s
    rw [initiating_applyAll_cons, responding_applyAll_cons,
      responding_toInitiating_apply]
    exact ih _ _

theorem responding_toInitiating_new (d dOpp : String) (now : ℚ) (s : Sink)
    (h : (d = "left" ∧ dOpp = "right") ∨ (d = "right" ∧ dOpp = "left")) :
    InitiatingJointAttention.new dOpp now s =
      (RespondingJointAttention.new d now s).toInitiating dOpp := by
  rcases h with ⟨rfl, rfl⟩ | ⟨rfl, rfl⟩ <;>
    simp [InitiatingJointAttention.new, RespondingJointAttention.new,
      RespondingJointAttention.toInitiating]

/-- C9. For d left or right and dOpp the opposite side, RespondingJointAttention(d) and
InitiatingJointAttention(dOpp) built at the same time from the same gaze position and
driven by the same calls (clock value and context of each) agree on every call: same
return value, same phase, same position, same sink state. -/
theorem C9_same_state_machine (d dOpp : String)
    (h : (d = "left" ∧ dOpp = "right") ∨ (d = "right" ∧ dOpp = "left"))
    (now0 : ℚ) (s0 s1 : Sink) (calls : List (ℚ × Context)) (now : ℚ) (ctx : Context) :
    (((RespondingJointAttention.new d now0 s0).applyAll s1 calls).1.apply now ctx
        ((RespondingJointAttention.new d now0 s0).applyAll s1 calls).2).active =
      (((InitiatingJointAttention.new dOpp now0 s0).applyAll s1 calls).1.apply now ctx
        ((InitiatingJointAttention.new dOpp now0 s0).applyAll s1 calls).2).active ∧
    (((RespondingJointAttention.new d now0 s0).applyAll s1 calls).1.apply now ctx
        ((RespondingJointAttention.new d now0 s0).applyAll s1 calls).2).beh.phase =
      (((InitiatingJointAttention.new dOpp now0 s0).applyAll s1 calls).1.apply now ctx
        ((InitiatingJointAttention.new dOpp now0 s0).applyAll s1 calls).2).beh.phase ∧
    (((RespondingJointAttention.new d now0 s0).applyAll s1 calls).1.apply now ctx
        ((RespondingJointAttention.new d now0 s0).applyAll s1 calls).2).beh.currentX =
      (((InitiatingJointAttention.new dOpp now0 s0).applyAll s1 calls).1.apply now ctx
        ((InitiatingJointAttention.new dOpp now0 s0).applyAll s1 calls).2).beh.currentX ∧
    (((RespondingJointAttention.new d now0 s0).applyAll s1 calls).1.apply now ctx
        ((RespondingJointAttention.new d now0 s0).applyAll s1 calls).2).beh.currentY =
      (((InitiatingJointAttention.new dOpp now0 s0).applyAll s1 calls).1.apply now ctx
        ((InitiatingJointAttention.new dOpp now0 s0).applyAll s1 calls).2).beh.currentY ∧
    (((RespondingJointAttention.new d now0 s0).applyAll s1 calls).1.apply now ctx
        ((RespondingJointAttention.new d now0 s0).applyAll s1 calls).2).sink =
      (((InitiatingJointAttention.new dOpp now0 s0).applyAll s1 calls).1.apply now ctx
        ((InitiatingJointAttention.new dOpp now0 s0).applyAll s1 calls).2).sink := by
  rw [responding_toInitiating_new d dOpp now0 s0 h,
    responding_toInitiating_applyAll, responding_toInitiating_apply]
  exact ⟨rfl, rfl, rfl, rfl, rfl⟩

/-- C9 for left against right, after seven calls of a 50 ms tick. -/
theorem C9_same_state_machine_witness :
    (((RespondingJointAttention.new "left" 10000 (World.initial true).sink).applyAll
        (World.initial true).sink (tickCalls 10000 50 (fun _ => sampleContext) 7)).1.apply
        10350 sampleContext
        ((RespondingJointAttention.new "left" 10000 (World.initial true).sink).applyAll
          (World.initial true).sink (tickCalls 10000 50 (fun _ => sampleContext) 7)).2
      ).beh.currentX =
    (((InitiatingJointAttention.new "right" 10000 (World.initial true).sink).applyAll
        (World.initial true).sink (tickCalls 10000 50 (fun _ => sampleContext) 7)).1.apply
        10350 sampleContext
        ((InitiatingJointAttention.new "right" 10000 (World.initial true).sink).applyAll
          (World.initial true).sink (tickCalls 10000 50 (fun _ => sampleContext) 7)).2
      ).beh.currentX :=
  (C9_same_state_machine "left" "right" (Or.inl ⟨rfl, rfl⟩) 10000 (World.initial true).sink
    (World.initial true).sink (tickCalls 10000 50 (fun _ => sampleContext) 7) 10350
    sampleContext).2.2.1

/-! ## Scheduler: direction passed to RespondingJointAttention -/

/-- A tick that selects the responding branch with direction `d` leaves in the slot a
RespondingJointAttention constructed with `d`, and `d` is the lower-cased second word of
the sensed head direction. -/
theorem updateGaze_respondingDirection (now : ℚ) (tg : Toggles) (ctx : Context) (rng : Rng)
    (w : World) (d : String)
    (h : (updateGaze now tg ctx rng w).selected = some (Selection.responding d)) :
    (updateGaze now tg ctx rng w).world.respondingDirection = some d ∧
      d = headDirectionWord ctx.headDirection ∧
      (ctx.headDirection = "Looking Left" ∨ ctx.headDirection = "Looking Right") := by
  obtain ⟨_, hel, hd, _, _⟩ := updateGaze_responding now tg ctx rng w d h
  obtain ⟨w1, rng1, hnone, _, _, _, hsel, heq⟩ := updateGaze_selected now tg ctx rng w _ h
  refine ⟨?_, hd, hel.2.2.1⟩
  rw [heq]
  unfold selectAndApply
  rw [← hsel]
  simp only [installSelection, applyCurrent, Behavior.apply, World.respondingDirection]
  exact congrArg some
    ((responding_apply_const _ now ctx w1.sink).2.2.1)

/-- C10, counterexample. With the sensed head direction "Looking Left" the tick installs
RespondingJointAttention("left"), not RespondingJointAttention("right"). -/
theorem C10_counterexample :
    sampleContext.headDirection = "Looking Left" ∧
      (updateGaze 10000 sampleToggles sampleContext sampleRng
        (World.initial true)).world.respondingDirection = some "left" ∧
      (updateGaze 10000 sampleToggles sampleContext sampleRng
        (World.initial true)).world.respondingDirection ≠ some "right" := by
  have h := (updateGaze_respondingDirection 10000 sampleToggles sampleContext sampleRng
    (World.initial true) "left" sample_tick_selected).1
  refine ⟨rfl, h, ?_⟩
  rw [h]
  decide

/-- C10, amended. When the tick installs RespondingJointAttention, the direction it passes
is the sensed head direction itself, lower-cased: "Looking Left" gives
RespondingJointAttention("left") and "Looking Right" gives
RespondingJointAttention("right"). -/
theorem C10_direction_passed (now : ℚ) (tg : Toggles) (ctx : Context) (rng : Rng)
    (w : World) (d : String)
    (h : (updateGaze now tg ctx rng w).selected = some (Selection.responding d)) :
    (updateGaze now tg ctx rng w).world.respondingDirection = some d ∧
      (ctx.headDirection = "Looking Left" ∨ ctx.headDirection = "Looking Right") ∧
      (ctx.headDirection = "Looking Left" → d = "left") ∧
      (ctx.headDirection = "Looking Right" → d = "right") := by
  obtain ⟨h1, h2, h3⟩ := updateGaze_respondingDirection now tg ctx rng w d h
  refine ⟨h1, h3, fun hl => ?_, fun hr => ?_⟩
  · rw [h2, hl]; decide
  · rw [h2, hr]; decide

/-- C10 amended, at the first tick of a session with the head turned left. -/
theorem C10_direction_passed_witness :
    (updateGaze 10000 sampleToggles sampleContext sampleRng
      (World.initial true)).world.respondingDirection = some "left" :=
  (C10_direction_passed 10000 sampleToggles sampleContext sampleRng (World.initial true)
    "left" sample_tick_selected).1

/-! ## Fixation -/

theorem fixation_apply_new (tx ty dur t0 now : ℚ) (s : Sink) :
    ((Fixation.new tx ty dur t0).apply now s).beh = Fixation.new tx ty dur t0 ∧
      (((Fixation.new tx ty dur t0).apply now s).active = true ↔ now - t0 < dur) := by
  unfold Fixation.apply Fixation.new
  simp only
  split_ifs with h
  · exact ⟨rfl, by simp [h]⟩
  · exact ⟨rfl, by simp [h]⟩

theorem fixation_applyAll_new (tx ty dur t0 : ℚ) (times : List ℚ) :
    ∀ s : Sink, ((Fixation.new tx ty dur t0).applyAll s times).1 = Fixation.new tx ty dur t0 := by
  induction times with
  | nil => intro s; rfl
  | cons t ts ih =>
    intro s
    unfold Fixation.applyAll
    rw [List.foldl_cons, (fixation_apply_new tx ty dur t0 t s).1]
    exact ih _

/-- C20. A Fixation created at clock time t0 with a target and a duration, after any
earlier apply calls: an apply at clock time now returns true exactly when
now - t0 < duration, and after it (whether it returned true or false) the position is the
target. -/
theorem C20_fixation_active_iff (tx ty dur t0 : ℚ) (s : Sink) (times : List ℚ) (now : ℚ) :
    ((((Fixation.new tx ty dur t0).applyAll s times).1.apply now
        ((Fixation.new tx ty dur t0).applyAll s times).2).active = true ↔ now - t0 < dur) ∧
    ((((Fixation.new tx ty dur t0).applyAll s times).1.apply now
        ((Fixation.new tx ty dur t0).applyAll s times).2).active = false ↔ now - t0 ≥ dur) ∧
    (((Fixation.new tx ty dur t0).applyAll s times).1.apply now
        ((Fixation.new tx ty dur t0).applyAll s times).2).beh.currentX = tx ∧
    (((Fixation.new tx ty dur t0).applyAll s times).1.apply now
        ((Fixation.new tx ty dur t0).applyAll s times).2).beh.currentY = ty := by
  rw [fixation_applyAll_new]
  obtain ⟨h1, h2⟩ := fixation_apply_new tx ty dur t0 now
    ((Fixation.new tx ty dur t0).applyAll s times).2
  refine ⟨h2, ?_, by rw [h1]; rfl, by rw [h1]; rfl⟩
  rw [ge_iff_le, ← not_lt, ← h2]
  simp

/-! ## Saccade -/

theorem saccade_applyN_succ (c : Saccade) (s : Sink) (n : ℕ) :
    Saccade.applyN c s (n + 1) =
      (((Saccade.applyN c s n).1.apply (Saccade.applyN c s n).2).beh,
        ((Saccade.applyN c s n).1.apply (Saccade.applyN c s n).2).sink) := rfl

theorem saccade_apply_active_iff (c : Saccade) (s : Sink) :
    (c.apply s).active = true ↔ c.progress < 1 := by
  unfold Saccade.apply
  split_ifs with h <;> simp [h]

/-- State of a fresh Saccade after `n` calls: the constructor arguments are kept, the
progress is `min 1 (n * max 0.01 speed)`, and the position is the interpolation at that
progress. -/
theorem saccade_applyN_state (sx sy ex ey speed : ℚ) (s : Sink) (n : ℕ) :
    (Saccade.applyN (Saccade.new sx sy ex ey speed) s n).1.startX = sx ∧
    (Saccade.applyN (Saccade.new sx sy ex ey speed) s n).1.startY = sy ∧
    (Saccade.applyN (Saccade.new sx sy ex ey speed) s n).1.endX = ex ∧
    (Saccade.applyN (Saccade.new sx sy ex ey speed) s n).1.endY = ey ∧
    (Saccade.applyN (Saccade.new sx sy ex ey speed) s n).1.speed = max 0.01 speed ∧
    (Saccade.applyN (Saccade.new sx sy ex ey speed) s n).1.progress =
      min 1 ((n : ℚ) * max 0.01 speed) ∧
    (Saccade.applyN (Saccade.new sx sy ex ey speed) s n).1.currentX =
      sx + (ex - sx) * (Saccade.applyN (Saccade.new sx sy ex ey speed) s n).1.progress ∧
    (Saccade.applyN (Saccade.new sx sy ex ey speed) s n).1.currentY =
      sy + (ey - sy) * (Saccade.applyN (Saccade.new sx sy ex ey speed) s n).1.progress := by
  have hv : (0 : ℚ) < max 0.01 speed := lt_of_lt_of_le (by norm_num) (le_max_left _ _)
  induction n with
  | zero =>
    simp [Saccade.applyN, Saccade.new, hv.le]
  | succ n ih =>
    obtain ⟨h1, h2, h3, h4, h5, h6, h7, h8⟩ := ih
    rw [saccade_applyN_succ]
    simp only
    unfold Saccade.apply
    split_ifs with hlt
    · simp only [h1, h2, h3, h4, h5, and_true, true_and]
      rw [h6] at hlt ⊢
      have hn : (n : ℚ) * max 0.01 speed < 1 := by
        by_contra hc
        rw [min_eq_left (not_lt.mp hc)] at hlt
        exact lt_irrefl _ hlt
      rw [min_eq_right hn.le]
      push_cast
      ring_nf
    · simp only [h1, h2, h3, h4, h5, true_and]
      have hp1 : (Saccade.applyN (Saccade.new sx sy ex ey speed) s n).1.progress = 1 :=
        le_antisymm (by rw [h6]; exact min_le_left _ _) (not_lt.mp hlt)
      rw [hp1]
      refine ⟨?_, by ring, by ring⟩
      rw [h6] at hp1
      have hn : (1 : ℚ) ≤ (n : ℚ) * max 0.01 speed := by
        by_contra hc
        rw [min_eq_right (not_le.mp hc).le] at hp1
        exact hc hp1.ge
      rw [min_eq_left]
      push_cast
      nlinarith

theorem saccade_apply_inactive_position (c : Saccade) (s : Sink) (h : ¬ c.progress < 1) :
    (c.apply s).active = false ∧ (c.apply s).beh.currentX = c.endX ∧
      (c.apply s).beh.currentY = c.endY := by
  unfold Saccade.apply
  simp [h]

/-- A fresh Saccade first returns false on one of its first 101 calls, and that call
leaves it exactly at its end point. -/
theorem saccade_first_inactive (sx sy ex ey speed : ℚ) (s : Sink) :
    ∃ n : ℕ, n ≤ 100 ∧
      ((Saccade.applyN (Saccade.new sx sy ex ey speed) s n).1.apply
        (Saccade.applyN (Saccade.new sx sy ex ey speed) s n).2).active = false ∧
      (∀ m : ℕ, m < n →
        ((Saccade.applyN (Saccade.new sx sy ex ey speed) s m).1.apply
          (Saccade.applyN (Saccade.new sx sy ex ey speed) s m).2).active = true) ∧
      ((Saccade.applyN (Saccade.new sx sy ex ey speed) s n).1.apply
        (Saccade.applyN (Saccade.new sx sy ex ey speed) s n).2).beh.currentX = ex ∧
      ((Saccade.applyN (Saccade.new sx sy ex ey speed) s n).1.apply
        (Saccade.applyN (Saccade.new sx sy ex ey speed) s n).2).beh.currentY = ey := by
  classical
  have hex : ∃ n : ℕ,
      ¬ (Saccade.applyN (Saccade.new sx sy ex ey speed) s n).1.progress < 1 := by
    refine ⟨100, ?_⟩
    rw [(saccade_applyN_state sx sy ex ey speed s 100).2.2.2.2.2.1]
    have hv : (0.01 : ℚ) ≤ max 0.01 speed := le_max_left _ _
    have h1 : (1 : ℚ) ≤ ((100 : ℕ) : ℚ) * max 0.01 speed := by
      push_cast
      linarith
    rw [min_eq_left h1]
    exact lt_irrefl _
  refine ⟨Nat.find hex, ?_, ?_, ?_, ?_, ?_⟩
  · apply Nat.find_min' hex
    rw [(saccade_applyN_state sx sy ex ey speed s 100).2.2.2.2.2.1]
    have hv : (0.01 : ℚ) ≤ max 0.01 speed := le_max_left _ _
    have h1 : (1 : ℚ) ≤ ((100 : ℕ) : ℚ) * max 0.01 speed := by
      push_cast
      linarith
    rw [min_eq_left h1]
    exact lt_irrefl _
  · exact (saccade_apply_inactive_position _ _ (Nat.find_spec hex)).1
  · intro m hm
    have := Nat.find_min hex hm
    exact (saccade_apply_active_iff _ _).mpr (not_not.mp this)
  · rw [(saccade_apply_inactive_position _ _ (Nat.find_spec hex)).2.1]
    exact (saccade_applyN_state sx sy ex ey speed s _).2.2.1
  · rw [(saccade_apply_inactive_position _ _ (Nat.find_spec hex)).2.2]
    exact (saccade_applyN_state sx sy ex ey speed s _).2.2.2.1

/-- C19. A fresh Saccade, for every start, end and speed (the constructor raises the speed
to at least 0.01): after any number of calls the progress is in [0,1] and the position is
start + (end - start) * min(progress, 1); apply returns true exactly when entered with
progress < 1; the first call that returns false is among the first 101 calls, and it
leaves the position exactly at the end point. -/
theorem C19_saccade_no_overshoot (sx sy ex ey speed : ℚ) (s : Sink) :
    (Saccade.new sx sy ex ey speed).speed = max 0.01 speed ∧
    (∀ n : ℕ,
      0 ≤ (Saccade.applyN (Saccade.new sx sy ex ey speed) s n).1.progress ∧
      (Saccade.applyN (Saccade.new sx sy ex ey speed) s n).1.progress ≤ 1 ∧
      (Saccade.applyN (Saccade.new sx sy ex ey speed) s n).1.currentX =
        sx + (ex - sx) *
          min (Saccade.applyN (Saccade.new sx sy ex ey speed) s n).1.progress 1 ∧
      (Saccade.applyN (Saccade.new sx sy ex ey speed) s n).1.currentY =
        sy + (ey - sy) *
          min (Saccade.applyN (Saccade.new sx sy ex ey speed) s n).1.progress 1 ∧
      (((Saccade.applyN (Saccade.new sx sy ex ey speed) s n).1.apply
          (Saccade.applyN (Saccade.new sx sy ex ey speed) s n).2).active = true ↔
        (Saccade.applyN (Saccade.new sx sy ex ey speed) s n).1.progress < 1)) ∧
    (∃ n : ℕ, n ≤ 100 ∧
      ((Saccade.applyN (Saccade.new sx sy ex ey speed) s n).1.apply
        (Saccade.applyN (Saccade.new sx sy ex ey speed) s n).2).active = false ∧
      (∀ m : ℕ, m < n →
        ((Saccade.applyN (Saccade.new sx sy ex ey speed) s m).1.apply
          (Saccade.applyN (Saccade.new sx sy ex ey speed) s m).2).active = true) ∧
      ((Saccade.applyN (Saccade.new sx sy ex ey speed) s n).1.apply
        (Saccade.applyN (Saccade.new sx sy ex ey speed) s n).2).beh.currentX = ex ∧
      ((Saccade.applyN (Saccade.new sx sy ex ey speed) s n).1.apply
        (Saccade.applyN (Saccade.new sx sy ex ey speed) s n).2).beh.currentY = ey) := by
  refine ⟨rfl, fun n => ?_, saccade_first_inactive sx sy ex ey speed s⟩
  obtain ⟨_, _, _, _, _, h6, h7, h8⟩ := saccade_applyN_state sx sy ex ey speed s n
  have hv : (0 : ℚ) < max 0.01 speed := lt_of_lt_of_le (by norm_num) (le_max_left _ _)
  have hle : (Saccade.applyN (Saccade.new sx sy ex ey speed) s n).1.progress ≤ 1 := by
    rw [h6]; exact min_le_left _ _
  have hge : 0 ≤ (Saccade.applyN (Saccade.new sx sy ex ey speed) s n).1.progress := by
    rw [h6]; exact le_min (by norm_num) (mul_nonneg (Nat.cast_nonneg n) hv.le)
  refine ⟨hge, hle, ?_, ?_, saccade_apply_active_iff _ _⟩
  · rw [min_eq_left hle]; exact h7
  · rw [min_eq_left hle]; exact h8

/-- C19 for a saccade from (0.7, 0.4) to (0.3, 0.6) at speed 0.15: after three calls the
progress is still at most 1. -/
theorem C19_saccade_no_overshoot_witness :
    (Saccade.applyN (Saccade.new 0.7 0.4 0.3 0.6 0.15) (World.initial true).sink 3).1.progress
      ≤ 1 :=
  ((C19_saccade_no_overshoot 0.7 0.4 0.3 0.6 0.15 (World.initial true).sink).2.1 3).2.1

/-- C20 for a 300 ms fixation created at time 10000: the apply at 10300 returns false. -/
theorem C20_fixation_active_iff_witness :
    (((Fixation.new 0.7 0.4 300 10000).applyAll (World.initial true).sink [10000, 10050]).1.apply
        10300
        ((Fixation.new 0.7 0.4 300 10000).applyAll (World.initial true).sink
          [10000, 10050]).2).active = false :=
  (C20_fixation_active_iff 0.7 0.4 300 10000 (World.initial true).sink [10000, 10050]
    10300).2.1.mpr (by norm_num)

/-! ## MutualGaze -/

/-- C14. `MutualGaze.apply` returns true on every call: for every state, clock value,
stream of random draws, sensed context and sink. -/
theorem C14_mutual_gaze_always_active (m : MutualGaze) (now : ℚ) (ctx : Context) (rng : Rng)
    (s : Sink) : (m.apply now ctx rng s).1.active = true :=
  MutualGaze.apply_active m now ctx rng s

/-- C15. One `MutualGaze.apply`: when `GazeAversion.update` reports active, the position
becomes the aversion's position and the pursuit is left as it was; otherwise the pursuit
target becomes (1 - faceX, faceY) when a user is in front and (0.5, 0.5) when not, the
pursuit takes one smoothing step from its previous position toward that target, and the
position becomes the pursuit's position, which is the point sent to the sink. -/
theorem C15_mutual_gaze_step (m : MutualGaze) (now : ℚ) (ctx : Context) (rng : Rng)
    (s : Sink) :
    ((m.gazeAversion.update now rng s).1.active = true →
      (m.apply now ctx rng s).1.beh.currentX =
        (m.gazeAversion.update now rng s).1.beh.currentX ∧
      (m.apply now ctx rng s).1.beh.currentY =
        (m.gazeAversion.update now rng s).1.beh.currentY ∧
      (m.apply now ctx rng s).1.beh.pursuit = m.pursuit ∧
      (m.apply now ctx rng s).1.beh.gazeAversion = (m.gazeAversion.update now rng s).1.beh ∧
      (m.apply now ctx rng s).1.sink = (m.gazeAversion.update now rng s).1.sink) ∧
    ((m.gazeAversion.update now rng s).1.active = false →
      (m.apply now ctx rng s).1.beh.pursuit.targetX =
        (if ctx.userInFront then 1 - jsNum ctx.faceX else 0.5) ∧
      (m.apply now ctx rng s).1.beh.pursuit.targetY =
        (if ctx.userInFront then jsNum ctx.faceY else 0.5) ∧
      (m.apply now ctx rng s).1.beh.pursuit.currentX =
        m.pursuit.currentX +
          ((if ctx.userInFront then 1 - jsNum ctx.faceX else 0.5) - m.pursuit.currentX) *
            m.pursuit.smoothness ∧
      (m.apply now ctx rng s).1.beh.pursuit.currentY =
        m.pursuit.currentY +
          ((if ctx.userInFront then jsNum ctx.faceY else 0.5) - m.pursuit.currentY) *
            m.pursuit.smoothness ∧
      (m.apply now ctx rng s).1.beh.pursuit.smoothness = m.pursuit.smoothness ∧
      (m.apply now ctx rng s).1.beh.currentX = (m.apply now ctx rng s).1.beh.pursuit.currentX ∧
      (m.apply now ctx rng s).1.beh.currentY = (m.apply now ctx rng s).1.beh.pursuit.currentY ∧
      (m.apply now ctx rng s).1.beh.gazeAversion = (m.gazeAversion.update now rng s).1.beh ∧
      (m.apply now ctx rng s).1.sink.sent.head? =
        some ((m.apply now ctx rng s).1.beh.currentX, (m.apply now ctx rng s).1.beh.currentY,
          1)) := by
  constructor
  · intro ha
    unfold MutualGaze.apply
    simp [ha]
  · intro ha
    unfold MutualGaze.apply
    simp only [ha]
    cases hu : ctx.userInFront <;>
      simp [SmoothPursuit.apply, SmoothPursuit.updateTarget, setPupilTransform_sent]

/-! ## GazeAversion -/

theorem fixation_apply_inactive_sink (f : Fixation) (now : ℚ) (s : Sink)
    (h : (f.apply now s).active = false) : (f.apply now s).sink = s ∧ (f.apply now s).beh = f := by
  unfold Fixation.apply at h ⊢
  simp only at h ⊢
  split_ifs at h ⊢ with hc
  exact ⟨rfl, rfl⟩

/-- `update` while the aversion Fixation is still active. -/
theorem aversion_update_active (g : GazeAversion) (f : Fixation) (now : ℚ) (rng : Rng)
    (s : Sink) (hf : g.aversionFixation = some f) (ha : (f.apply now s).active = true) :
    g.update now rng s =
      ({ active := true,
         beh := { g with aversionFixation := some (f.apply now s).beh,
                         currentX := (f.apply now s).beh.currentX,
                         currentY := (f.apply now s).beh.currentY },
         sink := (f.apply now s).sink }, rng) := by
  unfold GazeAversion.update
  simp [hf, ha]

/-- `update` on the call that finds the aversion Fixation finished. -/
theorem aversion_update_finished (g : GazeAversion) (f : Fixation) (now : ℚ) (rng : Rng)
    (s : Sink) (hf : g.aversionFixation = some f) (ha : (f.apply now s).active = false) :
    g.update now rng s =
      ({ active := false,
         beh := { g with aversionFixation := none,
                         nextAversionTime :=
                           now + (g.intervalMin + rng 0 * (g.intervalMax - g.intervalMin)) },
         sink := s }, rng.next) := by
  unfold GazeAversion.update
  simp [hf, ha, GazeAversion.scheduleNextAversion, (fixation_apply_inactive_sink f now s ha).1]

/-- `update` with no aversion in progress and the next one not yet due. -/
theorem aversion_update_idle (g : GazeAversion) (now : ℚ) (rng : Rng) (s : Sink)
    (hn : g.aversionFixation = none) (hlt : now < g.nextAversionTime) :
    g.update now rng s = ({ active := false, beh := g, sink := s }, rng) := by
  unfold GazeAversion.update
  simp [hn, not_le.mpr hlt]

/-- `update` on the call that starts a new aversion (positive aversion duration). -/
theorem aversion_update_start (g : GazeAversion) (now : ℚ) (rng : Rng) (s : Sink)
    (hn : g.aversionFixation = none) (hge : now ≥ g.nextAversionTime)
    (hd : 0 < g.aversionDuration) :
    g.update now rng s =
      ({ active := true,
         beh := { g with
           aversionFixation :=
             some (Fixation.new (aversionTargetX (rng 0)) (aversionTargetY (rng 1))
               g.aversionDuration now),
           currentX := aversionTargetX (rng 0), currentY := aversionTargetY (rng 1) },
         sink := setPupilTransform (aversionTargetX (rng 0)) (aversionTargetY (rng 1)) 1 s },
        rng.next.next) := by
  unfold GazeAversion.update
  simp [hn, hge, Fixation.apply, Fixation.new, hd, aversionTargetX, aversionTargetY]

/-- `update` on a call that would start an aversion of non-positive duration: the Fixation
is dropped at once and the next aversion is scheduled. -/
theorem aversion_update_start_nonpos (g : GazeAversion) (now : ℚ) (rng : Rng) (s : Sink)
    (hn : g.aversionFixation = none) (hge : now ≥ g.nextAversionTime)
    (hd : ¬ 0 < g.aversionDuration) :
    (g.update now rng s).1.beh.aversionFixation = none := by
  unfold GazeAversion.update
  simp [hn, hge, Fixation.apply, Fixation.new, hd, GazeAversion.scheduleNextAversion]

/-- Range of the aversion target in exact arithmetic for draws in [0,1). -/
theorem aversionTarget_bounds (r0 r1 : ℚ) (h0 : 0 ≤ r0 ∧ r0 < 1) (h1 : 0 ≤ r1 ∧ r1 < 1) :
    0.2 ≤ |aversionTargetX r0 - 0.5| ∧ |aversionTargetX r0 - 0.5| ≤ 0.4 ∧
      |aversionTargetY r1 - 0.5| ≤ 0.3 := by
  unfold aversionTargetX aversionTargetY
  refine ⟨?_, ?_, ?_⟩
  · split_ifs with h
    · rw [add_sub_cancel_left, abs_of_nonneg (le_trans (by norm_num) (le_max_left _ _))]
      exact le_max_left _ _
    · rw [add_sub_cancel_left, abs_of_nonpos (le_trans (min_le_left _ _) (by norm_num))]
      have := min_le_left (-0.2 : ℚ) ((r0 - 0.5) * 0.8)
      linarith
  · split_ifs with h
    · rw [add_sub_cancel_left, abs_of_nonneg (le_trans (by norm_num) (le_max_left _ _))]
      apply max_le (by norm_num)
      nlinarith [h0.1, h0.2]
    · rw [add_sub_cancel_left, abs_of_nonpos (le_trans (min_le_left _ _) (by norm_num))]
      have : (-0.4 : ℚ) ≤ min (-0.2) ((r0 - 0.5) * 0.8) :=
        le_min (by norm_num) (by nlinarith [h0.1, h0.2])
      linarith
  · rw [add_sub_cancel_left, abs_le]
    constructor <;> nlinarith [h1.1, h1.2]

theorem sampleAversionDue_update :
    (sampleAversionDue.update 11000 sampleRng (World.initial true).sink).1.beh.aversionFixation
      = some (Fixation.new 0.3 0.5 300 11000) := by
  rw [aversion_update_start sampleAversionDue 11000 sampleRng (World.initial true).sink rfl
    (by norm_num [sampleAversionDue]) (by norm_num [sampleAversionDue])]
  simp only [Option.some.injEq]
  norm_num [aversionTargetX, aversionTargetY, sampleRng, sampleAversionDue]

/-! ## Aversion target in binary64 (C16) -/

theorem roundHalfEven_ge (q : ℚ) (n : ℤ) (h : (n : ℚ) ≤ q) : n ≤ roundHalfEven q := by
  have hf : n ≤ ⌊q⌋ := Int.le_floor.mpr h
  unfold roundHalfEven
  split_ifs <;> omega

theorem roundHalfEven_le (q : ℚ) (n : ℤ) (h : q ≤ (n : ℚ)) : roundHalfEven q ≤ n := by
  unfold roundHalfEven
  rcases eq_or_lt_of_le h with heq | hlt
  · subst heq
    simp
  · have hf : ⌊q⌋ < n := Int.floor_lt.mpr hlt
    split_ifs <;> omega

theorem binade_spec (x : ℚ) (hx : x ≠ 0) :
    (2 : ℚ) ^ binade x ≤ |x| ∧ |x| < (2 : ℚ) ^ (binade x + 1) := by
  have h0 : 0 < |x| := abs_pos.mpr hx
  have h1 : ((2 : ℕ) : ℚ) ^ Int.log 2 |x| ≤ |x| := Int.zpow_log_le_self (by norm_num) h0
  have h2 : |x| < ((2 : ℕ) : ℚ) ^ (Int.log 2 |x| + 1) :=
    Int.lt_zpow_succ_log_self (by norm_num) |x|
  exact ⟨by simpa [binade] using h1, by simpa [binade] using h2⟩

theorem binade_eq (x : ℚ) (e : ℤ) (h1 : (2 : ℚ) ^ e ≤ |x|) (h2 : |x| < (2 : ℚ) ^ (e + 1)) :
    binade x = e := by
  have h0 : 0 < |x| := lt_of_lt_of_le (zpow_pos (by norm_num) e) h1
  have a1 : e ≤ Int.log 2 |x| :=
    (Int.zpow_le_iff_le_log (by norm_num) h0).mp (by simpa using h1)
  have a2 : Int.log 2 |x| < e + 1 :=
    (Int.lt_zpow_iff_log_lt (by norm_num) h0).mp (by simpa using h2)
  unfold binade
  omega

theorem binade_mono (x y : ℚ) (hx : x ≠ 0) (h : |x| ≤ |y|) : binade x ≤ binade y :=
  Int.log_mono_right (abs_pos.mpr hx) h

theorem two_zpow_pos (e : ℤ) : (0 : ℚ) < 2 ^ e := zpow_pos (by norm_num) e

theorem two_zpow_low (e : ℤ) : (2 : ℚ) ^ e = 4503599627370496 * 2 ^ (e - 52) := by
  have h : e = 52 + (e - 52) := by ring
  conv_lhs => rw [h, zpow_add₀ (by norm_num : (2 : ℚ) ≠ 0)]
  norm_num

theorem two_zpow_high (e : ℤ) : (2 : ℚ) ^ (e + 1) = 9007199254740992 * 2 ^ (e - 52) := by
  have h : e + 1 = 53 + (e - 52) := by ring
  conv_lhs => rw [h, zpow_add₀ (by norm_num : (2 : ℚ) ≠ 0)]
  norm_num

theorem roundDouble_of_ne (x : ℚ) (hx : x ≠ 0) :
    roundDouble x = (roundHalfEven (x / 2 ^ (binade x - 52)) : ℚ) * 2 ^ (binade x - 52) := by
  unfold roundDouble
  rw [if_neg hx]

/-- A rational is a binary64 number exactly when it is a multiple of the unit of its
exponent. -/
theorem isDouble_iff (a : ℚ) : isDouble a ↔ ∃ m : ℤ, a = (m : ℚ) * 2 ^ (binade a - 52) := by
  unfold isDouble
  constructor
  · intro h
    by_cases ha : a = 0
    · exact ⟨0, by simp [ha]⟩
    · rw [roundDouble_of_ne a ha] at h
      exact ⟨_, h.symm⟩
  · rintro ⟨m, hm⟩
    by_cases ha : a = 0
    · simp [roundDouble, ha]
    · rw [roundDouble_of_ne a ha]
      have hu := two_zpow_pos (binade a - 52)
      have hq : a / 2 ^ (binade a - 52) = (m : ℚ) := by
        rw [div_eq_iff (ne_of_gt hu)]
        exact hm
      have hr : roundHalfEven (m : ℚ) = m := by simp [roundHalfEven]
      rw [hq, hr]
      exact hm.symm

/-- Rounding does not go below a binary64 number that the exact value is not below. -/
theorem roundDouble_ge (a x : ℚ) (ha : isDouble a) (h : a ≤ x) : a ≤ roundDouble x := by
  by_cases hx : x = 0
  · rw [hx] at h ⊢
    simpa [roundDouble] using h
  rw [roundDouble_of_ne x hx]
  have hu := two_zpow_pos (binade x - 52)
  obtain ⟨sx1, sx2⟩ := binade_spec x hx
  rcases lt_or_gt_of_ne hx with hneg | hpos
  · -- a ≤ x < 0
    have ha0 : a ≠ 0 := by intro hc; rw [hc] at h; linarith
    obtain ⟨sa1, sa2⟩ := binade_spec a ha0
    have habs : |x| ≤ |a| := by
      rw [abs_of_neg hneg, abs_of_neg (lt_of_le_of_lt h hneg)]
      linarith
    have hle := binade_mono x a hx habs
    obtain ⟨m, hm⟩ := (isDouble_iff a).mp ha
    rcases eq_or_lt_of_le hle with heq | hlt
    · rw [← heq] at hm
      have hq : (m : ℚ) ≤ x / 2 ^ (binade x - 52) := by
        rw [le_div_iff₀ hu, ← hm]
        exact h
      have hr := roundHalfEven_ge _ m hq
      have hr2 : (m : ℚ) ≤ (roundHalfEven (x / 2 ^ (binade x - 52)) : ℚ) := by
        exact_mod_cast hr
      rw [hm]
      exact mul_le_mul_of_nonneg_right hr2 (le_of_lt hu)
    · have hq : ((-9007199254740992 : ℤ) : ℚ) ≤ x / 2 ^ (binade x - 52) := by
        rw [le_div_iff₀ hu]
        rw [abs_of_neg hneg, two_zpow_high] at sx2
        push_cast
        linarith
      have hr := roundHalfEven_ge _ _ hq
      have hr2 : ((-9007199254740992 : ℤ) : ℚ) ≤
          (roundHalfEven (x / 2 ^ (binade x - 52)) : ℚ) := by exact_mod_cast hr
      have hstep : (2 : ℚ) ^ (binade x + 1) ≤ 2 ^ binade a :=
        zpow_le_zpow_right₀ (by norm_num) (by omega)
      have h3 := mul_le_mul_of_nonneg_right hr2 (le_of_lt hu)
      rw [abs_of_neg (lt_of_le_of_lt h hneg)] at sa1
      rw [two_zpow_high] at hstep
      push_cast at h3
      linarith
  · -- 0 < x
    have hq0 : ((0 : ℤ) : ℚ) ≤ x / 2 ^ (binade x - 52) := by
      push_cast
      exact le_of_lt (div_pos hpos hu)
    rcases le_or_lt a 0 with hale | hapos
    · have hr := roundHalfEven_ge _ _ hq0
      have hr2 : (0 : ℚ) ≤ (roundHalfEven (x / 2 ^ (binade x - 52)) : ℚ) := by
        exact_mod_cast hr
      exact le_trans hale (mul_nonneg hr2 (le_of_lt hu))
    · have ha0 : a ≠ 0 := ne_of_gt hapos
      obtain ⟨sa1, sa2⟩ := binade_spec a ha0
      have habs : |a| ≤ |x| := by
        rw [abs_of_pos hpos, abs_of_pos hapos]
        exact h
      have hle := binade_mono a x ha0 habs
      obtain ⟨m, hm⟩ := (isDouble_iff a).mp ha
      rcases eq_or_lt_of_le hle with heq | hlt
      · rw [heq] at hm
        have hq : (m : ℚ) ≤ x / 2 ^ (binade x - 52) := by
          rw [le_div_iff₀ hu, ← hm]
          exact h
        have hr := roundHalfEven_ge _ m hq
        have hr2 : (m : ℚ) ≤ (roundHalfEven (x / 2 ^ (binade x - 52)) : ℚ) := by
          exact_mod_cast hr
        rw [hm]
        exact mul_le_mul_of_nonneg_right hr2 (le_of_lt hu)
      · have hq : ((4503599627370496 : ℤ) : ℚ) ≤ x / 2 ^ (binade x - 52) := by
          rw [le_div_iff₀ hu]
          rw [abs_of_pos hpos, two_zpow_low] at sx1
          push_cast
          linarith
        have hr := roundHalfEven_ge _ _ hq
        have hr2 : ((4503599627370496 : ℤ) : ℚ) ≤
            (roundHalfEven (x / 2 ^ (binade x - 52)) : ℚ) := by exact_mod_cast hr
        have hstep : (2 : ℚ) ^ (binade a + 1) ≤ 2 ^ binade x :=
          zpow_le_zpow_right₀ (by norm_num) (by omega)
        have h3 := mul_le_mul_of_nonneg_right hr2 (le_of_lt hu)
        rw [abs_of_pos hapos] at sa2
        rw [two_zpow_low (binade x)] at hstep
        push_cast at h3
        linarith

/-- Rounding does not go above a binary64 number that the exact value is not above. -/
theorem roundDouble_le (b x : ℚ) (hb : isDouble b) (h : x ≤ b) : roundDouble x ≤ b := by
  by_cases hx : x = 0
  · rw [hx] at h ⊢
    simpa [roundDouble] using h
  rw [roundDouble_of_ne x hx]
  have hu := two_zpow_pos (binade x - 52)
  obtain ⟨sx1, sx2⟩ := binade_spec x hx
  rcases lt_or_gt_of_ne hx with hneg | hpos
  · -- x < 0
    have hq0 : x / 2 ^ (binade x - 52) ≤ ((0 : ℤ) : ℚ) := by
      push_cast
      exact le_of_lt (div_neg_of_neg_of_pos hneg hu)
    rcases le_or_lt 0 b with hbge | hbneg
    · have hr := roundHalfEven_le _ _ hq0
      have hr2 : (roundHalfEven (x / 2 ^ (binade x - 52)) : ℚ) ≤ 0 := by
        exact_mod_cast hr
      exact le_trans (mul_nonpos_of_nonpos_of_nonneg hr2 (le_of_lt hu)) hbge
    · have hb0 : b ≠ 0 := ne_of_lt hbneg
      obtain ⟨sb1, sb2⟩ := binade_spec b hb0
      have habs : |b| ≤ |x| := by
        rw [abs_of_neg hneg, abs_of_neg hbneg]
        linarith
      have hle := binade_mono b x hb0 habs
      obtain ⟨m, hm⟩ := (isDouble_iff b).mp hb
      rcases eq_or_lt_of_le hle with heq | hlt
      · rw [heq] at hm
        have hq : x / 2 ^ (binade x - 52) ≤ (m : ℚ) := by
          rw [div_le_iff₀ hu, ← hm]
          exact h
        have hr := roundHalfEven_le _ m hq
        have hr2 : (roundHalfEven (x / 2 ^ (binade x - 52)) : ℚ) ≤ (m : ℚ) := by
          exact_mod_cast hr
        rw [hm]
        exact mul_le_mul_of_nonneg_right hr2 (le_of_lt hu)
      · have hq : x / 2 ^ (binade x - 52) ≤ ((-4503599627370496 : ℤ) : ℚ) := by
          rw [div_le_iff₀ hu]
          rw [abs_of_neg hneg, two_zpow_low] at sx1
          push_cast
          linarith
        have hr := roundHalfEven_le _ _ hq
        have hr2 : (roundHalfEven (x / 2 ^ (binade x - 52)) : ℚ) ≤
            ((-4503599627370496 : ℤ) : ℚ) := by exact_mod_cast hr
        have hstep : (2 : ℚ) ^ (binade b + 1) ≤ 2 ^ binade x :=
          zpow_le_zpow_right₀ (by norm_num) (by omega)
        have h3 := mul_le_mul_of_nonneg_right hr2 (le_of_lt hu)
        rw [abs_of_neg hbneg] at sb2
        rw [two_zpow_low (binade x)] at hstep
        push_cast at h3
        linarith
  · -- 0 < x ≤ b
    have hbpos : 0 < b := lt_of_lt_of_le hpos h
    have hb0 : b ≠ 0 := ne_of_gt hbpos
    obtain ⟨sb1, sb2⟩ := binade_spec b hb0
    have habs : |x| ≤ |b| := by
      rw [abs_of_pos hpos, abs_of_pos hbpos]
      exact h
    have hle := binade_mono x b hx habs
    obtain ⟨m, hm⟩ := (isDouble_iff b).mp hb
    rcases eq_or_lt_of_le hle with heq | hlt
    · rw [← heq] at hm
      have hq : x / 2 ^ (binade x - 52) ≤ (m : ℚ) := by
        rw [div_le_iff₀ hu, ← hm]
        exact h
      have hr := roundHalfEven_le _ m hq
      have hr2 : (roundHalfEven (x / 2 ^ (binade x - 52)) : ℚ) ≤ (m : ℚ) := by
        exact_mod_cast hr
      rw [hm]
      exact mul_le_mul_of_nonneg_right hr2 (le_of_lt hu)
    · have hq : x / 2 ^ (binade x - 52) ≤ ((9007199254740992 : ℤ) : ℚ) := by
        rw [div_le_iff₀ hu]
        rw [abs_of_pos hpos, two_zpow_high] at sx2
        push_cast
        linarith
      have hr := roundHalfEven_le _ _ hq
      have hr2 : (roundHalfEven (x / 2 ^ (binade x - 52)) : ℚ) ≤
          ((9007199254740992 : ℤ) : ℚ) := by exact_mod_cast hr
      have hstep : (2 : ℚ) ^ (binade x + 1) ≤ 2 ^ binade b :=
        zpow_le_zpow_right₀ (by norm_num) (by omega)
      have h3 := mul_le_mul_of_nonneg_right hr2 (le_of_lt hu)
      rw [abs_of_pos hbpos] at sb1
      rw [two_zpow_high] at hstep
      push_cast at h3
      linarith

/-- A non-zero rational with exponent `e` that is a multiple of `2 ^ (e - 52)` is a binary64
number. -/
theorem isDouble_of (a : ℚ) (e m : ℤ) (h1 : (2 : ℚ) ^ e ≤ |a|) (h2 : |a| < (2 : ℚ) ^ (e + 1))
    (hm : a = (m : ℚ) * 2 ^ (e - 52)) : isDouble a := by
  refine (isDouble_iff a).mpr ⟨m, ?_⟩
  rw [binade_eq a e h1 h2]
  exact hm

/-- The rounding of a non-zero number with exponent `e`. -/
theorem roundDouble_eval (x : ℚ) (e n : ℤ) (h1 : (2 : ℚ) ^ e ≤ |x|)
    (h2 : |x| < (2 : ℚ) ^ (e + 1)) (hn : roundHalfEven (x / 2 ^ (e - 52)) = n) :
    roundDouble x = (n : ℚ) * 2 ^ (e - 52) := by
  have hx : x ≠ 0 := by
    intro hc
    rw [hc, abs_zero] at h1
    exact absurd h1 (not_le.mpr (two_zpow_pos e))
  rw [roundDouble_of_ne x hx, binade_eq x e h1 h2, hn]

/-- Rounding to the nearest integer when the fraction is above one half. -/
theorem roundHalfEven_up (q : ℚ) (f : ℤ) (h1 : (f : ℚ) + 1 / 2 < q) (h2 : q < (f : ℚ) + 1) :
    roundHalfEven q = f + 1 := by
  have hf : ⌊q⌋ = f := Int.floor_eq_iff.mpr ⟨by linarith, h2⟩
  unfold roundHalfEven
  rw [hf]
  have a1 : ¬ (q - (f : ℚ) < 1 / 2) := by linarith
  have a2 : 1 / 2 < q - (f : ℚ) := by linarith
  rw [if_neg a1, if_pos a2]

/-- Rounding to the nearest integer when the fraction is below one half. -/
theorem roundHalfEven_down (q : ℚ) (f : ℤ) (h1 : (f : ℚ) ≤ q) (h2 : q < (f : ℚ) + 1 / 2) :
    roundHalfEven q = f := by
  have hf : ⌊q⌋ = f := Int.floor_eq_iff.mpr ⟨h1, by linarith⟩
  unfold roundHalfEven
  rw [hf]
  have a1 : q - (f : ℚ) < 1 / 2 := by linarith
  rw [if_pos a1]

/-- Rounding a tie whose lower neighbour is even. -/
theorem roundHalfEven_tie_even (q : ℚ) (f : ℤ) (h : q = (f : ℚ) + 1 / 2) (he : f % 2 = 0) :
    roundHalfEven q = f := by
  have hf : ⌊q⌋ = f := Int.floor_eq_iff.mpr ⟨by linarith, by linarith⟩
  unfold roundHalfEven
  rw [hf]
  have a1 : ¬ (q - (f : ℚ) < 1 / 2) := by linarith
  have a2 : ¬ (1 / 2 < q - (f : ℚ)) := by linarith
  rw [if_neg a1, if_neg a2, if_pos he]

/-- The rounding of a positive number with exponent `e`. -/
theorem roundDouble_eval_pos (x : ℚ) (e n : ℤ) (h1 : (2 : ℚ) ^ e ≤ x)
    (h2 : x < (2 : ℚ) ^ (e + 1)) (hn : roundHalfEven (x / 2 ^ (e - 52)) = n) :
    roundDouble x = (n : ℚ) * 2 ^ (e - 52) := by
  have hx : 0 < x := lt_of_lt_of_le (two_zpow_pos e) h1
  exact roundDouble_eval x e n (by rw [abs_of_pos hx]; exact h1)
    (by rw [abs_of_pos hx]; exact h2) hn

/-- A positive rational with exponent `e` that is a multiple of `2 ^ (e - 52)` is a binary64
number. -/
theorem isDouble_of_pos (a : ℚ) (e m : ℤ) (h1 : (2 : ℚ) ^ e ≤ a) (h2 : a < (2 : ℚ) ^ (e + 1))
    (hm : a = (m : ℚ) * 2 ^ (e - 52)) : isDouble a := by
  have ha : 0 < a := lt_of_lt_of_le (two_zpow_pos e) h1
  exact isDouble_of a e m (by rw [abs_of_pos ha]; exact h1) (by rw [abs_of_pos ha]; exact h2) hm

/-- The negative of a binary64 number is one. -/
theorem isDouble_neg (a : ℚ) (h : isDouble a) : isDouble (-a) := by
  obtain ⟨m, hm⟩ := (isDouble_iff a).mp h
  refine (isDouble_iff (-a)).mpr ⟨-m, ?_⟩
  have hb : binade (-a) = binade a := by unfold binade; rw [abs_neg]
  rw [hb]
  push_cast
  rw [neg_mul, ← hm]

/-- The binary64 number written `0.8`. -/
theorem roundDouble_08 : roundDouble 0.8 = 3602879701896397 / 4503599627370496 := by
  rw [roundDouble_eval_pos 0.8 (-1) 7205759403792794 (by norm_num) (by norm_num)
    (roundHalfEven_up _ 7205759403792793 (by norm_num) (by norm_num))]
  norm_num

/-- The binary64 number written `0.6`. -/
theorem roundDouble_06 : roundDouble 0.6 = 5404319552844595 / 9007199254740992 := by
  rw [roundDouble_eval_pos 0.6 (-1) 5404319552844595 (by norm_num) (by norm_num)
    (roundHalfEven_down _ 5404319552844595 (by norm_num) (by norm_num))]
  norm_num

/-- The binary64 number written `0.2`. -/
theorem roundDouble_02 : roundDouble 0.2 = 3602879701896397 / 18014398509481984 := by
  rw [roundDouble_eval_pos 0.2 (-3) 7205759403792794 (by norm_num) (by norm_num)
    (roundHalfEven_up _ 7205759403792793 (by norm_num) (by norm_num))]
  norm_num

theorem isDouble_half : isDouble (1 / 2) :=
  isDouble_of_pos (1 / 2) (-1) 4503599627370496 (by norm_num) (by norm_num) (by norm_num)

/-- A binary64 number in [0,1) is at most `1 - 2 ^ (-53)`. -/
theorem double_lt_one (r : ℚ) (hd : isDouble r) (h0 : 0 ≤ r) (h1 : r < 1) :
    r ≤ 1 - 1 / 9007199254740992 := by
  rcases eq_or_lt_of_le h0 with hz | hpos
  · rw [← hz]; norm_num
  obtain ⟨s1, s2⟩ := binade_spec r (ne_of_gt hpos)
  rw [abs_of_pos hpos] at s1 s2
  have he : binade r < 0 := by
    by_contra hc
    have h2 : (2 : ℚ) ^ (0 : ℤ) ≤ 2 ^ binade r :=
      zpow_le_zpow_right₀ (by norm_num) (not_lt.mp hc)
    rw [zpow_zero] at h2
    linarith
  rcases eq_or_lt_of_le (Int.le_sub_one_of_lt he) with heq | hlt
  · obtain ⟨m, hm⟩ := (isDouble_iff r).mp hd
    have hb : binade r = -1 := by omega
    rw [hb] at hm
    have hu : (2 : ℚ) ^ ((-1 : ℤ) - 52) = 1 / 9007199254740992 := by norm_num
    rw [hu] at hm
    have hm1 : (m : ℚ) < 9007199254740992 := by
      rw [hm] at h1
      linarith
    have hm2 : m < 9007199254740992 := by exact_mod_cast hm1
    have hm3 : m ≤ 9007199254740991 := by omega
    have hm4 : (m : ℚ) ≤ 9007199254740991 := by exact_mod_cast hm3
    rw [hm]
    linarith
  · have h2 : (2 : ℚ) ^ (binade r + 1) ≤ 2 ^ (-1 : ℤ) :=
      zpow_le_zpow_right₀ (by norm_num) (by omega)
    have h3 : (2 : ℚ) ^ (-1 : ℤ) = 1 / 2 := by norm_num
    rw [h3] at h2
    linarith

/-- The first rounded difference `r - 0.5` lies in [-1/2, 1/2] for a draw in [0,1). -/
theorem roundDouble_centred (r : ℚ) (h : 0 ≤ r ∧ r < 1) :
    -(1 / 2) ≤ roundDouble (r - 0.5) ∧ roundDouble (r - 0.5) ≤ 1 / 2 := by
  constructor
  · exact roundDouble_ge _ _ (isDouble_neg _ isDouble_half) (by norm_num; linarith [h.1])
  · exact roundDouble_le _ _ isDouble_half (by norm_num; linarith [h.2])

/-- Range of the horizontal aversion target as computed in binary64, for a draw in [0,1):
its distance from 0.5 lies between `0.7 - 0.5` and `0.4` taken as binary64 numbers. -/
theorem aversionTargetXDouble_bounds (r : ℚ) (h : 0 ≤ r ∧ r < 1) :
    900719925474099 / 4503599627370496 ≤ |aversionTargetXDouble r - 0.5| ∧
      |aversionTargetXDouble r - 0.5| ≤ 3602879701896397 / 9007199254740992 := by
  obtain ⟨c1, c2⟩ := roundDouble_centred r h
  have d04 : isDouble (3602879701896397 / 9007199254740992) :=
    isDouble_of_pos _ (-2) 7205759403792794 (by norm_num) (by norm_num) (by norm_num)
  have d07 : isDouble (3152519739159347 / 4503599627370496) :=
    isDouble_of_pos _ (-1) 6305039478318694 (by norm_num) (by norm_num) (by norm_num)
  have d09 : isDouble (8106479329266893 / 9007199254740992) :=
    isDouble_of_pos _ (-1) 8106479329266893 (by norm_num) (by norm_num) (by norm_num)
  have d01 : isDouble (900719925474099 / 9007199254740992) :=
    isDouble_of_pos _ (-4) 7205759403792792 (by norm_num) (by norm_num) (by norm_num)
  have q03 : isDouble (5404319552844595 / 18014398509481984) :=
    isDouble_of_pos _ (-2) 5404319552844595 (by norm_num) (by norm_num) (by norm_num)
  have o1 : -(3602879701896397 / 9007199254740992) ≤
      roundDouble (roundDouble (r - 0.5) * roundDouble 0.8) := by
    apply roundDouble_ge _ _ (isDouble_neg _ d04)
    rw [roundDouble_08]
    linarith
  have o2 : roundDouble (roundDouble (r - 0.5) * roundDouble 0.8) ≤
      3602879701896397 / 9007199254740992 := by
    apply roundDouble_le _ _ d04
    rw [roundDouble_08]
    linarith
  have e05 : (0.5 : ℚ) = 1 / 2 := by norm_num
  unfold aversionTargetXDouble
  simp only [roundDouble_02]
  generalize roundDouble (roundDouble (r - 0.5) * roundDouble 0.8) = o at o1 o2 ⊢
  rw [e05]
  by_cases hp : o > 0
  · rw [if_pos hp]
    have v1 : (3602879701896397 / 18014398509481984 : ℚ) ≤
        max (3602879701896397 / 18014398509481984) o := le_max_left _ _
    have v2 : max (3602879701896397 / 18014398509481984 : ℚ) o ≤
        3602879701896397 / 9007199254740992 := max_le (by norm_num) o2
    generalize max (3602879701896397 / 18014398509481984 : ℚ) o = v at v1 v2 ⊢
    have x1 := roundDouble_ge (3152519739159347 / 4503599627370496) (1 / 2 + v) d07
      (by linarith)
    have x2 := roundDouble_le (8106479329266893 / 9007199254740992) (1 / 2 + v) d09
      (by linarith)
    rw [abs_of_nonneg (by linarith)]
    constructor <;> linarith
  · rw [if_neg hp]
    have v1 : -(3602879701896397 / 9007199254740992 : ℚ) ≤
        min (-(3602879701896397 / 18014398509481984)) o := le_min (by norm_num) o1
    have v2 : min (-(3602879701896397 / 18014398509481984 : ℚ)) o ≤
        -(3602879701896397 / 18014398509481984) := min_le_left _ _
    generalize min (-(3602879701896397 / 18014398509481984 : ℚ)) o = v at v1 v2 ⊢
    have x1 := roundDouble_ge (900719925474099 / 9007199254740992) (1 / 2 + v) d01
      (by linarith)
    have x2 := roundDouble_le (5404319552844595 / 18014398509481984) (1 / 2 + v) q03
      (by linarith)
    rw [abs_of_nonpos (by linarith)]
    constructor <;> linarith

/-- Range of the vertical aversion target as computed in binary64, for a draw that is a
binary64 number in [0,1). -/
theorem aversionTargetYDouble_bounds (r : ℚ) (hd : isDouble r) (h : 0 ≤ r ∧ r < 1) :
    |aversionTargetYDouble r - 0.5| ≤ 5404319552844595 / 18014398509481984 := by
  have hr := double_lt_one r hd h.1 h.2
  have dc1 : isDouble (4503599627370495 / 9007199254740992) :=
    isDouble_of_pos _ (-2) 9007199254740990 (by norm_num) (by norm_num) (by norm_num)
  have q03 : isDouble (5404319552844595 / 18014398509481984) :=
    isDouble_of_pos _ (-2) 5404319552844595 (by norm_num) (by norm_num) (by norm_num)
  have db : isDouble (5404319552844594 / 18014398509481984) :=
    isDouble_of_pos _ (-2) 5404319552844594 (by norm_num) (by norm_num) (by norm_num)
  have dc : isDouble (7205759403792793 / 9007199254740992) :=
    isDouble_of_pos _ (-1) 7205759403792793 (by norm_num) (by norm_num) (by norm_num)
  have d02 : isDouble (3602879701896397 / 18014398509481984) :=
    isDouble_of_pos _ (-3) 7205759403792794 (by norm_num) (by norm_num) (by norm_num)
  have e05 : (0.5 : ℚ) = 1 / 2 := by norm_num
  have c1 : -(1 / 2) ≤ roundDouble (r - 0.5) := (roundDouble_centred r h).1
  have c2 : roundDouble (r - 0.5) ≤ 4503599627370495 / 9007199254740992 :=
    roundDouble_le _ _ dc1 (by rw [e05]; linarith)
  have p1 : -(5404319552844595 / 18014398509481984) ≤
      roundDouble (roundDouble (r - 0.5) * roundDouble 0.6) := by
    apply roundDouble_ge _ _ (isDouble_neg _ q03)
    rw [roundDouble_06]
    linarith
  have p2 : roundDouble (roundDouble (r - 0.5) * roundDouble 0.6) ≤
      5404319552844594 / 18014398509481984 := by
    apply roundDouble_le _ _ db
    rw [roundDouble_06]
    linarith
  unfold aversionTargetYDouble
  generalize roundDouble (roundDouble (r - 0.5) * roundDouble 0.6) = p at p1 p2 ⊢
  rw [e05]
  have y1 := roundDouble_ge (3602879701896397 / 18014398509481984) (1 / 2 + p) d02
    (by linarith)
  have y2 := roundDouble_le (7205759403792793 / 9007199254740992) (1 / 2 + p) dc
    (by linarith)
  rw [abs_le]
  constructor <;> linarith

/-- `updateDouble` on the call that starts a new aversion (positive aversion duration). -/
theorem aversion_updateDouble_start (g : GazeAversion) (now : ℚ) (rng : Rng) (s : Sink)
    (hn : g.aversionFixation = none) (hge : now ≥ g.nextAversionTime)
    (hd : 0 < g.aversionDuration) :
    g.updateDouble now rng s =
      ({ active := true,
         beh := { g with
           aversionFixation :=
             some (Fixation.new (aversionTargetXDouble (rng 0)) (aversionTargetYDouble (rng 1))
               g.aversionDuration now),
           currentX := aversionTargetXDouble (rng 0),
           currentY := aversionTargetYDouble (rng 1) },
         sink := setPupilTransform (aversionTargetXDouble (rng 0))
           (aversionTargetYDouble (rng 1)) 1 s },
        rng.next.next) := by
  unfold GazeAversion.updateDouble
  simp [hn, hge, Fixation.apply, Fixation.new, hd, aversionTargetXDouble,
    aversionTargetYDouble]

/-- `updateDouble` on a call that would start an aversion of non-positive duration: the
Fixation is dropped at once. -/
theorem aversion_updateDouble_start_nonpos (g : GazeAversion) (now : ℚ) (rng : Rng) (s : Sink)
    (hn : g.aversionFixation = none) (hge : now ≥ g.nextAversionTime)
    (hd : ¬ 0 < g.aversionDuration) :
    (g.updateDouble now rng s).1.beh.aversionFixation = none := by
  unfold GazeAversion.updateDouble
  simp [hn, hge, Fixation.apply, Fixation.new, hd, GazeAversion.scheduleNextAversion]

/-- Outside the target arithmetic `updateDouble` is `update`: with an aversion in progress,
or with none due, both return the same. -/
theorem aversion_updateDouble_eq (g : GazeAversion) (now : ℚ) (rng : Rng) (s : Sink)
    (h : g.startsAversion now = false) : g.updateDouble now rng s = g.update now rng s := by
  unfold GazeAversion.startsAversion at h
  unfold GazeAversion.updateDouble GazeAversion.update
  cases hf : g.aversionFixation with
  | some f => rfl
  | none =>
    rw [hf] at h
    simp only [Option.isNone_none, Bool.true_and, decide_eq_false_iff_not] at h
    simp only [if_neg h]

theorem isDouble_sampleDraw : isDouble sampleDraw :=
  isDouble_of_pos _ (-1) 5404319552844595 (by norm_num [sampleDraw])
    (by norm_num [sampleDraw]) (by norm_num [sampleDraw])

/-- For the draw 0.6 the offset `(0.6 - 0.5) * 0.8` rounds to a value below the binary64
number 0.2, so the target is `0.5 + 0.2` in binary64: the tie between 0.7 and its upper
neighbour goes to 0.7, which is less than 0.2 above 0.5. -/
theorem aversionTargetXDouble_sampleDraw :
    aversionTargetXDouble sampleDraw = 3152519739159347 / 4503599627370496 := by
  have e0 : (sampleDraw - 0.5 : ℚ) = 900719925474099 / 9007199254740992 := by
    norm_num [sampleDraw]
  have e1 : roundDouble (900719925474099 / 9007199254740992) =
      900719925474099 / 9007199254740992 :=
    isDouble_of_pos _ (-4) 7205759403792792 (by norm_num) (by norm_num) (by norm_num)
  have d16 : isDouble (1 / 16) :=
    isDouble_of_pos _ (-4) 4503599627370496 (by norm_num) (by norm_num) (by norm_num)
  have d02 : isDouble (3602879701896397 / 18014398509481984) :=
    isDouble_of_pos _ (-3) 7205759403792794 (by norm_num) (by norm_num) (by norm_num)
  have p1 : 1 / 16 ≤ roundDouble (900719925474099 / 9007199254740992 * roundDouble 0.8) :=
    roundDouble_ge _ _ d16 (by rw [roundDouble_08]; norm_num)
  have p2 : roundDouble (900719925474099 / 9007199254740992 * roundDouble 0.8) ≤
      3602879701896397 / 18014398509481984 :=
    roundDouble_le _ _ d02 (by rw [roundDouble_08]; norm_num)
  have e2 : (0.5 + 3602879701896397 / 18014398509481984 : ℚ) =
      12610078956637389 / 18014398509481984 := by norm_num
  unfold aversionTargetXDouble
  simp only [e0, e1, roundDouble_02]
  generalize roundDouble (900719925474099 / 9007199254740992 * roundDouble 0.8) = o at p1 p2 ⊢
  rw [if_pos (by linarith), max_eq_left p2, e2,
    roundDouble_eval_pos _ (-1) 6305039478318694 (by norm_num) (by norm_num)
      (roundHalfEven_tie_even _ 6305039478318694 (by norm_num) (by norm_num))]
  norm_num

/-- For the draw 1/2 the vertical offset is zero and the target is 0.5. -/
theorem aversionTargetYDouble_half : aversionTargetYDouble (1 / 2) = 0.5 := by
  have e0 : ((1 : ℚ) / 2 - 0.5) = 0 := by norm_num
  have e1 : roundDouble 0 = 0 := by simp [roundDouble]
  have e2 : (0.5 : ℚ) = 1 / 2 := by norm_num
  have e3 : roundDouble (1 / 2) = 1 / 2 := isDouble_half
  unfold aversionTargetYDouble
  rw [e0, e1, zero_mul, e1, add_zero, e2, e3]

/-- An aversion that is due, with the draws 0.6 and 1/2: the Fixation created aims at
(0.7, 0.5) in binary64. -/
theorem sampleAversionDue_updateDouble :
    (sampleAversionDue.updateDouble 11000 sampleDoubleRng
        (World.initial true).sink).1.beh.aversionFixation
      = some (Fixation.new (3152519739159347 / 4503599627370496) 0.5 300 11000) := by
  have r0 : sampleDoubleRng 0 = sampleDraw := rfl
  have r1 : sampleDoubleRng 1 = 1 / 2 := rfl
  rw [aversion_updateDouble_start sampleAversionDue 11000 sampleDoubleRng
    (World.initial true).sink rfl (by norm_num [sampleAversionDue])
    (by norm_num [sampleAversionDue])]
  simp only [r0, r1, aversionTargetXDouble_sampleDraw, aversionTargetYDouble_half]
  rfl

/-- C16, amended. When `update`, with the target computed in binary64 as the code does,
starts a new aversion (none in progress, the next one due) with the first draw in [0,1) and
the second a binary64 number in [0,1), the Fixation it creates has a target (x, y) with
0.2 - 0.2 / 2 ^ 52 <= |x - 0.5| <= 0.4 + 0.2 / 2 ^ 53 and |y - 0.5| <= 0.3: the distance
from the centre can fall short of 0.2, by no more than 0.2 / 2 ^ 52; with a positive
aversion duration that Fixation is kept, update returns true and the target is the point
sent to the sink. -/
theorem C16_aversion_target_doubles (g : GazeAversion) (now : ℚ) (rng : Rng) (s : Sink)
    (hn : g.aversionFixation = none) (hge : now ≥ g.nextAversionTime)
    (h0 : 0 ≤ rng 0 ∧ rng 0 < 1) (h1 : isDouble (rng 1) ∧ 0 ≤ rng 1 ∧ rng 1 < 1) :
    (∀ f, (g.updateDouble now rng s).1.beh.aversionFixation = some f →
      0.2 - 0.2 / 2 ^ 52 ≤ |f.targetX - 0.5| ∧ |f.targetX - 0.5| ≤ 0.4 + 0.2 / 2 ^ 53 ∧
        |f.targetY - 0.5| ≤ 0.3) ∧
    (0 < g.aversionDuration →
      ∃ f, (g.updateDouble now rng s).1.beh.aversionFixation = some f ∧
        (g.updateDouble now rng s).1.active = true ∧
        f.startTime = now ∧ f.duration = g.aversionDuration ∧
        (g.updateDouble now rng s).1.sink.sent.head? = some (f.targetX, f.targetY, 1)) := by
  obtain ⟨bx1, bx2⟩ := aversionTargetXDouble_bounds (rng 0) h0
  have by1 := aversionTargetYDouble_bounds (rng 1) h1.1 h1.2
  constructor
  · intro f hf
    by_cases hd : 0 < g.aversionDuration
    · rw [aversion_updateDouble_start g now rng s hn hge hd] at hf
      simp only [Option.some.injEq] at hf
      subst hf
      simp only [Fixation.new]
      refine ⟨?_, ?_, ?_⟩
      · exact le_trans (by norm_num) bx1
      · exact le_trans bx2 (by norm_num)
      · exact le_trans by1 (by norm_num)
    · rw [aversion_updateDouble_start_nonpos g now rng s hn hge hd] at hf
      exact absurd hf (by simp)
  · intro hd
    rw [aversion_updateDouble_start g now rng s hn hge hd]
    exact ⟨_, rfl, rfl, rfl, rfl, by simp [setPupilTransform_sent, Fixation.new]⟩

/-- C16, counterexample. With the draws 0.6 (the binary64 number) and 1/2, both in [0,1),
the aversion that `update` starts aims at x = 0.7 in binary64, which is
3152519739159347 / 2 ^ 52: its distance from 0.5 is 0.19999999999999996, less than 0.2. -/
theorem C16_counterexample :
    (0 ≤ sampleDoubleRng 0 ∧ sampleDoubleRng 0 < 1) ∧
      (0 ≤ sampleDoubleRng 1 ∧ sampleDoubleRng 1 < 1) ∧
      isDouble (sampleDoubleRng 0) ∧ isDouble (sampleDoubleRng 1) ∧
      sampleAversionDue.startsAversion 11000 = true ∧
      (sampleAversionDue.updateDouble 11000 sampleDoubleRng
          (World.initial true).sink).1.beh.aversionFixation
        = some (Fixation.new (3152519739159347 / 4503599627370496) 0.5 300 11000) ∧
      ¬ (0.2 ≤ |(Fixation.new (3152519739159347 / 4503599627370496) 0.5 300 11000).targetX
          - 0.5|) := by
  have r0 : sampleDoubleRng 0 = sampleDraw := rfl
  have r1 : sampleDoubleRng 1 = 1 / 2 := rfl
  refine ⟨?_, ?_, ?_, ?_, ?_, sampleAversionDue_updateDouble, ?_⟩
  · rw [r0]; norm_num [sampleDraw]
  · rw [r1]; norm_num
  · rw [r0]; exact isDouble_sampleDraw
  · rw [r1]; exact isDouble_half
  · simp [GazeAversion.startsAversion, sampleAversionDue]
  · simp only [Fixation.new]
    rw [abs_of_nonneg (by norm_num)]
    norm_num

/-- C16, witness: on an aversion that is due, with the draws 0.6 and 1/2, the Fixation
created aims at (0.7, 0.5) in binary64, which is within the amended bounds. -/
theorem C16_aversion_target_doubles_witness :
    0.2 - 0.2 / 2 ^ 52 ≤
        |(Fixation.new (3152519739159347 / 4503599627370496) 0.5 300 11000).targetX - 0.5| ∧
      |(Fixation.new (3152519739159347 / 4503599627370496) 0.5 300 11000).targetX - 0.5|
        ≤ 0.4 + 0.2 / 2 ^ 53 ∧
      |(Fixation.new (3152519739159347 / 4503599627370496) 0.5 300 11000).targetY - 0.5|
        ≤ 0.3 :=
  (C16_aversion_target_doubles sampleAversionDue 11000 sampleDoubleRng
    (World.initial true).sink rfl (by norm_num [sampleAversionDue])
    ⟨by norm_num [sampleDoubleRng, sampleDraw], by norm_num [sampleDoubleRng, sampleDraw]⟩
    ⟨isDouble_half, by norm_num [sampleDoubleRng], by norm_num [sampleDoubleRng]⟩).1
    (Fixation.new (3152519739159347 / 4503599627370496) 0.5 300 11000)
    sampleAversionDue_updateDouble

/-- C17. `update` with an aversion Fixation in progress: if the Fixation is still active,
update returns true and takes over the Fixation's position; if it has finished, update
clears it, sets nextAversionTime to now + intervalMin + r * (intervalMax - intervalMin) for
the draw r (a value in [now + intervalMin, now + intervalMax] when r is in [0,1) and
intervalMin <= intervalMax), sends nothing, and returns false. With no aversion in progress
and now < nextAversionTime, update returns false and leaves the state, the sink and the
random stream unchanged. -/
theorem C17_aversion_update (g : GazeAversion) (now : ℚ) (rng : Rng) (s : Sink) :
    (∀ f, g.aversionFixation = some f → (f.apply now s).active = true →
      (g.update now rng s).1.active = true ∧
      (g.update now rng s).1.beh.currentX = (f.apply now s).beh.currentX ∧
      (g.update now rng s).1.beh.currentY = (f.apply now s).beh.currentY ∧
      (g.update now rng s).1.beh.aversionFixation = some (f.apply now s).beh ∧
      (g.update now rng s).1.beh.nextAversionTime = g.nextAversionTime) ∧
    (∀ f, g.aversionFixation = some f → (f.apply now s).active = false →
      (g.update now rng s).1.active = false ∧
      (g.update now rng s).1.beh.aversionFixation = none ∧
      (g.update now rng s).1.beh.nextAversionTime =
        now + (g.intervalMin + rng 0 * (g.intervalMax - g.intervalMin)) ∧
      (g.update now rng s).1.sink = s ∧
      (0 ≤ rng 0 → rng 0 < 1 → g.intervalMin ≤ g.intervalMax →
        now + g.intervalMin ≤ (g.update now rng s).1.beh.nextAversionTime ∧
        (g.update now rng s).1.beh.nextAversionTime ≤ now + g.intervalMax)) ∧
    (g.aversionFixation = none → now < g.nextAversionTime →
      g.update now rng s = ({ active := false, beh := g, sink := s }, rng)) := by
  refine ⟨fun f hf ha => ?_, fun f hf ha => ?_, fun hn hlt => aversion_update_idle g now rng s hn hlt⟩
  · rw [aversion_update_active g f now rng s hf ha]
    exact ⟨rfl, rfl, rfl, rfl, rfl⟩
  · rw [aversion_update_finished g f now rng s hf ha]
    refine ⟨rfl, rfl, rfl, rfl, fun h0 h1 hle => ?_⟩
    simp only
    have hd : 0 ≤ g.intervalMax - g.intervalMin := sub_nonneg.mpr hle
    constructor
    · nlinarith [mul_nonneg h0 hd]
    · nlinarith [mul_nonneg (sub_nonneg.mpr h1.le) hd]

/-- C17 on an aversion started at 11000 with duration 300: at 11300 the Fixation has
finished and update returns false. -/
theorem C17_aversion_update_witness :
    (sampleAversionRunning.update 11300 sampleRng (World.initial true).sink).1.active = false :=
  ((C17_aversion_update sampleAversionRunning 11300 sampleRng (World.initial true).sink).2.1
    (Fixation.new 0.7 0.5 300 11000) rfl
    (by simp [Fixation.apply, Fixation.new]; norm_num)).1

/-- C15 on a MutualGaze at 10000 whose aversion is not yet due: the pursuit is retargeted
to the mirrored face position of the context. -/
theorem C15_mutual_gaze_step_witness :
    (sampleMutualGaze.apply 10000 sampleContext sampleRng
        (World.initial true).sink).1.beh.pursuit.targetX =
      (if sampleContext.userInFront then 1 - jsNum sampleContext.faceX else 0.5) :=
  ((C15_mutual_gaze_step sampleMutualGaze 10000 sampleContext sampleRng
    (World.initial true).sink).2
    (by
      have h := aversion_update_idle sampleAversionDue 10000 sampleRng (World.initial true).sink
        rfl (by norm_num [sampleAversionDue])
      show (sampleAversionDue.update 10000 sampleRng (World.initial true).sink).1.active = false
      rw [h])).1

/-! ## dynamicGaze -/

theorem getTargetCoords_one (ctx : Context) :
    (∀ x y, ctx.faceX = some x → ctx.faceY = some y →
      dynamicGaze.getTargetCoords 1 ctx = some (1 - x, y)) ∧
    (ctx.faceX = none ∨ ctx.faceY = none → dynamicGaze.getTargetCoords 1 ctx = none) := by
  unfold dynamicGaze.getTargetCoords
  constructor
  · intro x y hx hy
    simp [hx, hy, jsNum]
  · intro h
    rcases h with h | h <;> simp [h]

theorem getTargetCoords_two (ctx : Context) :
    (∀ x y, ctx.secondFaceX = some x → ctx.secondFaceY = some y →
      dynamicGaze.getTargetCoords 2 ctx = some (1 - x, y)) ∧
    (ctx.secondFaceX = none ∨ ctx.secondFaceY = none →
      dynamicGaze.getTargetCoords 2 ctx = none) := by
  unfold dynamicGaze.getTargetCoords
  constructor
  · intro x y hx hy
    simp [hx, hy, jsNum]
  · intro h
    rcases h with h | h <;> simp [h]

/-- One apply of a dwelling dynamicGaze whose active slot is valid. -/
theorem dynamic_apply_dwelling (d : dynamicGaze) (now : ℚ) (ctx : Context) (s : Sink)
    (t : ℚ × ℚ) (hs : d.state = GazeState.dwelling)
    (ht : dynamicGaze.getTargetCoords d.activeFace ctx = some t) :
    (d.apply now ctx s).active = true ∧
    (d.apply now ctx s).beh.currentX = t.1 ∧
    (d.apply now ctx s).beh.currentY = t.2 ∧
    (d.apply now ctx s).sink = setPupilTransform t.1 t.2 1 s ∧
    (d.apply now ctx s).beh.activeFace = d.activeFace ∧
    (d.apply now ctx s).beh.dwellDuration = d.dwellDuration ∧
    (d.apply now ctx s).beh.saccadeSpeed = d.saccadeSpeed ∧
    (now - d.stateStartTime < d.dwellDuration →
      (d.apply now ctx s).beh.state = GazeState.dwelling ∧
      (d.apply now ctx s).beh.stateStartTime = d.stateStartTime ∧
      (d.apply now ctx s).beh.saccade = d.saccade) ∧
    (d.dwellDuration ≤ now - d.stateStartTime →
      (∀ nt, dynamicGaze.getTargetCoords (otherFace d.activeFace) ctx = some nt →
        (d.apply now ctx s).beh.state = GazeState.saccading ∧
        (d.apply now ctx s).beh.stateStartTime = d.stateStartTime ∧
        (d.apply now ctx s).beh.saccade =
          some (Saccade.new t.1 t.2 nt.1 nt.2 d.saccadeSpeed)) ∧
      (dynamicGaze.getTargetCoords (otherFace d.activeFace) ctx = none →
        (d.apply now ctx s).beh.state = GazeState.dwelling ∧
        (d.apply now ctx s).beh.stateStartTime = now ∧
        (d.apply now ctx s).beh.saccade = d.saccade)) := by
  unfold dynamicGaze.apply
  simp only [ht, hs]
  by_cases hd : now - d.stateStartTime ≥ d.dwellDuration
  · simp only [hd, if_true]
    cases hn : dynamicGaze.getTargetCoords (otherFace d.activeFace) ctx with
    | none => simp [not_lt.mpr hd, hs]
    | some nt => simp [not_lt.mpr hd]
  · have hlt : now - d.stateStartTime < d.dwellDuration := not_le.mp hd
    simp [hd, hlt, hs, not_le.mpr hlt]

/-- C11. A dynamicGaze starts dwelling on face slot 1. One apply in state dwelling with
the active slot valid returns true, sets the position to the active slot's mirrored target
and sends it, and keeps the active slot; if now - stateStartTime < dwellDuration the state
and timer are unchanged; if the dwell has expired and the other slot is valid, a Saccade
from that position to the other slot's mirrored position is created and the state becomes
saccading; if the dwell has expired and the other slot is invalid, the timer is reset to
now and the state stays dwelling. A slot is valid when both its coordinates are non-null,
and its mirrored target is then (1 - x, y). -/
theorem C11_dwelling_step (d : dynamicGaze) (now : ℚ) (ctx : Context) (s : Sink)
    (t : ℚ × ℚ) (hs : d.state = GazeState.dwelling)
    (ht : dynamicGaze.getTargetCoords d.activeFace ctx = some t) :
    (∀ dwell speed t0, (dynamicGaze.new dwell speed t0).state = GazeState.dwelling ∧
      (dynamicGaze.new dwell speed t0).activeFace = 1) ∧
    ((∀ x y, ctx.faceX = some x → ctx.faceY = some y →
        dynamicGaze.getTargetCoords 1 ctx = some (1 - x, y)) ∧
      (ctx.faceX = none ∨ ctx.faceY = none → dynamicGaze.getTargetCoords 1 ctx = none) ∧
      (∀ x y, ctx.secondFaceX = some x → ctx.secondFaceY = some y →
        dynamicGaze.getTargetCoords 2 ctx = some (1 - x, y)) ∧
      (ctx.secondFaceX = none ∨ ctx.secondFaceY = none →
        dynamicGaze.getTargetCoords 2 ctx = none)) ∧
    (d.apply now ctx s).active = true ∧
    (d.apply now ctx s).beh.currentX = t.1 ∧
    (d.apply now ctx s).beh.currentY = t.2 ∧
    (d.apply now ctx s).sink.sent.head? = some (t.1, t.2, 1) ∧
    (d.apply now ctx s).beh.activeFace = d.activeFace ∧
    (now - d.stateStartTime < d.dwellDuration →
      (d.apply now ctx s).beh.state = GazeState.dwelling ∧
      (d.apply now ctx s).beh.stateStartTime = d.stateStartTime) ∧
    (d.dwellDuration ≤ now - d.stateStartTime →
      (∀ nt, dynamicGaze.getTargetCoords (otherFace d.activeFace) ctx = some nt →
        (d.apply now ctx s).beh.state = GazeState.saccading ∧
        (d.apply now ctx s).beh.saccade =
          some (Saccade.new t.1 t.2 nt.1 nt.2 d.saccadeSpeed)) ∧
      (dynamicGaze.getTargetCoords (otherFace d.activeFace) ctx = none →
        (d.apply now ctx s).beh.state = GazeState.dwelling ∧
        (d.apply now ctx s).beh.stateStartTime = now)) := by
  obtain ⟨h1, h2, h3, h4, h5, _, _, h8, h9⟩ := dynamic_apply_dwelling d now ctx s t hs ht
  refine ⟨fun _ _ _ => ⟨rfl, rfl⟩,
    ⟨(getTargetCoords_one ctx).1, (getTargetCoords_one ctx).2, (getTargetCoords_two ctx).1,
      (getTargetCoords_two ctx).2⟩,
    h1, h2, h3, by rw [h4, setPupilTransform_sent]; rfl, h5,
    fun hlt => ⟨(h8 hlt).1, (h8 hlt).2.1⟩, fun hge => ⟨fun nt hnt => ?_, fun hnone => ?_⟩⟩
  · exact ⟨((h9 hge).1 nt hnt).1, ((h9 hge).1 nt hnt).2.2⟩
  · exact ⟨((h9 hge).2 hnone).1, ((h9 hge).2 hnone).2.1⟩

/-- C11 on a fresh dynamicGaze built at 10000 and applied at 12000 with both faces in view:
the dwell has expired and the state becomes saccading. -/
theorem C11_dwelling_step_witness :
    ((dynamicGaze.new 2000 0.15 10000).apply 12000 sampleContext
      (World.initial true).sink).beh.state = GazeState.saccading :=
  (((C11_dwelling_step (dynamicGaze.new 2000 0.15 10000) 12000 sampleContext
    (World.initial true).sink (1 - 0.3, 0.4) rfl
    ((getTargetCoords_one sampleContext).1 0.3 0.4 rfl rfl)).2.2.2.2.2.2.2.2
    (by norm_num [dynamicGaze.new])).1 (1 - 0.7, 0.6)
    ((getTargetCoords_two sampleContext).1 0.7 0.6 rfl rfl)).1

/-- One apply of a dynamicGaze whose active slot has no valid coordinates. -/
theorem dynamic_apply_lost (d : dynamicGaze) (now : ℚ) (ctx : Context) (s : Sink)
    (ht : dynamicGaze.getTargetCoords d.activeFace ctx = none) :
    (∀ t, dynamicGaze.getTargetCoords (otherFace d.activeFace) ctx = some t →
      (d.apply now ctx s).active = true ∧
      (d.apply now ctx s).beh.activeFace = otherFace d.activeFace ∧
      (d.apply now ctx s).beh.state = GazeState.dwelling ∧
      (d.apply now ctx s).beh.stateStartTime = now ∧
      (d.apply now ctx s).beh.saccade = none ∧
      (d.apply now ctx s).beh.currentX = t.1 ∧
      (d.apply now ctx s).beh.currentY = t.2 ∧
      (d.apply now ctx s).sink.sent.head? = some (t.1, t.2, 1)) ∧
    (dynamicGaze.getTargetCoords (otherFace d.activeFace) ctx = none →
      (d.apply now ctx s).active = false ∧
      (d.apply now ctx s).beh.currentX = 0.5 ∧
      (d.apply now ctx s).beh.currentY = 0.5 ∧
      (d.apply now ctx s).sink.sent.head? = some (0.5, 0.5, 1)) := by
  unfold dynamicGaze.apply
  simp only [ht]
  constructor
  · intro t hto
    simp [hto, setPupilTransform_sent]
  · intro hto
    simp [hto, setPupilTransform_sent]

/-- C13. Target loss: on an apply where the active slot has no valid coordinates, if the
other slot is valid the behaviour flips to it in that call (active slot flipped, state
dwelling, timer reset to now, saccade dropped, position and point sent equal to the other
slot's mirrored target) and returns true; if neither slot is valid the position is
(0.5, 0.5), the centre is sent, and apply returns false. In particular, when slot 2 is
active and loses its coordinates while slot 1 is valid, the apply leaves slot 1 active. -/
theorem C13_target_loss (d : dynamicGaze) (now : ℚ) (ctx : Context) (s : Sink)
    (ht : dynamicGaze.getTargetCoords d.activeFace ctx = none) :
    (∀ t, dynamicGaze.getTargetCoords (otherFace d.activeFace) ctx = some t →
      (d.apply now ctx s).active = true ∧
      (d.apply now ctx s).beh.activeFace = otherFace d.activeFace ∧
      (d.apply now ctx s).beh.state = GazeState.dwelling ∧
      (d.apply now ctx s).beh.stateStartTime = now ∧
      (d.apply now ctx s).beh.saccade = none ∧
      (d.apply now ctx s).beh.currentX = t.1 ∧
      (d.apply now ctx s).beh.currentY = t.2 ∧
      (d.apply now ctx s).sink.sent.head? = some (t.1, t.2, 1)) ∧
    (dynamicGaze.getTargetCoords (otherFace d.activeFace) ctx = none →
      (d.apply now ctx s).active = false ∧
      (d.apply now ctx s).beh.currentX = 0.5 ∧
      (d.apply now ctx s).beh.currentY = 0.5 ∧
      (d.apply now ctx s).sink.sent.head? = some (0.5, 0.5, 1)) ∧
    (d.activeFace = 2 → ∀ x y, ctx.faceX = some x → ctx.faceY = some y →
      (d.apply now ctx s).active = true ∧
      (d.apply now ctx s).beh.activeFace = 1 ∧
      (d.apply now ctx s).beh.currentX = 1 - x ∧
      (d.apply now ctx s).beh.currentY = y) := by
  obtain ⟨h1, h2⟩ := dynamic_apply_lost d now ctx s ht
  refine ⟨h1, h2, fun h2f x y hx hy => ?_⟩
  have hoth : otherFace d.activeFace = 1 := by rw [h2f]; rfl
  have hv : dynamicGaze.getTargetCoords (otherFace d.activeFace) ctx = some (1 - x, y) := by
    rw [hoth]; exact (getTargetCoords_one ctx).1 x y hx hy
  have h := h1 _ hv
  exact ⟨h.1, h.2.1.trans hoth, h.2.2.2.2.2.1, h.2.2.2.2.2.2.1⟩

/-- C13 on a dynamicGaze dwelling on slot 2 when only the first face is sensed: the apply
flips to slot 1. -/
theorem C13_target_loss_witness :
    (sampleDwellingOnTwo.apply 10500 sampleContextOneFace
      (World.initial true).sink).beh.activeFace = 1 :=
  ((C13_target_loss sampleDwellingOnTwo 10500 sampleContextOneFace (World.initial true).sink
    ((getTargetCoords_two sampleContextOneFace).2 (Or.inl rfl))).2.2 rfl 0.3 0.4 rfl rfl).2.1

/-- One apply of a saccading dynamicGaze whose saccade is still in progress. -/
theorem dynamic_apply_saccading (d : dynamicGaze) (now : ℚ) (ctx : Context) (s : Sink)
    (t : ℚ × ℚ) (c : Saccade) (hs : d.state = GazeState.saccading)
    (ht : dynamicGaze.getTargetCoords d.activeFace ctx = some t)
    (hc : d.saccade = some c) (hp : c.progress < 1) :
    (d.apply now ctx s).active = true ∧
    (d.apply now ctx s).beh.state = GazeState.saccading ∧
    (d.apply now ctx s).beh.activeFace = d.activeFace ∧
    (d.apply now ctx s).beh.stateStartTime = d.stateStartTime ∧
    (d.apply now ctx s).beh.dwellDuration = d.dwellDuration ∧
    (d.apply now ctx s).beh.saccadeSpeed = d.saccadeSpeed ∧
    (d.apply now ctx s).beh.saccade = some (c.apply s).beh := by
  have ha := (saccade_apply_active_iff c s).mpr hp
  unfold dynamicGaze.apply
  simp [ht, hs, hc, ha]

/-- One apply of a saccading dynamicGaze on which the saccade completes (it returns false,
or there is none). -/
theorem dynamic_apply_saccade_done (d : dynamicGaze) (now : ℚ) (ctx : Context) (s : Sink)
    (t : ℚ × ℚ) (hs : d.state = GazeState.saccading)
    (ht : dynamicGaze.getTargetCoords d.activeFace ctx = some t)
    (hc : d.saccade = none ∨ ∃ c, d.saccade = some c ∧ ¬ c.progress < 1) :
    (∀ ft, dynamicGaze.getTargetCoords (otherFace d.activeFace) ctx = some ft →
      (d.apply now ctx s).active = true ∧
      (d.apply now ctx s).beh.activeFace = otherFace d.activeFace ∧
      (d.apply now ctx s).beh.state = GazeState.dwelling ∧
      (d.apply now ctx s).beh.stateStartTime = now ∧
      (d.apply now ctx s).beh.saccade = none ∧
      (d.apply now ctx s).beh.currentX = ft.1 ∧
      (d.apply now ctx s).beh.currentY = ft.2 ∧
      (d.apply now ctx s).sink.sent.head? = some (ft.1, ft.2, 1)) ∧
    (dynamicGaze.getTargetCoords (otherFace d.activeFace) ctx = none →
      (d.apply now ctx s).active = false ∧
      (d.apply now ctx s).beh.activeFace = otherFace d.activeFace ∧
      (d.apply now ctx s).beh.currentX = 0.5 ∧
      (d.apply now ctx s).beh.currentY = 0.5 ∧
      (d.apply now ctx s).sink.sent.head? = some (0.5, 0.5, 1)) := by
  unfold dynamicGaze.apply
  simp only [ht, hs]
  rcases hc with hnone | ⟨c, hsome, hp⟩
  · simp only [hnone, dynamicGaze.finishSaccade]
    constructor
    · intro ft hft
      simp [hft, setPupilTransform_sent]
    · intro hft
      simp [hft, setPupilTransform_sent]
  · have ha : (c.apply s).active = false := (saccade_apply_inactive_position c s hp).1
    simp only [hsome, ha, dynamicGaze.finishSaccade]
    constructor
    · intro ft hft
      simp [hft, setPupilTransform_sent]
    · intro hft
      simp [hft, setPupilTransform_sent]

theorem dynamic_applyAll_append (d : dynamicGaze) (s : Sink) (xs ys : List (ℚ × Context)) :
    d.applyAll s (xs ++ ys) = (d.applyAll s xs).1.applyAll (d.applyAll s xs).2 ys := by
  unfold dynamicGaze.applyAll
  rw [List.foldl_append]

theorem dynamicAfterTicks_succ (t0 : ℚ) (s0 : Sink) (ctxs : ℕ → Context) (n : ℕ) :
    dynamicAfterTicks t0 s0 ctxs (n + 1) =
      (((dynamicAfterTicks t0 s0 ctxs n).1.apply (t0 + 50 * (n : ℚ)) (ctxs n)
          (dynamicAfterTicks t0 s0 ctxs n).2).beh,
        ((dynamicAfterTicks t0 s0 ctxs n).1.apply (t0 + 50 * (n : ℚ)) (ctxs n)
          (dynamicAfterTicks t0 s0 ctxs n).2).sink) := by
  unfold dynamicAfterTicks
  rw [tickCalls_succ, dynamic_applyAll_append]
  rfl

theorem getTargetCoords_present (ctx : Context)
    (h : ctx.faceX.isSome = true ∧ ctx.faceY.isSome = true ∧
      ctx.secondFaceX.isSome = true ∧ ctx.secondFaceY.isSome = true) :
    dynamicGaze.getTargetCoords 1 ctx = some (1 - jsNum ctx.faceX, jsNum ctx.faceY) ∧
      dynamicGaze.getTargetCoords 2 ctx =
        some (1 - jsNum ctx.secondFaceX, jsNum ctx.secondFaceY) := by
  unfold dynamicGaze.getTargetCoords
  simp [h.1, h.2.1, h.2.2.1, h.2.2.2]

/-- Tick-driven dynamicGaze with both faces in view: it dwells on slot 1 through the first
40 calls. -/
theorem dynamicAfterTicks_dwell (t0 : ℚ) (s0 : Sink) (ctxs : ℕ → Context)
    (hfaces : ∀ k, (ctxs k).faceX.isSome = true ∧ (ctxs k).faceY.isSome = true ∧
      (ctxs k).secondFaceX.isSome = true ∧ (ctxs k).secondFaceY.isSome = true)
    (n : ℕ) (hn : n ≤ 40) :
    (dynamicAfterTicks t0 s0 ctxs n).1.state = GazeState.dwelling ∧
    (dynamicAfterTicks t0 s0 ctxs n).1.activeFace = 1 ∧
    (dynamicAfterTicks t0 s0 ctxs n).1.stateStartTime = t0 ∧
    (dynamicAfterTicks t0 s0 ctxs n).1.dwellDuration = 2000 ∧
    (dynamicAfterTicks t0 s0 ctxs n).1.saccadeSpeed = 0.15 := by
  induction n with
  | zero => exact ⟨rfl, rfl, rfl, rfl, rfl⟩
  | succ n ih =>
    obtain ⟨h1, h2, h3, h4, h5⟩ := ih (by omega)
    rw [dynamicAfterTicks_succ]
    have ht := (getTargetCoords_present (ctxs n) (hfaces n)).1
    rw [← h2] at ht
    obtain ⟨_, _, _, _, g5, g6, g7, g8, _⟩ := dynamic_apply_dwelling _ (t0 + 50 * (n : ℚ))
      (ctxs n) (dynamicAfterTicks t0 s0 ctxs n).2 _ h1 ht
    have hlt : (n : ℚ) < 40 := by exact_mod_cast (by omega : n < 40)
    obtain ⟨k1, k2, _⟩ := g8 (by rw [h3, h4]; linarith)
    exact ⟨k1, g5.trans h2, k2.trans h3, g6.trans h4, g7.trans h5⟩

theorem saccade_apply_progress (c : Saccade) (s : Sink) (hp : c.progress < 1) :
    (c.apply s).beh.progress = min 1 (c.progress + c.speed) ∧
      (c.apply s).beh.speed = c.speed := by
  unfold Saccade.apply
  simp [hp]

/-- Tick-driven dynamicGaze with both faces in view: after 41 + j calls, j <= 7, it is
saccading from slot 1 and the saccade has progress min(1, 0.15 * j). -/
theorem dynamicAfterTicks_saccade (t0 : ℚ) (s0 : Sink) (ctxs : ℕ → Context)
    (hfaces : ∀ k, (ctxs k).faceX.isSome = true ∧ (ctxs k).faceY.isSome = true ∧
      (ctxs k).secondFaceX.isSome = true ∧ (ctxs k).secondFaceY.isSome = true)
    (j : ℕ) (hj : j ≤ 7) :
    (dynamicAfterTicks t0 s0 ctxs (41 + j)).1.state = GazeState.saccading ∧
    (dynamicAfterTicks t0 s0 ctxs (41 + j)).1.activeFace = 1 ∧
    ∃ c, (dynamicAfterTicks t0 s0 ctxs (41 + j)).1.saccade = some c ∧ c.speed = 0.15 ∧
      c.progress = min 1 ((j : ℚ) * 0.15) := by
  induction j with
  | zero =>
    obtain ⟨h1, h2, h3, h4, h5⟩ := dynamicAfterTicks_dwell t0 s0 ctxs hfaces 40 (le_refl 40)
    rw [Nat.add_zero, show (41 : ℕ) = 40 + 1 from rfl, dynamicAfterTicks_succ]
    simp only
    obtain ⟨hp1, hp2⟩ := getTargetCoords_present (ctxs 40) (hfaces 40)
    have ht := hp1
    rw [← h2] at ht
    have hnt : dynamicGaze.getTargetCoords
        (otherFace (dynamicAfterTicks t0 s0 ctxs 40).1.activeFace) (ctxs 40) =
        some (1 - jsNum (ctxs 40).secondFaceX, jsNum (ctxs 40).secondFaceY) := by
      rw [h2]; exact hp2
    obtain ⟨_, _, _, _, g5, _, _, _, g9⟩ := dynamic_apply_dwelling _
      (t0 + 50 * ((40 : ℕ) : ℚ)) (ctxs 40) (dynamicAfterTicks t0 s0 ctxs 40).2 _ h1 ht
    obtain ⟨k1, _, k3⟩ := (g9 (by rw [h3, h4]; norm_num)).1 _ hnt
    refine ⟨k1, g5.trans h2, _, k3, ?_, ?_⟩
    · rw [h5]; norm_num [Saccade.new]
    · norm_num [Saccade.new]
  | succ j ih =>
    obtain ⟨h1, h2, c, hc, hsp, hpr⟩ := ih (by omega)
    rw [← Nat.add_assoc, dynamicAfterTicks_succ]
    simp only
    have ht := (getTargetCoords_present (ctxs (41 + j)) (hfaces (41 + j))).1
    rw [← h2] at ht
    have hjq : (j : ℚ) ≤ 6 := by exact_mod_cast (by omega : j ≤ 6)
    have hlt : c.progress < 1 := by
      rw [hpr]
      exact lt_of_le_of_lt (min_le_right _ _) (by linarith)
    obtain ⟨_, g2, g3, _, _, _, g7⟩ := dynamic_apply_saccading _
      (t0 + 50 * ((41 + j : ℕ) : ℚ)) (ctxs (41 + j)) (dynamicAfterTicks t0 s0 ctxs (41 + j)).2 _ c
      h1 ht hc hlt
    obtain ⟨q1, q2⟩ := saccade_apply_progress c (dynamicAfterTicks t0 s0 ctxs (41 + j)).2 hlt
    refine ⟨g2, g3.trans h2, _, g7, q2.trans hsp, ?_⟩
    rw [q1, hsp, hpr, min_eq_right (by linarith : (j : ℚ) * 0.15 ≤ 1)]
    push_cast
    ring_nf

/-- Tick-driven dynamicGaze with both faces in view: call 48 completes the saccade. -/
theorem dynamicAfterTicks_cycle (t0 : ℚ) (s0 : Sink) (ctxs : ℕ → Context)
    (hfaces : ∀ k, (ctxs k).faceX.isSome = true ∧ (ctxs k).faceY.isSome = true ∧
      (ctxs k).secondFaceX.isSome = true ∧ (ctxs k).secondFaceY.isSome = true) :
    ((dynamicAfterTicks t0 s0 ctxs 48).1.apply (t0 + 2400) (ctxs 48)
      (dynamicAfterTicks t0 s0 ctxs 48).2).active = true ∧
    (dynamicAfterTicks t0 s0 ctxs 49).1.activeFace = 2 ∧
    (dynamicAfterTicks t0 s0 ctxs 49).1.state = GazeState.dwelling ∧
    (dynamicAfterTicks t0 s0 ctxs 49).1.stateStartTime = t0 + 2400 ∧
    (dynamicAfterTicks t0 s0 ctxs 49).1.saccade = none ∧
    (dynamicAfterTicks t0 s0 ctxs 49).1.currentX = 1 - jsNum (ctxs 48).secondFaceX ∧
    (dynamicAfterTicks t0 s0 ctxs 49).1.currentY = jsNum (ctxs 48).secondFaceY := by
  obtain ⟨h1, h2, c, hc, _, hpr⟩ := dynamicAfterTicks_saccade t0 s0 ctxs hfaces 7 (le_refl 7)
  have e41 : 41 + 7 = 48 := rfl
  rw [e41] at h1 h2 hc
  have hstep := dynamicAfterTicks_succ t0 s0 ctxs 48
  have e48 : t0 + 50 * ((48 : ℕ) : ℚ) = t0 + 2400 := by norm_num
  rw [e48] at hstep
  have e49 : 48 + 1 = 49 := rfl
  rw [e49] at hstep
  obtain ⟨hp1, hp2⟩ := getTargetCoords_present (ctxs 48) (hfaces 48)
  have ht := hp1
  rw [← h2] at ht
  have hnt : dynamicGaze.getTargetCoords
      (otherFace (dynamicAfterTicks t0 s0 ctxs 48).1.activeFace) (ctxs 48) =
      some (1 - jsNum (ctxs 48).secondFaceX, jsNum (ctxs 48).secondFaceY) := by
    rw [h2]; exact hp2
  have hdone : ¬ c.progress < 1 := by
    rw [hpr]
    norm_num
  obtain ⟨k1, k2, k3, k4, k5, k6, k7, _⟩ := (dynamic_apply_saccade_done _ (t0 + 2400) (ctxs 48)
    (dynamicAfterTicks t0 s0 ctxs 48).2 _ h1 ht (Or.inr ⟨c, hc, hdone⟩)).1 _ hnt
  rw [hstep]
  simp only
  refine ⟨k1, ?_, k3, k4, k5, k6, k7⟩
  rw [k2, h2]
  rfl

/-- C12. A dynamicGaze with dwellDuration 2000 and saccade speed 0.15, applied on the 50 ms
tick from its construction with both faces in view on every call: slot 1 stays active
through the dwell and the saccade (the first 48 calls), and the call on which the saccade
completes (call 48, at 2400 ms) returns true and leaves slot 2 active, the state dwelling,
the dwell timer reset to that call's clock value, the saccade dropped, and the position at
slot 2's mirrored coordinates as sensed on that call. In any state, an apply on which the
saccade completes with the destination slot valid has exactly these effects and sends the
destination's mirrored coordinates to the sink. -/
theorem C12_dwell_saccade_cycle (t0 : ℚ) (s0 : Sink) (ctxs : ℕ → Context)
    (hfaces : ∀ k, (ctxs k).faceX.isSome = true ∧ (ctxs k).faceY.isSome = true ∧
      (ctxs k).secondFaceX.isSome = true ∧ (ctxs k).secondFaceY.isSome = true) :
    (∀ n, n ≤ 48 → (dynamicAfterTicks t0 s0 ctxs n).1.activeFace = 1) ∧
    (((dynamicAfterTicks t0 s0 ctxs 48).1.apply (t0 + 2400) (ctxs 48)
        (dynamicAfterTicks t0 s0 ctxs 48).2).active = true ∧
      (dynamicAfterTicks t0 s0 ctxs 49).1.activeFace = 2 ∧
      (dynamicAfterTicks t0 s0 ctxs 49).1.state = GazeState.dwelling ∧
      (dynamicAfterTicks t0 s0 ctxs 49).1.stateStartTime = t0 + 2400 ∧
      (dynamicAfterTicks t0 s0 ctxs 49).1.saccade = none ∧
      (dynamicAfterTicks t0 s0 ctxs 49).1.currentX = 1 - jsNum (ctxs 48).secondFaceX ∧
      (dynamicAfterTicks t0 s0 ctxs 49).1.currentY = jsNum (ctxs 48).secondFaceY) ∧
    (∀ (d : dynamicGaze) (now : ℚ) (ctx : Context) (s : Sink) (t ft : ℚ × ℚ),
      d.state = GazeState.saccading →
      dynamicGaze.getTargetCoords d.activeFace ctx = some t →
      (d.saccade = none ∨ ∃ c, d.saccade = some c ∧ (c.apply s).active = false) →
      dynamicGaze.getTargetCoords (otherFace d.activeFace) ctx = some ft →
      (d.apply now ctx s).active = true ∧
      (d.apply now ctx s).beh.activeFace = otherFace d.activeFace ∧
      (d.apply now ctx s).beh.state = GazeState.dwelling ∧
      (d.apply now ctx s).beh.stateStartTime = now ∧
      (d.apply now ctx s).beh.saccade = none ∧
      (d.apply now ctx s).beh.currentX = ft.1 ∧
      (d.apply now ctx s).beh.currentY = ft.2 ∧
      (d.apply now ctx s).sink.sent.head? = some (ft.1, ft.2, 1)) := by
  refine ⟨fun n hn => ?_, dynamicAfterTicks_cycle t0 s0 ctxs hfaces, ?_⟩
  · by_cases h40 : n ≤ 40
    · exact (dynamicAfterTicks_dwell t0 s0 ctxs hfaces n h40).2.1
    · obtain ⟨j, rfl⟩ : ∃ j, n = 41 + j := ⟨n - 41, by omega⟩
      exact (dynamicAfterTicks_saccade t0 s0 ctxs hfaces j (by omega)).2.1
  · intro d now ctx s t ft hs ht hc hft
    refine (dynamic_apply_saccade_done d now ctx s t hs ht ?_).1 ft hft
    rcases hc with hnone | ⟨c, hsome, ha⟩
    · exact Or.inl hnone
    · refine Or.inr ⟨c, hsome, fun hp => ?_⟩
      rw [(saccade_apply_active_iff c s).mpr hp] at ha
      exact absurd ha (by simp)

/-- C12 with the same two faces in view on every call: after 49 calls slot 2 is active. -/
theorem C12_dwell_saccade_cycle_witness :
    (dynamicAfterTicks 10000 (World.initial true).sink (fun _ => sampleContext) 49).1.activeFace
      = 2 :=
  (C12_dwell_saccade_cycle 10000 (World.initial true).sink (fun _ => sampleContext)
    (fun _ => ⟨rfl, rfl, rfl, rfl⟩)).2.1.2.1

/-! ## GazeAversion on the scheduler tick -/

theorem fixation_apply_fields (f : Fixation) (now : ℚ) (s : Sink) :
    (f.apply now s).beh.startTime = f.startTime ∧ (f.apply now s).beh.duration = f.duration ∧
      ((f.apply now s).active = true ↔ now - f.startTime < f.duration) := by
  unfold Fixation.apply
  simp only
  split_ifs with h <;> simp [h]

theorem aversionAfterTicks_succ (aversionDuration intervalMin intervalMax t0 : ℚ) (rng0 : Rng)
    (rngs : ℕ → Rng) (sinks : ℕ → Sink) (n : ℕ) :
    aversionAfterTicks aversionDuration intervalMin intervalMax t0 rng0 rngs sinks (n + 1) =
      ((aversionAfterTicks aversionDuration intervalMin intervalMax t0 rng0 rngs sinks n).update
        (t0 + 50 * (n : ℚ)) (rngs n) (sinks n)).1.beh := rfl

/-- One tick of a GazeAversion with aversion duration 300 and a fixed interval of 1000:
either it is waiting for the aversion due at tick `c`, or the aversion begun at tick `c` is
in progress; `c` is always of the form 20 + 26 j. -/
theorem aversionAfterTicks_inv (t0 : ℚ) (rng0 : Rng) (rngs : ℕ → Rng) (sinks : ℕ → Sink)
    (n : ℕ) :
    (aversionAfterTicks 300 1000 1000 t0 rng0 rngs sinks n).aversionDuration = 300 ∧
    (aversionAfterTicks 300 1000 1000 t0 rng0 rngs sinks n).intervalMin = 1000 ∧
    (aversionAfterTicks 300 1000 1000 t0 rng0 rngs sinks n).intervalMax = 1000 ∧
    ∃ c j : ℕ, c = 20 + 26 * j ∧
      (((aversionAfterTicks 300 1000 1000 t0 rng0 rngs sinks n).aversionFixation = none ∧
          (aversionAfterTicks 300 1000 1000 t0 rng0 rngs sinks n).nextAversionTime =
            t0 + 50 * (c : ℚ) ∧ n ≤ c ∧ c < n + 26) ∨
        (∃ f, (aversionAfterTicks 300 1000 1000 t0 rng0 rngs sinks n).aversionFixation =
            some f ∧ f.startTime = t0 + 50 * (c : ℚ) ∧ f.duration = 300 ∧ c < n ∧
          n ≤ c + 6)) := by
  induction n with
  | zero =>
    refine ⟨rfl, rfl, rfl, 20, 0, rfl, Or.inl ⟨rfl, ?_, by omega, by omega⟩⟩
    simp [aversionAfterTicks, GazeAversion.new, GazeAversion.scheduleNextAversion]
    norm_num
  | succ n ih =>
    obtain ⟨hD, hmin, hmax, c, j, hc, hcase⟩ := ih
    rw [aversionAfterTicks_succ]
    rcases hcase with ⟨hnone, hnext, hle, hlt⟩ | ⟨f, hsome, hstart, hdur, hlt, hle⟩
    · rcases Nat.lt_or_ge n c with hnc | hnc
      · have hq : (n : ℚ) < (c : ℚ) := by exact_mod_cast hnc
        rw [aversion_update_idle _ _ (rngs n) (sinks n) hnone (by rw [hnext]; linarith)]
        exact ⟨hD, hmin, hmax, c, j, hc, Or.inl ⟨hnone, hnext, by omega, by omega⟩⟩
      · have hnc2 : n = c := le_antisymm hle hnc
        rw [aversion_update_start _ _ (rngs n) (sinks n) hnone
          (by rw [hnext, hnc2]) (by rw [hD]; norm_num)]
        refine ⟨hD, hmin, hmax, c, j, hc, Or.inr ⟨_, rfl, ?_, hD, by omega, by omega⟩⟩
        rw [hnc2]
        rfl
    · obtain ⟨g1, g2, g3⟩ := fixation_apply_fields f (t0 + 50 * (n : ℚ)) (sinks n)
      have hcq : (c : ℚ) < (n : ℚ) := by exact_mod_cast hlt
      rcases Nat.lt_or_ge n (c + 6) with hn6 | hn6
      · have hq : (n : ℚ) < (c : ℚ) + 6 := by exact_mod_cast hn6
        have ha : (f.apply (t0 + 50 * (n : ℚ)) (sinks n)).active = true :=
          g3.mpr (by rw [hstart, hdur]; linarith)
        rw [aversion_update_active _ f _ (rngs n) (sinks n) hsome ha]
        exact ⟨hD, hmin, hmax, c, j, hc,
          Or.inr ⟨_, rfl, g1.trans hstart, g2.trans hdur, by omega, by omega⟩⟩
      · have hn6' : n = c + 6 := le_antisymm hle hn6
        have ha : (f.apply (t0 + 50 * (n : ℚ)) (sinks n)).active = false := by
          cases hb : (f.apply (t0 + 50 * (n : ℚ)) (sinks n)).active with
          | false => rfl
          | true =>
            have := g3.mp hb
            rw [hstart, hdur, hn6'] at this
            push_cast at this
            linarith
        rw [aversion_update_finished _ f _ (rngs n) (sinks n) hsome ha]
        refine ⟨hD, hmin, hmax, c + 26, j + 1, by omega, Or.inl ⟨rfl, ?_, by omega, by omega⟩⟩
        simp only [hmin, hmax]
        rw [hn6']
        push_cast
        ring

/-- With aversion duration 300 and a fixed interval of 1000 on the 50 ms tick, the calls
that start an aversion are exactly those numbered 20 + 26 j. -/
theorem aversionAfterTicks_starts (t0 : ℚ) (rng0 : Rng) (rngs : ℕ → Rng) (sinks : ℕ → Sink)
    (n : ℕ) :
    (aversionAfterTicks 300 1000 1000 t0 rng0 rngs sinks n).startsAversion
        (t0 + 50 * (n : ℚ)) = true ↔ ∃ j : ℕ, n = 20 + 26 * j := by
  obtain ⟨_, _, _, c, j, hc, hcase⟩ := aversionAfterTicks_inv t0 rng0 rngs sinks n
  unfold GazeAversion.startsAversion
  rcases hcase with ⟨hnone, hnext, hle, hlt⟩ | ⟨f, hsome, _, _, hlt, hle⟩
  · rw [hnone, hnext]
    simp only [Option.isSome_none, Option.isNone_none, Bool.true_and, decide_eq_true_eq,
      ge_iff_le, add_le_add_iff_left]
    constructor
    · intro h
      have hcn : (c : ℚ) ≤ (n : ℚ) := by linarith
      have hcn' : c ≤ n := by exact_mod_cast hcn
      exact ⟨j, by omega⟩
    · rintro ⟨j', hj'⟩
      have : n = c := by omega
      rw [this]
  · rw [hsome]
    simp only [Option.isNone_some, Bool.false_and, Bool.false_eq_true, false_iff, not_exists]
    intro j' hj'
    omega

/-- The call that starts an aversion creates a Fixation whose start time is that call's
clock value. -/
theorem aversionAfterTicks_started (t0 : ℚ) (rng0 : Rng) (rngs : ℕ → Rng) (sinks : ℕ → Sink)
    (n : ℕ)
    (h : (aversionAfterTicks 300 1000 1000 t0 rng0 rngs sinks n).startsAversion
      (t0 + 50 * (n : ℚ)) = true) :
    ∃ f, (aversionAfterTicks 300 1000 1000 t0 rng0 rngs sinks (n + 1)).aversionFixation =
        some f ∧ f.startTime = t0 + 50 * (n : ℚ) := by
  obtain ⟨hD, _, _, _⟩ := aversionAfterTicks_inv t0 rng0 rngs sinks n
  unfold GazeAversion.startsAversion at h
  simp only [Bool.and_eq_true, Option.isNone_iff_eq_none, decide_eq_true_eq] at h
  rw [aversionAfterTicks_succ, aversion_update_start _ _ (rngs n) (sinks n) h.1 h.2
    (by rw [hD]; norm_num)]
  exact ⟨_, rfl, rfl⟩

/-- Consecutive aversion starts on the tick are 1300 ms apart. -/
theorem aversionAfterTicks_gap (t0 : ℚ) (rng0 : Rng) (rngs : ℕ → Rng) (sinks : ℕ → Sink)
    (k1 k2 : ℕ) (hlt : k1 < k2)
    (h1 : (aversionAfterTicks 300 1000 1000 t0 rng0 rngs sinks k1).startsAversion
      (t0 + 50 * (k1 : ℚ)) = true)
    (h2 : (aversionAfterTicks 300 1000 1000 t0 rng0 rngs sinks k2).startsAversion
      (t0 + 50 * (k2 : ℚ)) = true)
    (hbetween : ∀ k, k1 < k → k < k2 →
      (aversionAfterTicks 300 1000 1000 t0 rng0 rngs sinks k).startsAversion
        (t0 + 50 * (k : ℚ)) = false) :
    (t0 + 50 * (k2 : ℚ)) - (t0 + 50 * (k1 : ℚ)) = 1300 := by
  obtain ⟨j1, hj1⟩ := (aversionAfterTicks_starts t0 rng0 rngs sinks k1).mp h1
  obtain ⟨j2, hj2⟩ := (aversionAfterTicks_starts t0 rng0 rngs sinks k2).mp h2
  have hk : k2 = k1 + 26 := by
    by_contra hne
    have hmid := hbetween (k1 + 26) (by omega) (by omega)
    have hst := (aversionAfterTicks_starts t0 rng0 rngs sinks (k1 + 26)).mpr
      ⟨j1 + 1, by omega⟩
    rw [hst] at hmid
    exact absurd hmid (by simp)
  rw [hk]
  push_cast
  ring

/-! ## SmoothPursuit -/

theorem pursuit_apply_fields (p : SmoothPursuit) (s : Sink) :
    (p.apply s).active = true ∧
    (p.apply s).beh.currentX = p.currentX + (p.targetX - p.currentX) * p.smoothness ∧
    (p.apply s).beh.currentY = p.currentY + (p.targetY - p.currentY) * p.smoothness ∧
    (p.apply s).beh.targetX = p.targetX ∧ (p.apply s).beh.targetY = p.targetY ∧
    (p.apply s).beh.smoothness = p.smoothness := by
  unfold SmoothPursuit.apply
  exact ⟨rfl, rfl, rfl, rfl, rfl, rfl⟩

theorem pursuit_applyN_succ (p : SmoothPursuit) (s : Sink) (n : ℕ) :
    SmoothPursuit.applyN p s (n + 1) =
      (((SmoothPursuit.applyN p s n).1.apply (SmoothPursuit.applyN p s n).2).beh,
        ((SmoothPursuit.applyN p s n).1.apply (SmoothPursuit.applyN p s n).2).sink) := rfl

/-- After `n` calls with a fixed target the remaining error is `(1 - smoothness)^n` times
the initial error, on each axis. -/
theorem pursuit_applyN_error (p : SmoothPursuit) (s : Sink) (n : ℕ) :
    (SmoothPursuit.applyN p s n).1.targetX = p.targetX ∧
    (SmoothPursuit.applyN p s n).1.targetY = p.targetY ∧
    (SmoothPursuit.applyN p s n).1.smoothness = p.smoothness ∧
    p.targetX - (SmoothPursuit.applyN p s n).1.currentX =
      (1 - p.smoothness) ^ n * (p.targetX - p.currentX) ∧
    p.targetY - (SmoothPursuit.applyN p s n).1.currentY =
      (1 - p.smoothness) ^ n * (p.targetY - p.currentY) := by
  induction n with
  | zero => simp [SmoothPursuit.applyN]
  | succ n ih =>
    obtain ⟨h1, h2, h3, h4, h5⟩ := ih
    rw [pursuit_applyN_succ]
    obtain ⟨_, g2, g3, g4, g5, g6⟩ := pursuit_apply_fields (SmoothPursuit.applyN p s n).1
      (SmoothPursuit.applyN p s n).2
    refine ⟨g4.trans h1, g5.trans h2, g6.trans h3, ?_, ?_⟩
    · simp only [g2, h1, h3]
      rw [pow_succ, mul_assoc, mul_comm (1 - p.smoothness), ← mul_assoc, ← h4]
      ring
    · simp only [g3, h2, h3]
      rw [pow_succ, mul_assoc, mul_comm (1 - p.smoothness), ← mul_assoc, ← h5]
      ring

/-- C21. Every `SmoothPursuit.apply` returns true and sets
current' = current + (target - current) * smoothness on each axis, keeping target and
smoothness. With a fixed target, after n calls the remaining error target - current is
(1 - smoothness)^n times the initial error; for smoothness in (0,1] each call moves the
position toward the target without crossing it (the error keeps its sign and does not
grow), and for smoothness 1 the first call reaches the target. `updateTarget` sets the
target and leaves the current position and the smoothness unchanged. -/
theorem C21_smooth_pursuit (p : SmoothPursuit) (s : Sink) :
    ((p.apply s).active = true ∧
      (p.apply s).beh.currentX = p.currentX + (p.targetX - p.currentX) * p.smoothness ∧
      (p.apply s).beh.currentY = p.currentY + (p.targetY - p.currentY) * p.smoothness ∧
      (p.apply s).beh.targetX = p.targetX ∧ (p.apply s).beh.targetY = p.targetY ∧
      (p.apply s).beh.smoothness = p.smoothness) ∧
    (∀ n : ℕ,
      p.targetX - (SmoothPursuit.applyN p s n).1.currentX =
        (1 - p.smoothness) ^ n * (p.targetX - p.currentX) ∧
      p.targetY - (SmoothPursuit.applyN p s n).1.currentY =
        (1 - p.smoothness) ^ n * (p.targetY - p.currentY)) ∧
    (0 < p.smoothness → p.smoothness ≤ 1 → ∀ n : ℕ,
      (0 ≤ p.targetX - (SmoothPursuit.applyN p s n).1.currentX →
        0 ≤ p.targetX - (SmoothPursuit.applyN p s (n + 1)).1.currentX ∧
        p.targetX - (SmoothPursuit.applyN p s (n + 1)).1.currentX ≤
          p.targetX - (SmoothPursuit.applyN p s n).1.currentX) ∧
      (p.targetX - (SmoothPursuit.applyN p s n).1.currentX ≤ 0 →
        p.targetX - (SmoothPursuit.applyN p s (n + 1)).1.currentX ≤ 0 ∧
        p.targetX - (SmoothPursuit.applyN p s n).1.currentX ≤
          p.targetX - (SmoothPursuit.applyN p s (n + 1)).1.currentX) ∧
      (0 ≤ p.targetY - (SmoothPursuit.applyN p s n).1.currentY →
        0 ≤ p.targetY - (SmoothPursuit.applyN p s (n + 1)).1.currentY ∧
        p.targetY - (SmoothPursuit.applyN p s (n + 1)).1.currentY ≤
          p.targetY - (SmoothPursuit.applyN p s n).1.currentY) ∧
      (p.targetY - (SmoothPursuit.applyN p s n).1.currentY ≤ 0 →
        p.targetY - (SmoothPursuit.applyN p s (n + 1)).1.currentY ≤ 0 ∧
        p.targetY - (SmoothPursuit.applyN p s n).1.currentY ≤
          p.targetY - (SmoothPursuit.applyN p s (n + 1)).1.currentY)) ∧
    (p.smoothness = 1 →
      (p.apply s).beh.currentX = p.targetX ∧ (p.apply s).beh.currentY = p.targetY) ∧
    (∀ a b : ℚ, (p.updateTarget a b).targetX = a ∧ (p.updateTarget a b).targetY = b ∧
      (p.updateTarget a b).currentX = p.currentX ∧ (p.updateTarget a b).currentY = p.currentY ∧
      (p.updateTarget a b).smoothness = p.smoothness) := by
  refine ⟨pursuit_apply_fields p s, fun n => ?_, fun h0 h1 n => ?_, fun h1 => ?_,
    fun a b => ⟨rfl, rfl, rfl, rfl, rfl⟩⟩
  · exact ⟨(pursuit_applyN_error p s n).2.2.2.1, (pursuit_applyN_error p s n).2.2.2.2⟩
  · obtain ⟨_, _, _, ex, ey⟩ := pursuit_applyN_error p s n
    obtain ⟨_, _, _, ex', ey'⟩ := pursuit_applyN_error p s (n + 1)
    have hx : p.targetX - (SmoothPursuit.applyN p s (n + 1)).1.currentX =
        (1 - p.smoothness) * (p.targetX - (SmoothPursuit.applyN p s n).1.currentX) := by
      rw [ex', ex, pow_succ]; ring
    have hy : p.targetY - (SmoothPursuit.applyN p s (n + 1)).1.currentY =
        (1 - p.smoothness) * (p.targetY - (SmoothPursuit.applyN p s n).1.currentY) := by
      rw [ey', ey, pow_succ]; ring
    have hk0 : 0 ≤ 1 - p.smoothness := by linarith
    have hk1 : 1 - p.smoothness ≤ 1 := by linarith
    rw [hx, hy]
    refine ⟨fun h => ⟨mul_nonneg hk0 h, ?_⟩, fun h => ⟨?_, ?_⟩, fun h => ⟨mul_nonneg hk0 h, ?_⟩,
      fun h => ⟨?_, ?_⟩⟩ <;> nlinarith
  · obtain ⟨_, g2, g3, _⟩ := pursuit_apply_fields p s
    rw [g2, g3, h1]
    constructor <;> ring

/-- C21 on a pursuit with smoothness 0.1 aiming right of its position: the first call
moves it toward the target and not past it. -/
theorem C21_smooth_pursuit_witness :
    0 ≤ samplePursuit.targetX -
        (SmoothPursuit.applyN samplePursuit (World.initial true).sink (0 + 1)).1.currentX ∧
      samplePursuit.targetX -
          (SmoothPursuit.applyN samplePursuit (World.initial true).sink (0 + 1)).1.currentX ≤
        samplePursuit.targetX -
          (SmoothPursuit.applyN samplePursuit (World.initial true).sink 0).1.currentX :=
  ((C21_smooth_pursuit samplePursuit (World.initial true).sink).2.2.1
    (by norm_num [samplePursuit]) (by norm_num [samplePursuit]) 0).1
    (by norm_num [samplePursuit, SmoothPursuit.applyN])

/-! ## Output sink -/

/-- `setPupilTransform` when both pupil elements are in the document. -/
theorem setPupilTransform_present (x y k : ℚ) (s : Sink) (h : s.pupilsPresent = true) :
    setPupilTransform x y k s =
      { pupilsPresent := true, pupilsFound := true,
        currentGazeX := some (max 0.05 (min 0.95 x)),
        currentGazeY := some (max 0.2 (min 0.8 y)),
        lastSetX := max 0.05 (min 0.95 x), lastSetY := max 0.2 (min 0.8 y),
        transform :=
          some (((max 0.05 (min 0.95 x) - 0.05) / (0.95 - 0.05)) * (2 * 45) - 45,
            ((max 0.2 (min 0.8 y) - 0.2) / (0.8 - 0.2)) * (2 * 25) - 25, k),
        sent := (x, y, k) :: s.sent } := by
  unfold setPupilTransform findPupils
  cases hf : s.pupilsFound <;> simp [h, hf]

/-- C22. With both pupil elements present, for all arguments: `setPupilTransform` records
the gaze point (clamp(targetX, 0.05, 0.95), clamp(targetY, 0.2, 0.8)), which lies in
[0,1] x [0,1]; the pixel offsets it derives lie in [-45, 45] x [-25, 25]; and the centre
(0.5, 0.5) gives the offsets (0, 0). -/
theorem C22_sink_clamps (x y k : ℚ) (s : Sink) (h : s.pupilsPresent = true) :
    (setPupilTransform x y k s).currentGazeX = some (max 0.05 (min 0.95 x)) ∧
    (setPupilTransform x y k s).currentGazeY = some (max 0.2 (min 0.8 y)) ∧
    (0 ≤ max 0.05 (min 0.95 x) ∧ max 0.05 (min 0.95 x) ≤ 1 ∧
      0 ≤ max 0.2 (min 0.8 y) ∧ max 0.2 (min 0.8 y) ≤ 1) ∧
    (∃ ox oy, (setPupilTransform x y k s).transform = some (ox, oy, k) ∧
      -45 ≤ ox ∧ ox ≤ 45 ∧ -25 ≤ oy ∧ oy ≤ 25 ∧
      (x = 0.5 → ox = 0) ∧ (y = 0.5 → oy = 0)) := by
  rw [setPupilTransform_present x y k s h]
  have hx1 : (0.05 : ℚ) ≤ max 0.05 (min 0.95 x) := le_max_left _ _
  have hx2 : max 0.05 (min 0.95 x) ≤ (0.95 : ℚ) := max_le (by norm_num) (min_le_left _ _)
  have hy1 : (0.2 : ℚ) ≤ max 0.2 (min 0.8 y) := le_max_left _ _
  have hy2 : max 0.2 (min 0.8 y) ≤ (0.8 : ℚ) := max_le (by norm_num) (min_le_left _ _)
  refine ⟨rfl, rfl, ⟨by linarith, by linarith, by linarith, by linarith⟩, _, _, rfl, ?_, ?_, ?_,
    ?_, ?_, ?_⟩
  · norm_num; linarith
  · norm_num; linarith
  · norm_num; linarith
  · norm_num; linarith
  · intro hx; rw [hx]; norm_num
  · intro hy; rw [hy]; norm_num

/-- C22 for a point far outside the screen. -/
theorem C22_sink_clamps_witness :
    (setPupilTransform 7 (-3) 1 (World.initial true).sink).currentGazeX =
      some (max 0.05 (min 0.95 7)) :=
  (C22_sink_clamps 7 (-3) 1 (World.initial true).sink rfl).1

/-- C23. With both pupil elements present, the observable sink state after
`setPupilTransform(p, s)` is the same for every prior state, and calling it a second time
with the same arguments leaves the observable state (found flag, recorded gaze point,
last-set point, transform) unchanged. -/
theorem C23_sink_idempotent (x y k : ℚ) (s1 s2 : Sink) (h1 : s1.pupilsPresent = true)
    (h2 : s2.pupilsPresent = true) :
    (setPupilTransform x y k s1).observable = (setPupilTransform x y k s2).observable ∧
    (setPupilTransform x y k (setPupilTransform x y k s1)).observable =
      (setPupilTransform x y k s1).observable ∧
    (setPupilTransform x y k s1).pupilsPresent = true := by
  have h3 : (setPupilTransform x y k s1).pupilsPresent = true := by
    rw [setPupilTransform_present x y k s1 h1]
  refine ⟨?_, ?_, h3⟩
  · rw [setPupilTransform_present x y k s1 h1, setPupilTransform_present x y k s2 h2]
    rfl
  · rw [setPupilTransform_present x y k _ h3, setPupilTransform_present x y k s1 h1]
    rfl

/-- C23 for a fresh sink and a sink that has already been driven to another point. -/
theorem C23_sink_idempotent_witness :
    (setPupilTransform 0.8 0.5 1 (World.initial true).sink).observable =
      (setPupilTransform 0.8 0.5 1
        (setPupilTransform 0.2 0.3 1 (World.initial true).sink)).observable :=
  (C23_sink_idempotent 0.8 0.5 1 (World.initial true).sink
    (setPupilTransform 0.2 0.3 1 (World.initial true).sink) rfl
    (by rw [setPupilTransform_present 0.2 0.3 1 _ rfl])).1

/-! ## Position and last point sent -/

theorem responding_apply_sent_cons (b : RespondingJointAttention) (now : ℚ) (ctx : Context)
    (s : Sink) :
    (b.apply now ctx s).sink.sent =
      ((b.apply now ctx s).beh.currentX, (b.apply now ctx s).beh.currentY, 1) :: s.sent := by
  unfold RespondingJointAttention.apply
  cases hp : b.phase <;> simp only [setPupilTransform_sent] <;> (try split_ifs) <;> rfl

theorem initiating_apply_sent_cons (b : InitiatingJointAttention) (now : ℚ) (ctx : Context)
    (s : Sink) :
    (b.apply now ctx s).sink.sent =
      ((b.apply now ctx s).beh.currentX, (b.apply now ctx s).beh.currentY, 1) :: s.sent := by
  unfold InitiatingJointAttention.apply
  cases hp : b.phase <;> simp only [setPupilTransform_sent] <;> (try split_ifs) <;> rfl

theorem saccade_apply_sent (c : Saccade) (s : Sink) :
    (c.apply s).sink.sent =
      ((c.apply s).beh.currentX, (c.apply s).beh.currentY, 1) :: s.sent := by
  unfold Saccade.apply
  split_ifs <;> simp [setPupilTransform_sent]

theorem fixation_apply_sent (f : Fixation) (now : ℚ) (s : Sink) :
    ((f.apply now s).active = true →
      (f.apply now s).sink.sent =
        ((f.apply now s).beh.currentX, (f.apply now s).beh.currentY, 1) :: s.sent) ∧
    ((f.apply now s).active = false → (f.apply now s).sink = s) := by
  unfold Fixation.apply
  simp only
  split_ifs <;> simp [setPupilTransform_sent]

theorem pursuit_apply_sent (p : SmoothPursuit) (s : Sink) :
    (p.apply s).sink.sent =
      ((p.apply s).beh.currentX, (p.apply s).beh.currentY, 1) :: s.sent := by
  unfold SmoothPursuit.apply
  simp [setPupilTransform_sent]

/-- `update` sends the aversion position when it returns true and nothing otherwise. -/
theorem aversion_update_sent (g : GazeAversion) (now : ℚ) (rng : Rng) (s : Sink) :
    ((g.update now rng s).1.active = true →
      (g.update now rng s).1.sink.sent =
        ((g.update now rng s).1.beh.currentX, (g.update now rng s).1.beh.currentY, 1) ::
          s.sent) ∧
    ((g.update now rng s).1.active = false → (g.update now rng s).1.sink = s) := by
  cases hf : g.aversionFixation with
  | some f =>
    cases ha : (f.apply now s).active with
    | true =>
      rw [aversion_update_active g f now rng s hf ha]
      exact ⟨fun _ => (fixation_apply_sent f now s).1 ha, fun h => by simp at h⟩
    | false =>
      rw [aversion_update_finished g f now rng s hf ha]
      exact ⟨fun h => by simp at h, fun _ => rfl⟩
  | none =>
    by_cases hge : now ≥ g.nextAversionTime
    · by_cases hd : 0 < g.aversionDuration
      · rw [aversion_update_start g now rng s hf hge hd]
        exact ⟨fun _ => by simp [setPupilTransform_sent], fun h => by simp at h⟩
      · unfold GazeAversion.update
        simp [hf, hge, Fixation.apply, Fixation.new, hd, GazeAversion.scheduleNextAversion]
    · rw [aversion_update_idle g now rng s hf (not_le.mp hge)]
      exact ⟨fun h => by simp at h, fun _ => rfl⟩

/-- `MutualGaze.apply` makes exactly one sink call, with its new position. -/
theorem mutual_apply_sent (m : MutualGaze) (now : ℚ) (ctx : Context) (rng : Rng) (s : Sink) :
    (m.apply now ctx rng s).1.sink.sent =
      ((m.apply now ctx rng s).1.beh.currentX, (m.apply now ctx rng s).1.beh.currentY, 1) ::
        s.sent := by
  obtain ⟨h1, h2⟩ := aversion_update_sent m.gazeAversion now rng s
  unfold MutualGaze.apply
  simp only
  cases ha : (m.gazeAversion.update now rng s).1.active with
  | true => simpa [ha] using h1 ha
  | false =>
    simp only [ha, Bool.false_eq_true, if_false]
    rw [pursuit_apply_sent, h2 ha]

/-- `dynamicGaze.apply` ends with a sink call carrying its new position; before it there is
at most the call made by the saccade. -/
theorem dynamic_apply_sent (d : dynamicGaze) (now : ℚ) (ctx : Context) (s : Sink) :
    ∃ pts, (d.apply now ctx s).sink.sent =
      ((d.apply now ctx s).beh.currentX, (d.apply now ctx s).beh.currentY, 1) ::
        (pts ++ s.sent) := by
  unfold dynamicGaze.apply
  cases ht : dynamicGaze.getTargetCoords d.activeFace ctx with
  | none =>
    simp only
    cases hn : dynamicGaze.getTargetCoords (otherFace d.activeFace) ctx <;>
      exact ⟨[], by simp [setPupilTransform_sent]⟩
  | some t =>
    simp only
    cases hs : d.state with
    | dwelling =>
      simp only
      split_ifs
      · cases hn : dynamicGaze.getTargetCoords (otherFace d.activeFace) ctx <;>
          exact ⟨[], by simp [setPupilTransform_sent]⟩
      · exact ⟨[], by simp [setPupilTransform_sent]⟩
    | saccading =>
      simp only
      cases hc : d.saccade with
      | none =>
        simp only [dynamicGaze.finishSaccade]
        cases hn : dynamicGaze.getTargetCoords (otherFace d.activeFace) ctx <;>
          exact ⟨[], by simp [setPupilTransform_sent]⟩
      | some c =>
        simp only
        cases ha : (c.apply s).active with
        | true => exact ⟨[], by simp [saccade_apply_sent]⟩
        | false =>
          simp only [Bool.false_eq_true, if_false, dynamicGaze.finishSaccade]
          cases hn : dynamicGaze.getTargetCoords (otherFace d.activeFace) ctx <;>
            exact ⟨[((c.apply s).beh.currentX, (c.apply s).beh.currentY, 1)],
              by simp [setPupilTransform_sent, saccade_apply_sent]⟩

/-- Every behaviour's apply ends with a sink call carrying its new position. -/
theorem behavior_apply_sent (b : Behavior) (now : ℚ) (ctx : Context) (rng : Rng) (s : Sink) :
    ∃ pts, (b.apply now ctx rng s).1.sink.sent =
      ((b.apply now ctx rng s).1.beh.position.1, (b.apply now ctx rng s).1.beh.position.2, 1) ::
        (pts ++ s.sent) := by
  cases b with
  | mutualGaze m => exact ⟨[], mutual_apply_sent m now ctx rng s⟩
  | dynamic d => exact dynamic_apply_sent d now ctx s
  | responding j => exact ⟨[], responding_apply_sent_cons j now ctx s⟩
  | initiating j => exact ⟨[], initiating_apply_sent_cons j now ctx s⟩

/-- C24. For each behaviour the scheduler can hold, after every apply call the behaviour's
(currentX, currentY) are the arguments of the last `setPupilTransform` call made during
that apply: MutualGaze and both joint-attention behaviours make exactly one call, with
their new position; dynamicGaze makes one or two, the last with its new position. -/
theorem C24_position_is_last_sent :
    (∀ (m : MutualGaze) (now : ℚ) (ctx : Context) (rng : Rng) (s : Sink),
      (m.apply now ctx rng s).1.sink.sent =
        ((m.apply now ctx rng s).1.beh.currentX, (m.apply now ctx rng s).1.beh.currentY, 1) ::
          s.sent) ∧
    (∀ (d : dynamicGaze) (now : ℚ) (ctx : Context) (s : Sink),
      ∃ pts, (d.apply now ctx s).sink.sent =
        ((d.apply now ctx s).beh.currentX, (d.apply now ctx s).beh.currentY, 1) ::
          (pts ++ s.sent)) ∧
    (∀ (b : RespondingJointAttention) (now : ℚ) (ctx : Context) (s : Sink),
      (b.apply now ctx s).sink.sent =
        ((b.apply now ctx s).beh.currentX, (b.apply now ctx s).beh.currentY, 1) :: s.sent) ∧
    (∀ (b : InitiatingJointAttention) (now : ℚ) (ctx : Context) (s : Sink),
      (b.apply now ctx s).sink.sent =
        ((b.apply now ctx s).beh.currentX, (b.apply now ctx s).beh.currentY, 1) :: s.sent) :=
  ⟨mutual_apply_sent, dynamic_apply_sent, responding_apply_sent_cons,
    initiating_apply_sent_cons⟩

/-! ## Scheduler: a point on every tick -/

theorem applyCurrent_sent (now : ℚ) (ctx : Context) (rng : Rng) (w : World) :
    ∃ pts, (applyCurrent now ctx rng w).1.sink.sent = pts ++ w.sink.sent ∧
      (w.currentBehavior ≠ none → pts ≠ []) := by
  unfold applyCurrent
  cases hb : w.currentBehavior with
  | none => exact ⟨[], by simp⟩
  | some b =>
    obtain ⟨pts, hp⟩ := behavior_apply_sent b now ctx rng w.sink
    exact ⟨_ :: pts, by simpa using hp, by simp⟩

theorem selectAndApply_sent (now : ℚ) (tg : Toggles) (ctx : Context) (rng : Rng) (w : World) :
    ∃ pts, pts ≠ [] ∧ (selectAndApply now tg ctx rng w).world.sink.sent = pts ++ w.sink.sent := by
  unfold selectAndApply
  simp only
  cases hsel : chooseBehavior now tg ctx w with
  | responding dir =>
    obtain ⟨pts, hp, hne⟩ := applyCurrent_sent now ctx
      (installSelection (Selection.responding dir) now rng w).2
      (installSelection (Selection.responding dir) now rng w).1
    exact ⟨pts, hne (by simp [installSelection]), hp⟩
  | dynamicGaze =>
    obtain ⟨pts, hp, hne⟩ := applyCurrent_sent now ctx
      (installSelection Selection.dynamicGaze now rng w).2
      (installSelection Selection.dynamicGaze now rng w).1
    exact ⟨pts, hne (by simp [installSelection]), hp⟩
  | mutualGaze =>
    obtain ⟨pts, hp, hne⟩ := applyCurrent_sent now ctx
      (installSelection Selection.mutualGaze now rng w).2
      (installSelection Selection.mutualGaze now rng w).1
    exact ⟨pts, hne (by simp [installSelection]), hp⟩
  | idle =>
    obtain ⟨pts, hp, _⟩ := applyCurrent_sent now ctx
      (installSelection Selection.idle now rng w).2
      (installSelection Selection.idle now rng w).1
    refine ⟨pts ++ [(0.5, 0.5, 1)], by simp, ?_⟩
    rw [hp]
    simp [installSelection, setPupilTransform_sent]

/-- Every tick makes at least one sink call. -/
theorem updateGaze_sent (now : ℚ) (tg : Toggles) (ctx : Context) (rng : Rng) (w : World) :
    ∃ pts, pts ≠ [] ∧ (updateGaze now tg ctx rng w).world.sink.sent = pts ++ w.sink.sent := by
  unfold updateGaze
  cases hb : w.currentBehavior with
  | none => exact selectAndApply_sent now tg ctx rng w
  | some b =>
    simp only
    obtain ⟨pts, hp⟩ := behavior_apply_sent b now ctx rng w.sink
    cases ha : (b.apply now ctx rng w.sink).1.active with
    | true =>
      exact ⟨((b.apply now ctx rng w.sink).1.beh.position.1,
        (b.apply now ctx rng w.sink).1.beh.position.2, 1) :: pts, by simp, by simpa using hp⟩
    | false =>
      simp only [Bool.false_eq_true, if_false]
      obtain ⟨pts2, hne, hp2⟩ := selectAndApply_sent now tg ctx (b.apply now ctx rng w.sink).2
        { w with currentBehavior := none, sink := (b.apply now ctx rng w.sink).1.sink }
      refine ⟨pts2 ++ (((b.apply now ctx rng w.sink).1.beh.position.1,
        (b.apply now ctx rng w.sink).1.beh.position.2, 1) :: pts), by simp, ?_⟩
      rw [hp2]
      simp only [hp, List.append_assoc, List.cons_append]

/-- A tick with an empty slot and nobody in front. -/
theorem updateGaze_idle (now : ℚ) (tg : Toggles) (ctx : Context) (rng : Rng) (w : World)
    (hb : w.currentBehavior = none) (hu : ctx.userInFront = false) :
    (updateGaze now tg ctx rng w).world.currentBehavior = none ∧
    (updateGaze now tg ctx rng w).selected = some Selection.idle ∧
    (updateGaze now tg ctx rng w).world.sink.sent = (0.5, 0.5, 1) :: w.sink.sent := by
  simp [updateGaze, hb, selectAndApply, chooseBehavior, hu, installSelection, applyCurrent,
    setPupilTransform_sent]

/-- C25. Every `updateGaze` tick makes at least one `setPupilTransform` call, for every
scheduler state, toggle state and sensed context. When the slot is empty and no user is in
front, the tick installs no behaviour and makes exactly one call, with the centre
(0.5, 0.5). -/
theorem C25_point_every_tick (now : ℚ) (tg : Toggles) (ctx : Context) (rng : Rng) (w : World) :
    (∃ pts, pts ≠ [] ∧ (updateGaze now tg ctx rng w).world.sink.sent = pts ++ w.sink.sent) ∧
    (w.currentBehavior = none → ctx.userInFront = false →
      (updateGaze now tg ctx rng w).world.currentBehavior = none ∧
      (updateGaze now tg ctx rng w).selected = some Selection.idle ∧
      (updateGaze now tg ctx rng w).world.sink.sent = (0.5, 0.5, 1) :: w.sink.sent) :=
  ⟨updateGaze_sent now tg ctx rng w, updateGaze_idle now tg ctx rng w⟩

/-- C25 at the first tick of a session under total sensor loss: the centre is sent. -/
theorem C25_point_every_tick_witness :
    (updateGaze 10000 sampleToggles sampleContextLost sampleRng
      (World.initial true)).world.sink.sent = (0.5, 0.5, 1) :: (World.initial true).sink.sent :=
  ((C25_point_every_tick 10000 sampleToggles sampleContextLost sampleRng
    (World.initial true)).2 rfl rfl).2.2

/-! ## Card reveal events (C26-C28) -/

/-- An event that carries the last handled card id is ignored. -/
theorem handleCardRevealed_repeat (d : CardReveal) (tg : Toggles) (now : ℚ) (rng : Rng)
    (w : World) (h : w.lastHandledCardId = d.cardId) :
    handleCardRevealed (some d) tg now rng w =
      { world := w, rng := rng, logs := [], scheduled := none } := by
  unfold handleCardRevealed
  simp only [h, if_true, ite_self]

/-- An event without a truthy card id or side is ignored. -/
theorem handleCardRevealed_invalid (d : CardReveal) (tg : Toggles) (now : ℚ) (rng : Rng)
    (w : World) (h : isTruthy d.cardId = false ∨ isTruthy d.side = false) :
    handleCardRevealed (some d) tg now rng w =
      { world := w, rng := rng, logs := [], scheduled := none } := by
  unfold handleCardRevealed
  rcases h with h | h <;> simp [h]

/-- A valid event with another card id is handled: it changes only `lastHandledCardId`,
which becomes its card id, and passes one message to the logger. -/
theorem handleCardRevealed_fresh (d : CardReveal) (tg : Toggles) (now : ℚ) (rng : Rng)
    (w : World) (hid : isTruthy d.cardId = true) (hside : isTruthy d.side = true)
    (hnew : w.lastHandledCardId ≠ d.cardId) :
    (handleCardRevealed (some d) tg now rng w).world =
        { w with lastHandledCardId := d.cardId } ∧
      (handleCardRevealed (some d) tg now rng w).logs.length = 1 ∧
      ((handleCardRevealed (some d) tg now rng w).logs.map (fun m => m.cardId)) =
        [d.cardId.getD ""] := by
  unfold handleCardRevealed
  simp [hid, hside, hnew]

/-- The same event delivered twice in a row is ignored the second time. -/
theorem handleCardRevealed_again (d : CardReveal) (tg tg2 : Toggles) (now now2 : ℚ)
    (rng rng2 : Rng) (w : World) :
    handleCardRevealed (some d) tg2 now2 rng2 (handleCardRevealed (some d) tg now rng w).world =
      { world := (handleCardRevealed (some d) tg now rng w).world, rng := rng2, logs := [],
        scheduled := none } := by
  by_cases hv : isTruthy d.cardId = true ∧ isTruthy d.side = true
  · by_cases hnew : w.lastHandledCardId = d.cardId
    · rw [handleCardRevealed_repeat d tg now rng w hnew]
      exact handleCardRevealed_repeat d tg2 now2 rng2 w hnew
    · apply handleCardRevealed_repeat
      rw [(handleCardRevealed_fresh d tg now rng w hv.1 hv.2 hnew).1]
  · apply handleCardRevealed_invalid
    by_cases h1 : isTruthy d.cardId = true
    · right
      by_cases h2 : isTruthy d.side = true
      · exact absurd ⟨h1, h2⟩ hv
      · simpa using h2
    · left
      simpa using h1

/-- C26, counterexample. Card A, then card B, then card A again: the third event carries a
card id that was handled earlier in the session, yet it is handled again; it is logged,
a gaze is scheduled, and the remembered id changes from B back to A. -/
theorem C26_counterexample :
    (handleCardRevealed (some (sampleCard "A")) sampleToggles 0 sampleRng
        (World.initial true)).logs.map (fun m => m.cardId) = ["A"] ∧
      (handleCardRevealed (some (sampleCard "B")) sampleToggles 1000 sampleRng
        (handleCardRevealed (some (sampleCard "A")) sampleToggles 0 sampleRng
          (World.initial true)).world).world.lastHandledCardId = some "B" ∧
      (handleCardRevealed (some (sampleCard "A")) sampleToggles 2000 sampleRng
        (handleCardRevealed (some (sampleCard "B")) sampleToggles 1000 sampleRng
          (handleCardRevealed (some (sampleCard "A")) sampleToggles 0 sampleRng
            (World.initial true)).world).world).logs.map (fun m => m.cardId) = ["A"] ∧
      (handleCardRevealed (some (sampleCard "A")) sampleToggles 2000 sampleRng
        (handleCardRevealed (some (sampleCard "B")) sampleToggles 1000 sampleRng
          (handleCardRevealed (some (sampleCard "A")) sampleToggles 0 sampleRng
            (World.initial true)).world).world).scheduled = some "left" ∧
      (handleCardRevealed (some (sampleCard "A")) sampleToggles 2000 sampleRng
        (handleCardRevealed (some (sampleCard "B")) sampleToggles 1000 sampleRng
          (handleCardRevealed (some (sampleCard "A")) sampleToggles 0 sampleRng
            (World.initial true)).world).world).world.lastHandledCardId = some "A" := by
  refine ⟨?_, ?_, ?_, ?_, ?_⟩ <;>
    simp [handleCardRevealed, sampleCard, sampleToggles, World.initial, isTruthy, isChecked]

/-- C26, amended. Only the most recently handled card id is remembered. An event whose
card id equals it causes no log, no scheduling and no state change; a valid event with any
other card id is handled, logs once and becomes the remembered one; hence the same event
delivered twice in a row is ignored the second time. -/
theorem C26_last_card_ignored (d : CardReveal) (tg : Toggles) (now : ℚ) (rng : Rng)
    (w : World) :
    (w.lastHandledCardId = d.cardId →
      handleCardRevealed (some d) tg now rng w =
        { world := w, rng := rng, logs := [], scheduled := none }) ∧
    (isTruthy d.cardId = true → isTruthy d.side = true → w.lastHandledCardId ≠ d.cardId →
      (handleCardRevealed (some d) tg now rng w).world =
          { w with lastHandledCardId := d.cardId } ∧
        (handleCardRevealed (some d) tg now rng w).logs.length = 1) ∧
    (∀ tg2 now2 rng2,
      handleCardRevealed (some d) tg2 now2 rng2
          (handleCardRevealed (some d) tg now rng w).world =
        { world := (handleCardRevealed (some d) tg now rng w).world, rng := rng2, logs := [],
          scheduled := none }) := by
  refine ⟨handleCardRevealed_repeat d tg now rng w, ?_, ?_⟩
  · intro hid hside hnew
    exact ⟨(handleCardRevealed_fresh d tg now rng w hid hside hnew).1,
      (handleCardRevealed_fresh d tg now rng w hid hside hnew).2.1⟩
  · intro tg2 now2 rng2
    exact handleCardRevealed_again d tg tg2 now now2 rng rng2 w

/-- C26, witness: card B arrives after card A was handled, and is handled. -/
theorem C26_last_card_ignored_witness :
    isTruthy (sampleCard "B").cardId = true ∧ isTruthy (sampleCard "B").side = true ∧
      ({ World.initial true with lastHandledCardId := some "A" } : World).lastHandledCardId ≠
        (sampleCard "B").cardId ∧
      (handleCardRevealed (some (sampleCard "B")) sampleToggles 1000 sampleRng
        { World.initial true with lastHandledCardId := some "A" }).logs.length = 1 :=
  ⟨by decide, by decide, by decide,
    ((C26_last_card_ignored (sampleCard "B") sampleToggles 1000 sampleRng
      { World.initial true with lastHandledCardId := some "A" }).2.1
        (by decide) (by decide) (by decide)).2⟩

/-- Nothing is scheduled when the Carl toggle is checked or the initiating toggle is not
checked (unchecked or missing). -/
theorem handleCardRevealed_not_scheduled (data : Option CardReveal) (tg : Toggles) (now : ℚ)
    (rng : Rng) (w : World)
    (h : isChecked tg.carlConditionToggle = true ∨ isChecked tg.jointAttentionToggle = false) :
    (handleCardRevealed data tg now rng w).scheduled = none := by
  cases data with
  | none => rfl
  | some d =>
    unfold handleCardRevealed
    by_cases h1 : (!isTruthy d.cardId || !isTruthy d.side) = true
    · simp only [h1, if_true]
    · by_cases h2 : w.lastHandledCardId = d.cardId
      · simp only [h2, if_true, ite_self]
      · rcases h with h | h <;> simp [h1, h2, h]

/-- A valid event with a new card id schedules a gaze when the Carl toggle is not checked and
the initiating toggle is checked. -/
theorem handleCardRevealed_scheduled (d : CardReveal) (tg : Toggles) (now : ℚ)
    (rng : Rng) (w : World) (hid : isTruthy d.cardId = true) (hside : isTruthy d.side = true)
    (hnew : w.lastHandledCardId ≠ d.cardId)
    (hc : isChecked tg.carlConditionToggle = false)
    (hj : isChecked tg.jointAttentionToggle = true) :
    ∃ dir, (handleCardRevealed (some d) tg now rng w).scheduled = some dir := by
  unfold handleCardRevealed
  simp [hid, hside, hnew, hc, hj]

/-- C27. Run at fire time, the delayed action installs InitiatingJointAttention(direction)
when the slot holds no joint-attention behaviour and leaves the whole state unchanged when
it holds one; and handleCardRevealed schedules no delayed action when the Carl toggle is
checked or the initiating toggle is unchecked or missing, while a valid new event with the
Carl toggle unchecked and the initiating toggle checked does schedule one. -/
theorem C27_delayed_action (direction : String) (now : ℚ) (w : World) :
    (isJointAttention w.currentBehavior = false →
      scheduledInitiatingJA direction now w =
        { w with
          currentBehavior :=
            some (Behavior.initiating (InitiatingJointAttention.new direction now w.sink)) }) ∧
    (isJointAttention w.currentBehavior = true → scheduledInitiatingJA direction now w = w) ∧
    (∀ data tg t rng,
      (tg.carlConditionToggle = some true ∨ tg.jointAttentionToggle = some false ∨
        tg.jointAttentionToggle = none) →
      (handleCardRevealed data tg t rng w).scheduled = none) ∧
    (∀ d tg t rng, isTruthy d.cardId = true → isTruthy d.side = true →
      w.lastHandledCardId ≠ d.cardId → tg.carlConditionToggle ≠ some true →
      tg.jointAttentionToggle = some true →
      ∃ dir, (handleCardRevealed (some d) tg t rng w).scheduled = some dir) := by
  refine ⟨?_, ?_, ?_, ?_⟩
  · intro h
    simp [scheduledInitiatingJA, h]
  · intro h
    simp [scheduledInitiatingJA, h]
  · intro data tg t rng h
    apply handleCardRevealed_not_scheduled
    rcases h with h | h | h
    · left
      simp [h, isChecked]
    · right
      simp [h, isChecked]
    · right
      simp [h, isChecked]
  · intro d tg t rng hid hside hnew hc hj
    apply handleCardRevealed_scheduled d tg t rng w hid hside hnew
    · cases hcv : tg.carlConditionToggle with
      | none => rfl
      | some c =>
        cases c with
        | false => rfl
        | true => exact absurd hcv hc
    · simp [hj, isChecked]

/-- The sample state holding a MutualGaze holds no joint-attention behaviour. -/
theorem sampleMutualWorld_notJointAttention :
    isJointAttention sampleMutualWorld.currentBehavior = false := by
  obtain ⟨m, hm⟩ := behaviorName_mutualGaze _ sampleMutualWorld_name
  exact isJointAttention_of_mutualGaze _ m hm

/-- C27, witness: the action fires while a mutual gaze is held and installs the behaviour;
with the Carl toggle checked nothing is scheduled. -/
theorem C27_delayed_action_witness :
    isJointAttention sampleMutualWorld.currentBehavior = false ∧
      scheduledInitiatingJA "left" 12000 sampleMutualWorld =
        { sampleMutualWorld with
          currentBehavior :=
            some (Behavior.initiating
              (InitiatingJointAttention.new "left" 12000 sampleMutualWorld.sink)) } ∧
      (handleCardRevealed (some (sampleCard "A"))
        { sampleToggles with carlConditionToggle := some true } 10000 sampleRng
        sampleMutualWorld).scheduled = none :=
  ⟨sampleMutualWorld_notJointAttention,
    (C27_delayed_action "left" 12000 sampleMutualWorld).1 sampleMutualWorld_notJointAttention,
    (C27_delayed_action "left" 12000 sampleMutualWorld).2.2.1 _ _ _ _ (Or.inl rfl)⟩

/-- The message logged for a valid event with a new card id, by whether a gaze is
triggered. -/
theorem handleCardRevealed_log (d : CardReveal) (tg : Toggles) (now : ℚ) (rng : Rng)
    (w : World) (id side : String) (hid : d.cardId = some id) (hne : id ≠ "")
    (hside : d.side = some side) (hlr : side = "left" ∨ side = "right")
    (hnew : w.lastHandledCardId ≠ some id) :
    ∃ m, (handleCardRevealed (some d) tg now rng w).logs = [m] ∧
      m.action = "logEvent" ∧ m.event = "RobotsMove" ∧ m.cardId = id ∧ m.timestamp = now ∧
      (m.gazeDecision = "left" ∨ m.gazeDecision = "right" ∨ m.gazeDecision = "none") ∧
      (m.gazeDecision = "none" ↔
        (isChecked tg.carlConditionToggle = true ∨
          isChecked tg.jointAttentionToggle = false)) ∧
      (m.gazeDecision = "none" →
        m.reason ≠ "" ∧ (handleCardRevealed (some d) tg now rng w).scheduled = none) ∧
      (m.gazeDecision ≠ "none" →
        m.reason = "" ∧
          (handleCardRevealed (some d) tg now rng w).scheduled = some m.gazeDecision) := by
  have hsne : side ≠ "" := by
    rcases hlr with h | h <;> rw [h] <;> decide
  have hv : (!isTruthy d.cardId || !isTruthy d.side) = false := by
    simp [hid, hside, isTruthy, hne, hsne]
  have hnew2 : ¬ w.lastHandledCardId = d.cardId := by
    rw [hid]; exact hnew
  unfold handleCardRevealed
  simp only [hv, hnew2, if_false, Bool.false_eq_true]
  refine ⟨_, rfl, rfl, rfl, ?_, rfl, ?_⟩
  · simp [hid]
  · simp only [hside, Option.getD_some]
    cases hc : isChecked tg.carlConditionToggle <;>
      cases hj : isChecked tg.jointAttentionToggle <;>
      rcases hlr with h | h <;> subst h <;>
      simp <;> split_ifs <;> (try simp) <;> (try norm_num) <;> (try exact le_or_lt _ _) <;>
      (try exact lt_or_le _ _)

/-- C28. A card-reveal event with a non-empty card id other than the last handled one and a
side of left or right passes exactly one RobotsMove message to the logger in the same run
(the gaze itself is only scheduled). The message carries that card id and the time of the
run, and its gazeDecision is left, right or none; it is none exactly when the Carl toggle is
checked or the initiating toggle is not, and then the reason is non-empty and nothing is
scheduled; otherwise it is the direction captured by the scheduled action and the reason is
empty. -/
theorem C28_robots_move_log (d : CardReveal) (tg : Toggles) (now : ℚ) (rng : Rng)
    (w : World) (id side : String) (hid : d.cardId = some id) (hne : id ≠ "")
    (hside : d.side = some side) (hlr : side = "left" ∨ side = "right")
    (hnew : w.lastHandledCardId ≠ some id) :
    ∃ m, (handleCardRevealed (some d) tg now rng w).logs = [m] ∧
      m.action = "logEvent" ∧ m.event = "RobotsMove" ∧ m.cardId = id ∧ m.timestamp = now ∧
      (m.gazeDecision = "left" ∨ m.gazeDecision = "right" ∨ m.gazeDecision = "none") ∧
      (m.gazeDecision = "none" ↔
        (isChecked tg.carlConditionToggle = true ∨
          isChecked tg.jointAttentionToggle = false)) ∧
      (m.gazeDecision = "none" →
        m.reason ≠ "" ∧ (handleCardRevealed (some d) tg now rng w).scheduled = none) ∧
      (m.gazeDecision ≠ "none" →
        m.reason = "" ∧
          (handleCardRevealed (some d) tg now rng w).scheduled = some m.gazeDecision) :=
  handleCardRevealed_log d tg now rng w id side hid hne hside hlr hnew

/-- C28, witness: the first card of a session, lying on the left. -/
theorem C28_robots_move_log_witness :
    (sampleCard "A").cardId = some "A" ∧ "A" ≠ "" ∧ (sampleCard "A").side = some "left" ∧
      (World.initial true).lastHandledCardId ≠ some "A" ∧
      ∃ m, (handleCardRevealed (some (sampleCard "A")) sampleToggles 10000 sampleRng
          (World.initial true)).logs = [m] ∧
        m.action = "logEvent" ∧ m.event = "RobotsMove" ∧ m.cardId = "A" ∧
        m.timestamp = 10000 ∧
        (m.gazeDecision = "left" ∨ m.gazeDecision = "right" ∨ m.gazeDecision = "none") ∧
        (m.gazeDecision = "none" ↔
          (isChecked sampleToggles.carlConditionToggle = true ∨
            isChecked sampleToggles.jointAttentionToggle = false)) ∧
        (m.gazeDecision = "none" →
          m.reason ≠ "" ∧
            (handleCardRevealed (some (sampleCard "A")) sampleToggles 10000 sampleRng
              (World.initial true)).scheduled = none) ∧
        (m.gazeDecision ≠ "none" →
          m.reason = "" ∧
            (handleCardRevealed (some (sampleCard "A")) sampleToggles 10000 sampleRng
              (World.initial true)).scheduled = some m.gazeDecision) :=
  ⟨rfl, by decide, rfl, by decide,
    C28_robots_move_log (sampleCard "A") sampleToggles 10000 sampleRng (World.initial true)
      "A" "left" rfl (by decide) rfl (Or.inl rfl) (by decide)⟩

/-! ## Key events (C29) -/

/-- The key handler when its guard holds and an arrow key is pressed. -/
theorem onKeydown_installs (key dir : String) (tg : Toggles) (now : ℚ) (w : World)
    (hj : tg.jointAttentionToggle = some true) (hc : tg.carlConditionToggle ≠ some true)
    (hb : isJointAttention w.currentBehavior = false)
    (hk : (key = "ArrowLeft" ∧ dir = "left") ∨ (key = "ArrowRight" ∧ dir = "right")) :
    onKeydown key tg now w =
      { w with
        currentBehavior :=
          some (Behavior.initiating (InitiatingJointAttention.new dir now w.sink)) } := by
  have hcc : isChecked tg.carlConditionToggle = false := by
    cases hcv : tg.carlConditionToggle with
    | none => rfl
    | some c =>
      cases c with
      | false => rfl
      | true => exact absurd hcv hc
  have hjc : isChecked tg.jointAttentionToggle = true := by rw [hj]; rfl
  have hn : tg.jointAttentionToggle.isNone = false := by rw [hj]; rfl
  unfold onKeydown
  rcases hk with ⟨h1, h2⟩ | ⟨h1, h2⟩ <;> subst h1 <;> subst h2 <;>
    simp [hn, hjc, hcc, hb]

/-- The key handler when its guard fails or the key is not an arrow key. -/
theorem onKeydown_unchanged (key : String) (tg : Toggles) (now : ℚ) (w : World)
    (h : tg.jointAttentionToggle ≠ some true ∨ tg.carlConditionToggle = some true ∨
      isJointAttention w.currentBehavior = true ∨
      (key ≠ "ArrowLeft" ∧ key ≠ "ArrowRight")) :
    onKeydown key tg now w = w := by
  unfold onKeydown
  rcases h with h | h | h | h
  · have : (tg.jointAttentionToggle.isNone || !isChecked tg.jointAttentionToggle) = true := by
      cases hv : tg.jointAttentionToggle with
      | none => rfl
      | some c =>
        cases c with
        | false => rfl
        | true => exact absurd hv h
    simp [this]
  · simp [h, isChecked]
  · simp [h]
  · simp [h.1, h.2]

/-- C29. With the initiating toggle present and checked, the Carl toggle not checked and no
joint-attention behaviour held, ArrowLeft installs InitiatingJointAttention("left") and
ArrowRight installs InitiatingJointAttention("right"); when any part of that guard fails, or
for any other key, the state is unchanged. -/
theorem C29_keydown (key : String) (tg : Toggles) (now : ℚ) (w : World) :
    (tg.jointAttentionToggle = some true → tg.carlConditionToggle ≠ some true →
      isJointAttention w.currentBehavior = false →
      (key = "ArrowLeft" →
        onKeydown key tg now w =
          { w with
            currentBehavior :=
              some (Behavior.initiating (InitiatingJointAttention.new "left" now w.sink)) }) ∧
      (key = "ArrowRight" →
        onKeydown key tg now w =
          { w with
            currentBehavior :=
              some (Behavior.initiating
                (InitiatingJointAttention.new "right" now w.sink)) })) ∧
    ((tg.jointAttentionToggle ≠ some true ∨ tg.carlConditionToggle = some true ∨
        isJointAttention w.currentBehavior = true ∨
        (key ≠ "ArrowLeft" ∧ key ≠ "ArrowRight")) →
      onKeydown key tg now w = w) :=
  ⟨fun hj hc hb =>
    ⟨fun hk => onKeydown_installs key "left" tg now w hj hc hb (Or.inl ⟨hk, rfl⟩),
      fun hk => onKeydown_installs key "right" tg now w hj hc hb (Or.inr ⟨hk, rfl⟩)⟩,
    onKeydown_unchanged key tg now w⟩

/-- C29, witness: ArrowRight while a mutual gaze is held installs the behaviour; the same
key with the Carl toggle checked changes nothing. -/
theorem C29_keydown_witness :
    sampleToggles.jointAttentionToggle = some true ∧
      sampleToggles.carlConditionToggle ≠ some true ∧
      isJointAttention sampleMutualWorld.currentBehavior = false ∧
      onKeydown "ArrowRight" sampleToggles 12000 sampleMutualWorld =
        { sampleMutualWorld with
          currentBehavior :=
            some (Behavior.initiating
              (InitiatingJointAttention.new "right" 12000 sampleMutualWorld.sink)) } :=
  ⟨rfl, by decide, sampleMutualWorld_notJointAttention,
    ((C29_keydown "ArrowRight" sampleToggles 12000 sampleMutualWorld).1 rfl (by decide)
      sampleMutualWorld_notJointAttention).2 rfl⟩

/-! ## Perception messages (C30) -/

/-- The context written by a faceDetection message. -/
theorem onPerceptionMessage_faceDetection (data : PerceptionMessage) (ctx : Context)
    (h : data.event = "faceDetection") :
    onPerceptionMessage data ctx =
      { userInFront := data.userInFront,
        faceX := some (data.faceX.getD 0.5),
        faceY := some (data.faceY.getD 0.5),
        secondFaceX := data.secondFaceX,
        secondFaceY := data.secondFaceY,
        headDirection := data.headDirection.getD "none" } := by
  unfold onPerceptionMessage
  rw [if_pos h]
  cases data.faceX <;> cases data.faceY <;> cases data.secondFaceX <;>
    cases data.secondFaceY <;> cases data.headDirection <;> rfl

/-- Every message leaves the primary face coordinates non-null if they were. -/
theorem onPerceptionMessage_face (data : PerceptionMessage) (ctx : Context)
    (h : ctx.faceX ≠ none ∧ ctx.faceY ≠ none) :
    (onPerceptionMessage data ctx).faceX ≠ none ∧
      (onPerceptionMessage data ctx).faceY ≠ none := by
  unfold onPerceptionMessage
  split_ifs
  · exact ⟨by simp, by simp⟩
  · exact h

/-- From the initial context the primary face coordinates are non-null after any sequence of
messages. -/
theorem applyPerceptionMessages_face (msgs : List PerceptionMessage) (ctx : Context)
    (h : ctx.faceX ≠ none ∧ ctx.faceY ≠ none) :
    (applyPerceptionMessages ctx msgs).faceX ≠ none ∧
      (applyPerceptionMessages ctx msgs).faceY ≠ none := by
  induction msgs generalizing ctx with
  | nil => exact h
  | cons m rest ih =>
    unfold applyPerceptionMessages
    rw [List.foldl_cons]
    exact ih _ (onPerceptionMessage_face m ctx h)

/-- C30. After a faceDetection message userInFront is the message's value; a present faceX,
faceY, second-face coordinate or headDirection is copied; a missing faceX or faceY becomes
0.5, a missing second-face coordinate becomes null and a missing headDirection becomes
"none". So the primary face coordinates are non-null after the message, in particular when
userInFront is true, and they stay non-null from the initial context through any sequence
of messages. -/
theorem C30_face_detection (data : PerceptionMessage) (ctx : Context)
    (h : data.event = "faceDetection") :
    (onPerceptionMessage data ctx).userInFront = data.userInFront ∧
    (∀ v, data.faceX = some v → (onPerceptionMessage data ctx).faceX = some v) ∧
    (∀ v, data.faceY = some v → (onPerceptionMessage data ctx).faceY = some v) ∧
    (∀ v, data.secondFaceX = some v → (onPerceptionMessage data ctx).secondFaceX = some v) ∧
    (∀ v, data.secondFaceY = some v → (onPerceptionMessage data ctx).secondFaceY = some v) ∧
    (∀ v, data.headDirection = some v → (onPerceptionMessage data ctx).headDirection = v) ∧
    (data.faceX = none → (onPerceptionMessage data ctx).faceX = some 0.5) ∧
    (data.faceY = none → (onPerceptionMessage data ctx).faceY = some 0.5) ∧
    (data.secondFaceX = none → (onPerceptionMessage data ctx).secondFaceX = none) ∧
    (data.secondFaceY = none → (onPerceptionMessage data ctx).secondFaceY = none) ∧
    (data.headDirection = none → (onPerceptionMessage data ctx).headDirection = "none") ∧
    ((onPerceptionMessage data ctx).userInFront = true →
      (onPerceptionMessage data ctx).faceX ≠ none ∧
        (onPerceptionMessage data ctx).faceY ≠ none) ∧
    (∀ msgs, (applyPerceptionMessages Context.initial msgs).faceX ≠ none ∧
      (applyPerceptionMessages Context.initial msgs).faceY ≠ none) := by
  rw [onPerceptionMessage_faceDetection data ctx h]
  refine ⟨rfl, ?_, ?_, ?_, ?_, ?_, ?_, ?_, ?_, ?_, ?_, ?_, ?_⟩
  · intro v hv; simp [hv]
  · intro v hv; simp [hv]
  · intro v hv; simp [hv]
  · intro v hv; simp [hv]
  · intro v hv; simp [hv]
  · intro hv; simp [hv]
  · intro hv; simp [hv]
  · intro hv; simp [hv]
  · intro hv; simp [hv]
  · intro hv; simp [hv]
  · intro _; exact ⟨by simp, by simp⟩
  · intro msgs
    exact applyPerceptionMessages_face msgs Context.initial ⟨by simp [Context.initial],
      by simp [Context.initial]⟩

/-- C30, witness: a message reporting a user in front without coordinates, applied to a
context whose coordinates are null. -/
theorem C30_face_detection_witness :
    samplePerception.event = "faceDetection" ∧
      (onPerceptionMessage samplePerception sampleContextLost).userInFront = true ∧
      (onPerceptionMessage samplePerception sampleContextLost).faceX = some 0.5 ∧
      (onPerceptionMessage samplePerception sampleContextLost).faceY = some 0.5 ∧
      (onPerceptionMessage samplePerception sampleContextLost).headDirection = "none" :=
  ⟨rfl, (C30_face_detection samplePerception sampleContextLost rfl).1,
    (C30_face_detection samplePerception sampleContextLost rfl).2.2.2.2.2.2.1 rfl,
    (C30_face_detection samplePerception sampleContextLost rfl).2.2.2.2.2.2.2.1 rfl,
    (C30_face_detection samplePerception sampleContextLost rfl).2.2.2.2.2.2.2.2.2.2.1 rfl⟩

/-! ## Scheduler: where a responding behaviour looks (C34) -/

/-- A tick that selects the responding branch with direction `d` leaves in the slot a
RespondingJointAttention whose target is the one its constructor computes from `d`. -/
theorem updateGaze_respondingTarget (now : ℚ) (tg : Toggles) (ctx : Context) (rng : Rng)
    (w : World) (d : String)
    (h : (updateGaze now tg ctx rng w).selected = some (Selection.responding d)) :
    (updateGaze now tg ctx rng w).world.respondingTarget =
      some (if d = "left" then 0.8 else 0.2, 0.5) := by
  obtain ⟨w1, rng1, hnone, _, _, _, hsel, heq⟩ := updateGaze_selected now tg ctx rng w _ h
  rw [heq]
  unfold selectAndApply
  rw [← hsel]
  simp only [installSelection, applyCurrent, Behavior.apply, World.respondingTarget]
  rw [(responding_apply_const _ now ctx w1.sink).1, (responding_apply_const _ now ctx w1.sink).2.1]
  rfl

/-- C34. When the tick installs RespondingJointAttention, the behaviour left in the slot has
the hold target (0.8, 0.5) if the sensed head direction is "Looking Left" and (0.2, 0.5) if
it is "Looking Right": the side opposite the user's head turn. -/
theorem C34_looks_opposite (now : ℚ) (tg : Toggles) (ctx : Context) (rng : Rng)
    (w : World) (d : String)
    (h : (updateGaze now tg ctx rng w).selected = some (Selection.responding d)) :
    (ctx.headDirection = "Looking Left" ∨ ctx.headDirection = "Looking Right") ∧
    (ctx.headDirection = "Looking Left" →
      (updateGaze now tg ctx rng w).world.respondingTarget = some (0.8, 0.5)) ∧
    (ctx.headDirection = "Looking Right" →
      (updateGaze now tg ctx rng w).world.respondingTarget = some (0.2, 0.5)) := by
  obtain ⟨_, h2, h3⟩ := updateGaze_respondingDirection now tg ctx rng w d h
  have ht := updateGaze_respondingTarget now tg ctx rng w d h
  refine ⟨h3, fun hl => ?_, fun hr => ?_⟩
  · have hd : d = "left" := by rw [h2, hl]; decide
    rw [ht, if_pos hd]
  · have hd : ¬ d = "left" := by rw [h2, hr]; decide
    rw [ht, if_neg hd]

/-- The first tick of a session with the head turned right selects the responding branch. -/
theorem sample_tick_selected_right :
    (updateGaze 10000 sampleToggles sampleContextRight sampleRng
      (World.initial true)).selected = some (Selection.responding "right") := by
  have hw : headDirectionWord "Looking Right" = "right" := by decide
  simp [updateGaze, World.initial, selectAndApply, chooseBehavior, sampleContextRight,
    respondingEligible, sampleToggles, isChecked, respondingCooldown, hw]
  norm_num

/-- C34, witness: at the first tick of a session the head is turned right and the installed
behaviour aims at (0.2, 0.5). -/
theorem C34_looks_opposite_witness :
    (updateGaze 10000 sampleToggles sampleContextRight sampleRng
        (World.initial true)).selected = some (Selection.responding "right") ∧
      (updateGaze 10000 sampleToggles sampleContextRight sampleRng
        (World.initial true)).world.respondingTarget = some (0.2, 0.5) :=
  ⟨sample_tick_selected_right,
    (C34_looks_opposite 10000 sampleToggles sampleContextRight sampleRng (World.initial true)
      "right" sample_tick_selected_right).2.2 rfl⟩

/-! ## Card reveal events: invalid input (C35) -/

/-- An event that is null or lacks a card id or a side is ignored. -/
theorem handleCardRevealed_rejects (data : Option CardReveal) (tg : Toggles) (now : ℚ)
    (rng : Rng) (w : World)
    (h : data = none ∨ ∃ d, data = some d ∧
      (d.cardId = none ∨ d.cardId = some "" ∨ d.side = none ∨ d.side = some "")) :
    handleCardRevealed data tg now rng w =
      { world := w, rng := rng, logs := [], scheduled := none } := by
  rcases h with h | ⟨d, hd, h⟩
  · rw [h]; rfl
  · rw [hd]
    apply handleCardRevealed_invalid
    rcases h with h | h | h | h
    · left; rw [h]; rfl
    · left; rw [h]; rfl
    · right; rw [h]; rfl
    · right; rw [h]; rfl

/-- C35. When the event data is null or its cardId or side is missing or empty,
handleCardRevealed changes nothing (in particular not lastHandledCardId), schedules nothing
and logs nothing. So every later event is treated as if the invalid one had not arrived, and
a later valid event whose cardId is not the remembered one is handled. -/
theorem C35_invalid_rejected (data : Option CardReveal) (tg : Toggles) (now : ℚ)
    (rng : Rng) (w : World)
    (h : data = none ∨ ∃ d, data = some d ∧
      (d.cardId = none ∨ d.cardId = some "" ∨ d.side = none ∨ d.side = some "")) :
    handleCardRevealed data tg now rng w =
        { world := w, rng := rng, logs := [], scheduled := none } ∧
    (∀ data2 tg2 now2 rng2,
      handleCardRevealed data2 tg2 now2 rng2 (handleCardRevealed data tg now rng w).world =
        handleCardRevealed data2 tg2 now2 rng2 w) ∧
    (∀ d2 tg2 now2 rng2, isTruthy d2.cardId = true → isTruthy d2.side = true →
      w.lastHandledCardId ≠ d2.cardId →
      (handleCardRevealed (some d2) tg2 now2 rng2
          (handleCardRevealed data tg now rng w).world).world.lastHandledCardId = d2.cardId ∧
        (handleCardRevealed (some d2) tg2 now2 rng2
          (handleCardRevealed data tg now rng w).world).logs.length = 1) := by
  have h0 := handleCardRevealed_rejects data tg now rng w h
  refine ⟨h0, ?_, ?_⟩
  · intro data2 tg2 now2 rng2
    rw [h0]
  · intro d2 tg2 now2 rng2 hid hside hnew
    rw [h0]
    obtain ⟨h1, h2, _⟩ := handleCardRevealed_fresh d2 tg2 now2 rng2 w hid hside hnew
    exact ⟨by rw [h1], h2⟩

/-- C35, witness: an event with an empty card id arrives first, then card A is handled. -/
theorem C35_invalid_rejected_witness :
    handleCardRevealed (some { cardId := some "", side := some "left" }) sampleToggles 1000
        sampleRng (World.initial true) =
      { world := World.initial true, rng := sampleRng, logs := [], scheduled := none } ∧
    (handleCardRevealed (some (sampleCard "A")) sampleToggles 2000 sampleRng
      (handleCardRevealed (some { cardId := some "", side := some "left" }) sampleToggles 1000
        sampleRng (World.initial true)).world).logs.length = 1 :=
  ⟨(C35_invalid_rejected (some { cardId := some "", side := some "left" }) sampleToggles 1000
      sampleRng (World.initial true) (Or.inr ⟨_, rfl, Or.inr (Or.inl rfl)⟩)).1,
    ((C35_invalid_rejected (some { cardId := some "", side := some "left" }) sampleToggles 1000
      sampleRng (World.initial true) (Or.inr ⟨_, rfl, Or.inr (Or.inl rfl)⟩)).2.2
        (sampleCard "A") sampleToggles 2000 sampleRng (by decide) (by decide) (by decide)).2⟩

/-! ## dynamicGaze: when it reports inactive, and its invariant (C36, C37) -/

theorem otherFace_cases (f : ℕ) : otherFace f = 1 ∨ otherFace f = 2 := by
  unfold otherFace
  split_ifs
  · exact Or.inr rfl
  · exact Or.inl rfl

theorem otherFace_ne (f : ℕ) : otherFace f ≠ f := by
  unfold otherFace
  split_ifs with h
  · rw [h]; decide
  · exact fun h1 => h h1.symm

theorem dynamic_invariant_new (dwell speed now : ℚ) :
    (dynamicGaze.new dwell speed now).Invariant := by
  unfold dynamicGaze.Invariant dynamicGaze.new
  simp

/-- What one `apply` does to the active slot and the state, for a state that satisfies the
invariant. -/
theorem dynamic_apply_step (d : dynamicGaze) (now : ℚ) (ctx : Context) (s : Sink)
    (h : d.Invariant) :
    (d.apply now ctx s).beh.Invariant ∧
    ((dynamicGaze.getTargetCoords d.activeFace ctx = none ∨
        (d.state = GazeState.saccading ∧
          ∃ c, d.saccade = some c ∧ (c.apply s).active = false)) →
      (d.apply now ctx s).beh.activeFace = otherFace d.activeFace ∧
        (d.apply now ctx s).beh.state = GazeState.dwelling) ∧
    (¬ (dynamicGaze.getTargetCoords d.activeFace ctx = none ∨
        (d.state = GazeState.saccading ∧
          ∃ c, d.saccade = some c ∧ (c.apply s).active = false)) →
      (d.apply now ctx s).beh.activeFace = d.activeFace ∧
        (d.state = GazeState.saccading →
          (d.apply now ctx s).beh.state = GazeState.saccading)) := by
  obtain ⟨hf, hs⟩ := h
  have hof := otherFace_cases d.activeFace
  unfold dynamicGaze.apply dynamicGaze.Invariant
  cases ht : dynamicGaze.getTargetCoords d.activeFace ctx with
  | none =>
    cases ht2 : dynamicGaze.getTargetCoords (otherFace d.activeFace) ctx <;>
      simp [ht2, hof]
  | some t =>
    cases hst : d.state with
    | dwelling =>
      have hn : d.saccade = none := by
        cases hc : d.saccade with
        | none => rfl
        | some c =>
          have := hs.mpr (by rw [hc]; rfl)
          rw [hst] at this
          exact absurd this (by decide)
      simp only [reduceCtorEq, false_and, or_self, not_false_eq_true, false_implies, and_true,
        true_implies, false_implies, implies_true, and_true]
      split_ifs
      · cases ht2 : dynamicGaze.getTargetCoords (otherFace d.activeFace) ctx <;>
          simp [hf, hst, hn]
      · simp [hf, hst, hn]
    | saccading =>
      obtain ⟨c, hc⟩ : ∃ c, d.saccade = some c := by
        have := hs.mp hst
        cases hc : d.saccade with
        | none => rw [hc] at this; exact absurd this (by decide)
        | some c => exact ⟨c, rfl⟩
      simp only [hc]
      cases ha : (c.apply s).active with
      | true => simp [hf, hst, ha]
      | false =>
        unfold dynamicGaze.finishSaccade
        cases ht2 : dynamicGaze.getTargetCoords (otherFace d.activeFace) ctx <;>
          simp [ht2, hof, ha]

theorem dynamic_applyAll_cons (d : dynamicGaze) (s : Sink) (c : ℚ × Context)
    (calls : List (ℚ × Context)) :
    d.applyAll s (c :: calls) =
      (d.apply c.1 c.2 s).beh.applyAll (d.apply c.1 c.2 s).sink calls := by
  unfold dynamicGaze.applyAll
  rw [List.foldl_cons]

theorem dynamic_invariant_applyAll (calls : List (ℚ × Context)) :
    ∀ (d : dynamicGaze) (s : Sink), d.Invariant → (d.applyAll s calls).1.Invariant := by
  induction calls with
  | nil => intro d s h; exact h
  | cons c calls ih =>
    intro d s h
    rw [dynamic_applyAll_cons]
    exact ih _ _ (dynamic_apply_step d c.1 c.2 s h).1

/-- When `dynamicGaze.apply` returns false, for a state that satisfies the invariant. -/
theorem dynamic_apply_inactive_iff (d : dynamicGaze) (now : ℚ) (ctx : Context) (s : Sink)
    (h : d.Invariant) :
    ((d.apply now ctx s).active = false ↔
      ((dynamicGaze.getTargetCoords d.activeFace ctx = none ∧
          dynamicGaze.getTargetCoords (otherFace d.activeFace) ctx = none) ∨
        (dynamicGaze.getTargetCoords d.activeFace ctx ≠ none ∧
          d.state = GazeState.saccading ∧
          (∃ c, d.saccade = some c ∧ (c.apply s).active = false) ∧
          dynamicGaze.getTargetCoords (otherFace d.activeFace) ctx = none))) ∧
    ((d.apply now ctx s).active = false →
      (d.apply now ctx s).beh.currentX = 0.5 ∧ (d.apply now ctx s).beh.currentY = 0.5 ∧
        (d.apply now ctx s).sink.sent.head? = some (0.5, 0.5, 1)) := by
  obtain ⟨hf, hs⟩ := h
  unfold dynamicGaze.apply
  cases ht : dynamicGaze.getTargetCoords d.activeFace ctx with
  | none =>
    cases ht2 : dynamicGaze.getTargetCoords (otherFace d.activeFace) ctx <;>
      simp [ht2, setPupilTransform_sent]
  | some t =>
    cases hst : d.state with
    | dwelling =>
      simp only [reduceCtorEq, false_and, and_false, or_self, iff_false]
      split_ifs
      · cases ht2 : dynamicGaze.getTargetCoords (otherFace d.activeFace) ctx <;> simp
      · simp
    | saccading =>
      obtain ⟨c, hc⟩ : ∃ c, d.saccade = some c := by
        have := hs.mp hst
        cases hc : d.saccade with
        | none => rw [hc] at this; exact absurd this (by decide)
        | some c => exact ⟨c, rfl⟩
      simp only [hc]
      cases ha : (c.apply s).active with
      | true => simp [ha]
      | false =>
        unfold dynamicGaze.finishSaccade
        cases ht2 : dynamicGaze.getTargetCoords (otherFace d.activeFace) ctx <;>
          simp [ht2, ha, setPupilTransform_sent]

/-- C36. For a state that satisfies the invariant of dynamicGaze (as every state reached
from the constructor does), apply returns false in exactly two situations: (i) neither the
active slot nor the other slot has valid coordinates; (ii) the active slot is valid, the
state is saccading, the saccade returns false on this call, and the destination slot has no
valid coordinates. Whenever it returns false the position is the centre and the last point
sent is the centre, in case (ii) although the active slot is valid. -/
theorem C36_dynamic_inactive (d : dynamicGaze) (now : ℚ) (ctx : Context) (s : Sink)
    (h : d.Invariant) :
    ((d.apply now ctx s).active = false ↔
      ((dynamicGaze.getTargetCoords d.activeFace ctx = none ∧
          dynamicGaze.getTargetCoords (otherFace d.activeFace) ctx = none) ∨
        (dynamicGaze.getTargetCoords d.activeFace ctx ≠ none ∧
          d.state = GazeState.saccading ∧
          (∃ c, d.saccade = some c ∧ (c.apply s).active = false) ∧
          dynamicGaze.getTargetCoords (otherFace d.activeFace) ctx = none))) ∧
    ((d.apply now ctx s).active = false →
      (d.apply now ctx s).beh.currentX = 0.5 ∧ (d.apply now ctx s).beh.currentY = 0.5 ∧
        (d.apply now ctx s).sink.sent.head? = some (0.5, 0.5, 1)) :=
  dynamic_apply_inactive_iff d now ctx s h

theorem sampleSaccadeArrived_invariant : sampleSaccadeArrived.Invariant := by
  unfold dynamicGaze.Invariant sampleSaccadeArrived dynamicGaze.new
  simp

theorem sampleSaccadeArrived_caseTwo :
    dynamicGaze.getTargetCoords sampleSaccadeArrived.activeFace sampleContextOneFace ≠ none ∧
      sampleSaccadeArrived.state = GazeState.saccading ∧
      (∃ c, sampleSaccadeArrived.saccade = some c ∧
        (c.apply (World.initial true).sink).active = false) ∧
      dynamicGaze.getTargetCoords (otherFace sampleSaccadeArrived.activeFace)
        sampleContextOneFace = none := by
  refine ⟨?_, rfl, ⟨_, rfl, ?_⟩, ?_⟩
  · have h := (getTargetCoords_one sampleContextOneFace).1 0.3 0.4 rfl rfl
    show dynamicGaze.getTargetCoords 1 sampleContextOneFace ≠ none
    rw [h]
    exact Option.some_ne_none _
  · exact (saccade_apply_inactive_position _ _ (by norm_num [Saccade.new])).1
  · exact (getTargetCoords_two sampleContextOneFace).2 (Or.inl rfl)

/-- C36, witness of case (ii): the saccade from slot 1 has arrived and the second face has
gone; apply returns false and the centre is sent although slot 1 is valid. -/
theorem C36_dynamic_inactive_witness :
    sampleSaccadeArrived.Invariant ∧
      dynamicGaze.getTargetCoords sampleSaccadeArrived.activeFace sampleContextOneFace ≠
        none ∧
      (sampleSaccadeArrived.apply 12400 sampleContextOneFace
        (World.initial true).sink).active = false ∧
      (sampleSaccadeArrived.apply 12400 sampleContextOneFace
        (World.initial true).sink).sink.sent.head? = some (0.5, 0.5, 1) :=
  ⟨sampleSaccadeArrived_invariant, sampleSaccadeArrived_caseTwo.1,
    (C36_dynamic_inactive sampleSaccadeArrived 12400 sampleContextOneFace
      (World.initial true).sink sampleSaccadeArrived_invariant).1.mpr
      (Or.inr sampleSaccadeArrived_caseTwo),
    ((C36_dynamic_inactive sampleSaccadeArrived 12400 sampleContextOneFace
      (World.initial true).sink sampleSaccadeArrived_invariant).2
      ((dynamic_apply_inactive_iff sampleSaccadeArrived 12400 sampleContextOneFace
        (World.initial true).sink sampleSaccadeArrived_invariant).1.mpr
        (Or.inr sampleSaccadeArrived_caseTwo))).2.2⟩

/-- C37. Every state reached from the constructor by apply calls satisfies the invariant:
the active slot is 1 or 2 and the state is saccading exactly when the saccade field is
non-null. In such a state one apply flips the active slot, and leaves the state dwelling,
exactly when the active slot has lost its coordinates or the state is saccading and the
saccade returns false on this call; otherwise the active slot is kept, a saccading state
stays saccading, and so the call that starts a saccade keeps the origin slot. -/
theorem C37_dynamic_invariant (dwell speed t0 : ℚ) (s0 : Sink) (calls : List (ℚ × Context))
    (now : ℚ) (ctx : Context) (s : Sink) :
    ((dynamicGaze.new dwell speed t0).applyAll s0 calls).1.Invariant ∧
    ((dynamicGaze.getTargetCoords
          ((dynamicGaze.new dwell speed t0).applyAll s0 calls).1.activeFace ctx = none ∨
        (((dynamicGaze.new dwell speed t0).applyAll s0 calls).1.state = GazeState.saccading ∧
          ∃ c, ((dynamicGaze.new dwell speed t0).applyAll s0 calls).1.saccade = some c ∧
            (c.apply s).active = false)) →
      ((((dynamicGaze.new dwell speed t0).applyAll s0 calls).1.apply now ctx s).beh.activeFace =
          otherFace ((dynamicGaze.new dwell speed t0).applyAll s0 calls).1.activeFace ∧
        (((dynamicGaze.new dwell speed t0).applyAll s0 calls).1.apply now ctx s).beh.activeFace ≠
          ((dynamicGaze.new dwell speed t0).applyAll s0 calls).1.activeFace ∧
        (((dynamicGaze.new dwell speed t0).applyAll s0 calls).1.apply now ctx s).beh.state =
          GazeState.dwelling)) ∧
    (¬ (dynamicGaze.getTargetCoords
          ((dynamicGaze.new dwell speed t0).applyAll s0 calls).1.activeFace ctx = none ∨
        (((dynamicGaze.new dwell speed t0).applyAll s0 calls).1.state = GazeState.saccading ∧
          ∃ c, ((dynamicGaze.new dwell speed t0).applyAll s0 calls).1.saccade = some c ∧
            (c.apply s).active = false)) →
      ((((dynamicGaze.new dwell speed t0).applyAll s0 calls).1.apply now ctx s).beh.activeFace =
          ((dynamicGaze.new dwell speed t0).applyAll s0 calls).1.activeFace ∧
        (((dynamicGaze.new dwell speed t0).applyAll s0 calls).1.state = GazeState.saccading →
          (((dynamicGaze.new dwell speed t0).applyAll s0 calls).1.apply now ctx s).beh.state =
            GazeState.saccading))) ∧
    ((((dynamicGaze.new dwell speed t0).applyAll s0 calls).1.apply now ctx s).beh.state =
        GazeState.saccading →
      (((dynamicGaze.new dwell speed t0).applyAll s0 calls).1.apply now ctx s).beh.activeFace =
        ((dynamicGaze.new dwell speed t0).applyAll s0 calls).1.activeFace) := by
  have hinv := dynamic_invariant_applyAll calls (dynamicGaze.new dwell speed t0) s0
    (dynamic_invariant_new dwell speed t0)
  obtain ⟨_, hflip, hkeep⟩ :=
    dynamic_apply_step ((dynamicGaze.new dwell speed t0).applyAll s0 calls).1 now ctx s hinv
  refine ⟨hinv, fun hc => ?_, hkeep, fun hst => ?_⟩
  · obtain ⟨h1, h2⟩ := hflip hc
    exact ⟨h1, by rw [h1]; exact otherFace_ne _, h2⟩
  · by_cases hc : dynamicGaze.getTargetCoords
          ((dynamicGaze.new dwell speed t0).applyAll s0 calls).1.activeFace ctx = none ∨
        (((dynamicGaze.new dwell speed t0).applyAll s0 calls).1.state = GazeState.saccading ∧
          ∃ c, ((dynamicGaze.new dwell speed t0).applyAll s0 calls).1.saccade = some c ∧
            (c.apply s).active = false)
    · have h2 := (hflip hc).2
      rw [hst] at h2
      exact absurd h2 (by decide)
    · exact (hkeep hc).1

theorem sampleSaccadeStarted_state :
    sampleSaccadeStarted.state = GazeState.saccading ∧ sampleSaccadeStarted.activeFace = 1 ∧
      sampleSaccadeStarted.saccade = some (Saccade.new (1 - 0.3) 0.4 (1 - 0.7) 0.6 0.15) := by
  have h1 := (getTargetCoords_one sampleContext).1 0.3 0.4 rfl rfl
  have h2 := (getTargetCoords_two sampleContext).1 0.7 0.6 rfl rfl
  have ho : otherFace 1 = 2 := rfl
  unfold sampleSaccadeStarted dynamicGaze.applyAll
  simp only [List.foldl_cons, List.foldl_nil]
  unfold dynamicGaze.apply
  simp only [dynamicGaze.new, h1, ho, h2]
  norm_num

/-- C37, witness: after the dwell time a saccade from slot 1 starts; on the next call it is
still in progress and slot 1 is still the active slot. -/
theorem C37_dynamic_invariant_witness :
    ((dynamicGaze.new 2000 0.15 10000).applyAll (World.initial true).sink
        [(12000, sampleContext)]).1.state = GazeState.saccading ∧
      ((dynamicGaze.new 2000 0.15 10000).applyAll (World.initial true).sink
        [(12000, sampleContext)]).1.Invariant ∧
      ((((dynamicGaze.new 2000 0.15 10000).applyAll (World.initial true).sink
        [(12000, sampleContext)]).1.apply 12050 sampleContext
          (World.initial true).sink).beh.state = GazeState.saccading →
        (((dynamicGaze.new 2000 0.15 10000).applyAll (World.initial true).sink
          [(12000, sampleContext)]).1.apply 12050 sampleContext
            (World.initial true).sink).beh.activeFace =
          ((dynamicGaze.new 2000 0.15 10000).applyAll (World.initial true).sink
            [(12000, sampleContext)]).1.activeFace) :=
  ⟨sampleSaccadeStarted_state.1,
    (C37_dynamic_invariant 2000 0.15 10000 (World.initial true).sink [(12000, sampleContext)]
      12050 sampleContext (World.initial true).sink).1,
    (C37_dynamic_invariant 2000 0.15 10000 (World.initial true).sink [(12000, sampleContext)]
      12050 sampleContext (World.initial true).sink).2.2.2⟩

/-! ## Joint attention: no early end under a non-decreasing clock (C38) -/

theorem clockCalls_succ (ts : ℕ → ℚ) (ctxs : ℕ → Context) (n : ℕ) :
    clockCalls ts ctxs (n + 1) = clockCalls ts ctxs n ++ [(ts n, ctxs n)] := by
  simp [clockCalls, List.range_succ]

theorem respondingAfterCalls_succ (d : String) (t0 : ℚ) (s0 : Sink) (ts : ℕ → ℚ)
    (ctxs : ℕ → Context) (n : ℕ) :
    respondingAfterCalls d t0 s0 ts ctxs (n + 1) =
      (((respondingAfterCalls d t0 s0 ts ctxs n).1.apply (ts n) (ctxs n)
          (respondingAfterCalls d t0 s0 ts ctxs n).2).beh,
        ((respondingAfterCalls d t0 s0 ts ctxs n).1.apply (ts n) (ctxs n)
          (respondingAfterCalls d t0 s0 ts ctxs n).2).sink) := by
  unfold respondingAfterCalls
  rw [clockCalls_succ, responding_applyAll_append]
  rfl

theorem responding_timing_new (d : String) (t0 last : ℚ) (s0 : Sink) :
    (RespondingJointAttention.new d t0 s0).Timing t0 last := by
  unfold RespondingJointAttention.Timing RespondingJointAttention.new
  simp

/-- One call at a clock value not before the last one keeps the timing facts. -/
theorem responding_timing_apply (b : RespondingJointAttention) (t0 last now : ℚ)
    (ctx : Context) (s : Sink) (h : b.Timing t0 last) (hl : last ≤ now) :
    (b.apply now ctx s).beh.Timing t0 now := by
  obtain ⟨h1, h2, h3, h4, h5, h6, h7⟩ := h
  obtain ⟨_, _, _, c1, c2, c3, c4⟩ := responding_apply_const b now ctx s
  refine ⟨by rw [c1, h1], by rw [c2, h2], by rw [c3, h3], by rw [c4, h4], ?_, ?_, ?_⟩
  · intro hp
    cases hb : b.phase with
    | transitionToSide =>
      obtain ⟨_, hlt, hge⟩ := responding_apply_transitionToSide b now ctx s hb
        (by rw [h2]; norm_num)
      by_cases hc : b.transitionDuration ≤ now - b.startTime
      · refine ⟨now, (hge hc).2.1, ?_⟩
        rw [h1, h2] at hc
        linarith
      · rw [(hlt (not_le.mp hc)).1] at hp
        exact absurd hp (by decide)
    | hold =>
      obtain ⟨t, ht, hge⟩ := h5 hb
      obtain ⟨_, hlt, hge2⟩ := responding_apply_holdPhase b now ctx s hb t ht
      by_cases hc : b.holdDuration ≤ now - t
      · rw [(hge2 hc).1] at hp
        exact absurd hp (by decide)
      · exact ⟨t, (hlt (not_le.mp hc)).2.1, hge⟩
    | returnToUser =>
      rcases responding_apply_phase_step b now ctx s with hs | ⟨hs, _⟩ | ⟨hs, _⟩ | ⟨_, hs⟩
      · rw [hs, hb] at hp; exact absurd hp (by decide)
      · rw [hb] at hs; exact absurd hs (by decide)
      · rw [hb] at hs; exact absurd hs (by decide)
      · rw [hs] at hp; exact absurd hp (by decide)
    | done =>
      rw [(responding_apply_done b now ctx s hb).2.1] at hp
      exact absurd hp (by decide)
  · intro hp
    cases hb : b.phase with
    | transitionToSide =>
      rcases responding_apply_phase_step b now ctx s with hs | ⟨_, hs⟩ | ⟨hs, _⟩ | ⟨hs, _⟩
      · rw [hs, hb] at hp; exact absurd hp (by decide)
      · rw [hs] at hp; exact absurd hp (by decide)
      · rw [hb] at hs; exact absurd hs (by decide)
      · rw [hb] at hs; exact absurd hs (by decide)
    | hold =>
      obtain ⟨t, ht, hge⟩ := h5 hb
      obtain ⟨_, hlt, hge2⟩ := responding_apply_holdPhase b now ctx s hb t ht
      by_cases hc : b.holdDuration ≤ now - t
      · refine ⟨now, (hge2 hc).2.1, ?_⟩
        rw [h3] at hc
        linarith
      · rw [(hlt (not_le.mp hc)).1] at hp
        exact absurd hp (by decide)
    | returnToUser =>
      obtain ⟨t, ht, hge⟩ := h6 hb
      obtain ⟨_, _, _, _, _, hlt, hge2⟩ := responding_apply_returnToUser b now ctx s hb t ht
        (by rw [h4]; norm_num)
      by_cases hc : b.returnDuration ≤ now - t
      · rw [(hge2 hc).1] at hp
        exact absurd hp (by decide)
      · exact ⟨t, (hlt (not_le.mp hc)).2, hge⟩
    | done =>
      rw [(responding_apply_done b now ctx s hb).2.1] at hp
      exact absurd hp (by decide)
  · intro hp
    cases hb : b.phase with
    | transitionToSide =>
      rcases responding_apply_phase_step b now ctx s with hs | ⟨_, hs⟩ | ⟨hs, _⟩ | ⟨hs, _⟩
      · rw [hs, hb] at hp; exact absurd hp (by decide)
      · rw [hs] at hp; exact absurd hp (by decide)
      · rw [hb] at hs; exact absurd hs (by decide)
      · rw [hb] at hs; exact absurd hs (by decide)
    | hold =>
      rcases responding_apply_phase_step b now ctx s with hs | ⟨hs, _⟩ | ⟨_, hs⟩ | ⟨hs, _⟩
      · rw [hs, hb] at hp; exact absurd hp (by decide)
      · rw [hb] at hs; exact absurd hs (by decide)
      · rw [hs] at hp; exact absurd hp (by decide)
      · rw [hb] at hs; exact absurd hs (by decide)
    | returnToUser =>
      obtain ⟨t, ht, hge⟩ := h6 hb
      obtain ⟨_, _, _, _, _, hlt, hge2⟩ := responding_apply_returnToUser b now ctx s hb t ht
        (by rw [h4]; norm_num)
      by_cases hc : b.returnDuration ≤ now - t
      · rw [h4] at hc
        linarith
      · rw [(hlt (not_le.mp hc)).1] at hp
        exact absurd hp (by decide)
    | done =>
      have := h7 hb
      linarith

/-- The phase advances by at most one position per call. -/
theorem responding_rank_apply (b : RespondingJointAttention) (now : ℚ) (ctx : Context)
    (s : Sink) : (b.apply now ctx s).beh.phase.rank ≤ b.phase.rank + 1 := by
  rcases responding_apply_phase_step b now ctx s with hs | ⟨h1, hs⟩ | ⟨h1, hs⟩ | ⟨h1, hs⟩
  · rw [hs]; exact Nat.le_succ _
  · rw [hs, h1]; decide
  · rw [hs, h1]; decide
  · rw [hs, h1]; decide

/-- After `n` calls under a non-decreasing clock: the phase has advanced at most `n`
positions, and the timing facts hold against any clock value from the last call on. -/
theorem respondingAfterCalls_timing (d : String) (t0 : ℚ) (s0 : Sink) (ts : ℕ → ℚ)
    (ctxs : ℕ → Context) (hm : Monotone ts) (n : ℕ) :
    (respondingAfterCalls d t0 s0 ts ctxs n).1.phase.rank ≤ n ∧
      (respondingAfterCalls d t0 s0 ts ctxs n).1.Timing t0 (ts n) := by
  induction n with
  | zero => exact ⟨Nat.le_refl 0, responding_timing_new d t0 (ts 0) s0⟩
  | succ n ih =>
    rw [respondingAfterCalls_succ]
    simp only
    refine ⟨le_trans (responding_rank_apply _ _ _ _) (Nat.succ_le_succ ih.1), ?_⟩
    have h1 := responding_timing_apply _ t0 (ts n) (ts n) (ctxs n)
      (respondingAfterCalls d t0 s0 ts ctxs n).2 ih.2 (le_refl _)
    obtain ⟨a1, a2, a3, a4, a5, a6, a7⟩ := h1
    exact ⟨a1, a2, a3, a4, a5, a6, fun hp => le_trans (a7 hp) (hm (Nat.le_succ n))⟩

/-- A call of a RespondingJointAttention that returns false, under a non-decreasing clock,
is at least the fourth call and happens at least 2600 ms after construction. -/
theorem respondingAfterCalls_inactive (d : String) (t0 : ℚ) (s0 : Sink) (ts : ℕ → ℚ)
    (ctxs : ℕ → Context) (hm : Monotone ts) (n : ℕ)
    (h : ((respondingAfterCalls d t0 s0 ts ctxs n).1.apply (ts n) (ctxs n)
      (respondingAfterCalls d t0 s0 ts ctxs n).2).active = false) :
    3 ≤ n ∧ t0 + 2600 ≤ ts n := by
  have hd := (responding_apply_active_iff _ _ _ _).mp h
  obtain ⟨hr, ht⟩ := respondingAfterCalls_timing d t0 s0 ts ctxs hm n
  rw [hd] at hr
  exact ⟨hr, ht.2.2.2.2.2.2 hd⟩

/-- The InitiatingJointAttention built with direction `d` is the image of a
RespondingJointAttention built with the opposite target side. -/
theorem initiating_new_eq (d : String) (t0 : ℚ) (s0 : Sink) :
    InitiatingJointAttention.new d t0 s0 =
      (RespondingJointAttention.new (if d = "left" then "right" else "left") t0
        s0).toInitiating d := by
  by_cases h : d = "left"
  · subst h
    simp [InitiatingJointAttention.new, RespondingJointAttention.new,
      RespondingJointAttention.toInitiating]
  · simp [InitiatingJointAttention.new, RespondingJointAttention.new,
      RespondingJointAttention.toInitiating, h]

/-- A call of an InitiatingJointAttention that returns false, under a non-decreasing clock,
is at least the fourth call and happens at least 2600 ms after construction. -/
theorem initiatingAfterCalls_inactive (d : String) (t0 : ℚ) (s0 : Sink) (ts : ℕ → ℚ)
    (ctxs : ℕ → Context) (hm : Monotone ts) (n : ℕ)
    (h : ((initiatingAfterCalls d t0 s0 ts ctxs n).1.apply (ts n) (ctxs n)
      (initiatingAfterCalls d t0 s0 ts ctxs n).2).active = false) :
    3 ≤ n ∧ t0 + 2600 ≤ ts n := by
  unfold initiatingAfterCalls at h
  rw [initiating_new_eq, responding_toInitiating_applyAll] at h
  simp only [responding_toInitiating_apply] at h
  exact respondingAfterCalls_inactive (if d = "left" then "right" else "left") t0 s0 ts ctxs
    hm n h

/-- C38. Under a non-decreasing clock, for RespondingJointAttention and
InitiatingJointAttention built at time t0: the first three apply calls return true, and a
call that returns false happens at a clock value of at least t0 + 2600, the sum of the
three phase durations. -/
theorem C38_not_inactive_early (d : String) (t0 : ℚ) (s0 : Sink) (ts : ℕ → ℚ)
    (ctxs : ℕ → Context) (hm : Monotone ts) (n : ℕ) :
    (((respondingAfterCalls d t0 s0 ts ctxs n).1.apply (ts n) (ctxs n)
        (respondingAfterCalls d t0 s0 ts ctxs n).2).active = false →
      3 ≤ n ∧ t0 + 2600 ≤ ts n) ∧
    (((initiatingAfterCalls d t0 s0 ts ctxs n).1.apply (ts n) (ctxs n)
        (initiatingAfterCalls d t0 s0 ts ctxs n).2).active = false →
      3 ≤ n ∧ t0 + 2600 ≤ ts n) ∧
    (n < 3 →
      ((respondingAfterCalls d t0 s0 ts ctxs n).1.apply (ts n) (ctxs n)
          (respondingAfterCalls d t0 s0 ts ctxs n).2).active = true ∧
        ((initiatingAfterCalls d t0 s0 ts ctxs n).1.apply (ts n) (ctxs n)
          (initiatingAfterCalls d t0 s0 ts ctxs n).2).active = true) := by
  refine ⟨respondingAfterCalls_inactive d t0 s0 ts ctxs hm n,
    initiatingAfterCalls_inactive d t0 s0 ts ctxs hm n, fun hn => ⟨?_, ?_⟩⟩
  · cases ha : ((respondingAfterCalls d t0 s0 ts ctxs n).1.apply (ts n) (ctxs n)
        (respondingAfterCalls d t0 s0 ts ctxs n).2).active with
    | true => rfl
    | false =>
      exact absurd (respondingAfterCalls_inactive d t0 s0 ts ctxs hm n ha).1 (not_le.mpr hn)
  · cases ha : ((initiatingAfterCalls d t0 s0 ts ctxs n).1.apply (ts n) (ctxs n)
        (initiatingAfterCalls d t0 s0 ts ctxs n).2).active with
    | true => rfl
    | false =>
      exact absurd (initiatingAfterCalls_inactive d t0 s0 ts ctxs hm n ha).1 (not_le.mpr hn)

theorem sampleClock_monotone : Monotone sampleClock := by
  apply monotone_nat_of_le_succ
  intro n
  match n with
  | 0 => norm_num [sampleClock]
  | 1 => norm_num [sampleClock]
  | (k + 2) => exact le_of_eq rfl

/-- Under the sample clock the fourth call of a RespondingJointAttention built at 10000
returns false. -/
theorem sampleClock_fourth_call :
    ((respondingAfterCalls "left" 10000 (World.initial true).sink sampleClock
        (fun _ => sampleContext) 3).1.apply (sampleClock 3) sampleContext
      (respondingAfterCalls "left" 10000 (World.initial true).sink sampleClock
        (fun _ => sampleContext) 3).2).active = false := by
  rw [responding_apply_active_iff]
  simp [respondingAfterCalls, clockCalls, List.range_succ, RespondingJointAttention.applyAll,
    RespondingJointAttention.apply, RespondingJointAttention.new, sampleClock, elapsedAtLeast,
    progressSince]
  norm_num

/-- C38, witness: with calls at 10300, 12300 and 12600 the fourth call, at 12600, returns
false, exactly 2600 ms after construction at 10000. -/
theorem C38_not_inactive_early_witness :
    Monotone sampleClock ∧
      ((respondingAfterCalls "left" 10000 (World.initial true).sink sampleClock
          (fun _ => sampleContext) 3).1.apply (sampleClock 3) sampleContext
        (respondingAfterCalls "left" 10000 (World.initial true).sink sampleClock
          (fun _ => sampleContext) 3).2).active = false ∧
      3 ≤ 3 ∧ (10000 : ℚ) + 2600 ≤ sampleClock 3 :=
  ⟨sampleClock_monotone, sampleClock_fourth_call,
    (C38_not_inactive_early "left" 10000 (World.initial true).sink sampleClock
      (fun _ => sampleContext) sampleClock_monotone 3).1 sampleClock_fourth_call⟩

/-! ## GazeAversion: least gap between aversions under any clock (C39) -/

theorem aversionAfterCalls_succ (aversionDuration intervalMin intervalMax t0 : ℚ) (rng0 : Rng)
    (ts : ℕ → ℚ) (rngs : ℕ → Rng) (sinks : ℕ → Sink) (n : ℕ) :
    aversionAfterCalls aversionDuration intervalMin intervalMax t0 rng0 ts rngs sinks (n + 1) =
      ((aversionAfterCalls aversionDuration intervalMin intervalMax t0 rng0 ts rngs sinks
        n).update (ts n) (rngs n) (sinks n)).1.beh := rfl

/-- The fields that `GazeAversion.update` never writes. -/
theorem aversion_update_const (g : GazeAversion) (now : ℚ) (rng : Rng) (s : Sink) :
    (g.update now rng s).1.beh.aversionDuration = g.aversionDuration ∧
      (g.update now rng s).1.beh.intervalMin = g.intervalMin ∧
      (g.update now rng s).1.beh.intervalMax = g.intervalMax := by
  unfold GazeAversion.update GazeAversion.scheduleNextAversion
  cases g.aversionFixation <;> simp only <;> split_ifs <;> exact ⟨rfl, rfl, rfl⟩

theorem aversionAfterCalls_const (aversionDuration intervalMin intervalMax t0 : ℚ) (rng0 : Rng)
    (ts : ℕ → ℚ) (rngs : ℕ → Rng) (sinks : ℕ → Sink) (n : ℕ) :
    (aversionAfterCalls aversionDuration intervalMin intervalMax t0 rng0 ts rngs sinks
        n).aversionDuration = aversionDuration ∧
      (aversionAfterCalls aversionDuration intervalMin intervalMax t0 rng0 ts rngs sinks
        n).intervalMin = intervalMin ∧
      (aversionAfterCalls aversionDuration intervalMin intervalMax t0 rng0 ts rngs sinks
        n).intervalMax = intervalMax := by
  induction n with
  | zero => exact ⟨rfl, rfl, rfl⟩
  | succ n ih =>
    rw [aversionAfterCalls_succ]
    obtain ⟨a, b, c⟩ := aversion_update_const
      (aversionAfterCalls aversionDuration intervalMin intervalMax t0 rng0 ts rngs sinks n)
      (ts n) (rngs n) (sinks n)
    exact ⟨a.trans ih.1, b.trans ih.2.1, c.trans ih.2.2⟩

/-- `update` on a call that would start an aversion of non-positive duration: the Fixation
is dropped at once and the next aversion is scheduled from this call. -/
theorem aversion_update_start_dropped (g : GazeAversion) (now : ℚ) (rng : Rng) (s : Sink)
    (hn : g.aversionFixation = none) (hge : now ≥ g.nextAversionTime)
    (hd : ¬ 0 < g.aversionDuration) :
    (g.update now rng s).1.beh.aversionFixation = none ∧
      (g.update now rng s).1.beh.nextAversionTime =
        now + (g.intervalMin + rng 2 * (g.intervalMax - g.intervalMin)) := by
  unfold GazeAversion.update
  simp [hn, hge, Fixation.apply, Fixation.new, hd, GazeAversion.scheduleNextAversion, Rng.next]

/-- What one `update` at clock value `now` keeps true once an aversion has started at
`a ≤ now`: either a Fixation that started at `a` or later is in progress, or none is and the
next aversion is due no earlier than `a + aversionDuration + intervalMin`. -/
theorem aversion_update_spacing (g : GazeAversion) (a now : ℚ) (rng : Rng) (s : Sink)
    (hi : g.intervalMin ≤ g.intervalMax) (hr : ∀ i, 0 ≤ rng i) (ha : a ≤ now)
    (h : (∃ f, g.aversionFixation = some f ∧ a ≤ f.startTime ∧
          f.duration = g.aversionDuration) ∨
        (g.aversionFixation = none ∧
          a + g.aversionDuration + g.intervalMin ≤ g.nextAversionTime)) :
    (∃ f, (g.update now rng s).1.beh.aversionFixation = some f ∧ a ≤ f.startTime ∧
        f.duration = g.aversionDuration) ∨
      ((g.update now rng s).1.beh.aversionFixation = none ∧
        a + g.aversionDuration + g.intervalMin ≤
          (g.update now rng s).1.beh.nextAversionTime) := by
  have hint : ∀ i, g.intervalMin ≤ g.intervalMin + rng i * (g.intervalMax - g.intervalMin) := by
    intro i
    have := mul_nonneg (hr i) (sub_nonneg.mpr hi)
    linarith
  rcases h with ⟨f, hf, hst, hdur⟩ | ⟨hn, hnext⟩
  · obtain ⟨g1, g2, g3⟩ := fixation_apply_fields f now s
    cases hact : (f.apply now s).active with
    | true =>
      rw [aversion_update_active g f now rng s hf hact]
      exact Or.inl ⟨_, rfl, by rw [g1]; exact hst, by rw [g2]; exact hdur⟩
    | false =>
      rw [aversion_update_finished g f now rng s hf hact]
      refine Or.inr ⟨rfl, ?_⟩
      have hge : ¬ now - f.startTime < f.duration := by
        intro hc
        rw [g3.mpr hc] at hact
        exact absurd hact (by decide)
      have := hint 0
      simp only
      rw [hdur] at hge
      linarith [not_lt.mp hge]
  · by_cases hdue : now ≥ g.nextAversionTime
    · by_cases hd : 0 < g.aversionDuration
      · rw [aversion_update_start g now rng s hn hdue hd]
        exact Or.inl ⟨_, rfl, ha, rfl⟩
      · obtain ⟨e1, e2⟩ := aversion_update_start_dropped g now rng s hn hdue hd
        refine Or.inr ⟨e1, ?_⟩
        rw [e2]
        have := hint 2
        linarith [not_lt.mp hd]
    · rw [aversion_update_idle g now rng s hn (not_le.mp hdue)]
      exact Or.inr ⟨hn, hnext⟩

/-- Under a non-decreasing clock, after an aversion has started on call `k1` every later
state either holds a Fixation started at `ts k1` or later, or has the next aversion due no
earlier than `ts k1 + aversionDuration + intervalMin`. -/
theorem aversionAfterCalls_spacing (D m M t0 : ℚ) (rng0 : Rng) (ts : ℕ → ℚ) (rngs : ℕ → Rng)
    (sinks : ℕ → Sink) (hm : Monotone ts) (hi : m ≤ M) (hr : ∀ k i, 0 ≤ rngs k i)
    (k1 : ℕ)
    (h1 : (aversionAfterCalls D m M t0 rng0 ts rngs sinks k1).startsAversion (ts k1) = true)
    (j : ℕ) :
    (∃ f, (aversionAfterCalls D m M t0 rng0 ts rngs sinks (k1 + 1 + j)).aversionFixation =
          some f ∧ ts k1 ≤ f.startTime ∧ f.duration = D) ∨
      ((aversionAfterCalls D m M t0 rng0 ts rngs sinks (k1 + 1 + j)).aversionFixation = none ∧
        ts k1 + D + m ≤
          (aversionAfterCalls D m M t0 rng0 ts rngs sinks (k1 + 1 + j)).nextAversionTime) := by
  induction j with
  | zero =>
    obtain ⟨cD, cm, cM⟩ := aversionAfterCalls_const D m M t0 rng0 ts rngs sinks k1
    unfold GazeAversion.startsAversion at h1
    simp only [Bool.and_eq_true, Option.isNone_iff_eq_none, decide_eq_true_eq] at h1
    rw [Nat.add_zero, aversionAfterCalls_succ]
    by_cases hd : 0 < (aversionAfterCalls D m M t0 rng0 ts rngs sinks k1).aversionDuration
    · rw [aversion_update_start _ _ (rngs k1) (sinks k1) h1.1 h1.2 hd]
      exact Or.inl ⟨_, rfl, le_refl _, cD⟩
    · obtain ⟨e1, e2⟩ := aversion_update_start_dropped _ (ts k1) (rngs k1) (sinks k1)
        h1.1 h1.2 hd
      refine Or.inr ⟨e1, ?_⟩
      rw [e2, cm, cM]
      rw [cD] at hd
      have := mul_nonneg (hr k1 2) (sub_nonneg.mpr hi)
      linarith [not_lt.mp hd]
  | succ j ih =>
    obtain ⟨cD, cm, cM⟩ := aversionAfterCalls_const D m M t0 rng0 ts rngs sinks (k1 + 1 + j)
    rw [← Nat.add_assoc, aversionAfterCalls_succ]
    have hstep := aversion_update_spacing
      (aversionAfterCalls D m M t0 rng0 ts rngs sinks (k1 + 1 + j)) (ts k1)
      (ts (k1 + 1 + j)) (rngs (k1 + 1 + j)) (sinks (k1 + 1 + j))
      (by rw [cm, cM]; exact hi) (hr (k1 + 1 + j)) (hm (by omega))
      (by rw [cD, cm]; exact ih)
    rw [cD, cm] at hstep
    exact hstep

/-- Under a non-decreasing clock, with intervalMin ≤ intervalMax and non-negative draws, two
calls that start an aversion are at least aversionDuration + intervalMin apart. -/
theorem aversionAfterCalls_gap (D m M t0 : ℚ) (rng0 : Rng) (ts : ℕ → ℚ) (rngs : ℕ → Rng)
    (sinks : ℕ → Sink) (hm : Monotone ts) (hi : m ≤ M) (hr : ∀ k i, 0 ≤ rngs k i)
    (k1 k2 : ℕ) (hlt : k1 < k2)
    (h1 : (aversionAfterCalls D m M t0 rng0 ts rngs sinks k1).startsAversion (ts k1) = true)
    (h2 : (aversionAfterCalls D m M t0 rng0 ts rngs sinks k2).startsAversion (ts k2) = true) :
    D + m ≤ ts k2 - ts k1 := by
  obtain ⟨j, hj⟩ : ∃ j, k2 = k1 + 1 + j := ⟨k2 - k1 - 1, by omega⟩
  have hs := aversionAfterCalls_spacing D m M t0 rng0 ts rngs sinks hm hi hr k1 h1 j
  rw [← hj] at hs
  unfold GazeAversion.startsAversion at h2
  simp only [Bool.and_eq_true, Option.isNone_iff_eq_none, decide_eq_true_eq] at h2
  rcases hs with ⟨f, hf, _, _⟩ | ⟨_, hnext⟩
  · rw [h2.1] at hf
    exact absurd hf (by simp)
  · linarith [h2.2]

/-- C39. A GazeAversion updated under a non-decreasing clock, with
intervalMin ≤ intervalMax and random draws in [0,1): two calls that start an aversion, in
particular two consecutive ones, are at least aversionDuration + intervalMin apart; with
the constructor defaults 300 and 1000 that is at least 1300 ms. -/
theorem C39_aversion_min_gap (D m M t0 : ℚ) (rng0 : Rng) (ts : ℕ → ℚ) (rngs : ℕ → Rng)
    (sinks : ℕ → Sink) (hm : Monotone ts) (hi : m ≤ M)
    (hr : ∀ k i, 0 ≤ rngs k i ∧ rngs k i < 1) (k1 k2 : ℕ) (hlt : k1 < k2)
    (h1 : (aversionAfterCalls D m M t0 rng0 ts rngs sinks k1).startsAversion (ts k1) = true)
    (h2 : (aversionAfterCalls D m M t0 rng0 ts rngs sinks k2).startsAversion (ts k2) = true) :
    D + m ≤ ts k2 - ts k1 ∧ (D = 300 → m = 1000 → 1300 ≤ ts k2 - ts k1) := by
  have h := aversionAfterCalls_gap D m M t0 rng0 ts rngs sinks hm hi
    (fun k i => (hr k i).1) k1 k2 hlt h1 h2
  refine ⟨h, fun hD hmin => ?_⟩
  rw [hD, hmin] at h
  linarith

theorem sampleSlowClock_monotone : Monotone sampleSlowClock := by
  intro a b hab
  unfold sampleSlowClock
  have : (a : ℚ) ≤ (b : ℚ) := by exact_mod_cast hab
  linarith

/-- Under the slow clock a GazeAversion built at 10000 with draws 1/2 starts aversions on
calls 1 and 3, at 12000 and 16000. -/
theorem sampleSlowClock_starts :
    (aversionAfterCalls 300 1000 3000 10000 sampleRng sampleSlowClock (fun _ => sampleRng)
        (fun _ => (World.initial true).sink) 1).startsAversion (sampleSlowClock 1) = true ∧
      (aversionAfterCalls 300 1000 3000 10000 sampleRng sampleSlowClock (fun _ => sampleRng)
        (fun _ => (World.initial true).sink) 3).startsAversion (sampleSlowClock 3) = true := by
  constructor
  · simp [aversionAfterCalls, GazeAversion.new, GazeAversion.scheduleNextAversion,
      GazeAversion.update, GazeAversion.startsAversion, sampleSlowClock, sampleRng,
      Fixation.new, Fixation.apply, Rng.next]
    norm_num
  · simp [aversionAfterCalls, GazeAversion.new, GazeAversion.scheduleNextAversion,
      GazeAversion.update, GazeAversion.startsAversion, sampleSlowClock, sampleRng,
      Fixation.new, Fixation.apply, Rng.next]
    norm_num

/-- C39, witness: under the slow clock aversions start at 12000 and at 16000, which is at
least 1300 ms later. -/
theorem C39_aversion_min_gap_witness :
    Monotone sampleSlowClock ∧ (1000 : ℚ) ≤ 3000 ∧
      (aversionAfterCalls 300 1000 3000 10000 sampleRng sampleSlowClock (fun _ => sampleRng)
        (fun _ => (World.initial true).sink) 1).startsAversion (sampleSlowClock 1) = true ∧
      (aversionAfterCalls 300 1000 3000 10000 sampleRng sampleSlowClock (fun _ => sampleRng)
        (fun _ => (World.initial true).sink) 3).startsAversion (sampleSlowClock 3) = true ∧
      (300 : ℚ) + 1000 ≤ sampleSlowClock 3 - sampleSlowClock 1 :=
  ⟨sampleSlowClock_monotone, by norm_num, sampleSlowClock_starts.1, sampleSlowClock_starts.2,
    (C39_aversion_min_gap 300 1000 3000 10000 sampleRng sampleSlowClock (fun _ => sampleRng)
      (fun _ => (World.initial true).sink) sampleSlowClock_monotone (by norm_num)
      (fun _ _ => by norm_num [sampleRng]) 1 3 (by decide) sampleSlowClock_starts.1
      sampleSlowClock_starts.2).1⟩

/-! ## GazeAversion: spacing of aversions under a clock with bounded steps (C18) -/

/-- Under the exact 50 ms tick the general run is the tick run. -/
theorem aversionAfterCalls_tick (D m M t0 : ℚ) (rng0 : Rng) (rngs : ℕ → Rng)
    (sinks : ℕ → Sink) (n : ℕ) :
    aversionAfterCalls D m M t0 rng0 (fun k => t0 + 50 * (k : ℚ)) rngs sinks n =
      aversionAfterTicks D m M t0 rng0 rngs sinks n := by
  induction n with
  | zero => rfl
  | succ n ih => rw [aversionAfterCalls_succ, aversionAfterTicks_succ, ih]

/-- What holds between the start of an aversion at `a` and the start of the next one, with
aversion duration 300, a fixed interval of 1000 and calls at most `δ` apart: before the call
at `now`, either the Fixation started at `a` is in progress and the previous call came less
than 300 after `a`, or none is, the next aversion is due in [a + 1300, a + 1300 + δ) and the
previous call came before it was due. One `update` that does not start an aversion keeps
this true. -/
theorem aversion_update_window (g : GazeAversion) (a prev now δ : ℚ) (rng : Rng) (s : Sink)
    (hmin : g.intervalMin = 1000) (hmax : g.intervalMax = 1000) (hstep : now - prev ≤ δ) (hns : g.startsAversion now = false)
    (h : (∃ f, g.aversionFixation = some f ∧ f.startTime = a ∧ f.duration = 300 ∧
          prev - a < 300) ∨
        (g.aversionFixation = none ∧ a + 1300 ≤ g.nextAversionTime ∧
          g.nextAversionTime < a + 1300 + δ ∧ prev < g.nextAversionTime)) :
    (∃ f, (g.update now rng s).1.beh.aversionFixation = some f ∧ f.startTime = a ∧
        f.duration = 300 ∧ now - a < 300) ∨
      ((g.update now rng s).1.beh.aversionFixation = none ∧
        a + 1300 ≤ (g.update now rng s).1.beh.nextAversionTime ∧
        (g.update now rng s).1.beh.nextAversionTime < a + 1300 + δ ∧
        now < (g.update now rng s).1.beh.nextAversionTime) := by
  rcases h with ⟨f, hf, hst, hdur, hprev⟩ | ⟨hn, hlo, hhi, hprev⟩
  · obtain ⟨g1, g2, g3⟩ := fixation_apply_fields f now s
    cases hact : (f.apply now s).active with
    | true =>
      rw [aversion_update_active g f now rng s hf hact]
      have := g3.mp hact
      rw [hst, hdur] at this
      exact Or.inl ⟨_, rfl, by rw [g1]; exact hst, by rw [g2]; exact hdur, this⟩
    | false =>
      rw [aversion_update_finished g f now rng s hf hact]
      have hge : ¬ now - f.startTime < f.duration := by
        intro hc
        rw [g3.mpr hc] at hact
        exact absurd hact (by decide)
      rw [hst, hdur] at hge
      have hge2 := not_lt.mp hge
      refine Or.inr ⟨rfl, ?_, ?_, ?_⟩ <;> simp only [hmin, hmax] <;> linarith
  · unfold GazeAversion.startsAversion at hns
    rw [hn] at hns
    simp only [Option.isNone_none, Bool.true_and, decide_eq_false_iff_not, not_le] at hns
    rw [aversion_update_idle g now rng s hn hns]
    exact Or.inr ⟨hn, hlo, hhi, hns⟩

/-- From the call after an aversion started on call `k1` up to the next call that starts one,
the state is as `aversion_update_window` describes. -/
theorem aversionAfterCalls_window (t0 : ℚ) (rng0 : Rng) (ts : ℕ → ℚ) (rngs : ℕ → Rng)
    (sinks : ℕ → Sink) (δ : ℚ) (hδ : ∀ n, ts (n + 1) - ts n ≤ δ) (k1 : ℕ)
    (h1 : (aversionAfterCalls 300 1000 1000 t0 rng0 ts rngs sinks k1).startsAversion (ts k1)
      = true)
    (j : ℕ)
    (hb : ∀ k, k1 < k → k < k1 + 1 + j →
      (aversionAfterCalls 300 1000 1000 t0 rng0 ts rngs sinks k).startsAversion (ts k)
        = false) :
    (∃ f, (aversionAfterCalls 300 1000 1000 t0 rng0 ts rngs sinks (k1 + 1 + j)).aversionFixation
          = some f ∧ f.startTime = ts k1 ∧ f.duration = 300 ∧ ts (k1 + j) - ts k1 < 300) ∨
      ((aversionAfterCalls 300 1000 1000 t0 rng0 ts rngs sinks (k1 + 1 + j)).aversionFixation
          = none ∧
        ts k1 + 1300 ≤
          (aversionAfterCalls 300 1000 1000 t0 rng0 ts rngs sinks (k1 + 1 + j)).nextAversionTime ∧
        (aversionAfterCalls 300 1000 1000 t0 rng0 ts rngs sinks (k1 + 1 + j)).nextAversionTime
          < ts k1 + 1300 + δ ∧
        ts (k1 + j) <
          (aversionAfterCalls 300 1000 1000 t0 rng0 ts rngs sinks
            (k1 + 1 + j)).nextAversionTime) := by
  induction j with
  | zero =>
    obtain ⟨cD, cm, cM⟩ := aversionAfterCalls_const 300 1000 1000 t0 rng0 ts rngs sinks k1
    unfold GazeAversion.startsAversion at h1
    simp only [Bool.and_eq_true, Option.isNone_iff_eq_none, decide_eq_true_eq] at h1
    rw [Nat.add_zero, Nat.add_zero, aversionAfterCalls_succ,
      aversion_update_start _ _ (rngs k1) (sinks k1) h1.1 h1.2 (by rw [cD]; norm_num)]
    exact Or.inl ⟨_, rfl, rfl, cD, by norm_num⟩
  | succ j ih =>
    obtain ⟨cD, cm, cM⟩ :=
      aversionAfterCalls_const 300 1000 1000 t0 rng0 ts rngs sinks (k1 + 1 + j)
    have hidx : k1 + (j + 1) = k1 + 1 + j := by omega
    rw [← Nat.add_assoc, aversionAfterCalls_succ, hidx]
    have hstep : ts (k1 + 1 + j) - ts (k1 + j) ≤ δ := by
      have := hδ (k1 + j)
      rw [show k1 + j + 1 = k1 + 1 + j by omega] at this
      exact this
    exact aversion_update_window _ (ts k1) (ts (k1 + j)) (ts (k1 + 1 + j)) δ
      (rngs (k1 + 1 + j)) (sinks (k1 + 1 + j)) cm cM hstep
      (hb (k1 + 1 + j) (by omega) (by omega))
      (ih (fun k hk1 hk2 => hb k hk1 (by omega)))

/-- With aversion duration 300, a fixed interval of 1000 and calls at most `δ` apart, the
starts of two consecutive aversions are at least 1300 and less than 1300 + 2 δ apart. -/
theorem aversionAfterCalls_consecutive (t0 : ℚ) (rng0 : Rng) (ts : ℕ → ℚ) (rngs : ℕ → Rng)
    (sinks : ℕ → Sink) (δ : ℚ) (hδ : ∀ n, ts (n + 1) - ts n ≤ δ) (k1 k2 : ℕ) (hlt : k1 < k2)
    (h1 : (aversionAfterCalls 300 1000 1000 t0 rng0 ts rngs sinks k1).startsAversion (ts k1)
      = true)
    (h2 : (aversionAfterCalls 300 1000 1000 t0 rng0 ts rngs sinks k2).startsAversion (ts k2)
      = true)
    (hb : ∀ k, k1 < k → k < k2 →
      (aversionAfterCalls 300 1000 1000 t0 rng0 ts rngs sinks k).startsAversion (ts k)
        = false) :
    1300 ≤ ts k2 - ts k1 ∧ ts k2 - ts k1 < 1300 + 2 * δ := by
  obtain ⟨j, hj⟩ : ∃ j, k2 = k1 + 1 + j := ⟨k2 - k1 - 1, by omega⟩
  have hw := aversionAfterCalls_window t0 rng0 ts rngs sinks δ hδ k1 h1 j
    (fun k hk1 hk2 => hb k hk1 (by omega))
  rw [← hj] at hw
  have hstep : ts k2 - ts (k1 + j) ≤ δ := by
    have := hδ (k1 + j)
    rw [show k1 + j + 1 = k2 by omega] at this
    exact this
  unfold GazeAversion.startsAversion at h2
  simp only [Bool.and_eq_true, Option.isNone_iff_eq_none, decide_eq_true_eq] at h2
  rcases hw with ⟨f, hf, _, _, _⟩ | ⟨_, hlo, hhi, hprev⟩
  · rw [h2.1] at hf
    exact absurd hf (by simp)
  · constructor <;> linarith [h2.2]

theorem lateClock_early (k : ℕ) (h : k < 26) : lateClock k = 10000 + 50 * (k : ℚ) := by
  unfold lateClock
  rw [if_pos h]

theorem lateClock_late (k : ℕ) (h : 26 ≤ k) : lateClock k = 10001 + 50 * (k : ℚ) := by
  unfold lateClock
  rw [if_neg (by omega)]

/-- Consecutive calls of the late clock are at most 51 ms apart. -/
theorem lateClock_step (n : ℕ) : lateClock (n + 1) - lateClock n ≤ 51 := by
  rcases Nat.lt_or_ge (n + 1) 26 with h | h
  · rw [lateClock_early (n + 1) h, lateClock_early n (by omega)]
    push_cast
    linarith
  · rcases Nat.lt_or_ge n 26 with h2 | h2
    · rw [lateClock_late (n + 1) h, lateClock_early n h2]
      push_cast
      linarith
    · rw [lateClock_late (n + 1) h, lateClock_late n h2]
      push_cast
      linarith

/-- The run under the late clock of a GazeAversion built at 10000 with aversion duration
300 and a fixed interval of 1000: idle until call 20 at 11000, which starts an aversion;
the Fixation is found finished on call 26 at 11301, which schedules the next aversion for
12301. -/
theorem lateClock_run (rng0 : Rng) (rngs : ℕ → Rng) (sinks : ℕ → Sink) (n : ℕ) (hn : n ≤ 46) :
    (n ≤ 20 ∧
        (aversionAfterCalls 300 1000 1000 10000 rng0 lateClock rngs sinks n).aversionFixation
          = none ∧
        (aversionAfterCalls 300 1000 1000 10000 rng0 lateClock rngs sinks n).nextAversionTime
          = 11000) ∨
      (21 ≤ n ∧ n ≤ 26 ∧
        ∃ f, (aversionAfterCalls 300 1000 1000 10000 rng0 lateClock rngs sinks
            n).aversionFixation = some f ∧ f.startTime = 11000 ∧ f.duration = 300) ∨
      (27 ≤ n ∧
        (aversionAfterCalls 300 1000 1000 10000 rng0 lateClock rngs sinks n).aversionFixation
          = none ∧
        (aversionAfterCalls 300 1000 1000 10000 rng0 lateClock rngs sinks n).nextAversionTime
          = 12301) := by
  induction n with
  | zero =>
    refine Or.inl ⟨by omega, rfl, ?_⟩
    simp [aversionAfterCalls, GazeAversion.new, GazeAversion.scheduleNextAversion]
    norm_num
  | succ n ih =>
    obtain ⟨cD, cm, cM⟩ :=
      aversionAfterCalls_const 300 1000 1000 10000 rng0 lateClock rngs sinks n
    rw [aversionAfterCalls_succ]
    rcases ih (by omega) with ⟨h20, hnone, hnext⟩ | ⟨h21, h26, f, hf, hst, hdur⟩ |
      ⟨h27, hnone, hnext⟩
    · rcases Nat.lt_or_ge n 20 with hlt | hge
      · have hq : (n : ℚ) < 20 := by exact_mod_cast hlt
        rw [aversion_update_idle _ _ (rngs n) (sinks n) hnone
          (by rw [hnext, lateClock_early n (by omega)]; linarith)]
        exact Or.inl ⟨by omega, hnone, hnext⟩
      · have h20' : n = 20 := le_antisymm h20 hge
        rw [aversion_update_start _ _ (rngs n) (sinks n) hnone
          (by rw [hnext, h20', lateClock_early 20 (by omega)]; norm_num)
          (by rw [cD]; norm_num)]
        refine Or.inr (Or.inl ⟨by omega, by omega, _, rfl, ?_, cD⟩)
        rw [h20', lateClock_early 20 (by omega)]
        simp only [Fixation.new]
        norm_num
    · obtain ⟨g1, g2, g3⟩ := fixation_apply_fields f (lateClock n) (sinks n)
      rcases Nat.lt_or_ge n 26 with hlt | hge
      · have hq : (n : ℚ) < 26 := by exact_mod_cast hlt
        have ha : (f.apply (lateClock n) (sinks n)).active = true :=
          g3.mpr (by rw [hst, hdur, lateClock_early n hlt]; linarith)
        rw [aversion_update_active _ f _ (rngs n) (sinks n) hf ha]
        exact Or.inr (Or.inl ⟨by omega, by omega, _, rfl, g1.trans hst, g2.trans hdur⟩)
      · have h26' : n = 26 := le_antisymm h26 hge
        have ha : (f.apply (lateClock n) (sinks n)).active = false := by
          cases hb : (f.apply (lateClock n) (sinks n)).active with
          | false => rfl
          | true =>
            have := g3.mp hb
            rw [hst, hdur, h26', lateClock_late 26 (by omega)] at this
            norm_num at this
        rw [aversion_update_finished _ f _ (rngs n) (sinks n) hf ha]
        refine Or.inr (Or.inr ⟨by omega, rfl, ?_⟩)
        simp only [cm, cM]
        rw [h26', lateClock_late 26 (by omega)]
        norm_num
    · have hlt : n < 46 := by omega
      have hq : (n : ℚ) < 46 := by exact_mod_cast hlt
      rw [aversion_update_idle _ _ (rngs n) (sinks n) hnone
        (by rw [hnext, lateClock_late n (by omega)]; linarith)]
      exact Or.inr (Or.inr ⟨by omega, hnone, hnext⟩)

/-- Under the late clock, calls 20 (at 11000) and 46 (at 12301) start an aversion and no call
between them does. -/
theorem lateClock_starts (rng0 : Rng) (rngs : ℕ → Rng) (sinks : ℕ → Sink) :
    (aversionAfterCalls 300 1000 1000 10000 rng0 lateClock rngs sinks 20).startsAversion
        (lateClock 20) = true ∧
      (aversionAfterCalls 300 1000 1000 10000 rng0 lateClock rngs sinks 46).startsAversion
        (lateClock 46) = true ∧
      (∀ k, 20 < k → k < 46 →
        (aversionAfterCalls 300 1000 1000 10000 rng0 lateClock rngs sinks k).startsAversion
          (lateClock k) = false) := by
  refine ⟨?_, ?_, ?_⟩
  · rcases lateClock_run rng0 rngs sinks 20 (by omega) with ⟨_, hnone, hnext⟩ |
      ⟨h21, _⟩ | ⟨h27, _⟩
    · unfold GazeAversion.startsAversion
      rw [hnone, hnext, lateClock_early 20 (by omega)]
      norm_num
    · omega
    · omega
  · rcases lateClock_run rng0 rngs sinks 46 (by omega) with ⟨h20, _⟩ | ⟨_, h26, _⟩ |
      ⟨_, hnone, hnext⟩
    · omega
    · omega
    · unfold GazeAversion.startsAversion
      rw [hnone, hnext, lateClock_late 46 (by omega)]
      norm_num
  · intro k hk1 hk2
    rcases lateClock_run rng0 rngs sinks k (by omega) with ⟨h20, _⟩ | ⟨_, _, f, hf, _⟩ |
      ⟨h27, hnone, hnext⟩
    · omega
    · unfold GazeAversion.startsAversion
      rw [hf]
      rfl
    · have hq : (k : ℚ) < 46 := by exact_mod_cast hk2
      unfold GazeAversion.startsAversion
      rw [hnone, hnext, lateClock_late k (by omega)]
      simp only [Option.isNone_none, Bool.true_and, decide_eq_false_iff_not, not_le, ge_iff_le]
      linarith

/-- C18, amended. A GazeAversion with intervalMin = intervalMax = 1000 and
aversionDuration = 300, updated under a clock whose consecutive calls are at most δ apart,
for every random stream and sink: the starts of two consecutive aversions are at least
1300 ms and less than 1300 + 2 δ ms apart, so the gap differs from 1000 ms by at least the
300 ms aversion duration; on the exact 50 ms tick from construction the gap is 1300 ms, the
one value that differs from 1000 ms by no more than 300 ms. -/
theorem C18_aversion_spacing_clock (t0 : ℚ) (rng0 : Rng) (ts : ℕ → ℚ) (rngs : ℕ → Rng)
    (sinks : ℕ → Sink) (δ : ℚ) (hδ : ∀ n, ts (n + 1) - ts n ≤ δ) (k1 k2 : ℕ) (hlt : k1 < k2)
    (h1 : (aversionAfterCalls 300 1000 1000 t0 rng0 ts rngs sinks k1).startsAversion (ts k1)
      = true)
    (h2 : (aversionAfterCalls 300 1000 1000 t0 rng0 ts rngs sinks k2).startsAversion (ts k2)
      = true)
    (hb : ∀ k, k1 < k → k < k2 →
      (aversionAfterCalls 300 1000 1000 t0 rng0 ts rngs sinks k).startsAversion (ts k)
        = false) :
    1300 ≤ ts k2 - ts k1 ∧ ts k2 - ts k1 < 1300 + 2 * δ ∧
      300 ≤ |(ts k2 - ts k1) - 1000| ∧
      ((∀ n, ts n = t0 + 50 * (n : ℚ)) →
        ts k2 - ts k1 = 1300 ∧ |(ts k2 - ts k1) - 1000| ≤ 300) := by
  obtain ⟨hlo, hhi⟩ :=
    aversionAfterCalls_consecutive t0 rng0 ts rngs sinks δ hδ k1 k2 hlt h1 h2 hb
  refine ⟨hlo, hhi, ?_, fun hts => ?_⟩
  · rw [abs_of_nonneg (by linarith)]
    linarith
  · have hfun : ts = fun k : ℕ => t0 + 50 * (k : ℚ) := funext hts
    subst hfun
    simp only [aversionAfterCalls_tick] at h1 h2 hb
    have hgap := aversionAfterTicks_gap t0 rng0 rngs sinks k1 k2 hlt h1 h2 hb
    refine ⟨hgap, ?_⟩
    rw [hgap]
    norm_num [abs_le]

/-- C18, counterexample. On a 50 ms tick whose calls from the 27th on come 1 ms late, a
GazeAversion built at 10000 starts consecutive aversions on call 20, at 11000, and on call
46, at 12301: the Fixation is found finished on call 26 at 11301, and the next aversion is
due 1000 ms after that. The gap of 1301 ms differs from 1000 ms by more than 300 ms. -/
theorem C18_counterexample :
    (aversionAfterCalls 300 1000 1000 10000 sampleRng lateClock (fun _ => sampleRng)
        (fun _ => (World.initial true).sink) 20).startsAversion (lateClock 20) = true ∧
      (aversionAfterCalls 300 1000 1000 10000 sampleRng lateClock (fun _ => sampleRng)
        (fun _ => (World.initial true).sink) 46).startsAversion (lateClock 46) = true ∧
      (∀ k, 20 < k → k < 46 →
        (aversionAfterCalls 300 1000 1000 10000 sampleRng lateClock (fun _ => sampleRng)
          (fun _ => (World.initial true).sink) k).startsAversion (lateClock k) = false) ∧
      lateClock 46 - lateClock 20 = 1301 ∧
      ¬ (|(lateClock 46 - lateClock 20) - 1000| ≤ 300) := by
  obtain ⟨a, b, c⟩ := lateClock_starts sampleRng (fun _ => sampleRng)
    (fun _ => (World.initial true).sink)
  refine ⟨a, b, c, ?_, ?_⟩
  · rw [lateClock_late 46 (by omega), lateClock_early 20 (by omega)]
    norm_num
  · rw [lateClock_late 46 (by omega), lateClock_early 20 (by omega)]
    norm_num [abs_le]

/-- C18, witness: under the late clock, whose calls are at most 51 ms apart, the aversions
started on calls 20 and 46 are between 1300 and 1402 ms apart. -/
theorem C18_aversion_spacing_clock_witness :
    (aversionAfterCalls 300 1000 1000 10000 sampleRng lateClock (fun _ => sampleRng)
        (fun _ => (World.initial true).sink) 20).startsAversion (lateClock 20) = true ∧
      (aversionAfterCalls 300 1000 1000 10000 sampleRng lateClock (fun _ => sampleRng)
        (fun _ => (World.initial true).sink) 46).startsAversion (lateClock 46) = true ∧
      1300 ≤ lateClock 46 - lateClock 20 ∧ lateClock 46 - lateClock 20 < 1300 + 2 * 51 :=
  ⟨(lateClock_starts sampleRng (fun _ => sampleRng) (fun _ => (World.initial true).sink)).1,
    (lateClock_starts sampleRng (fun _ => sampleRng) (fun _ => (World.initial true).sink)).2.1,
    (C18_aversion_spacing_clock 10000 sampleRng lateClock (fun _ => sampleRng)
      (fun _ => (World.initial true).sink) 51 lateClock_step 20 46 (by decide)
      (lateClock_starts sampleRng (fun _ => sampleRng) (fun _ => (World.initial true).sink)).1
      (lateClock_starts sampleRng (fun _ => sampleRng)
        (fun _ => (World.initial true).sink)).2.1
      (lateClock_starts sampleRng (fun _ => sampleRng)
        (fun _ => (World.initial true).sink)).2.2).1,
    (C18_aversion_spacing_clock 10000 sampleRng lateClock (fun _ => sampleRng)
      (fun _ => (World.initial true).sink) 51 lateClock_step 20 46 (by decide)
      (lateClock_starts sampleRng (fun _ => sampleRng) (fun _ => (World.initial true).sink)).1
      (lateClock_starts sampleRng (fun _ => sampleRng)
        (fun _ => (World.initial true).sink)).2.1
      (lateClock_starts sampleRng (fun _ => sampleRng)
        (fun _ => (World.initial true).sink)).2.2).2.1⟩

/-! ## Condition sequencing on startRound (C40) -/

/-- For a draw in [0,1) the index `Math.floor(r * 2)` is 0 or 1. -/
theorem floor_two_cases (r : ℚ) (h : 0 ≤ r ∧ r < 1) : ⌊r * 2⌋ = 0 ∨ ⌊r * 2⌋ = 1 := by
  have h0 : 0 ≤ ⌊r * 2⌋ := Int.floor_nonneg.mpr (by linarith [h.1])
  have h2 : ⌊r * 2⌋ < 2 := Int.floor_lt.mpr (by push_cast; linarith [h.2])
  omega

/-- The element picked from a two-element array for a draw in [0,1). -/
theorem pickRemaining_two (a b : String) (r : ℚ) (h : 0 ≤ r ∧ r < 1) :
    pickRemaining [a, b] r = some a ∨ pickRemaining [a, b] r = some b := by
  unfold pickRemaining
  rcases floor_two_cases r h with hf | hf
  · left; simp [hf]
  · right; simp [hf]

/-- A `startRound` received before an initial condition was chosen changes nothing. -/
theorem onStartRound_no_initial (round : ℚ) (rng : Rng) (st : ConditionState)
    (h : st.initialCondition = none) :
    onStartRound round rng st = { state := st, rng := rng, nextCondition := none } := by
  unfold onStartRound
  simp [h]

/-- Round 2 with an initial condition that leaves two conditions `a`, `b`. -/
theorem onStartRound_two (c1 a b : String) (st : ConditionState) (rng : Rng)
    (h1 : st.initialCondition = some c1) (h2 : st.secondCondition = none)
    (hf : conditions.filter (fun c => some c != some c1) = [a, b]) :
    onStartRound 2 rng st =
      { state :=
          { st with secondCondition := pickRemaining [a, b] (rng 0),
                    conditionSequence :=
                      st.conditionSequence ++ (pickRemaining [a, b] (rng 0)).toList },
        rng := rng.next, nextCondition := pickRemaining [a, b] (rng 0) } := by
  unfold onStartRound
  simp [h1, h2, hf]

/-- Round 3 with two conditions used that leave the single condition `c3`. -/
theorem onStartRound_three (c1 c2 c3 : String) (st : ConditionState) (rng : Rng)
    (h1 : st.initialCondition = some c1) (h2 : st.secondCondition = some c2)
    (hf : conditions.filter (fun c => some c != some c1 && some c != some c2) = [c3]) :
    onStartRound 3 rng st =
      { state := { st with conditionSequence := st.conditionSequence ++ [c3] },
        rng := rng, nextCondition := some c3 } := by
  unfold onStartRound
  have h3 : ¬ ((3 : ℚ) = 2) := by norm_num
  simp [h1, h2, hf, h3]

/-- Rounds 2 and 3 after the initial condition `c1`, when the draw picks `c2` from the two
conditions left and `c3` is the last one. -/
theorem onStartRound_pair (c1 c2 c3 a b : String) (st : ConditionState) (rng rng3 : Rng)
    (h1 : st.initialCondition = some c1) (h2 : st.secondCondition = none)
    (hf : conditions.filter (fun c => some c != some c1) = [a, b])
    (hp : pickRemaining [a, b] (rng 0) = some c2)
    (hf3 : conditions.filter (fun c => some c != some c1 && some c != some c2) = [c3]) :
    (onStartRound 2 rng st).nextCondition = some c2 ∧
      (onStartRound 2 rng st).state =
        { st with secondCondition := some c2,
                  conditionSequence := st.conditionSequence ++ [c2] } ∧
      (onStartRound 3 rng3 (onStartRound 2 rng st).state).nextCondition = some c3 ∧
      (onStartRound 3 rng3 (onStartRound 2 rng st).state).state =
        { st with secondCondition := some c2,
                  conditionSequence := st.conditionSequence ++ [c2, c3] } := by
  have e2 := onStartRound_two c1 a b st rng h1 h2 hf
  rw [hp] at e2
  have e3 := onStartRound_three c1 c2 c3
    { st with secondCondition := some c2, conditionSequence := st.conditionSequence ++ [c2] }
    rng3 h1 rfl hf3
  rw [e2]
  simp only [Option.toList_some]
  rw [e3]
  simp

/-- Rounds 2 and 3 after an initial condition `c1`: the two conditions chosen. -/
theorem onStartRound_sequence (c1 : String) (st : ConditionState) (rng rng3 : Rng)
    (hc : c1 = "ryan" ∨ c1 = "ivan" ∨ c1 = "carl")
    (h1 : st.initialCondition = some c1) (h2 : st.secondCondition = none)
    (hr : 0 ≤ rng 0 ∧ rng 0 < 1) :
    ∃ c2 c3,
      ((onStartRound 2 rng st).nextCondition = some c2 ∧
        (onStartRound 2 rng st).state =
          { st with secondCondition := some c2,
                    conditionSequence := st.conditionSequence ++ [c2] } ∧
        (onStartRound 3 rng3 (onStartRound 2 rng st).state).nextCondition = some c3 ∧
        (onStartRound 3 rng3 (onStartRound 2 rng st).state).state =
          { st with secondCondition := some c2,
                    conditionSequence := st.conditionSequence ++ [c2, c3] }) ∧
      c2 ∈ conditions ∧ c3 ∈ conditions ∧ c2 ≠ c1 ∧ c3 ≠ c1 ∧ c3 ≠ c2 ∧
      List.Perm [c1, c2, c3] conditions := by
  rcases hc with rfl | rfl | rfl
  · rcases pickRemaining_two "ivan" "carl" (rng 0) hr with hp | hp
    · exact ⟨"ivan", "carl",
        onStartRound_pair "ryan" "ivan" "carl" "ivan" "carl" st rng rng3 h1 h2 (by decide) hp
          (by decide),
        by decide, by decide, by decide, by decide, by decide, by decide⟩
    · exact ⟨"carl", "ivan",
        onStartRound_pair "ryan" "carl" "ivan" "ivan" "carl" st rng rng3 h1 h2 (by decide) hp
          (by decide),
        by decide, by decide, by decide, by decide, by decide, by decide⟩
  · rcases pickRemaining_two "ryan" "carl" (rng 0) hr with hp | hp
    · exact ⟨"ryan", "carl",
        onStartRound_pair "ivan" "ryan" "carl" "ryan" "carl" st rng rng3 h1 h2 (by decide) hp
          (by decide),
        by decide, by decide, by decide, by decide, by decide, by decide⟩
    · exact ⟨"carl", "ryan",
        onStartRound_pair "ivan" "carl" "ryan" "ryan" "carl" st rng rng3 h1 h2 (by decide) hp
          (by decide),
        by decide, by decide, by decide, by decide, by decide, by decide⟩
  · rcases pickRemaining_two "ryan" "ivan" (rng 0) hr with hp | hp
    · exact ⟨"ryan", "ivan",
        onStartRound_pair "carl" "ryan" "ivan" "ryan" "ivan" st rng rng3 h1 h2 (by decide) hp
          (by decide),
        by decide, by decide, by decide, by decide, by decide, by decide⟩
    · exact ⟨"ivan", "ryan",
        onStartRound_pair "carl" "ivan" "ryan" "ryan" "ivan" st rng rng3 h1 h2 (by decide) hp
          (by decide),
        by decide, by decide, by decide, by decide, by decide, by decide⟩

/-- C40. With an initial condition c1 among ryan, ivan and carl and no second condition yet,
a startRound for round 2 sets secondCondition, for every random draw in [0,1), to a
condition c2 of the three other than c1, and a following startRound for round 3 selects the
condition c3 other than both; c1, c2, c3 are a permutation of ryan, ivan, carl, and both
choices are appended to conditionSequence. A startRound received while initialCondition is
null changes no condition state and selects nothing. -/
theorem C40_condition_sequence (c1 : String) (st : ConditionState) (rng rng3 : Rng)
    (hc : c1 = "ryan" ∨ c1 = "ivan" ∨ c1 = "carl")
    (h1 : st.initialCondition = some c1) (h2 : st.secondCondition = none)
    (hr : 0 ≤ rng 0 ∧ rng 0 < 1) :
    (∃ c2 c3,
      ((onStartRound 2 rng st).nextCondition = some c2 ∧
        (onStartRound 2 rng st).state =
          { st with secondCondition := some c2,
                    conditionSequence := st.conditionSequence ++ [c2] } ∧
        (onStartRound 3 rng3 (onStartRound 2 rng st).state).nextCondition = some c3 ∧
        (onStartRound 3 rng3 (onStartRound 2 rng st).state).state =
          { st with secondCondition := some c2,
                    conditionSequence := st.conditionSequence ++ [c2, c3] }) ∧
      c2 ∈ conditions ∧ c3 ∈ conditions ∧ c2 ≠ c1 ∧ c3 ≠ c1 ∧ c3 ≠ c2 ∧
      List.Perm [c1, c2, c3] conditions) ∧
    (∀ round rng0 st0, st0.initialCondition = none →
      onStartRound round rng0 st0 = { state := st0, rng := rng0, nextCondition := none }) :=
  ⟨onStartRound_sequence c1 st rng rng3 hc h1 h2 hr, onStartRound_no_initial⟩

/-- C40, witness: Ivan was chosen for round 1 and the draw is 1/2. -/
theorem C40_condition_sequence_witness :
    sampleConditionState.initialCondition = some "ivan" ∧
      sampleConditionState.secondCondition = none ∧
      (0 ≤ sampleRng 0 ∧ sampleRng 0 < 1) ∧
      ∃ c2 c3,
        ((onStartRound 2 sampleRng sampleConditionState).nextCondition = some c2 ∧
          (onStartRound 2 sampleRng sampleConditionState).state =
            { sampleConditionState with
              secondCondition := some c2,
              conditionSequence := sampleConditionState.conditionSequence ++ [c2] } ∧
          (onStartRound 3 sampleRng
            (onStartRound 2 sampleRng sampleConditionState).state).nextCondition = some c3 ∧
          (onStartRound 3 sampleRng
            (onStartRound 2 sampleRng sampleConditionState).state).state =
            { sampleConditionState with
              secondCondition := some c2,
              conditionSequence := sampleConditionState.conditionSequence ++ [c2, c3] }) ∧
        c2 ∈ conditions ∧ c3 ∈ conditions ∧ c2 ≠ "ivan" ∧ c3 ≠ "ivan" ∧ c3 ≠ c2 ∧
        List.Perm ["ivan", c2, c3] conditions :=
  ⟨rfl, rfl, by norm_num [sampleRng],
    (C40_condition_sequence "ivan" sampleConditionState sampleRng sampleRng
      (Or.inr (Or.inl rfl)) rfl rfl (by norm_num [sampleRng])).1⟩

/-! ## parseCsvLine on quoted fields (C31) -/

theorem quote_ne_comma : quoteChar ≠ commaChar := by decide

/-- Inside quotes the parser reads an escaped field up to its closing quote, provided the
closing quote is the end of the line or is followed by a comma. -/
theorem parseCsvChars_quoted (f : List Char) :
    ∀ (rest : List Char) (columns : List (List Char)) (cur : List Char),
      (rest = [] ∨ ∃ r, rest = commaChar :: r) →
      parseCsvChars (csvEscape f ++ quoteChar :: rest) columns cur true =
        parseCsvChars rest columns (cur ++ f) false := by
  induction f with
  | nil =>
    intro rest columns cur hrest
    rcases hrest with h | ⟨r, h⟩
    · subst h
      simp [csvEscape, parseCsvChars]
    · subst h
      have hne : ¬ commaChar = quoteChar := fun h => quote_ne_comma h.symm
      simp [csvEscape, parseCsvChars, hne]
  | cons x f ih =>
    intro rest columns cur hrest
    by_cases hx : x = quoteChar
    · subst hx
      have : csvEscape (quoteChar :: f) ++ quoteChar :: rest =
          quoteChar :: quoteChar :: (csvEscape f ++ quoteChar :: rest) := by
        simp [csvEscape]
      rw [this, parseCsvChars]
      simp only [and_self, if_true]
      rw [ih rest columns _ hrest]
      simp
    · obtain ⟨d, tl, htl⟩ : ∃ d tl, csvEscape f ++ quoteChar :: rest = d :: tl := by
        cases h : csvEscape f ++ quoteChar :: rest with
        | nil => simp at h
        | cons d tl => exact ⟨d, tl, rfl⟩
      have : csvEscape (x :: f) ++ quoteChar :: rest = x :: d :: tl := by
        simp [csvEscape, hx, htl]
      rw [this, parseCsvChars]
      simp only [hx, false_and, if_false, Bool.true_eq_false, and_false]
      rw [← htl, ih rest columns _ hrest]
      simp

/-- The line that encodes a list of fields ends or continues with a comma after the first
field. -/
theorem parseCsvChars_join (fields : List (List Char)) :
    ∀ (f : List Char) (columns : List (List Char)),
      parseCsvChars (csvJoin (f :: fields)) columns [] false =
        columns ++ (f :: fields).map jsTrimChars := by
  induction fields with
  | nil =>
    intro f columns
    have h := parseCsvChars_quoted f [] columns [] (Or.inl rfl)
    obtain ⟨d, tl, htl⟩ : ∃ d tl, csvEscape f ++ [quoteChar] = d :: tl := by
      cases h : csvEscape f ++ [quoteChar] with
      | nil => simp at h
      | cons d tl => exact ⟨d, tl, rfl⟩
    show parseCsvChars (quoteChar :: (csvEscape f ++ [quoteChar])) columns [] false = _
    rw [htl, parseCsvChars]
    simp only [Bool.false_eq_true, false_and, and_false, if_false, if_true, Bool.not_false]
    rw [← htl, h]
    simp [parseCsvChars]
  | cons g fields ih =>
    intro f columns
    have h := parseCsvChars_quoted f (commaChar :: csvJoin (g :: fields)) columns []
      (Or.inr ⟨_, rfl⟩)
    obtain ⟨d, tl, htl⟩ : ∃ d tl,
        csvEscape f ++ quoteChar :: commaChar :: csvJoin (g :: fields) = d :: tl := by
      cases h : csvEscape f ++ quoteChar :: commaChar :: csvJoin (g :: fields) with
      | nil => simp at h
      | cons d tl => exact ⟨d, tl, rfl⟩
    have hj : csvJoin (f :: g :: fields) =
        quoteChar :: (csvEscape f ++ quoteChar :: commaChar :: csvJoin (g :: fields)) := by
      simp [csvJoin, csvQuote]
    rw [hj, htl, parseCsvChars]
    simp only [Bool.false_eq_true, false_and, and_false, if_false, if_true, Bool.not_false]
    rw [← htl, h]
    obtain ⟨d2, tl2, htl2⟩ : ∃ d tl, csvJoin (g :: fields) = d :: tl := by
      cases fields with
      | nil => exact ⟨quoteChar, csvEscape g ++ [quoteChar], rfl⟩
      | cons g2 fs =>
        exact ⟨quoteChar, csvEscape g ++ quoteChar :: commaChar :: csvJoin (g2 :: fs),
          by simp [csvJoin, csvQuote]⟩
    have hne : ¬ commaChar = quoteChar := fun h => quote_ne_comma h.symm
    rw [htl2, parseCsvChars]
    simp only [hne, false_and, if_false, and_self, if_true]
    rw [← htl2, ih g]
    simp

/-- C31. For every non-empty list of fields, if each field is encoded by doubling its double
quotes and wrapping it in double quotes and the encoded fields are joined with commas,
parseCsvLine returns the original fields, each trimmed, in the same order and number;
commas and doubled quotes inside the quotes neither split nor corrupt a field. -/
theorem C31_csv_roundtrip (fields : List String) (h : fields ≠ []) :
    parseCsvLine (csvEncodeLine fields) = fields.map jsTrim ∧
      (parseCsvLine (csvEncodeLine fields)).length = fields.length := by
  have key : parseCsvLine (csvEncodeLine fields) = fields.map jsTrim := by
    cases fields with
    | nil => exact absurd rfl h
    | cons f fs =>
      unfold parseCsvLine csvEncodeLine
      simp only [List.map_cons]
      rw [parseCsvChars_join (fs.map String.data) f.data []]
      simp [jsTrim, Function.comp_def]
  exact ⟨key, by rw [key, List.length_map]⟩

/-- C31, witness: a field with a comma, a field with a double quote, and a field with
blanks around it. -/
theorem C31_csv_roundtrip_witness :
    ["a,b", String.mk ['q', quoteChar], " c "] ≠ [] ∧
      parseCsvLine (csvEncodeLine ["a,b", String.mk ['q', quoteChar], " c "]) =
        ["a,b", String.mk ['q', quoteChar], "c"] :=
  ⟨by decide,
    (C31_csv_roundtrip ["a,b", String.mk ['q', quoteChar], " c "] (by decide)).1.trans
      (by decide)⟩

/-! ## shuffleArray (C32) -/

theorem swapAt_length {α : Type} (a : List α) (i j : ℕ) : (swapAt a i j).length = a.length := by
  unfold swapAt
  split <;> simp

theorem swapAt_perm {α : Type} (a : List α) (i j : ℕ) : List.Perm (swapAt a i j) a := by
  classical
  unfold swapAt
  split
  · rename_i x y hx hy
    obtain ⟨hi, hxi⟩ := List.getElem?_eq_some_iff.mp hx
    obtain ⟨hj, hyj⟩ := List.getElem?_eq_some_iff.mp hy
    rw [List.perm_iff_count]
    intro b
    have hj2 : j < (a.set i y).length := by rw [List.length_set]; exact hj
    rw [List.count_set _ _ _ _ hj2, List.count_set _ _ _ _ hi]
    have hget : (a.set i y)[j] = y := by
      rw [List.getElem_set]
      split_ifs
      · rfl
      · exact hyj
    rw [hget, hxi]
    have hle : (if (x == b) = true then 1 else 0) ≤ List.count b a := by
      split_ifs with hb
      · have hxb : x = b := by simpa using hb
        rw [← hxb, ← hxi]
        exact List.count_pos_iff.mpr (List.getElem_mem hi)
      · exact Nat.zero_le _
    omega
  · exact List.Perm.refl a

theorem shuffleLoop_length {α : Type} (k : ℕ) :
    ∀ (rng : Rng) (a : List α), (shuffleLoop k rng a).1.length = a.length := by
  induction k with
  | zero => intro rng a; rfl
  | succ k ih =>
    intro rng a
    rw [shuffleLoop, ih, swapAt_length]

theorem shuffleLoop_perm {α : Type} (k : ℕ) :
    ∀ (rng : Rng) (a : List α), List.Perm (shuffleLoop k rng a).1 a := by
  induction k with
  | zero => intro rng a; exact List.Perm.refl a
  | succ k ih =>
    intro rng a
    rw [shuffleLoop]
    exact (ih _ _).trans (swapAt_perm a _ _)

/-- For a draw in [0,1) the index drawn for position `i` lies between 0 and `i`. -/
theorem shuffleIndex_bounds (r : ℚ) (i : ℕ) (h : 0 ≤ r ∧ r < 1) :
    0 ≤ shuffleIndex r i ∧ shuffleIndex r i ≤ (i : ℤ) := by
  unfold shuffleIndex
  have hpos : (0 : ℚ) ≤ (i : ℚ) + 1 := by positivity
  constructor
  · exact Int.floor_nonneg.mpr (mul_nonneg h.1 hpos)
  · have hlt : ⌊r * ((i : ℚ) + 1)⌋ < (i : ℤ) + 1 := by
      rw [Int.floor_lt]
      push_cast
      have : (0 : ℚ) < (i : ℚ) + 1 := by positivity
      nlinarith [h.2]
    omega

theorem shuffleSwaps_bounds (k : ℕ) :
    ∀ (rng : Rng), (∀ n, 0 ≤ rng n ∧ rng n < 1) →
      ∀ p ∈ shuffleSwaps k rng, 0 ≤ p.2 ∧ p.2 ≤ (p.1 : ℤ) ∧ 1 ≤ p.1 ∧ p.1 ≤ k := by
  induction k with
  | zero => intro rng _ p hp; simp [shuffleSwaps] at hp
  | succ k ih =>
    intro rng hr p hp
    rw [shuffleSwaps, List.mem_cons] at hp
    rcases hp with hp | hp
    · subst hp
      obtain ⟨h1, h2⟩ := shuffleIndex_bounds (rng 0) (k + 1) (hr 0)
      exact ⟨h1, h2, by simp, le_refl _⟩
    · obtain ⟨h1, h2, h3, h4⟩ := ih rng.next (fun n => hr (n + 1)) p hp
      exact ⟨h1, h2, h3, Nat.le_succ_of_le h4⟩

/-- The loop performs the swaps listed by `shuffleSwaps`, in order. -/
theorem shuffleLoop_swaps {α : Type} (k : ℕ) :
    ∀ (rng : Rng) (a : List α),
      (shuffleLoop k rng a).1 =
        (shuffleSwaps k rng).foldl (fun arr p => swapAt arr p.1 p.2.toNat) a := by
  induction k with
  | zero => intro rng a; rfl
  | succ k ih =>
    intro rng a
    rw [shuffleLoop, shuffleSwaps, List.foldl_cons, ih]

/-- C32. For every array and every sequence of draws in [0,1): shuffleArray performs, for i
from length - 1 down to 1, the swap of positions i and j = floor(draw * (i + 1)), where
0 ≤ j ≤ i and i is inside the array; the length is unchanged and the result is a
permutation of the input. -/
theorem C32_shuffle_permutation {α : Type} (array : List α) (rng : Rng)
    (hr : ∀ n, 0 ≤ rng n ∧ rng n < 1) :
    (shuffleArray array rng).1 =
        (shuffleSwaps (array.length - 1) rng).foldl
          (fun arr p => swapAt arr p.1 p.2.toNat) array ∧
      (∀ p ∈ shuffleSwaps (array.length - 1) rng,
        0 ≤ p.2 ∧ p.2 ≤ (p.1 : ℤ) ∧ 1 ≤ p.1 ∧ p.1 < array.length) ∧
      (shuffleArray array rng).1.length = array.length ∧
      List.Perm (shuffleArray array rng).1 array := by
  refine ⟨shuffleLoop_swaps _ rng array, fun p hp => ?_, shuffleLoop_length _ rng array,
    shuffleLoop_perm _ rng array⟩
  obtain ⟨h1, h2, h3, h4⟩ := shuffleSwaps_bounds _ rng hr p hp
  exact ⟨h1, h2, h3, by omega⟩

/-- C32, witness: three elements shuffled with every draw equal to 1/2. -/
theorem C32_shuffle_permutation_witness :
    (shuffleArray [1, 2, 3] sampleRng).1.length = [1, 2, 3].length ∧
      List.Perm (shuffleArray [1, 2, 3] sampleRng).1 [1, 2, 3] :=
  (C32_shuffle_permutation [1, 2, 3] sampleRng (fun _ => by norm_num [sampleRng])).2.2

/-! ## prepareRoundQuestions (C33) -/

theorem splitByDifficulty_eq (qs : List Question) :
    splitByDifficulty qs = (qs.filter isEasy, qs.filter (fun q => !isEasy q)) := by
  have key : ∀ (l : List Question) (a b : List Question),
      l.foldl pushByDifficulty (a, b) =
        (a ++ l.filter isEasy, b ++ l.filter (fun q => !isEasy q)) := by
    intro l
    induction l with
    | nil => intro a b; simp
    | cons q l ih =>
      intro a b
      rw [List.foldl_cons]
      by_cases h : difficultyOf q = "easy"
      · have he : isEasy q = true := by simp [isEasy, h]
        have hs : pushByDifficulty (a, b) q = (a ++ [q], b) := by
          simp [pushByDifficulty, h]
        rw [hs, ih]
        simp [he]
      · have he : isEasy q = false := by simp [isEasy, h]
        have hs : pushByDifficulty (a, b) q = (a, b ++ [q]) := by
          simp [pushByDifficulty, h]
        rw [hs, ih]
        simp [he]
  unfold splitByDifficulty
  rw [key]
  simp

theorem alternate_nil_right {α : Type} (es : List α) : alternate es [] = es := by
  cases es <;> rfl

theorem alternate_length {α : Type} (es : List α) :
    ∀ hs : List α, (alternate es hs).length = es.length + hs.length := by
  induction es with
  | nil => intro hs; simp [alternate]
  | cons e es ih =>
    intro hs
    cases hs with
    | nil => simp [alternate]
    | cons h hs => simp [alternate, ih]; omega

theorem alternate_perm {α : Type} (es : List α) :
    ∀ hs : List α, List.Perm (alternate es hs) (es ++ hs) := by
  induction es with
  | nil => intro hs; simp [alternate]
  | cons e es ih =>
    intro hs
    cases hs with
    | nil => simp [alternate]
    | cons h hs =>
      simp only [alternate, List.cons_append]
      refine List.Perm.cons e ?_
      exact ((ih hs).cons h).trans (List.perm_middle.symm)

/-- Below twice the shorter length, even positions hold the first list and odd positions the
second. -/
theorem alternate_get {α : Type} (es : List α) :
    ∀ (hs : List α) (k : ℕ), k < es.length → k < hs.length →
      (alternate es hs).get? (2 * k) = es.get? k ∧
        (alternate es hs).get? (2 * k + 1) = hs.get? k := by
  induction es with
  | nil => intro hs k hk; simp at hk
  | cons e es ih =>
    intro hs k hk1 hk2
    cases hs with
    | nil => simp at hk2
    | cons h hs =>
      cases k with
      | zero => simp [alternate]
      | succ k =>
        have := ih hs k (by simpa using hk1) (by simpa using hk2)
        have e1 : 2 * (k + 1) = (2 * k) + 1 + 1 := by ring
        rw [e1]
        simpa [alternate] using this

theorem alternate_nil_left {α : Type} (hs : List α) : alternate [] hs = hs := by
  cases hs <;> rfl

theorem alternate_cons_head {α : Type} (x : α) (es hs : List α) :
    ∃ t, alternate (x :: es) hs = x :: t := by
  cases hs with
  | nil => exact ⟨es, rfl⟩
  | cons h hs => exact ⟨h :: alternate es hs, rfl⟩

theorem interleaveCond_iff (easy hard : List Question) (st : InterleaveState) :
    interleaveCond easy hard st = true ↔
      st.addedCount < QUESTIONS_PER_ROUND ∧
        (st.easyIdx < easy.length ∨ st.hardIdx < hard.length) := by
  simp [interleaveCond]

/-- One iteration of the loop keeps the invariant and adds at least one question. -/
theorem interleaveBody_good (easy hard : List Question) (st : InterleaveState)
    (hg : st.Good easy hard) (hc : interleaveCond easy hard st = true) :
    (interleaveBody easy hard st).Good easy hard ∧
      st.addedCount < (interleaveBody easy hard st).addedCount := by
  obtain ⟨hlen, hle, heE, hhH, rest, hrest, halign⟩ := hg
  obtain ⟨haQ, hsome⟩ := (interleaveCond_iff easy hard st).mp hc
  have hrest2 := halign haQ
  unfold interleaveBody
  by_cases he : st.easyIdx < easy.length
  · have hde : easy.drop st.easyIdx = easy[st.easyIdx] :: easy.drop (st.easyIdx + 1) :=
      List.drop_eq_getElem_cons he
    have hge : easy.get? st.easyIdx = some easy[st.easyIdx] := by
      rw [List.get?_eq_getElem?, List.getElem?_eq_getElem he]
    simp only [he, haQ, and_self, if_true, hge, Option.toList_some]
    by_cases hh : st.hardIdx < hard.length ∧ st.addedCount + 1 < QUESTIONS_PER_ROUND
    · have hdh : hard.drop st.hardIdx = hard[st.hardIdx] :: hard.drop (st.hardIdx + 1) :=
        List.drop_eq_getElem_cons hh.1
      have hgh : hard.get? st.hardIdx = some hard[st.hardIdx] := by
        rw [List.get?_eq_getElem?, List.getElem?_eq_getElem hh.1]
      simp only [hh, and_self, if_true, hgh, Option.toList_some]
      refine ⟨⟨by simp [hlen], by dsimp only; omega, by dsimp only; omega, by dsimp only; omega,
        alternate (easy.drop (st.easyIdx + 1)) (hard.drop (st.hardIdx + 1)), ?_,
        fun _ => rfl⟩, by omega⟩
      rw [← hrest, hrest2, hde, hdh]
      simp [alternate]
    · rw [if_neg hh]
      by_cases hh1 : st.hardIdx < hard.length
      · have hq : ¬ st.addedCount + 1 < QUESTIONS_PER_ROUND := fun h => hh ⟨hh1, h⟩
        obtain ⟨t, ht⟩ := alternate_cons_head easy[st.easyIdx] (easy.drop (st.easyIdx + 1))
          (hard.drop st.hardIdx)
        refine ⟨⟨by simp [hlen], by dsimp only; omega, by dsimp only; omega, hhH, t, ?_,
          fun h => absurd h hq⟩, by dsimp only; omega⟩
        rw [← hrest, hrest2, hde, ht]
        simp
      · have hdh : hard.drop st.hardIdx = [] := List.drop_eq_nil_of_le (not_lt.mp hh1)
        refine ⟨⟨by simp [hlen], by dsimp only; omega, by dsimp only; omega, hhH, easy.drop (st.easyIdx + 1), ?_,
          fun _ => ?_⟩, by dsimp only; omega⟩
        · rw [← hrest, hrest2, hde, hdh, alternate_nil_right]
          simp
        · rw [hdh, alternate_nil_right]
  · have hh1 : st.hardIdx < hard.length := hsome.resolve_left he
    have hde : easy.drop st.easyIdx = [] := List.drop_eq_nil_of_le (not_lt.mp he)
    have hdh : hard.drop st.hardIdx = hard[st.hardIdx] :: hard.drop (st.hardIdx + 1) :=
      List.drop_eq_getElem_cons hh1
    have hgh : hard.get? st.hardIdx = some hard[st.hardIdx] := by
      rw [List.get?_eq_getElem?, List.getElem?_eq_getElem hh1]
    simp only [he, false_and, if_false, hh1, haQ, and_self, if_true, hgh, Option.toList_some]
    refine ⟨⟨by simp [hlen], by dsimp only; omega, heE, by dsimp only; omega, hard.drop (st.hardIdx + 1), ?_,
      fun _ => ?_⟩, by omega⟩
    · rw [← hrest, hrest2, hde, hdh, alternate_nil_left]
      simp
    · rw [hde, alternate_nil_left]

/-- When the loop ends, the questions added are the first `QUESTIONS_PER_ROUND` of the two
arrays taken in turn. -/
theorem interleave_final (easy hard : List Question) (st : InterleaveState)
    (hg : st.Good easy hard)
    (hend : interleaveCond easy hard st = false ∨
      (st.easyIdx ≥ easy.length ∧ st.hardIdx ≥ hard.length)) :
    st.questionsThisRound = (alternate easy hard).take QUESTIONS_PER_ROUND := by
  obtain ⟨hlen, hle, heE, hhH, rest, hrest, halign⟩ := hg
  by_cases haQ : st.addedCount < QUESTIONS_PER_ROUND
  · have hex : st.easyIdx ≥ easy.length ∧ st.hardIdx ≥ hard.length := by
      rcases hend with h | h
      · have hn : ¬ (interleaveCond easy hard st = true) := by rw [h]; simp
        rw [interleaveCond_iff] at hn
        constructor
        · by_contra hc
          exact hn ⟨haQ, Or.inl (not_le.mp hc)⟩
        · by_contra hc
          exact hn ⟨haQ, Or.inr (not_le.mp hc)⟩
      · exact h
    have hr := halign haQ
    rw [List.drop_eq_nil_of_le hex.1, List.drop_eq_nil_of_le hex.2] at hr
    have hr2 : rest = [] := hr
    rw [hr2, List.append_nil] at hrest
    rw [← hrest, List.take_of_length_le (by omega)]
  · have hQ : st.questionsThisRound.length = QUESTIONS_PER_ROUND := by omega
    rw [← hrest, ← hQ, List.take_left']
    rfl

/-- With enough iterations allowed the loop ends, and then the questions added are the first
`QUESTIONS_PER_ROUND` of the two arrays taken in turn. -/
theorem interleaveLoop_spec (easy hard : List Question) (fuel : ℕ) :
    ∀ st : InterleaveState, st.Good easy hard →
      QUESTIONS_PER_ROUND - st.addedCount ≤ fuel →
      ∃ st2, interleaveLoop easy hard fuel st = some st2 ∧
        st2.questionsThisRound = (alternate easy hard).take QUESTIONS_PER_ROUND := by
  induction fuel with
  | zero =>
    intro st hg hf
    have hc : interleaveCond easy hard st = false := by
      cases h : interleaveCond easy hard st with
      | false => rfl
      | true =>
        have := ((interleaveCond_iff easy hard st).mp h).1
        omega
    refine ⟨st, ?_, interleave_final easy hard st hg (Or.inl hc)⟩
    simp [interleaveLoop, hc]
  | succ fuel ih =>
    intro st hg hf
    cases hc : interleaveCond easy hard st with
    | false =>
      refine ⟨st, ?_, interleave_final easy hard st hg (Or.inl hc)⟩
      simp [interleaveLoop, hc]
    | true =>
      obtain ⟨hg2, hlt⟩ := interleaveBody_good easy hard st hg hc
      by_cases hb : (interleaveBody easy hard st).easyIdx ≥ easy.length ∧
          (interleaveBody easy hard st).hardIdx ≥ hard.length
      · refine ⟨interleaveBody easy hard st, ?_,
          interleave_final easy hard _ hg2 (Or.inr hb)⟩
        simp only [interleaveLoop, hc, if_true, hb, and_self]
      · obtain ⟨st2, h1, h2⟩ := ih (interleaveBody easy hard st) hg2 (by omega)
        refine ⟨st2, ?_, h2⟩
        simp only [interleaveLoop, hc, if_true, hb, if_false]
        exact h1

theorem interleave_initial_good (easy hard : List Question) :
    InterleaveState.Good easy hard
      { easyIdx := 0, hardIdx := 0, addedCount := 0, questionsThisRound := [] } := by
  refine ⟨rfl, Nat.zero_le _, Nat.zero_le _, Nat.zero_le _, alternate easy hard, rfl,
    fun _ => ?_⟩
  simp

/-- What `prepareRoundQuestions` does for a round with loaded questions: it returns true
and leaves in `questionsThisRound` the first `QUESTIONS_PER_ROUND` of the shuffled easy and
the shuffled other questions taken in turn. -/
theorem prepareRoundQuestions_loaded (r : ℕ) (rng : Rng) (g : GameState) (qs : List Question)
    (h : g.questionsByRound r = some qs) (hne : qs ≠ []) :
    ∃ easy hard rng2,
      List.Perm easy (qs.filter isEasy) ∧
      List.Perm hard (qs.filter (fun q => !isEasy q)) ∧
      prepareRoundQuestions r rng g =
        some { returned := true,
               state := { g with
                 questionsThisRound := (alternate easy hard).take QUESTIONS_PER_ROUND,
                 questionIndexThisRound := 0 },
               rng := rng2 } := by
  have hlen : ¬ qs.length = 0 := fun hc => hne (List.length_eq_zero.mp hc)
  have he : List.Perm (shuffleArray (qs.filter isEasy) rng).1 (qs.filter isEasy) :=
    shuffleLoop_perm _ _ _
  have hh : List.Perm
      (shuffleArray (qs.filter (fun q => !isEasy q)) (shuffleArray (qs.filter isEasy) rng).2).1
      (qs.filter (fun q => !isEasy q)) := shuffleLoop_perm _ _ _
  obtain ⟨st2, hloop, hq⟩ := interleaveLoop_spec (shuffleArray (qs.filter isEasy) rng).1
    (shuffleArray (qs.filter (fun q => !isEasy q)) (shuffleArray (qs.filter isEasy) rng).2).1
    QUESTIONS_PER_ROUND
    { easyIdx := 0, hardIdx := 0, addedCount := 0, questionsThisRound := [] }
    (interleave_initial_good _ _) (by simp)
  refine ⟨(shuffleArray (qs.filter isEasy) rng).1,
    (shuffleArray (qs.filter (fun q => !isEasy q)) (shuffleArray (qs.filter isEasy) rng).2).1,
    (shuffleArray (qs.filter (fun q => !isEasy q)) (shuffleArray (qs.filter isEasy) rng).2).2,
    he, hh, ?_⟩
  have hpos : ¬ st2.questionsThisRound.length = 0 := by
    rw [hq, List.length_take, alternate_length, he.length_eq, hh.length_eq]
    have hsum := (List.filter_append_perm isEasy qs).length_eq
    rw [List.length_append] at hsum
    have hq0 : 0 < qs.length := Nat.pos_of_ne_zero hlen
    have hQ : QUESTIONS_PER_ROUND = 20 := rfl
    omega
  rw [hq] at hpos
  unfold prepareRoundQuestions
  simp only [h, hlen, if_false, splitByDifficulty_eq, hloop, hq, hpos]

/-- The properties of the first `QUESTIONS_PER_ROUND` of two lists taken in turn, where the
first list is a permutation of the easy questions of `qs` and the second of the others. -/
theorem alternate_take_props (qs easy hard : List Question)
    (he : List.Perm easy (qs.filter isEasy))
    (hh : List.Perm hard (qs.filter (fun q => !isEasy q))) :
    ((alternate easy hard).take QUESTIONS_PER_ROUND).length =
        min QUESTIONS_PER_ROUND qs.length ∧
      List.Subperm ((alternate easy hard).take QUESTIONS_PER_ROUND) qs ∧
      (∀ i, i < min QUESTIONS_PER_ROUND
            (2 * min (qs.filter isEasy).length (qs.filter (fun q => !isEasy q)).length) →
        ∃ q, ((alternate easy hard).take QUESTIONS_PER_ROUND).get? i = some q ∧
          (isEasy q = true ↔ i % 2 = 0)) := by
  have hsum := (List.filter_append_perm isEasy qs).length_eq
  rw [List.length_append] at hsum
  refine ⟨?_, ?_, ?_⟩
  · rw [List.length_take, alternate_length, he.length_eq, hh.length_eq, hsum]
  · refine (List.take_sublist _ _).subperm.trans ?_
    exact ((alternate_perm easy hard).trans
      ((he.append hh).trans (List.filter_append_perm isEasy qs))).subperm
  · intro i hi
    have hiQ : i < QUESTIONS_PER_ROUND := lt_of_lt_of_le hi (min_le_left _ _)
    have hi2 : i < 2 * min easy.length hard.length := by
      rw [he.length_eq, hh.length_eq]
      exact lt_of_lt_of_le hi (min_le_right _ _)
    have hk1 : i / 2 < easy.length := by omega
    have hk2 : i / 2 < hard.length := by omega
    obtain ⟨g1, g2⟩ := alternate_get easy hard (i / 2) hk1 hk2
    rw [List.get?_eq_getElem?, List.getElem?_take_of_lt hiQ, ← List.get?_eq_getElem?]
    rcases Nat.mod_two_eq_zero_or_one i with hm | hm
    · have hi' : i = 2 * (i / 2) := by omega
      refine ⟨easy[i / 2], ?_, ?_⟩
      · rw [← hi'] at g1
        rw [g1, List.get?_eq_getElem?, List.getElem?_eq_getElem hk1]
      · have hmem : easy[i / 2] ∈ qs.filter isEasy := he.mem_iff.mp (List.getElem_mem hk1)
        have := (List.mem_filter.mp hmem).2
        simp [this, hm]
    · have hi' : i = 2 * (i / 2) + 1 := by omega
      refine ⟨hard[i / 2], ?_, ?_⟩
      · rw [← hi'] at g2
        rw [g2, List.get?_eq_getElem?, List.getElem?_eq_getElem hk2]
      · have hmem : hard[i / 2] ∈ qs.filter (fun q => !isEasy q) :=
          hh.mem_iff.mp (List.getElem_mem hk2)
        have := (List.mem_filter.mp hmem).2
        simp only [Bool.not_eq_true'] at this
        simp [this, hm]

/-- C33. prepareRoundQuestions(r) returns, and it returns false exactly when round r has no
loaded questions (the entry is missing or empty), leaving the state as it was. Otherwise it
returns true, questionIndexThisRound is 0, and questionsThisRound has length
min(QUESTIONS_PER_ROUND, n) for n loaded questions, uses each loaded question at most once,
and below min(QUESTIONS_PER_ROUND, 2 min(E, H)), with E easy questions and H others, holds
an easy question at every even index and another one at every odd index. -/
theorem C33_prepare_round (r : ℕ) (rng : Rng) (g : GameState) :
    ∃ res, prepareRoundQuestions r rng g = some res ∧
      (res.returned = false ↔
        (g.questionsByRound r = none ∨ g.questionsByRound r = some [])) ∧
      (res.returned = false → res.state = g) ∧
      (∀ qs, g.questionsByRound r = some qs → qs ≠ [] →
        res.returned = true ∧ res.state.questionIndexThisRound = 0 ∧
        res.state.questionsThisRound.length = min QUESTIONS_PER_ROUND qs.length ∧
        List.Subperm res.state.questionsThisRound qs ∧
        (∀ i, i < min QUESTIONS_PER_ROUND
              (2 * min (qs.filter isEasy).length (qs.filter (fun q => !isEasy q)).length) →
          ∃ q, res.state.questionsThisRound.get? i = some q ∧
            (isEasy q = true ↔ i % 2 = 0))) := by
  cases hq : g.questionsByRound r with
  | none =>
    refine ⟨{ returned := false, state := g, rng := rng }, ?_, ?_, fun _ => rfl, ?_⟩
    · simp [prepareRoundQuestions, hq]
    · simp
    · intro qs h; exact absurd h (by simp)
  | some qs =>
    by_cases hne : qs = []
    · subst hne
      refine ⟨{ returned := false, state := g, rng := rng }, ?_, ?_, fun _ => rfl, ?_⟩
      · simp [prepareRoundQuestions, hq]
      · simp
      · intro qs h hn
        rw [← Option.some.inj h] at hn
        exact absurd rfl hn
    · obtain ⟨easy, hard, rng2, he, hh, hres⟩ :=
        prepareRoundQuestions_loaded r rng g qs hq hne
      obtain ⟨p1, p2, p3⟩ := alternate_take_props qs easy hard he hh
      refine ⟨_, hres, ?_, ?_, ?_⟩
      · simp [hne]
      · intro hc; exact absurd hc (by simp)
      · intro qs2 h hn
        have hqs : qs = qs2 := Option.some.inj h
        subst hqs
        exact ⟨rfl, rfl, p1, p2, p3⟩

/-- C33, witness: round 1 has two easy questions and one hard one loaded, round 2 has an
empty list. -/
theorem C33_prepare_round_witness :
    (∃ res, prepareRoundQuestions 2 sampleRng sampleGameState = some res ∧
      res.returned = false ∧ res.state = sampleGameState) ∧
    (∃ res, prepareRoundQuestions 1 sampleRng sampleGameState = some res ∧
      res.returned = true ∧ res.state.questionIndexThisRound = 0 ∧
      res.state.questionsThisRound.length = 3) := by
  obtain ⟨res2, h2, hf, hst, _⟩ := C33_prepare_round 2 sampleRng sampleGameState
  obtain ⟨res1, h1, _, _, hl⟩ := C33_prepare_round 1 sampleRng sampleGameState
  have hfalse : res2.returned = false := hf.mpr (Or.inr rfl)
  obtain ⟨a, b, c, _, _⟩ := hl _ rfl (by simp)
  exact ⟨⟨res2, h2, hfalse, hst hfalse⟩, ⟨res1, h1, a, b, by rw [c]; rfl⟩⟩

end Gaze
